import Mathlib

/-!
# Tresor block allocator and free-tree check

A shallow embedding of `repos/gems/src/lib/tresor/block_allocator.cc` and
`repos/gems/src/lib/tresor/ft_check.cc` (with `include/tresor/ft_check.h`).

Conventions of the embedding:

* A C++ member function that mutates `*this` through references becomes a Lean
  function from the old state to an `Outcome`, which carries the new state and
  the returned value, or the state at the moment an exception was thrown.
* `bool &progress` is an in/out parameter: it is passed in and returned.
* 64-bit unsigned arithmetic (`uint64_t`) is arithmetic on `Nat` reduced
  modulo `2 ^ 64`.
* C arrays are lists; every indexed access is checked against the length of
  the list, and an access outside the array ends the call with
  `Error.Out_of_bounds`.
* The headers `tresor/types.h`, `tresor/module.h`, `tresor/block_allocator.h`
  and `tresor/sha256_4k_hash.h` are not among the sources: the constants they
  declare are the fields of `Config`.
* `Tree_level_index`, `Tree_node_index` and `Number_of_leaves` are unsigned
  integer types of `tresor/types.h`; their values are natural numbers here.
  The only subtraction on the leaf counter is guarded by a test for zero, and
  an index that exceeds its array ends the call before it could wrap.
* `_peek_generated_request` hands the node block of the type-2 level to
  Block I/O iff the level to read is `1`, and `_execute_inner_t2_child`, which
  `_execute_check` calls for the level `FT_LOWEST_T1_LVL`, reads level
  `FT_LOWEST_T1_LVL - 1` and then works on the type-2 level: results on whole
  runs therefore assume `FT_LOWEST_T1_LVL = 2`.
-/

namespace Tresor

/-! ## Shared declarations -/

/-- Number of values of a `uint64_t`. -/
def U64 : Nat := 2 ^ 64

/-- Hash values (`Hash`, 32 bytes in the source) are kept abstract as numbers. -/
abbrev Hash := Nat

/-- Modelled from the spec: `Type_1_node` is declared in `tresor/types.h`, which
is not among the sources.  The spec describes an inner-tree entry as
`{ pba, generation, hash, valid }` where `valid() == false` means that the slot
is unused. -/
structure Type_1_node where
  pba : Nat
  gen : Nat
  hash : Hash
  valid : Bool
  deriving DecidableEq, Repr

/-- Modelled from the spec: `Type_2_node` is declared in `tresor/types.h`, which
is not among the sources.  The spec describes a leaf-tree entry as
`{ pba, valid, leaf metadata }`; the checker reads nothing but `valid()`. -/
structure Type_2_node where
  pba : Nat
  valid : Bool
  deriving DecidableEq, Repr

/-- The array `nodes[NR_OF_T1_NODES_PER_BLK]` of a `Type_1_node_block`. -/
abbrev Type_1_node_block := List Type_1_node

/-- The array `nodes[NR_OF_T1_NODES_PER_BLK]` of a `Type_2_node_block`. -/
abbrev Type_2_node_block := List Type_2_node

/-- The constants and the hash function that the two modules take from headers
that are not among the sources. -/
structure Config where
  /-- `MAX_PBA` of `tresor/types.h`, a `uint64_t` value. -/
  MAX_PBA : Nat
  /-- `Block_allocator::NR_OF_CHANNELS` of `tresor/block_allocator.h`. -/
  BA_NR_OF_CHANNELS : Nat
  /-- `sizeof(Block_allocator_request)`. -/
  sizeof_block_allocator_request : Nat
  /-- `sizeof(Ft_check_request)`. -/
  sizeof_ft_check_request : Nat
  /-- `sizeof(Block_io_request)`. -/
  sizeof_block_io_request : Nat
  /-- The module id `FT_CHECK` of `tresor/module.h`. -/
  FT_CHECK : Nat
  /-- The module id `BLOCK_IO` of `tresor/module.h`. -/
  BLOCK_IO : Nat
  /-- `TREE_MAX_LEVEL` of `tresor/types.h`. -/
  TREE_MAX_LEVEL : Nat
  /-- `NR_OF_T1_NODES_PER_BLK` of `tresor/types.h`. -/
  NR_OF_T1_NODES_PER_BLK : Nat
  /-- `INITIAL_GENERATION` of `tresor/types.h`. -/
  INITIAL_GENERATION : Nat
  /-- `FT_LOWEST_T1_LVL` of `tresor/types.h`. -/
  FT_LOWEST_T1_LVL : Nat
  /-- `calc_sha256_4k_hash` of `tresor/sha256_4k_hash.h` on the bytes of a
  block of type-1 nodes. -/
  sha256_4k_t1 : Type_1_node_block → Hash
  /-- `calc_sha256_4k_hash` of `tresor/sha256_4k_hash.h` on the bytes of a
  block of type-2 nodes. -/
  sha256_4k_t2 : Type_2_node_block → Hash

/-- The exception classes thrown by the two modules, the exception that
`construct_in_buf` (`tresor/module.h`, not among the sources) throws for a
buffer that is too small, and the fault of an array access outside its bounds. -/
inductive Error where
  | Exception_0
  | Exception_1
  | Exception_2
  | Exception_8
  | Invalid_call
  | Buffer_too_small
  | Out_of_bounds
  deriving DecidableEq, Repr

/-- Result of a call of a member function on a module state of type `σ`:
either the call returns `a` and leaves the state `s`, or it throws `e` while
the state is `s`. -/
inductive Outcome (σ α : Type) where
  | returned (s : σ) (a : α)
  | raised (s : σ) (e : Error)
  deriving DecidableEq, Repr

namespace Outcome

/-- State carried by an outcome. -/
def state {σ α : Type} : Outcome σ α → σ
  | returned s _ => s
  | raised s _ => s

/-- Does the outcome stand for a normal return? -/
def is_returned {σ α : Type} : Outcome σ α → Bool
  | returned _ _ => true
  | raised _ _ => false

/-- Change the representation of the state, keeping value and exception. -/
def map_state {σ τ α : Type} (f : σ → τ) : Outcome σ α → Outcome τ α
  | returned s a => returned (f s) a
  | raised s e => raised (f s) e

/-- Sequential composition: run `k` on a normal return, propagate an exception. -/
def and_then {σ α β : Type} (o : Outcome σ α) (k : σ → α → Outcome σ β) : Outcome σ β :=
  match o with
  | returned s a => k s a
  | raised s e => raised s e

end Outcome

/-! ## Block allocator (`block_allocator.cc`) -/

/-- The enumeration `Block_allocator_request::Type`, as used by `type_to_string`
and `execute`. -/
inductive Block_allocator_request_type where
  | INVALID
  | GET
  deriving DecidableEq, Repr

/-- The class `Block_allocator_request`: the request ids of `Module_request` and
the members `_type`, `_blk_nr`, `_success`. -/
structure Block_allocator_request where
  src_module_id : Nat
  src_request_id : Nat
  dst_request_id : Nat
  _type : Block_allocator_request_type
  _blk_nr : Nat
  _success : Bool
  deriving DecidableEq, Repr

/-- The enumeration `Block_allocator_channel::State`. -/
inductive Block_allocator_channel_state where
  | INACTIVE
  | SUBMITTED
  | PENDING
  | COMPLETE
  deriving DecidableEq, Repr

/-- The class `Block_allocator_channel`. -/
structure Block_allocator_channel where
  _state : Block_allocator_channel_state
  _request : Block_allocator_request
  deriving DecidableEq, Repr

/-- The class `Block_allocator`. -/
structure Block_allocator where
  _first_block : Nat
  _nr_of_blks : Nat
  _channels : List Block_allocator_channel
  deriving DecidableEq, Repr

namespace Block_allocator

open Block_allocator_channel_state Block_allocator_request_type

/-- A default-constructed `Block_allocator_request`. -/
def default_request : Block_allocator_request :=
  { src_module_id := 0, src_request_id := 0, dst_request_id := 0,
    _type := INVALID, _blk_nr := 0, _success := false }

/-- A default-constructed `Block_allocator_channel`. -/
def default_channel : Block_allocator_channel :=
  { _state := INACTIVE, _request := default_request }

/-- The constructor `Block_allocator::Block_allocator(uint64_t first_block)`. -/
def construct (c : Config) (first_block : Nat) : Block_allocator :=
  { _first_block := first_block
    _nr_of_blks := 0
    _channels := List.replicate c.BA_NR_OF_CHANNELS default_channel }

/-- The function `Block_allocator::_mark_req_failed`. -/
def _mark_req_failed (channel : Block_allocator_channel) (_progress : Bool) :
    Block_allocator_channel × Bool :=
  ({ _state := COMPLETE, _request := { channel._request with _success := false } }, true)

/-- The function `Block_allocator::_mark_req_successful`. -/
def _mark_req_successful (channel : Block_allocator_channel) (_progress : Bool) :
    Block_allocator_channel × Bool :=
  ({ _state := COMPLETE, _request := { channel._request with _success := true } }, true)

/-- The `uint64_t` expression `MAX_PBA - _first_block`. -/
def guard_bound (c : Config) (first_block : Nat) : Nat :=
  (c.MAX_PBA + U64 - first_block) % U64

/-- The function `Block_allocator::_execute_get`, on the member `_nr_of_blks`
(first component of the result), the channel and the progress flag. -/
def _execute_get (c : Config) (first_block nr_of_blks : Nat)
    (channel : Block_allocator_channel) (progress : Bool) :
    Nat × Block_allocator_channel × Bool :=
  match channel._state with
  | PENDING =>
    if nr_of_blks ≤ guard_bound c first_block then
      let channel1 : Block_allocator_channel :=
        { channel with
          _request := { channel._request with _blk_nr := (first_block + nr_of_blks) % U64 } }
      let r := _mark_req_successful channel1 progress
      ((nr_of_blks + 1) % U64, r.1, r.2)
    else
      let r := _mark_req_failed channel progress
      (nr_of_blks, r.1, r.2)
  | _ => (nr_of_blks, channel, progress)

/-- The loop of `Block_allocator::_peek_completed_request` over the channels. -/
def peek_channels (c : Config) (buf_size : Nat) :
    List Block_allocator_channel → Except Error (Option Block_allocator_request)
  | [] => .ok none
  | channel :: rest =>
    if channel._state = COMPLETE then
      if c.sizeof_block_allocator_request > buf_size then .error Error.Exception_1
      else .ok (some channel._request)
    else peek_channels c buf_size rest

/-- The function `Block_allocator::_peek_completed_request`: the value is the
request copied into the buffer when the function returns `true`, and `none`
when it returns `false`. -/
def _peek_completed_request (c : Config) (ba : Block_allocator) (buf_size : Nat) :
    Outcome Block_allocator (Option Block_allocator_request) :=
  match peek_channels c buf_size ba._channels with
  | .ok r => .returned ba r
  | .error e => .raised ba e

/-- The function `Block_allocator::_drop_completed_request`, given the
`dst_request_id()` of the request. -/
def _drop_completed_request (c : Config) (ba : Block_allocator) (id : Nat) :
    Outcome Block_allocator Unit :=
  if id ≥ c.BA_NR_OF_CHANNELS then .raised ba Error.Exception_1
  else
    match ba._channels[id]? with
    | none => .raised ba Error.Out_of_bounds
    | some channel =>
      if channel._state ≠ COMPLETE then .raised ba Error.Exception_2
      else
        .returned
          { ba with _channels := ba._channels.set id { channel with _state := INACTIVE } } ()

/-- The function `Block_allocator::ready_to_submit_request`. -/
def ready_to_submit_request (ba : Block_allocator) : Bool :=
  ba._channels.any (fun channel => channel._state = INACTIVE)

/-- The loop of `Block_allocator::submit_request`, from channel `id` on, where
`channels` are the channels `id ..`; the result is the claimed index and the
updated channels, or `none` when the loop ends without claiming one. -/
def submit_channels (req : Block_allocator_request) :
    List Block_allocator_channel → Nat → Option (Nat × List Block_allocator_channel)
  | [], _ => none
  | channel :: rest, id =>
    if channel._state = INACTIVE then
      some (id, { _state := SUBMITTED, _request := { req with dst_request_id := id } } :: rest)
    else
      match submit_channels req rest (id + 1) with
      | none => none
      | some (k, rest1) => some (k, channel :: rest1)

/-- The function `Block_allocator::submit_request`: the value is the request as
the caller sees it afterwards (its `dst_request_id` is written). -/
def submit_request (ba : Block_allocator) (req : Block_allocator_request) :
    Outcome Block_allocator Block_allocator_request :=
  match submit_channels req ba._channels 0 with
  | some (id, channels) =>
    .returned { ba with _channels := channels } { req with dst_request_id := id }
  | none => .raised ba Error.Invalid_call

/-- The loop of `Block_allocator::execute` over the channels; the state is the
member `_nr_of_blks` together with the channels. -/
def execute_channels (c : Config) (first_block : Nat) :
    List Block_allocator_channel → Nat → Bool →
      Outcome (Nat × List Block_allocator_channel) Bool
  | [], nr_of_blks, progress => .returned (nr_of_blks, []) progress
  | channel :: rest, nr_of_blks, progress =>
    if channel._state = INACTIVE then
      (execute_channels c first_block rest nr_of_blks progress).map_state
        (fun s => (s.1, channel :: s.2))
    else
      match channel._request._type with
      | GET =>
        let channel1 : Block_allocator_channel :=
          if channel._state = SUBMITTED then { channel with _state := PENDING } else channel
        let r := _execute_get c first_block nr_of_blks channel1 progress
        (execute_channels c first_block rest r.1 r.2.2).map_state
          (fun s => (s.1, r.2.1 :: s.2))
      | _ => .raised (nr_of_blks, channel :: rest) Error.Exception_1

/-- The function `Block_allocator::execute`. -/
def execute (c : Config) (ba : Block_allocator) (progress : Bool) :
    Outcome Block_allocator Bool :=
  (execute_channels c ba._first_block ba._channels ba._nr_of_blks progress).map_state
    (fun s => { ba with _nr_of_blks := s.1, _channels := s.2 })

/-- One request served the way a client drives the module: `submit_request`,
`execute`, `_peek_completed_request` into a buffer of `buf_size` bytes, and
`_drop_completed_request` for the request found there.  The value is the
completed request, or `none` when no request was found complete. -/
def serve (c : Config) (buf_size : Nat) (ba : Block_allocator) (req : Block_allocator_request) :
    Outcome Block_allocator (Option Block_allocator_request) :=
  (submit_request ba req).and_then fun ba1 _ =>
  (execute c ba1 false).and_then fun ba2 _ =>
  (_peek_completed_request c ba2 buf_size).and_then fun ba3 peeked =>
  match peeked with
  | none => .returned ba3 none
  | some done =>
    (_drop_completed_request c ba3 done.dst_request_id).and_then fun ba4 _ =>
    .returned ba4 (some done)

/-- Requests served one after another with `serve`; the value lists what each
request completed with. -/
def serve_all (c : Config) (buf_size : Nat) :
    Block_allocator → List Block_allocator_request →
      Outcome Block_allocator (List (Option Block_allocator_request))
  | ba, [] => .returned ba []
  | ba, req :: reqs =>
    (serve c buf_size ba req).and_then fun ba1 r =>
    (serve_all c buf_size ba1 reqs).and_then fun ba2 rs =>
    .returned ba2 (r :: rs)

/-- The successful ones among completed requests, in the order of completion. -/
def successful (rs : List (Option Block_allocator_request)) : List Block_allocator_request :=
  rs.filterMap (fun r => match r with
    | some done => if done._success then some done else none
    | none => none)

/-- What a `GET` request completes with on an allocator with `nr_of_blks`
blocks allocated, once `submit_request` stored it in channel 0. -/
def completed_get (c : Config) (first_block nr_of_blks : Nat) (req : Block_allocator_request) :
    Block_allocator_request :=
  if nr_of_blks ≤ guard_bound c first_block then
    { req with dst_request_id := 0, _blk_nr := (first_block + nr_of_blks) % U64, _success := true }
  else
    { req with dst_request_id := 0, _success := false }

/-- Count of allocated blocks after a `GET` request was served. -/
def next_nr_of_blks (c : Config) (first_block nr_of_blks : Nat) : Nat :=
  if nr_of_blks ≤ guard_bound c first_block then (nr_of_blks + 1) % U64 else nr_of_blks

/-- A `GET` request as `Block_allocator_request::create` builds it. -/
def get_request (src_module_id src_request_id : Nat) : Block_allocator_request :=
  { default_request with
    src_module_id := src_module_id, src_request_id := src_request_id, _type := GET }

end Block_allocator

/-! ## Concrete configurations used to evaluate the definitions -/

/-- A small configuration: block addresses `0 .. 3`, one channel per module,
trees of at most three levels with two nodes per block, and a hash that sums
the block addresses and generations found in a block. -/
def small_config : Config :=
  { MAX_PBA := 3
    BA_NR_OF_CHANNELS := 1
    sizeof_block_allocator_request := 64
    sizeof_ft_check_request := 128
    sizeof_block_io_request := 96
    FT_CHECK := 11
    BLOCK_IO := 4
    TREE_MAX_LEVEL := 4
    NR_OF_T1_NODES_PER_BLK := 2
    INITIAL_GENERATION := 0
    FT_LOWEST_T1_LVL := 2
    sha256_4k_t1 := fun blk => (blk.map (fun node => node.pba + node.gen + 1)).sum
    sha256_4k_t2 := fun blk => (blk.map (fun node => node.pba + 1)).sum }

/-! ## Free-tree check (`ft_check.h`, `ft_check.cc`) -/

/-- Modelled from the spec: `check_sha256_4k_hash` is declared in
`tresor/sha256_4k_hash.h`, which is not among the sources.  The spec has the
checker recompute the hash of the block that was read and compare it against
the stored hash. -/
def check_sha256_4k_hash (got_hash : Hash) (exp_hash : Hash) : Bool :=
  got_hash == exp_hash

/-- The enumeration `Ft_check_request::Type`. -/
inductive Ft_check_request_type where
  | INVALID
  | CHECK
  deriving DecidableEq, Repr

/-- The class `Ft_check_request`: the request ids of `Module_request` and the
members declared in `ft_check.h`. -/
structure Ft_check_request where
  src_module_id : Nat
  src_request_id : Nat
  dst_request_id : Nat
  _type : Ft_check_request_type
  _max_lvl : Nat
  _max_child_idx : Nat
  _nr_of_leaves : Nat
  _root : Type_1_node
  _success : Bool
  deriving DecidableEq, Repr

/-- The enumeration `Ft_check_channel::Child_state`. -/
inductive Child_state where
  | READ_BLOCK
  | CHECK_HASH
  | DONE
  deriving DecidableEq, Repr

/-- The enumeration `Ft_check_channel::Primitive_tag`. -/
inductive Primitive_tag where
  | INVALID
  | BLOCK_IO
  deriving DecidableEq, Repr

/-- The struct `Ft_check_channel::Generated_primitive`. -/
structure Generated_primitive where
  success : Bool
  tag : Primitive_tag
  blk_nr : Nat
  dropped : Bool
  deriving DecidableEq, Repr

/-- The function `Generated_primitive::valid`. -/
def Generated_primitive.valid (prim : Generated_primitive) : Bool :=
  prim.tag != Primitive_tag.INVALID

/-- The struct `Ft_check_channel::Type_1_level`. -/
structure Type_1_level where
  children_state : List Child_state
  children : Type_1_node_block
  deriving DecidableEq, Repr

/-- The struct `Ft_check_channel::Type_2_level`. -/
structure Type_2_level where
  children_state : List Child_state
  children : Type_2_node_block
  deriving DecidableEq, Repr

/-- The class `Ft_check_channel`. -/
structure Ft_check_channel where
  _gen_prim : Generated_primitive
  _lvl_to_read : Nat
  _root_state : Child_state
  _t2_lvl : Type_2_level
  _t1_lvls : List Type_1_level
  _nr_of_leaves : Nat
  _request : Ft_check_request
  deriving DecidableEq, Repr

/-- The class `Ft_check`: its channels. -/
structure Ft_check where
  _channels : List Ft_check_channel
  deriving DecidableEq, Repr

/-- The buffer a generated block request points to (`blk_ptr`): the node block
of the type-2 level or of a type-1 level of a channel. -/
inductive Blk_ptr where
  | null
  | t2_lvl_children (chan_id : Nat)
  | t1_lvl_children (chan_id : Nat) (lvl : Nat)
  deriving DecidableEq, Repr

/-- The enumeration `Block_io_request::Type` of `block_io.h`. -/
inductive Block_io_request_type where
  | INVALID
  | READ
  | WRITE
  | SYNC
  | READ_CLIENT_DATA
  | WRITE_CLIENT_DATA
  deriving DecidableEq, Repr

/-- The class `Block_io_request` of `block_io.h`. -/
structure Block_io_request where
  src_module_id : Nat
  src_request_id : Nat
  dst_module_id : Nat
  _type : Block_io_request_type
  _client_req_offset : Nat
  _client_req_tag : Nat
  _key_id : Nat
  _pba : Nat
  _vba : Nat
  _blk_count : Nat
  _blk_ptr : Blk_ptr
  _hash_ptr : Blk_ptr
  _success : Bool
  deriving DecidableEq, Repr

/-- Which `Child_state` object the parameter `child_state` of
`_execute_inner_t1_child` refers to: `chan._root_state` or
`chan._t1_lvls[lvl].children_state[child_idx]`. -/
inductive Child_state_ref where
  | root_state
  | t1_child (lvl : Nat) (child_idx : Nat)
  deriving DecidableEq, Repr

namespace Ft_check

open Child_state

/-- The enumerator `Ft_check::NR_OF_CHANNELS`. -/
def NR_OF_CHANNELS : Nat := 1

/-- A default-constructed `Type_1_node`: all members zero, hence not valid. -/
def default_type_1_node : Type_1_node := { pba := 0, gen := 0, hash := 0, valid := false }

/-- A default-constructed `Type_2_node`: all members zero, hence not valid. -/
def default_type_2_node : Type_2_node := { pba := 0, valid := false }

/-- A default-constructed `Ft_check_request`. -/
def default_request : Ft_check_request :=
  { src_module_id := 0, src_request_id := 0, dst_request_id := 0,
    _type := Ft_check_request_type.INVALID, _max_lvl := 0, _max_child_idx := 0,
    _nr_of_leaves := 0, _root := default_type_1_node, _success := false }

/-- A default-constructed `Generated_primitive`. -/
def default_gen_prim : Generated_primitive :=
  { success := false, tag := Primitive_tag.INVALID, blk_nr := 0, dropped := false }

/-- The constructor `Type_1_level()`: all children states are `DONE`. -/
def default_type_1_level (c : Config) : Type_1_level :=
  { children_state := List.replicate c.NR_OF_T1_NODES_PER_BLK DONE
    children := List.replicate c.NR_OF_T1_NODES_PER_BLK default_type_1_node }

/-- The constructor `Type_2_level()`: all children states are `DONE`.  The node
block is given as many nodes as there are children states. -/
def default_type_2_level (c : Config) : Type_2_level :=
  { children_state := List.replicate c.NR_OF_T1_NODES_PER_BLK DONE
    children := List.replicate c.NR_OF_T1_NODES_PER_BLK default_type_2_node }

/-- A default-constructed `Ft_check_channel` (`Channel { }`). -/
def default_channel (c : Config) : Ft_check_channel :=
  { _gen_prim := default_gen_prim
    _lvl_to_read := 0
    _root_state := DONE
    _t2_lvl := default_type_2_level c
    _t1_lvls := List.replicate c.TREE_MAX_LEVEL (default_type_1_level c)
    _nr_of_leaves := 0
    _request := default_request }

/-- A default-constructed `Ft_check`. -/
def construct (c : Config) : Ft_check :=
  { _channels := List.replicate NR_OF_CHANNELS (default_channel c) }

/-- The function `Ft_check::_mark_req_failed`. -/
def _mark_req_failed (chan : Ft_check_channel) (_progress : Bool) : Ft_check_channel × Bool :=
  ({ chan with _request := { chan._request with _success := false }, _root_state := DONE }, true)

/-- Read the `Child_state` object a reference stands for. -/
def get_child_state (chan : Ft_check_channel) : Child_state_ref → Option Child_state
  | .root_state => some chan._root_state
  | .t1_child lvl child_idx =>
    match chan._t1_lvls[lvl]? with
    | none => none
    | some t1_lvl => t1_lvl.children_state[child_idx]?

/-- Assign to `chan._t1_lvls[lvl].children_state[child_idx]`. -/
def set_t1_child_state (chan : Ft_check_channel) (lvl child_idx : Nat) (state : Child_state) :
    Ft_check_channel :=
  { chan with
    _t1_lvls := chan._t1_lvls.modify
      (fun t1_lvl => { t1_lvl with children_state := t1_lvl.children_state.set child_idx state })
      lvl }

/-- Assign to the `Child_state` object a reference stands for. -/
def set_child_state (chan : Ft_check_channel) (ref : Child_state_ref) (state : Child_state) :
    Ft_check_channel :=
  match ref with
  | .root_state => { chan with _root_state := state }
  | .t1_child lvl child_idx => set_t1_child_state chan lvl child_idx state

/-- Assign to `chan._t2_lvl.children_state[child_idx]`. -/
def set_t2_child_state (chan : Ft_check_channel) (child_idx : Nat) (state : Child_state) :
    Ft_check_channel :=
  { chan with
    _t2_lvl := { chan._t2_lvl with
                 children_state := chan._t2_lvl.children_state.set child_idx state } }

/-- The loop `for (Child_state &state : lvl.children_state) state = READ_BLOCK`. -/
def reset_children_state (states : List Child_state) : List Child_state :=
  states.map (fun _ => READ_BLOCK)

/-- The function `Ft_check::_execute_inner_t2_child`. -/
def _execute_inner_t2_child (c : Config) (chan : Ft_check_channel) (lvl child_idx : Nat)
    (progress : Bool) : Outcome Ft_check_channel Bool :=
  match chan._t1_lvls[lvl]? with
  | none => .raised chan Error.Out_of_bounds
  | some t1_lvl =>
    match t1_lvl.children_state[child_idx]?, t1_lvl.children[child_idx]? with
    | some child_state, some child =>
      if child_state = READ_BLOCK then
        if !child.valid then
          if chan._nr_of_leaves = 0 then
            .returned (set_t1_child_state chan lvl child_idx DONE) true
          else
            let r := _mark_req_failed chan progress
            .returned r.1 r.2
        else if !chan._gen_prim.valid then
          .returned
            { chan with
              _gen_prim := { success := false, tag := Primitive_tag.BLOCK_IO,
                             blk_nr := child.pba, dropped := false }
              _lvl_to_read := lvl - 1 }
            true
        else if chan._gen_prim.tag ≠ Primitive_tag.BLOCK_IO ∨ chan._gen_prim.blk_nr ≠ child.pba then
          .raised chan Error.Exception_1
        else if !chan._gen_prim.success then
          .returned chan progress
        else
          let chan1 : Ft_check_channel :=
            { chan with
              _t2_lvl := { chan._t2_lvl with
                           children_state := reset_children_state chan._t2_lvl.children_state }
              _gen_prim := default_gen_prim }
          .returned (set_t1_child_state chan1 lvl child_idx CHECK_HASH) true
      else if child_state = CHECK_HASH then
        if child.gen = c.INITIAL_GENERATION ∨
            check_sha256_4k_hash (c.sha256_4k_t2 chan._t2_lvl.children) child.hash then
          .returned (set_t1_child_state chan lvl child_idx DONE) true
        else
          let r := _mark_req_failed chan progress
          .returned r.1 r.2
      else .returned chan progress
    | _, _ => .raised chan Error.Out_of_bounds

/-- The function `Ft_check::_execute_inner_t1_child`.  The reference parameters
are given by what they refer to: `child` by its value, `child_lvl` by the index
`child_lvl_idx` into `chan._t1_lvls`, and `child_state` by `ref`. -/
def _execute_inner_t1_child (c : Config) (chan : Ft_check_channel) (child : Type_1_node)
    (child_lvl_idx : Nat) (ref : Child_state_ref) (lvl _child_idx : Nat) (progress : Bool) :
    Outcome Ft_check_channel Bool :=
  match get_child_state chan ref, chan._t1_lvls[child_lvl_idx]? with
  | some child_state, some child_lvl =>
    if child_state = READ_BLOCK then
      if !child.valid then
        if chan._nr_of_leaves = 0 then
          .returned (set_child_state chan ref DONE) true
        else
          let r := _mark_req_failed chan progress
          .returned r.1 r.2
      else if !chan._gen_prim.valid then
        .returned
          { chan with
            _gen_prim := { success := false, tag := Primitive_tag.BLOCK_IO,
                           blk_nr := child.pba, dropped := false }
            _lvl_to_read := lvl - 1 }
          true
      else if chan._gen_prim.tag ≠ Primitive_tag.BLOCK_IO ∨ chan._gen_prim.blk_nr ≠ child.pba then
        .raised chan Error.Exception_1
      else if !chan._gen_prim.success then
        .returned chan progress
      else
        let chan1 : Ft_check_channel :=
          { chan with
            _t1_lvls := chan._t1_lvls.set child_lvl_idx
              { child_lvl with children_state := reset_children_state child_lvl.children_state }
            _gen_prim := default_gen_prim }
        .returned (set_child_state chan1 ref CHECK_HASH) true
    else if child_state = CHECK_HASH then
      if child.gen = c.INITIAL_GENERATION ∨
          check_sha256_4k_hash (c.sha256_4k_t1 child_lvl.children) child.hash then
        let chan1 := set_child_state chan ref DONE
        let chan2 : Ft_check_channel :=
          if ref = Child_state_ref.root_state then
            { chan1 with _request := { chan1._request with _success := true } }
          else chan1
        .returned chan2 true
      else
        let r := _mark_req_failed chan progress
        .returned r.1 r.2
    else .returned chan progress
  | _, _ => .raised chan Error.Out_of_bounds

/-- The function `Ft_check::_execute_leaf_child`. -/
def _execute_leaf_child (chan : Ft_check_channel) (child_idx : Nat) (progress : Bool) :
    Outcome Ft_check_channel Bool :=
  match chan._t2_lvl.children[child_idx]?, chan._t2_lvl.children_state[child_idx]? with
  | some child, some child_state =>
    if child_state = READ_BLOCK then
      if chan._nr_of_leaves = 0 then
        if child.valid then
          let r := _mark_req_failed chan progress
          .returned r.1 r.2
        else
          .returned (set_t2_child_state chan child_idx DONE) true
      else
        .returned
          (set_t2_child_state { chan with _nr_of_leaves := chan._nr_of_leaves - 1 } child_idx DONE)
          true
    else .returned chan progress
  | _, _ => .raised chan Error.Out_of_bounds

/-- Result of a loop `for (child_idx = from; child_idx <= max_child_idx; child_idx++)`
that looks for the first child whose state is not `DONE`. -/
inductive Scan where
  | found (child_idx : Nat)
  | all_done
  | out_of_bounds
  deriving DecidableEq, Repr

/-- The loop over `children_state[child_idx]` for the `count` indices from
`child_idx` on. -/
def scan_children (states : List Child_state) : Nat → Nat → Scan
  | _, 0 => Scan.all_done
  | child_idx, count + 1 =>
    match states[child_idx]? with
    | none => Scan.out_of_bounds
    | some state =>
      if state ≠ DONE then Scan.found child_idx
      else scan_children states (child_idx + 1) count

/-- The loop of `_execute_check` over the type-1 levels, for the `count` levels
from `lvl` on; `none` when the loop ends without a `return`. -/
def execute_check_levels (c : Config) (chan : Ft_check_channel) (progress : Bool) :
    Nat → Nat → Option (Outcome Ft_check_channel Bool)
  | _, 0 => none
  | lvl, count + 1 =>
    match chan._t1_lvls[lvl]? with
    | none => some (.raised chan Error.Out_of_bounds)
    | some t1_lvl =>
      match scan_children t1_lvl.children_state 0 (chan._request._max_child_idx + 1) with
      | Scan.out_of_bounds => some (.raised chan Error.Out_of_bounds)
      | Scan.found child_idx =>
        if lvl = c.FT_LOWEST_T1_LVL then
          some (_execute_inner_t2_child c chan lvl child_idx progress)
        else
          match t1_lvl.children[child_idx]? with
          | none => some (.raised chan Error.Out_of_bounds)
          | some child =>
            some (_execute_inner_t1_child c chan child (lvl - 1)
              (Child_state_ref.t1_child lvl child_idx) lvl child_idx progress)
      | Scan.all_done => execute_check_levels c chan progress (lvl + 1) count

/-- The function `Ft_check::_execute_check`. -/
def _execute_check (c : Config) (chan : Ft_check_channel) (progress : Bool) :
    Outcome Ft_check_channel Bool :=
  match scan_children chan._t2_lvl.children_state 0 (chan._request._max_child_idx + 1) with
  | Scan.out_of_bounds => .raised chan Error.Out_of_bounds
  | Scan.found child_idx => _execute_leaf_child chan child_idx progress
  | Scan.all_done =>
    match execute_check_levels c chan progress c.FT_LOWEST_T1_LVL
        (chan._request._max_lvl + 1 - c.FT_LOWEST_T1_LVL) with
    | some r => r
    | none =>
      if chan._root_state ≠ DONE then
        _execute_inner_t1_child c chan chan._request._root chan._request._max_lvl
          Child_state_ref.root_state (chan._request._max_lvl + 1) 0 progress
      else .returned chan progress

end Ft_check

namespace Ft_check

open Child_state

/-- The loop of `Ft_check::_peek_completed_request` over the channels. -/
def peek_channels (c : Config) (buf_size : Nat) :
    List Ft_check_channel → Except Error (Option Ft_check_request)
  | [] => .ok none
  | chan :: rest =>
    if chan._request._type ≠ Ft_check_request_type.INVALID ∧ chan._root_state = DONE then
      if c.sizeof_ft_check_request > buf_size then .error Error.Exception_1
      else .ok (some chan._request)
    else peek_channels c buf_size rest

/-- The function `Ft_check::_peek_completed_request`: the value is the request
copied into the buffer when the function returns `true`, and `none` when it
returns `false`. -/
def _peek_completed_request (c : Config) (ft : Ft_check) (buf_size : Nat) :
    Outcome Ft_check (Option Ft_check_request) :=
  match peek_channels c buf_size ft._channels with
  | .ok r => .returned ft r
  | .error e => .raised ft e

/-- The function `Ft_check::_drop_completed_request`, given the
`dst_request_id()` of the request. -/
def _drop_completed_request (c : Config) (ft : Ft_check) (id : Nat) : Outcome Ft_check Unit :=
  if id ≥ NR_OF_CHANNELS then .raised ft Error.Exception_1
  else
    match ft._channels[id]? with
    | none => .raised ft Error.Out_of_bounds
    | some chan =>
      if chan._request._type = Ft_check_request_type.INVALID ∧ chan._root_state ≠ DONE then
        .raised ft Error.Exception_2
      else .returned { ft with _channels := ft._channels.set id (default_channel c) } ()

/-- The loop of `Ft_check::_peek_generated_request` over the channels, from
channel `id` on. -/
def peek_generated_channels (c : Config) (buf_size : Nat) :
    List Ft_check_channel → Nat → Except Error (Option Block_io_request)
  | [], _ => .ok none
  | chan :: rest, id =>
    if !chan._gen_prim.valid || chan._gen_prim.dropped then
      peek_generated_channels c buf_size rest (id + 1)
    else
      match chan._gen_prim.tag with
      | Primitive_tag.BLOCK_IO =>
        if chan._lvl_to_read ≠ 1 ∧ chan._t1_lvls.length ≤ chan._lvl_to_read then
          .error Error.Out_of_bounds
        else if c.sizeof_block_io_request > buf_size then .error Error.Buffer_too_small
        else
          .ok (some
            { src_module_id := c.FT_CHECK
              src_request_id := id
              dst_module_id := c.BLOCK_IO
              _type := Block_io_request_type.READ
              _client_req_offset := 0
              _client_req_tag := 0
              _key_id := 0
              _pba := chan._gen_prim.blk_nr
              _vba := 0
              _blk_count := 1
              _blk_ptr :=
                if chan._lvl_to_read = 1 then Blk_ptr.t2_lvl_children id
                else Blk_ptr.t1_lvl_children id chan._lvl_to_read
              _hash_ptr := Blk_ptr.null
              _success := false })
      | Primitive_tag.INVALID => .error Error.Exception_1

/-- The function `Ft_check::_peek_generated_request`: the value is the request
constructed in the buffer when the function returns `true`, and `none` when it
returns `false`. -/
def _peek_generated_request (c : Config) (ft : Ft_check) (buf_size : Nat) :
    Outcome Ft_check (Option Block_io_request) :=
  match peek_generated_channels c buf_size ft._channels 0 with
  | .ok r => .returned ft r
  | .error e => .raised ft e

/-- The function `Ft_check::_drop_generated_request`, given the
`src_request_id()` of the request. -/
def _drop_generated_request (ft : Ft_check) (id : Nat) : Outcome Ft_check Unit :=
  if id ≥ NR_OF_CHANNELS then .raised ft Error.Exception_0
  else
    match ft._channels[id]? with
    | none => .raised ft Error.Out_of_bounds
    | some chan =>
      .returned
        { ft with
          _channels := ft._channels.set id
            { chan with _gen_prim := { chan._gen_prim with dropped := true } } } ()

/-- The function `Ft_check::generated_request_complete`. -/
def generated_request_complete (c : Config) (ft : Ft_check) (mod_req : Block_io_request) :
    Outcome Ft_check Unit :=
  if mod_req.src_request_id ≥ NR_OF_CHANNELS then .raised ft Error.Exception_1
  else
    match ft._channels[mod_req.src_request_id]? with
    | none => .raised ft Error.Out_of_bounds
    | some chan =>
      if mod_req.dst_module_id = c.BLOCK_IO then
        .returned
          { ft with
            _channels := ft._channels.set mod_req.src_request_id
              { chan with _gen_prim := { chan._gen_prim with success := mod_req._success } } } ()
      else .raised ft Error.Exception_8

/-- The function `Ft_check::ready_to_submit_request`. -/
def ready_to_submit_request (ft : Ft_check) : Bool :=
  ft._channels.any (fun chan => chan._request._type = Ft_check_request_type.INVALID)

/-- The loop of `Ft_check::submit_request`, from channel `id` on, where
`channels` are the channels `id ..`; the result is the claimed index and the
updated channels, or `none` when the loop ends without claiming one. -/
def submit_channels (req : Ft_check_request) :
    List Ft_check_channel → Nat → Option (Nat × List Ft_check_channel)
  | [], _ => none
  | chan :: rest, id =>
    if chan._request._type = Ft_check_request_type.INVALID then
      some (id,
        { chan with
          _request := { req with dst_request_id := id }
          _nr_of_leaves := req._nr_of_leaves
          _root_state := READ_BLOCK } :: rest)
    else
      match submit_channels req rest (id + 1) with
      | none => none
      | some (k, rest1) => some (k, chan :: rest1)

/-- The function `Ft_check::submit_request`: the value is the request as the
caller sees it afterwards (its `dst_request_id` is written). -/
def submit_request (ft : Ft_check) (req : Ft_check_request) : Outcome Ft_check Ft_check_request :=
  match submit_channels req ft._channels 0 with
  | some (id, channels) => .returned { _channels := channels } { req with dst_request_id := id }
  | none => .raised ft Error.Exception_1

/-- The loop of `Ft_check::execute` over the channels. -/
def execute_channels (c : Config) :
    List Ft_check_channel → Bool → Outcome (List Ft_check_channel) Bool
  | [], progress => .returned [] progress
  | chan :: rest, progress =>
    match chan._request._type with
    | Ft_check_request_type.CHECK =>
      match _execute_check c chan progress with
      | .returned chan1 progress1 =>
        (execute_channels c rest progress1).map_state (fun s => chan1 :: s)
      | .raised chan1 e => .raised (chan1 :: rest) e
    | _ => (execute_channels c rest progress).map_state (fun s => chan :: s)

/-- The function `Ft_check::execute`. -/
def execute (c : Config) (ft : Ft_check) (progress : Bool) : Outcome Ft_check Bool :=
  (execute_channels c ft._channels progress).map_state (fun s => { _channels := s })

/-- The constructor `Ft_check_request::Ft_check_request` for a `CHECK` request. -/
def check_request (src_module_id src_request_id max_lvl max_child_idx nr_of_leaves : Nat)
    (root : Type_1_node) : Ft_check_request :=
  { src_module_id := src_module_id, src_request_id := src_request_id, dst_request_id := 0,
    _type := Ft_check_request_type.CHECK, _max_lvl := max_lvl, _max_child_idx := max_child_idx,
    _nr_of_leaves := nr_of_leaves, _root := root, _success := false }

end Ft_check

/-! ## The environment of the free-tree check

The orchestrator and the Block I/O module are external collaborators of
`Ft_check`; what follows is the way they drive the module. -/

/-- Modelled from the spec: the content of a block of the backing store, as the
node block it is when it is read into a type-1 level and as the node block it is
when it is read into the type-2 level.  Block I/O is an external collaborator
that reads fixed-size blocks by physical block address. -/
structure Block where
  t1 : Type_1_node_block
  t2 : Type_2_node_block
  deriving DecidableEq, Repr

/-- Modelled from the spec: the backing store, a block for every physical block
address. -/
abbrev Block_store := Nat → Block

namespace Ft_check

/-- Modelled from the spec: the effect of a successful Block I/O `READ` of
`blk` into the buffer `blk_ptr` of a generated request. -/
def read_into (ft : Ft_check) (blk_ptr : Blk_ptr) (blk : Block) : Ft_check :=
  match blk_ptr with
  | Blk_ptr.null => ft
  | Blk_ptr.t2_lvl_children id =>
    { _channels := ft._channels.modify
        (fun chan => { chan with _t2_lvl := { chan._t2_lvl with children := blk.t2 } }) id }
  | Blk_ptr.t1_lvl_children id lvl =>
    { _channels := ft._channels.modify
        (fun chan =>
          { chan with
            _t1_lvls := chan._t1_lvls.modify
              (fun t1_lvl => { t1_lvl with children := blk.t1 }) lvl }) id }

/-- Modelled from the spec: one round of the orchestrator for `Ft_check` with a
Block I/O module whose reads all succeed.  The module executes; a generated
request, if there is one, is taken over and dropped, the block is read from
`store` into its buffer, and the completion is fed back with `success = true`.
The value is the progress reported by `execute`. -/
def drive_step (c : Config) (store : Block_store) (buf_size : Nat) (ft : Ft_check) :
    Outcome Ft_check Bool :=
  (execute c ft false).and_then fun ft1 progress =>
  (_peek_generated_request c ft1 buf_size).and_then fun ft2 generated =>
  match generated with
  | none => .returned ft2 progress
  | some gen_req =>
    (_drop_generated_request ft2 gen_req.src_request_id).and_then fun ft3 _ =>
    (generated_request_complete c (read_into ft3 gen_req._blk_ptr (store gen_req._pba))
        { gen_req with _success := true }).and_then fun ft4 _ =>
    .returned ft4 progress

/-- Modelled from the spec: `rounds` rounds of the orchestrator. -/
def drive (c : Config) (store : Block_store) (buf_size : Nat) :
    Nat → Ft_check → Outcome Ft_check Unit
  | 0, ft => .returned ft ()
  | rounds + 1, ft =>
    (drive_step c store buf_size ft).and_then fun ft1 _ => drive c store buf_size rounds ft1

end Ft_check

/-! ## The tree that a `CHECK` request refers to

The tree is given by the root node of the request and the backing store: a
valid type-1 node of the lowest type-1 level points to a block of type-2 nodes
(leaves), a valid type-1 node above points to a block of type-1 nodes, and of
every block the children `0 .. max_child_idx` belong to the tree.  `depth` is
the number of type-1 levels below the node: the root of a request has depth
`max_lvl - 1`. -/

namespace Ft_check

/-- The children `0 .. max_child_idx` of a node block. -/
def tree_children {α : Type} (max_child_idx : Nat) (nodes : List α) : List α :=
  nodes.take (max_child_idx + 1)

/-- Number of valid leaves among the children of a block of type-2 nodes. -/
def valid_leaves_of_block (max_child_idx : Nat) (leaves : Type_2_node_block) : Nat :=
  ((tree_children max_child_idx leaves).filter (fun leaf => leaf.valid)).length

/-- Number of valid leaves present in the tree below a type-1 node. -/
def valid_leaves (store : Block_store) (max_child_idx : Nat) : Nat → Type_1_node → Nat
  | 0, node =>
    if node.valid then valid_leaves_of_block max_child_idx (store node.pba).t2 else 0
  | depth + 1, node =>
    if node.valid then
      ((tree_children max_child_idx (store node.pba).t1).map
        (valid_leaves store max_child_idx depth)).sum
    else 0

/-- The stored hash of a valid node with a generation other than
`INITIAL_GENERATION` does not match the block the node points to. -/
def hash_mismatch (c : Config) (store : Block_store) (depth : Nat) (node : Type_1_node) : Bool :=
  node.valid && node.gen != c.INITIAL_GENERATION &&
    (match depth with
     | 0 => c.sha256_4k_t2 (store node.pba).t2 != node.hash
     | _ + 1 => c.sha256_4k_t1 (store node.pba).t1 != node.hash)

/-- Some node of the tree below (and including) a type-1 node has a stored hash
that does not match the block it points to. -/
def has_hash_mismatch (c : Config) (store : Block_store) (max_child_idx : Nat) :
    Nat → Type_1_node → Bool
  | 0, node => hash_mismatch c store 0 node
  | depth + 1, node =>
    hash_mismatch c store (depth + 1) node ||
      (node.valid &&
        (tree_children max_child_idx (store node.pba).t1).any
          (has_hash_mismatch c store max_child_idx depth))

/-- The leaf rule of the checker, applied to the leaves of a block in order:
the remaining-leaves counter after the leaves, or `none` for a failure. -/
def check_leaves : List Type_2_node → Nat → Option Nat
  | [], nr_of_leaves => some nr_of_leaves
  | leaf :: rest, nr_of_leaves =>
    if nr_of_leaves = 0 then
      if leaf.valid then none else check_leaves rest 0
    else check_leaves rest (nr_of_leaves - 1)

/-- A check applied to the nodes of a block in order, stopping at the first
failure. -/
def check_children (check : Type_1_node → Nat → Option Nat) :
    List Type_1_node → Nat → Option Nat
  | [], nr_of_leaves => some nr_of_leaves
  | node :: rest, nr_of_leaves =>
    match check node nr_of_leaves with
    | none => none
    | some nr_of_leaves1 => check_children check rest nr_of_leaves1

/-- The check of the tree below a type-1 node, as one recursive function: the
remaining-leaves counter after the subtree, or `none` for a failure.  An invalid
node is accepted iff the counter is zero; a valid node has its block read, the
children of the block checked in order, and then its hash compared unless its
generation is `INITIAL_GENERATION`. -/
def check_node (c : Config) (store : Block_store) (max_child_idx : Nat) :
    Nat → Type_1_node → Nat → Option Nat
  | 0, node, nr_of_leaves =>
    if !node.valid then
      if nr_of_leaves = 0 then some 0 else none
    else
      match check_leaves (tree_children max_child_idx (store node.pba).t2) nr_of_leaves with
      | none => none
      | some nr_of_leaves1 =>
        if node.gen = c.INITIAL_GENERATION ∨
            check_sha256_4k_hash (c.sha256_4k_t2 (store node.pba).t2) node.hash then
          some nr_of_leaves1
        else none
  | depth + 1, node, nr_of_leaves =>
    if !node.valid then
      if nr_of_leaves = 0 then some 0 else none
    else
      match check_children (check_node c store max_child_idx depth)
          (tree_children max_child_idx (store node.pba).t1) nr_of_leaves with
      | none => none
      | some nr_of_leaves1 =>
        if node.gen = c.INITIAL_GENERATION ∨
            check_sha256_4k_hash (c.sha256_4k_t1 (store node.pba).t1) node.hash then
          some nr_of_leaves1
        else none

/-- Every block of the store holds a child for each index `0 .. max_child_idx`. -/
def store_has_children (store : Block_store) (max_child_idx : Nat) : Prop :=
  ∀ pba : Nat, max_child_idx < (store pba).t1.length ∧ max_child_idx < (store pba).t2.length

end Ft_check

/-! ## Concrete trees and channel states used to evaluate the definitions -/

namespace Ft_check

open Child_state

/-- A block of two leaves at `pba` and `pba + 1` with the given validity. -/
def example_leaf_block (valid0 valid1 : Bool) (pba : Nat) : Block :=
  { t1 := [default_type_1_node, default_type_1_node]
    t2 := [{ pba := pba, valid := valid0 }, { pba := pba + 1, valid := valid1 }] }

/-- A valid type-1 node of generation 1 that points to block `pba` and stores
`hash`. -/
def example_node (pba : Nat) (hash : Hash) : Type_1_node :=
  { pba := pba, gen := 1, hash := hash, valid := true }

/-- A block of the two type-1 nodes that point to the leaf blocks 20 and 21. -/
def example_inner_block : Block :=
  { t1 := [example_node 20 (small_config.sha256_4k_t2 (example_leaf_block true true 100).t2),
           example_node 21 (small_config.sha256_4k_t2 (example_leaf_block true false 102).t2)]
    t2 := [default_type_2_node, default_type_2_node] }

/-- A store with a tree of `max_lvl = 2` and `max_child_idx = 1`: block 10 holds
two type-1 nodes pointing to the leaf blocks 20 (two valid leaves) and 21 (a
valid and an invalid leaf); all stored hashes match.  The tree has three valid
leaves. -/
def example_store : Block_store := fun pba =>
  if pba = 10 then example_inner_block
  else if pba = 20 then example_leaf_block true true 100
  else if pba = 21 then example_leaf_block true false 102
  else { t1 := [default_type_1_node, default_type_1_node]
         t2 := [default_type_2_node, default_type_2_node] }

/-- The root of the tree in `example_store`. -/
def example_root : Type_1_node :=
  example_node 10 (small_config.sha256_4k_t1 example_inner_block.t1)

/-- The store `example_store` with the leaf block 21 replaced by a block whose
hash differs from the one stored in its parent node. -/
def example_store_bad_hash : Block_store := fun pba =>
  if pba = 21 then example_leaf_block true false 500 else example_store pba

/-- A channel whose root is in state `state`, with the block 10 of
`example_store` loaded into the type-1 level 2 and all children `DONE`. -/
def example_chan_at_root (state : Child_state) (root : Type_1_node) (nr_of_leaves : Nat) :
    Ft_check_channel :=
  { default_channel small_config with
    _root_state := state
    _t1_lvls := [default_type_1_level small_config, default_type_1_level small_config,
                 { children_state := [DONE, DONE], children := example_inner_block.t1 },
                 default_type_1_level small_config]
    _nr_of_leaves := nr_of_leaves
    _request := check_request 0 0 2 1 3 root }

/-- A channel in which child 0 of the type-1 level 2 is in state `state` and
holds `child`, with the leaf block 20 of `example_store` loaded into the
type-2 level. -/
def example_chan_at_child (state : Child_state) (child : Type_1_node) (nr_of_leaves : Nat) :
    Ft_check_channel :=
  { default_channel small_config with
    _root_state := CHECK_HASH
    _t2_lvl := { children_state := [DONE, DONE], children := (example_leaf_block true true 100).t2 }
    _t1_lvls := [default_type_1_level small_config, default_type_1_level small_config,
                 { children_state := [state, READ_BLOCK], children := [child, child] },
                 default_type_1_level small_config]
    _nr_of_leaves := nr_of_leaves
    _request := check_request 0 0 2 1 3 example_root }

end Ft_check

/-! ## Which child a call of `_execute_check` works on -/

namespace Ft_check

open Child_state

/-- The child that `_execute_check` selects: the first child that is not `DONE`
in the order of its three loops, then the root; `nothing` when all is `DONE`,
and `out_of_bounds` when the search leaves an array. -/
inductive Target where
  | leaf (child_idx : Nat)
  | inner_t2 (lvl child_idx : Nat)
  | inner_t1 (lvl child_idx : Nat) (child : Type_1_node)
  | root
  | nothing
  | out_of_bounds
  deriving DecidableEq, Repr

/-- The selection made by the loop of `_execute_check` over the type-1 levels,
for the `count` levels from `lvl` on; `none` when all their children are `DONE`. -/
def find_target_levels (c : Config) (chan : Ft_check_channel) : Nat → Nat → Option Target
  | _, 0 => none
  | lvl, count + 1 =>
    match chan._t1_lvls[lvl]? with
    | none => some Target.out_of_bounds
    | some t1_lvl =>
      match scan_children t1_lvl.children_state 0 (chan._request._max_child_idx + 1) with
      | Scan.out_of_bounds => some Target.out_of_bounds
      | Scan.found child_idx =>
        if lvl = c.FT_LOWEST_T1_LVL then some (Target.inner_t2 lvl child_idx)
        else
          match t1_lvl.children[child_idx]? with
          | none => some Target.out_of_bounds
          | some child => some (Target.inner_t1 lvl child_idx child)
      | Scan.all_done => find_target_levels c chan (lvl + 1) count

/-- The selection made by `_execute_check`. -/
def find_target (c : Config) (chan : Ft_check_channel) : Target :=
  match scan_children chan._t2_lvl.children_state 0 (chan._request._max_child_idx + 1) with
  | Scan.out_of_bounds => Target.out_of_bounds
  | Scan.found child_idx => Target.leaf child_idx
  | Scan.all_done =>
    match find_target_levels c chan c.FT_LOWEST_T1_LVL
        (chan._request._max_lvl + 1 - c.FT_LOWEST_T1_LVL) with
    | some target => target
    | none => if chan._root_state ≠ DONE then Target.root else Target.nothing

/-- The call that `_execute_check` makes for the selected child. -/
def execute_target (c : Config) (chan : Ft_check_channel) :
    Target → Bool → Outcome Ft_check_channel Bool
  | Target.leaf child_idx, progress => _execute_leaf_child chan child_idx progress
  | Target.inner_t2 lvl child_idx, progress => _execute_inner_t2_child c chan lvl child_idx progress
  | Target.inner_t1 lvl child_idx child, progress =>
    _execute_inner_t1_child c chan child (lvl - 1) (Child_state_ref.t1_child lvl child_idx)
      lvl child_idx progress
  | Target.root, progress =>
    _execute_inner_t1_child c chan chan._request._root chan._request._max_lvl
      Child_state_ref.root_state (chan._request._max_lvl + 1) 0 progress
  | Target.nothing, progress => .returned chan progress
  | Target.out_of_bounds, _ => .raised chan Error.Out_of_bounds

end Ft_check

namespace Ft_check

open Child_state

/-- The two checks of an inner-node step that fail a request: an invalid node
in state `READ_BLOCK` while leaves are still expected, and, in state
`CHECK_HASH`, a node of a generation other than `INITIAL_GENERATION` whose stored
hash differs from `block_hash`, the hash of the block read for it. -/
def inner_child_fails (c : Config) (nr_of_leaves : Nat) (state : Child_state)
    (child : Type_1_node) (block_hash : Hash) : Bool :=
  (state == READ_BLOCK && !child.valid && nr_of_leaves != 0) ||
    (state == CHECK_HASH && child.gen != c.INITIAL_GENERATION && block_hash != child.hash)

/-- The check of the child selected by `_execute_check` fails: a valid leaf
while no leaf is expected, an invalid node while leaves are still expected, or a
hash mismatch. -/
def check_fails (c : Config) (chan : Ft_check_channel) : Bool :=
  match find_target c chan with
  | Target.leaf child_idx =>
    match chan._t2_lvl.children[child_idx]?, chan._t2_lvl.children_state[child_idx]? with
    | some child, some state => state == READ_BLOCK && chan._nr_of_leaves == 0 && child.valid
    | _, _ => false
  | Target.inner_t2 lvl child_idx =>
    match chan._t1_lvls[lvl]? with
    | none => false
    | some t1_lvl =>
      match t1_lvl.children_state[child_idx]?, t1_lvl.children[child_idx]? with
      | some state, some child =>
        inner_child_fails c chan._nr_of_leaves state child (c.sha256_4k_t2 chan._t2_lvl.children)
      | _, _ => false
  | Target.inner_t1 lvl child_idx child =>
    match get_child_state chan (Child_state_ref.t1_child lvl child_idx),
        chan._t1_lvls[lvl - 1]? with
    | some state, some child_lvl =>
      inner_child_fails c chan._nr_of_leaves state child (c.sha256_4k_t1 child_lvl.children)
    | _, _ => false
  | Target.root =>
    match chan._t1_lvls[chan._request._max_lvl]? with
    | some child_lvl =>
      inner_child_fails c chan._nr_of_leaves chan._root_state chan._request._root
        (c.sha256_4k_t1 child_lvl.children)
    | none => false
  | _ => false

/-- The function `Ft_check::execute` called `calls` times in a row. -/
def execute_times (c : Config) : Nat → Ft_check → Bool → Outcome Ft_check Bool
  | 0, ft, progress => .returned ft progress
  | calls + 1, ft, progress =>
    (execute c ft progress).and_then fun ft1 progress1 => execute_times c calls ft1 progress1

end Ft_check

/-! ## Notions used to follow a run of the free-tree check -/

namespace Ft_check

open Child_state

/-- The children `0 .. max_child_idx` of a level are all `DONE`. -/
def all_done (max_child_idx : Nat) (states : List Child_state) : Prop :=
  ∀ j : Nat, j ≤ max_child_idx → states[j]? = some DONE

/-- The type-1 level `lvl` of a channel exists and its children
`0 .. max_child_idx` are all `DONE`. -/
def level_done (chan : Ft_check_channel) (lvl : Nat) : Prop :=
  ∃ t1_lvl : Type_1_level, chan._t1_lvls[lvl]? = some t1_lvl
    ∧ all_done chan._request._max_child_idx t1_lvl.children_state

/-- No generated request is outstanding and everything below level `lvl` is
`DONE`: the leaves and the type-1 levels from `FT_LOWEST_T1_LVL` up to `lvl - 1`. -/
def quiet_below (c : Config) (chan : Ft_check_channel) (lvl : Nat) : Prop :=
  chan._gen_prim = default_gen_prim
    ∧ all_done chan._request._max_child_idx chan._t2_lvl.children_state
    ∧ ∀ l : Nat, c.FT_LOWEST_T1_LVL ≤ l → l < lvl → level_done chan l

/-- The channel `chan1` agrees with `chan` on the request, the root state and the
type-1 levels from `lvl` upwards. -/
def agree_from (lvl : Nat) (chan chan1 : Ft_check_channel) : Prop :=
  chan1._request = chan._request ∧ chan1._root_state = chan._root_state
    ∧ ∀ l : Nat, lvl ≤ l → chan1._t1_lvls[l]? = chan._t1_lvls[l]?

/-- The channel after Block I/O has served its generated read from `store`:
the block is in the node block of the level to read, and the generated
primitive is dropped and successful. -/
def after_read (store : Block_store) (chan : Ft_check_channel) : Ft_check_channel :=
  if chan._lvl_to_read = 1 then
    { chan with
      _t2_lvl := { chan._t2_lvl with children := (store chan._gen_prim.blk_nr).t2 }
      _gen_prim := { chan._gen_prim with dropped := true, success := true } }
  else
    { chan with
      _t1_lvls := chan._t1_lvls.modify
        (fun t1_lvl => { t1_lvl with children := (store chan._gen_prim.blk_nr).t1 })
        chan._lvl_to_read
      _gen_prim := { chan._gen_prim with dropped := true, success := true } }

/-- The orchestrator brings the single channel `chan` to `chan1` in some number
of rounds. -/
def reaches (c : Config) (store : Block_store) (buf_size : Nat)
    (chan chan1 : Ft_check_channel) : Prop :=
  ∃ rounds : Nat,
    drive c store buf_size rounds { _channels := [chan] } = .returned { _channels := [chan1] } ()

/-- A request that has failed for good: the root state is `DONE`, the success
flag is `false`, and a further round of the orchestrator changes nothing. -/
def failed_for_good (c : Config) (store : Block_store) (buf_size : Nat)
    (chan : Ft_check_channel) : Prop :=
  chan._request._type = Ft_check_request_type.CHECK
    ∧ chan._root_state = DONE ∧ chan._request._success = false
    ∧ ∃ progress : Bool,
        drive_step c store buf_size { _channels := [chan] }
          = .returned { _channels := [chan] } progress

end Ft_check

namespace Ft_check

open Child_state

/-- The run of the checker on one child of the type-1 level `depth + 2` follows
`check_node`: from a channel in which everything below that level is `DONE` and
the child is the first one of its level that is not `DONE`, in state
`READ_BLOCK`, the orchestrator reaches either a request failed for good, when
`check_node` fails, or a channel in which the child is `DONE`, the counter is
the one `check_node` returns, and the levels from the child's level upwards are
otherwise untouched. -/
def node_run_holds (c : Config) (store : Block_store) (buf_size : Nat) (depth : Nat) : Prop :=
  ∀ (chan : Ft_check_channel) (i : Nat) (lv : Type_1_level) (node : Type_1_node),
    chan._request._type = Ft_check_request_type.CHECK →
    store_has_children store chan._request._max_child_idx →
    depth + 2 ≤ chan._request._max_lvl →
    quiet_below c chan (depth + 2) →
    chan._t1_lvls[depth + 2]? = some lv →
    (∀ j, j < i → lv.children_state[j]? = some DONE) →
    lv.children_state[i]? = some READ_BLOCK →
    lv.children[i]? = some node →
    i ≤ chan._request._max_child_idx →
    ∃ chan1 : Ft_check_channel,
      reaches c store buf_size chan chan1
      ∧ (check_node c store chan._request._max_child_idx depth node chan._nr_of_leaves = none →
          failed_for_good c store buf_size chan1)
      ∧ (∀ n1 : Nat,
          check_node c store chan._request._max_child_idx depth node chan._nr_of_leaves = some n1 →
          chan1._nr_of_leaves = n1
          ∧ quiet_below c chan1 (depth + 2)
          ∧ chan1._request = chan._request
          ∧ chan1._root_state = chan._root_state
          ∧ (∀ l, depth + 2 < l → chan1._t1_lvls[l]? = chan._t1_lvls[l]?)
          ∧ chan1._t1_lvls[depth + 2]?
              = some { lv with children_state := lv.children_state.set i DONE })

end Ft_check

namespace Ft_check

open Child_state

/-- A request that is complete for good: the root state is `DONE` and a further
round of the orchestrator changes nothing. -/
def completed_for_good (c : Config) (store : Block_store) (buf_size : Nat)
    (chan : Ft_check_channel) : Prop :=
  chan._request._type = Ft_check_request_type.CHECK
    ∧ chan._root_state = DONE
    ∧ ∃ progress : Bool,
        drive_step c store buf_size { _channels := [chan] }
          = .returned { _channels := [chan] } progress

/-- The channel of a default-constructed `Ft_check` after `submit_request`
accepted `req`. -/
def submitted_channel (c : Config) (req : Ft_check_request) : Ft_check_channel :=
  { default_channel c with
    _request := { req with dst_request_id := 0 }
    _nr_of_leaves := req._nr_of_leaves
    _root_state := READ_BLOCK }

end Ft_check

namespace Block_allocator

/-- The allocator after a sequence of `execute` calls, one for each progress
flag passed in; a call that throws leaves the state it had when it threw. -/
def after_executes (c : Config) : List Bool → Block_allocator → Block_allocator
  | [], ba => ba
  | progress :: rest, ba => after_executes c rest (execute c ba progress).state

end Block_allocator

namespace Ft_check

/-- The module after a sequence of `execute` calls, one for each progress flag
passed in; a call that throws leaves the state it had when it threw. -/
def after_executes (c : Config) : List Bool → Ft_check → Ft_check
  | [], ft => ft
  | progress :: rest, ft => after_executes c rest (execute c ft progress).state

end Ft_check

/-! ## Key slots of the crypto interface (`crypto/interface.h`) -/

/-- The struct `Tresor_crypto::Interface::Slots`: the array `_store` of key
ids, `0` standing for a free slot.  Ids are `uint32_t` values; they are only
compared and copied. -/
structure Slots where
  _store : List Nat
  deriving DecidableEq, Repr

namespace Slots

/-- The enumerator `Slots::NUM_SLOTS`. -/
def NUM_SLOTS : Nat := 2

/-- A default-constructed `Slots`: every slot is `0`. -/
def construct : Slots := { _store := List.replicate NUM_SLOTS 0 }

/-- The loop of `Slots::store` over the slots: the slots after the first free
one was written, or `none` when the loop ends without a `return`. -/
def store_slots (id : Nat) : List Nat → Option (List Nat)
  | [] => none
  | slot :: rest =>
    if slot = 0 then some (id :: rest)
    else
      match store_slots id rest with
      | none => none
      | some rest1 => some (slot :: rest1)

/-- The function `Slots::store`: the slots afterwards and the value returned. -/
def store (slots : Slots) (id : Nat) : Slots × Bool :=
  match store_slots id slots._store with
  | some slots1 => ({ _store := slots1 }, true)
  | none => (slots, false)

end Slots


namespace Ft_check

open Child_state

/-- The channel waits for the block read of the child that `_execute_check`
selects: the child is valid and in state `READ_BLOCK`, and the generated
primitive of the channel is the Block I/O read of the block of that child. -/
def awaits_read (c : Config) (chan : Ft_check_channel) : Bool :=
  chan._gen_prim.tag == Primitive_tag.BLOCK_IO &&
    match find_target c chan with
    | Target.inner_t2 lvl child_idx =>
      match chan._t1_lvls[lvl]? with
      | none => false
      | some t1_lvl =>
        match t1_lvl.children_state[child_idx]?, t1_lvl.children[child_idx]? with
        | some state, some child =>
          state == READ_BLOCK && child.valid && chan._gen_prim.blk_nr == child.pba
        | _, _ => false
    | Target.inner_t1 lvl child_idx child =>
      match get_child_state chan (Child_state_ref.t1_child lvl child_idx),
          chan._t1_lvls[lvl - 1]? with
      | some state, some _ =>
        state == READ_BLOCK && child.valid && chan._gen_prim.blk_nr == child.pba
      | _, _ => false
    | Target.root =>
      match chan._t1_lvls[chan._request._max_lvl]? with
      | some _ =>
        chan._root_state == READ_BLOCK && chan._request._root.valid
          && chan._gen_prim.blk_nr == chan._request._root.pba
      | none => false
    | _ => false

end Ft_check


namespace Ft_check

/-- The verdict of the direct recursive checker for a request: `check_node`
started at the root of the request with the declared number of leaves as
counter; the root of a tree with maximum level `max_lvl` has `max_lvl - 1`
type-1 levels below it. -/
def recursive_check (c : Config) (store : Block_store) (req : Ft_check_request) : Bool :=
  (check_node c store req._max_child_idx (req._max_lvl - 1) req._root req._nr_of_leaves).isSome

end Ft_check


namespace Block_allocator

open Block_allocator_channel_state Block_allocator_request_type

/-- A call of the module interface of `Block_allocator`. -/
inductive Call where
  | submit_request (req : Block_allocator_request)
  | execute (progress : Bool)
  | peek_completed_request (buf_size : Nat)
  | drop_completed_request (id : Nat)

/-- The allocator after a call; a call that throws leaves the state it had when
it threw. -/
def after_call (c : Config) (ba : Block_allocator) : Call → Block_allocator
  | Call.submit_request req => (submit_request ba req).state
  | Call.execute progress => (execute c ba progress).state
  | Call.peek_completed_request buf_size => (_peek_completed_request c ba buf_size).state
  | Call.drop_completed_request id => (_drop_completed_request c ba id).state

/-- The allocator after a sequence of calls. -/
def after_calls (c : Config) : List Call → Block_allocator → Block_allocator
  | [], ba => ba
  | call :: rest, ba => after_calls c rest (after_call c ba call)

/-- Number of channels that are `COMPLETE` with the given success flag in
`channels1` and were not `COMPLETE` in `channels`: the requests that completed
between the two states with that result. -/
def newly_completed (success : Bool) :
    List Block_allocator_channel → List Block_allocator_channel → Nat
  | channel :: rest, channel1 :: rest1 =>
    (if channel._state ≠ COMPLETE ∧ channel1._state = COMPLETE
          ∧ channel1._request._success = success then 1 else 0)
      + newly_completed success rest rest1
  | _, _ => 0

/-- Number of requests that completed successfully in the course of a sequence
of calls. -/
def successful_gets (c : Config) : List Call → Block_allocator → Nat
  | [], _ => 0
  | call :: rest, ba =>
    newly_completed true ba._channels (after_call c ba call)._channels
      + successful_gets c rest (after_call c ba call)

end Block_allocator


namespace Block_allocator

open Block_allocator_channel_state Block_allocator_request_type

/-- What the loop of `execute` does to the count of allocated blocks, stated for
the loop started with the count `nr_of_blks` on `channels` and ended in the state
`s` (count and channels): the count grows by the number of requests completed
successfully, modulo `2^64`, and exactly as long as the guard bound is not the
largest `uint64_t` value; beyond the guard bound nothing succeeds; after a
failure the count is beyond the guard bound; `COMPLETE` channels are left as
they are. -/
def count_kept (c : Config) (first_block : Nat) (channels : List Block_allocator_channel)
    (nr_of_blks : Nat) (s : Nat × List Block_allocator_channel) : Prop :=
  s.1 = (nr_of_blks + newly_completed true channels s.2) % U64
  ∧ s.1 < U64
  ∧ s.2.length = channels.length
  ∧ (guard_bound c first_block < nr_of_blks →
      s.1 = nr_of_blks ∧ newly_completed true channels s.2 = 0)
  ∧ (0 < newly_completed false channels s.2 → guard_bound c first_block < s.1)
  ∧ (nr_of_blks ≤ guard_bound c first_block + 1 → guard_bound c first_block + 1 < U64 →
      s.1 = nr_of_blks + newly_completed true channels s.2
      ∧ s.1 ≤ guard_bound c first_block + 1)
  ∧ (∀ (k : Nat) (channel : Block_allocator_channel),
      channels[k]? = some channel → channel._state = COMPLETE → s.2[k]? = some channel)

end Block_allocator


namespace Ft_check

open Child_state

/-- A block holds a full node block of either type, `NR_OF_T1_NODES_PER_BLK`
nodes, as every block of the device does. -/
def well_sized (c : Config) (blk : Block) : Prop :=
  blk.t1.length = c.NR_OF_T1_NODES_PER_BLK ∧ blk.t2.length = c.NR_OF_T1_NODES_PER_BLK

/-- The arrays of a type-1 level have their declared size. -/
def level_sized (c : Config) (t1_lvl : Type_1_level) : Prop :=
  t1_lvl.children_state.length = c.NR_OF_T1_NODES_PER_BLK
    ∧ t1_lvl.children.length = c.NR_OF_T1_NODES_PER_BLK

/-- The arrays of a channel have their declared sizes, the request of the
channel respects `max_lvl < TREE_MAX_LEVEL` and
`max_child_idx < NR_OF_T1_NODES_PER_BLK`, and the level to read is the leaf
level `1` or the index of a type-1 level. -/
def well_formed (c : Config) (chan : Ft_check_channel) : Prop :=
  chan._request._max_lvl < c.TREE_MAX_LEVEL
    ∧ chan._request._max_child_idx < c.NR_OF_T1_NODES_PER_BLK
    ∧ chan._t2_lvl.children_state.length = c.NR_OF_T1_NODES_PER_BLK
    ∧ chan._t2_lvl.children.length = c.NR_OF_T1_NODES_PER_BLK
    ∧ chan._t1_lvls.length = c.TREE_MAX_LEVEL
    ∧ (∀ (lvl : Nat) (t1_lvl : Type_1_level),
        chan._t1_lvls[lvl]? = some t1_lvl → level_sized c t1_lvl)
    ∧ (chan._lvl_to_read = 1 ∨ chan._lvl_to_read < c.TREE_MAX_LEVEL)

/-- A call of the module interface of `Ft_check` while a request is in a
channel, or the write of a block by Block I/O into the buffer a generated
request points to. -/
inductive Call where
  | execute (progress : Bool)
  | peek_generated_request (buf_size : Nat)
  | drop_generated_request (id : Nat)
  | generated_request_complete (mod_req : Block_io_request)
  | peek_completed_request (buf_size : Nat)
  | drop_completed_request (id : Nat)
  | block_read (blk_ptr : Blk_ptr) (blk : Block)

/-- The module after a call; a call that throws leaves the state it had when it
threw. -/
def after_call (c : Config) (ft : Ft_check) : Call → Ft_check
  | Call.execute progress => (execute c ft progress).state
  | Call.peek_generated_request buf_size => (_peek_generated_request c ft buf_size).state
  | Call.drop_generated_request id => (_drop_generated_request ft id).state
  | Call.generated_request_complete mod_req => (generated_request_complete c ft mod_req).state
  | Call.peek_completed_request buf_size => (_peek_completed_request c ft buf_size).state
  | Call.drop_completed_request id => (_drop_completed_request c ft id).state
  | Call.block_read blk_ptr blk => read_into ft blk_ptr blk

/-- The module after a sequence of calls. -/
def after_calls (c : Config) : List Call → Ft_check → Ft_check
  | [], ft => ft
  | call :: rest, ft => after_calls c rest (after_call c ft call)

/-- The blocks written by the calls `block_read` of a sequence are full blocks. -/
def blocks_well_sized (c : Config) (calls : List Call) : Prop :=
  ∀ (blk_ptr : Blk_ptr) (blk : Block), Call.block_read blk_ptr blk ∈ calls → well_sized c blk

end Ft_check


namespace Ft_check

/-- The type-1 levels `lvls1` have the sizes of the type-1 levels `lvls`: there
are as many, and the arrays of each level have the same lengths. -/
def same_sizes (lvls1 lvls : List Type_1_level) : Prop :=
  lvls1.length = lvls.length
    ∧ ∀ (lvl : Nat) (t1_lvl1 : Type_1_level), lvls1[lvl]? = some t1_lvl1 →
        ∃ t1_lvl : Type_1_level, lvls[lvl]? = some t1_lvl
          ∧ t1_lvl1.children_state.length = t1_lvl.children_state.length
          ∧ t1_lvl1.children.length = t1_lvl.children.length

end Ft_check


namespace Block_allocator

open Block_allocator_channel_state Block_allocator_request_type

/-- The block number of a channel that is `COMPLETE` with success lies in
`[first_block, MAX_PBA]`. -/
def in_range (c : Config) (first_block : Nat) (channel : Block_allocator_channel) : Prop :=
  channel._state = COMPLETE → channel._request._success = true →
    first_block ≤ channel._request._blk_nr ∧ channel._request._blk_nr ≤ c.MAX_PBA

end Block_allocator

namespace Slots

/-- The loop of `Slots::remove` over the slots: the first slot that holds `id`
is set to `0`. -/
def remove_slots (id : Nat) : List Nat → List Nat
  | [] => []
  | slot :: rest => if slot = id then 0 :: rest else slot :: remove_slots id rest

/-- The function `Slots::remove`. -/
def remove (slots : Slots) (id : Nat) : Slots :=
  { _store := remove_slots id slots._store }

/-- The function template `Slots::for_each_key`: `func`, which acts on a state
of type `σ`, is called with every slot that is not `0`, in the order of the
slots. -/
def for_each_key {σ : Type} (slots : Slots) (func : σ → Nat → σ) (state : σ) : σ :=
  slots._store.foldl (fun s slot => if slot ≠ 0 then func s slot else s) state

/-- The ids that `for_each_key` visits, in the order of the calls of `func`. -/
def visited (slots : Slots) : List Nat :=
  for_each_key slots (fun ids id => ids ++ [id]) []

/-- A call of `store` or `remove`. -/
inductive Call where
  | store (id : Nat)
  | remove (id : Nat)

/-- The slots after a call. -/
def after_call (slots : Slots) : Call → Slots
  | Call.store id => (store slots id).1
  | Call.remove id => remove slots id

/-- The slots after a sequence of calls. -/
def after_calls : List Call → Slots → Slots
  | [], slots => slots
  | call :: rest, slots => after_calls rest (after_call slots call)

end Slots


end Tresor

/-! # Properties -/

namespace Tresor

/-! ## Block allocator -/

namespace Block_allocator

open Block_allocator_channel_state Block_allocator_request_type

theorem guard_bound_eq (c : Config) (first_block : Nat) (hF : first_block ≤ c.MAX_PBA)
    (hM : c.MAX_PBA < U64) : guard_bound c first_block = c.MAX_PBA - first_block := by
  unfold guard_bound
  have e : c.MAX_PBA + U64 - first_block = (c.MAX_PBA - first_block) + U64 := by omega
  rw [e, Nat.add_mod_right]
  exact Nat.mod_eq_of_lt (lt_of_le_of_lt (Nat.sub_le _ _) hM)

theorem execute_channels_inactive (c : Config) (fb : Nat) (chs : List Block_allocator_channel)
    (h : ∀ channel ∈ chs, channel._state = INACTIVE) (n : Nat) (p : Bool) :
    execute_channels c fb chs n p = .returned (n, chs) p := by
  induction chs with
  | nil => rfl
  | cons ch rest ih =>
    have h0 : ch._state = INACTIVE := h ch (List.mem_cons_self _ _)
    have hr : ∀ channel ∈ rest, channel._state = INACTIVE :=
      fun x hx => h x (List.mem_cons_of_mem _ hx)
    simp [execute_channels, h0, ih hr, Outcome.map_state]

theorem serve_idle (c : Config) (buf_size : Nat)
    (hbuf : c.sizeof_block_allocator_request ≤ buf_size)
    (hc : c.BA_NR_OF_CHANNELS ≠ 0) (fb n : Nat)
    (ch : Block_allocator_channel) (rest : List Block_allocator_channel)
    (h0 : ch._state = INACTIVE) (hr : ∀ channel ∈ rest, channel._state = INACTIVE)
    (req : Block_allocator_request) (hget : req._type = GET) :
    serve c buf_size { _first_block := fb, _nr_of_blks := n, _channels := ch :: rest } req
      = .returned
          { _first_block := fb, _nr_of_blks := next_nr_of_blks c fb n,
            _channels := { _state := INACTIVE, _request := completed_get c fb n req } :: rest }
          (some (completed_get c fb n req)) := by
  have hb : ¬ (buf_size < c.sizeof_block_allocator_request) := Nat.not_lt.mpr hbuf
  by_cases hg : n ≤ guard_bound c fb
  · simp [serve, submit_request, submit_channels, h0, Outcome.and_then, execute,
      execute_channels, hget, _execute_get, hg, _mark_req_successful,
      execute_channels_inactive c fb rest hr, Outcome.map_state, _peek_completed_request,
      peek_channels, hb, hc, _drop_completed_request, completed_get, next_nr_of_blks]
  · simp [serve, submit_request, submit_channels, h0, Outcome.and_then, execute,
      execute_channels, hget, _execute_get, hg, _mark_req_failed,
      execute_channels_inactive c fb rest hr, Outcome.map_state, _peek_completed_request,
      peek_channels, hb, hc, _drop_completed_request, completed_get, next_nr_of_blks]

theorem serve_all_idle (c : Config) (buf_size : Nat)
    (hbuf : c.sizeof_block_allocator_request ≤ buf_size) (hc : c.BA_NR_OF_CHANNELS ≠ 0)
    (fb : Nat) (reqs : List Block_allocator_request) (hget : ∀ req ∈ reqs, req._type = GET) :
    ∀ (n : Nat) (ch : Block_allocator_channel) (rest : List Block_allocator_channel),
      ch._state = INACTIVE → (∀ channel ∈ rest, channel._state = INACTIVE) →
      ∃ (ba1 : Block_allocator) (rs : List Block_allocator_request),
        serve_all c buf_size { _first_block := fb, _nr_of_blks := n, _channels := ch :: rest } reqs
          = .returned ba1 (rs.map some)
        ∧ rs.length = reqs.length
        ∧ ∀ (i : Nat) (r : Block_allocator_request),
            (successful (rs.map some))[i]? = some r →
              r._blk_nr = (fb + (n + i) % U64) % U64 ∧ (n + i) % U64 ≤ guard_bound c fb := by
  induction reqs with
  | nil =>
    intro n ch rest _ _
    exact ⟨_, [], rfl, rfl, by simp [successful]⟩
  | cons req reqs ih =>
    intro n ch rest h0 hr
    have hg : req._type = GET := hget req (List.mem_cons_self _ _)
    obtain ⟨ba1, rs, hrun, hlen, hres⟩ :=
      ih (fun x hx => hget x (List.mem_cons_of_mem _ hx)) (next_nr_of_blks c fb n)
        { _state := INACTIVE, _request := completed_get c fb n req } rest rfl hr
    refine ⟨ba1, completed_get c fb n req :: rs, ?_, by simp [hlen], ?_⟩
    · simp [serve_all, serve_idle c buf_size hbuf hc fb n ch rest h0 hr req hg, Outcome.and_then,
        hrun]
    · intro i r hi
      by_cases hle : n ≤ guard_bound c fb
      · have hs : (completed_get c fb n req)._success = true := by simp [completed_get, hle]
        have hnext : next_nr_of_blks c fb n = (n + 1) % U64 := by simp [next_nr_of_blks, hle]
        simp only [successful, List.map_cons, List.filterMap_cons, hs, if_true] at hi
        cases i with
        | zero =>
          simp at hi
          subst hi
          refine ⟨?_, le_trans (Nat.mod_le _ _) hle⟩
          simp [completed_get, hle]
        | succ j =>
          simp at hi
          have key := hres j r (by simpa [successful] using hi)
          rw [hnext] at key
          have e : ((n + 1) % U64 + j) % U64 = (n + (j + 1)) % U64 := by
            rw [Nat.mod_add_mod]; congr 1; omega
          rw [e] at key
          exact key
      · have hs : (completed_get c fb n req)._success = false := by simp [completed_get, hle]
        have hnext : next_nr_of_blks c fb n = n := by simp [next_nr_of_blks, hle]
        simp only [successful, List.map_cons, List.filterMap_cons, hs] at hi
        have key := hres i r (by simpa [successful] using hi)
        rw [hnext] at key
        exact key

theorem execute_get_success_range (c : Config) (fb n : Nat) (hF : fb ≤ c.MAX_PBA)
    (hM : c.MAX_PBA < U64) (channel : Block_allocator_channel) (p : Bool)
    (hact : channel._state = PENDING)
    (hs : (_execute_get c fb n channel p).2.1._request._success = true) :
    fb ≤ (_execute_get c fb n channel p).2.1._request._blk_nr
      ∧ (_execute_get c fb n channel p).2.1._request._blk_nr ≤ c.MAX_PBA
      ∧ (_execute_get c fb n channel p).2.1._state = COMPLETE := by
  by_cases hg : n ≤ guard_bound c fb
  · have hle : n ≤ c.MAX_PBA - fb := by rw [← guard_bound_eq c fb hF hM]; exact hg
    have hlt : fb + n < U64 := by omega
    simp [_execute_get, hact, hg, _mark_req_successful, Nat.mod_eq_of_lt hlt]
    omega
  · simp [_execute_get, hact, hg, _mark_req_failed] at hs

theorem execute_channels_success_range (c : Config) (fb : Nat) (hF : fb ≤ c.MAX_PBA)
    (hM : c.MAX_PBA < U64) (chs : List Block_allocator_channel) :
    ∀ (n : Nat) (p : Bool) (s : Nat × List Block_allocator_channel) (p1 : Bool),
      execute_channels c fb chs n p = .returned s p1 →
      ∀ (k : Nat) (ch ch1 : Block_allocator_channel),
        chs[k]? = some ch → s.2[k]? = some ch1 →
        (ch._state = SUBMITTED ∨ ch._state = PENDING) →
        ch1._request._success = true →
        fb ≤ ch1._request._blk_nr ∧ ch1._request._blk_nr ≤ c.MAX_PBA ∧ ch1._state = COMPLETE := by
  induction chs with
  | nil => intro n p s p1 _ k ch ch1 hk; simp at hk
  | cons ch0 rest ih =>
    intro n p s p1 hex k ch ch1 hk hk1 hact hs
    by_cases h0 : ch0._state = INACTIVE
    · simp only [execute_channels, h0, if_true] at hex
      cases hrest : execute_channels c fb rest n p with
      | raised s2 e => simp [hrest, Outcome.map_state] at hex
      | returned s2 p2 =>
        simp only [hrest, Outcome.map_state, Outcome.returned.injEq] at hex
        obtain ⟨hs2, hp2⟩ := hex
        subst hs2
        cases k with
        | zero =>
          simp at hk
          subst hk
          rcases hact with h | h <;> simp [h0] at h
        | succ j =>
          simp at hk hk1
          exact ih n p s2 p2 hrest j ch ch1 hk hk1 hact hs
    · cases hty : ch0._request._type with
      | INVALID => simp [execute_channels, h0, hty] at hex
      | GET =>
        simp only [execute_channels, h0, if_false, hty] at hex
        generalize hch1 :
          (if ch0._state = SUBMITTED then ({ ch0 with _state := PENDING } : Block_allocator_channel)
            else ch0) = chP at hex
        cases hrest : execute_channels c fb rest (_execute_get c fb n chP p).1
            (_execute_get c fb n chP p).2.2 with
        | raised s2 e => simp [hrest, Outcome.map_state] at hex
        | returned s2 p2 =>
          simp only [hrest, Outcome.map_state, Outcome.returned.injEq] at hex
          obtain ⟨hs2, hp2⟩ := hex
          subst hs2
          cases k with
          | zero =>
            simp at hk hk1
            subst hk
            subst hk1
            have hP : chP._state = PENDING := by
              rcases hact with h | h
              · simp [h] at hch1; rw [← hch1]
              · simp [h] at hch1; rw [← hch1]; exact h
            exact execute_get_success_range c fb n hF hM chP p hP hs
          | succ j =>
            simp at hk hk1
            exact ih _ _ s2 p2 hrest j ch ch1 hk hk1 hact hs

end Block_allocator

/-! ## Claims on the block allocator -/

open Block_allocator Block_allocator_channel_state Block_allocator_request_type in
/-- Counterexample to C1 as stated: with `first_block = F = 2 ^ 64 - 1` in the
small configuration, where `MAX_PBA = 3`, two `GET` requests served one after
another both succeed; the successful request number 1 carries the block number
`0`, not `F + 1 = 2 ^ 64`. -/
theorem C1_counterexample :
    ∃ (ba1 : Block_allocator) (rs : List (Option Block_allocator_request))
      (r : Block_allocator_request),
      serve_all small_config 64 (construct small_config (2 ^ 64 - 1))
          [get_request 0 0, get_request 0 1] = .returned ba1 rs
      ∧ (successful rs)[1]? = some r
      ∧ r._success = true
      ∧ r._blk_nr = 0
      ∧ r._blk_nr ≠ (2 ^ 64 - 1) + 1 :=
  ⟨_, _, { get_request 0 1 with _blk_nr := 0, _success := true }, rfl, by decide, rfl, rfl,
    by decide⟩

open Block_allocator Block_allocator_channel_state Block_allocator_request_type in
/-- C1 (amended): on an allocator constructed with `first_block = F`, `GET`
requests served one after another (`submit_request`, `execute`,
`_peek_completed_request`, `_drop_completed_request`) all complete, and the
`i`-th successful one (counting from 0) carries the block number `F + i` as a
`uint64_t`, that is `(F + i) mod 2 ^ 64`, which is the number `F + i` itself
whenever `F ≤ MAX_PBA` (and `i` is below `2 ^ 64`). -/
theorem C1_ith_successful_get (c : Config) (buf_size F : Nat)
    (hbuf : c.sizeof_block_allocator_request ≤ buf_size) (hc : c.BA_NR_OF_CHANNELS ≠ 0)
    (reqs : List Block_allocator_request) (hget : ∀ req ∈ reqs, req._type = GET) :
    ∃ (ba1 : Block_allocator) (rs : List Block_allocator_request),
      serve_all c buf_size (construct c F) reqs = .returned ba1 (rs.map some)
      ∧ rs.length = reqs.length
      ∧ ∀ (i : Nat) (r : Block_allocator_request),
          (successful (rs.map some))[i]? = some r →
            r._blk_nr = (F + i) % U64
            ∧ (F ≤ c.MAX_PBA → c.MAX_PBA < U64 → i < U64 → r._blk_nr = F + i) := by
  obtain ⟨k, hk⟩ := Nat.exists_eq_succ_of_ne_zero hc
  have hcons : construct c F
      = { _first_block := F, _nr_of_blks := 0,
          _channels := default_channel :: List.replicate k default_channel } := by
    simp [construct, hk, List.replicate_succ]
  obtain ⟨ba1, rs, hrun, hlen, hres⟩ :=
    serve_all_idle c buf_size hbuf hc F reqs hget 0 default_channel
      (List.replicate k default_channel) rfl
      (fun x hx => by rw [List.eq_of_mem_replicate hx]; rfl)
  refine ⟨ba1, rs, by rw [hcons]; exact hrun, hlen, ?_⟩
  intro i r hi
  obtain ⟨h1, h2⟩ := hres i r hi
  simp only [Nat.zero_add] at h1 h2
  refine ⟨by rw [h1, Nat.add_mod_mod], ?_⟩
  intro hF hM hi64
  rw [Nat.mod_eq_of_lt hi64, guard_bound_eq c F hF hM] at h2
  rw [h1, Nat.mod_eq_of_lt hi64]
  exact Nat.mod_eq_of_lt (by omega)

open Block_allocator in
/-- Witness of C1 (amended): three requests on the small configuration with
`first_block = 1`. -/
theorem C1_ith_successful_get_witness :
    ∃ (ba1 : Block_allocator) (rs : List Block_allocator_request),
      serve_all small_config 64 (construct small_config 1)
          [get_request 0 0, get_request 0 1, get_request 0 2] = .returned ba1 (rs.map some)
      ∧ rs.length = [get_request 0 0, get_request 0 1, get_request 0 2].length
      ∧ ∀ (i : Nat) (r : Block_allocator_request),
          (successful (rs.map some))[i]? = some r →
            r._blk_nr = (1 + i) % U64
            ∧ (1 ≤ small_config.MAX_PBA → small_config.MAX_PBA < U64 → i < U64 →
                r._blk_nr = 1 + i) :=
  C1_ith_successful_get small_config 64 1 (by decide) (by decide)
    [get_request 0 0, get_request 0 1, get_request 0 2] (by decide)

open Block_allocator in
/-- Counterexample to C2 as stated: with `first_block = 0` and `MAX_PBA = 3` the
fourth `GET` succeeds with block number `3 = first_block + MAX_PBA`, outside the
half-open range; and with `first_block = 2 ^ 64 - 1 > MAX_PBA` the second `GET`
succeeds with block number `0`, below `first_block`. -/
theorem C2_counterexample :
    (∃ (ba1 : Block_allocator) (rs : List (Option Block_allocator_request))
        (r : Block_allocator_request),
        serve_all small_config 64 (construct small_config 0)
            (List.replicate 4 (get_request 0 0)) = .returned ba1 rs
        ∧ r ∈ successful rs
        ∧ ¬ (0 ≤ r._blk_nr ∧ r._blk_nr < 0 + small_config.MAX_PBA))
    ∧ (∃ (ba1 : Block_allocator) (rs : List (Option Block_allocator_request))
        (r : Block_allocator_request),
        serve_all small_config 64 (construct small_config (2 ^ 64 - 1))
            (List.replicate 2 (get_request 0 0)) = .returned ba1 rs
        ∧ r ∈ successful rs
        ∧ ¬ (2 ^ 64 - 1 ≤ r._blk_nr ∧ r._blk_nr < 2 ^ 64 - 1 + small_config.MAX_PBA)) := by
  refine ⟨⟨_, _, { get_request 0 0 with _blk_nr := 3, _success := true }, rfl, ?_, ?_⟩,
    ⟨_, _, { get_request 0 0 with _blk_nr := 0, _success := true }, rfl, ?_, ?_⟩⟩
  · decide
  · decide
  · decide
  · decide

open Block_allocator Block_allocator_channel_state in
/-- C2 (amended): for `first_block ≤ MAX_PBA`, whenever `execute` completes a
submitted or pending `GET` request with success, its block number lies in the
closed range `[first_block, MAX_PBA]`. -/
theorem C2_allocated_block_in_range (c : Config) (ba ba1 : Block_allocator) (p p1 : Bool)
    (hF : ba._first_block ≤ c.MAX_PBA) (hM : c.MAX_PBA < U64)
    (hex : execute c ba p = .returned ba1 p1)
    (k : Nat) (ch ch1 : Block_allocator_channel)
    (hk : ba._channels[k]? = some ch) (hk1 : ba1._channels[k]? = some ch1)
    (hact : ch._state = SUBMITTED ∨ ch._state = PENDING)
    (hs : ch1._request._success = true) :
    ba._first_block ≤ ch1._request._blk_nr ∧ ch1._request._blk_nr ≤ c.MAX_PBA
      ∧ ch1._state = COMPLETE := by
  unfold execute at hex
  cases hrun : execute_channels c ba._first_block ba._channels ba._nr_of_blks p with
  | raised s e => simp [hrun, Outcome.map_state] at hex
  | returned s p2 =>
    simp only [hrun, Outcome.map_state, Outcome.returned.injEq] at hex
    obtain ⟨hs1, _⟩ := hex
    subst hs1
    exact execute_channels_success_range c ba._first_block hF hM ba._channels _ _ s p2 hrun
      k ch ch1 hk hk1 hact hs

open Block_allocator Block_allocator_channel_state in
/-- Witness of C2 (amended): the last block of the small configuration, handed
out by an allocator with `first_block = 0` that has allocated three blocks. -/
theorem C2_allocated_block_in_range_witness :
    (0 : Nat) ≤ 3 ∧ (3 : Nat) ≤ small_config.MAX_PBA ∧ COMPLETE = COMPLETE :=
  C2_allocated_block_in_range small_config
    { _first_block := 0, _nr_of_blks := 3,
      _channels := [{ _state := SUBMITTED, _request := get_request 0 0 }] }
    { _first_block := 0, _nr_of_blks := 4,
      _channels := [{ _state := COMPLETE,
                      _request := { get_request 0 0 with _blk_nr := 3, _success := true } }] }
    false true (by decide) (by decide) (by decide) 0
    { _state := SUBMITTED, _request := get_request 0 0 }
    { _state := COMPLETE, _request := { get_request 0 0 with _blk_nr := 3, _success := true } }
    (by decide) (by decide) (by decide) (by decide)

open Block_allocator Block_allocator_channel_state Block_allocator_request_type in
/-- C3: a `GET` request submitted to an allocator whose channels are all
`INACTIVE` succeeds iff the number of blocks allocated so far is at most the
`uint64_t` value `MAX_PBA - _first_block` (the number `MAX_PBA - first_block`
when `first_block ≤ MAX_PBA`); in both cases `execute` returns without raising,
the channel of the request is `COMPLETE`, and `_peek_completed_request` returns
the request, with `success = false` when the bound is exceeded. -/
theorem C3_get_succeeds_iff_guard (c : Config) (buf_size : Nat)
    (hbuf : c.sizeof_block_allocator_request ≤ buf_size)
    (F n : Nat) (ch : Block_allocator_channel) (rest : List Block_allocator_channel)
    (h0 : ch._state = INACTIVE) (hr : ∀ channel ∈ rest, channel._state = INACTIVE)
    (req : Block_allocator_request) (hget : req._type = GET) (p : Bool) :
    ∃ (ba1 ba2 : Block_allocator) (req1 done : Block_allocator_request),
      submit_request { _first_block := F, _nr_of_blks := n, _channels := ch :: rest } req
        = .returned ba1 req1
      ∧ execute c ba1 p = .returned ba2 true
      ∧ ba2._channels[req1.dst_request_id]? = some { _state := COMPLETE, _request := done }
      ∧ (done._success = true ↔ n ≤ guard_bound c F)
      ∧ (¬ n ≤ guard_bound c F → done._success = false)
      ∧ (F ≤ c.MAX_PBA → c.MAX_PBA < U64 → guard_bound c F = c.MAX_PBA - F)
      ∧ _peek_completed_request c ba2 buf_size = .returned ba2 (some done) := by
  have hb : ¬ (buf_size < c.sizeof_block_allocator_request) := Nat.not_lt.mpr hbuf
  refine ⟨{ _first_block := F, _nr_of_blks := n,
             _channels := { _state := SUBMITTED,
                            _request := { req with dst_request_id := 0 } } :: rest },
    { _first_block := F, _nr_of_blks := next_nr_of_blks c F n,
      _channels := { _state := COMPLETE, _request := completed_get c F n req } :: rest },
    { req with dst_request_id := 0 }, completed_get c F n req,
    ?_, ?_, ?_, ?_, ?_, guard_bound_eq c F, ?_⟩
  · simp [submit_request, submit_channels, h0]
  · by_cases hg : n ≤ guard_bound c F
    · simp [execute, execute_channels, hget, _execute_get, hg, _mark_req_successful,
        execute_channels_inactive c F rest hr, Outcome.map_state, next_nr_of_blks, completed_get]
    · simp [execute, execute_channels, hget, _execute_get, hg, _mark_req_failed,
        execute_channels_inactive c F rest hr, Outcome.map_state, next_nr_of_blks, completed_get]
  · by_cases hg : n ≤ guard_bound c F <;> simp [completed_get, hg, next_nr_of_blks]
  · by_cases hg : n ≤ guard_bound c F <;> simp [completed_get, hg]
  · intro hg; simp [completed_get, hg]
  · by_cases hg : n ≤ guard_bound c F <;>
      simp [_peek_completed_request, peek_channels, hb, completed_get, hg, next_nr_of_blks]

open Block_allocator Block_allocator_channel_state Block_allocator_request_type in
/-- Witness of C3: a `GET` request on an exhausted allocator of the small
configuration. -/
theorem C3_get_succeeds_iff_guard_witness :
    ∃ (ba1 ba2 : Block_allocator) (req1 done : Block_allocator_request),
      submit_request { _first_block := 0, _nr_of_blks := 4, _channels := [default_channel] }
          (get_request 0 0) = .returned ba1 req1
      ∧ execute small_config ba1 false = .returned ba2 true
      ∧ ba2._channels[req1.dst_request_id]? = some { _state := COMPLETE, _request := done }
      ∧ (done._success = true ↔ 4 ≤ guard_bound small_config 0)
      ∧ (¬ 4 ≤ guard_bound small_config 0 → done._success = false)
      ∧ (0 ≤ small_config.MAX_PBA → small_config.MAX_PBA < U64 →
          guard_bound small_config 0 = small_config.MAX_PBA - 0)
      ∧ _peek_completed_request small_config ba2 64 = .returned ba2 (some done) :=
  C3_get_succeeds_iff_guard small_config 64 (by decide) 0 4 default_channel [] rfl
    (by simp) (get_request 0 0) rfl false

/-! ## Free-tree check: the steps on one child -/

namespace Ft_check

open Child_state

theorem t1_lvls_set_t1_child_state (chan : Ft_check_channel) (lvl child_idx : Nat)
    (state : Child_state) (l : Nat) :
    (set_t1_child_state chan lvl child_idx state)._t1_lvls[l]?
      = if l = lvl then
          (chan._t1_lvls[l]?).map
            (fun t1_lvl => { t1_lvl with
                             children_state := t1_lvl.children_state.set child_idx state })
        else chan._t1_lvls[l]? := by
  by_cases h : l = lvl
  · subst h
    simp [set_t1_child_state]
  · simp [set_t1_child_state, h, List.getElem?_modify_ne _ _ (Ne.symm h)]

theorem get_set_t1_child_state (chan : Ft_check_channel) (lvl child_idx : Nat)
    (state : Child_state) (t1_lvl : Type_1_level) (hl : chan._t1_lvls[lvl]? = some t1_lvl)
    (hi : child_idx < t1_lvl.children_state.length) :
    get_child_state (set_t1_child_state chan lvl child_idx state)
      (Child_state_ref.t1_child lvl child_idx) = some state := by
  simp [get_child_state, t1_lvls_set_t1_child_state, hl, hi]

theorem get_t1_child_state_mark_req_failed (chan : Ft_check_channel) (p : Bool)
    (lvl child_idx : Nat) :
    get_child_state (_mark_req_failed chan p).1 (Child_state_ref.t1_child lvl child_idx)
      = get_child_state chan (Child_state_ref.t1_child lvl child_idx) := by
  simp [get_child_state, _mark_req_failed]

end Ft_check

open Ft_check Child_state in
/-- Counterexample to C8 as stated: a leaf in state `READ_BLOCK` that is invalid,
met while the remaining-leaves counter is 1, does not make the request fail: the
leaf becomes `DONE`, the counter becomes 0, and neither the success flag nor the
root state is touched. -/
theorem C8_counterexample :
    ∃ (chan chan1 : Ft_check_channel),
      chan._t2_lvl.children[0]? = some { pba := 0, valid := false }
      ∧ chan._t2_lvl.children_state[0]? = some READ_BLOCK
      ∧ chan._nr_of_leaves = 1
      ∧ chan._root_state = CHECK_HASH
      ∧ _execute_leaf_child chan 0 false = .returned chan1 true
      ∧ chan1._t2_lvl.children_state[0]? = some DONE
      ∧ chan1._nr_of_leaves = 0
      ∧ chan1._root_state = CHECK_HASH
      ∧ chan1._request = chan._request := by
  refine ⟨{ default_channel small_config with
            _t2_lvl := { children_state := [READ_BLOCK, READ_BLOCK]
                         children := [{ pba := 0, valid := false }, { pba := 0, valid := false }] }
            _nr_of_leaves := 1
            _root_state := CHECK_HASH
            _request := check_request 0 0 2 1 1
              { pba := 10, gen := 0, hash := 0, valid := true } }, _, rfl, rfl, rfl, rfl, rfl,
    rfl, rfl, rfl, rfl⟩

open Ft_check Child_state in
/-- C8 (amended): in the leaf step for a leaf in state `READ_BLOCK` while the
remaining-leaves counter is non-zero, the leaf, valid or not, becomes `DONE`,
the counter is decremented by exactly one, progress is reported, and nothing
else of the channel changes (the request is not failed). -/
theorem C8_leaf_step_counter_nonzero (chan : Ft_check_channel) (child_idx : Nat)
    (child : Type_2_node) (progress : Bool)
    (hchild : chan._t2_lvl.children[child_idx]? = some child)
    (hstate : chan._t2_lvl.children_state[child_idx]? = some READ_BLOCK)
    (hn : chan._nr_of_leaves ≠ 0) :
    ∃ chan1 : Ft_check_channel,
      _execute_leaf_child chan child_idx progress = .returned chan1 true
      ∧ chan1._t2_lvl.children_state = chan._t2_lvl.children_state.set child_idx DONE
      ∧ chan1._t2_lvl.children_state[child_idx]? = some DONE
      ∧ chan1._nr_of_leaves + 1 = chan._nr_of_leaves
      ∧ chan1._request = chan._request
      ∧ chan1._root_state = chan._root_state
      ∧ chan1._t2_lvl.children = chan._t2_lvl.children
      ∧ chan1._t1_lvls = chan._t1_lvls
      ∧ chan1._gen_prim = chan._gen_prim
      ∧ chan1._lvl_to_read = chan._lvl_to_read := by
  have hlt : child_idx < chan._t2_lvl.children_state.length := by
    rcases Nat.lt_or_ge child_idx chan._t2_lvl.children_state.length with h | h
    · exact h
    · rw [List.getElem?_eq_none h] at hstate; cases hstate
  refine ⟨set_t2_child_state { chan with _nr_of_leaves := chan._nr_of_leaves - 1 } child_idx DONE,
    ?_, rfl, ?_, ?_, rfl, rfl, rfl, rfl, rfl, rfl⟩
  · simp [_execute_leaf_child, hchild, hstate, hn]
  · simp [set_t2_child_state, hlt]
  · simp only [set_t2_child_state]; omega

open Ft_check Child_state in
/-- Witness of C8 (amended): a valid leaf met while the counter is 2. -/
theorem C8_leaf_step_counter_nonzero_witness :
    ∃ chan1 : Ft_check_channel,
      _execute_leaf_child
          { default_channel small_config with
            _t2_lvl := { children_state := [READ_BLOCK, READ_BLOCK]
                         children := [{ pba := 7, valid := true }, { pba := 0, valid := false }] }
            _nr_of_leaves := 2 } 0 false = .returned chan1 true
      ∧ chan1._t2_lvl.children_state = [READ_BLOCK, READ_BLOCK].set 0 DONE
      ∧ chan1._t2_lvl.children_state[0]? = some DONE
      ∧ chan1._nr_of_leaves + 1 = 2
      ∧ chan1._request = default_request
      ∧ chan1._root_state = DONE
      ∧ chan1._t2_lvl.children = [{ pba := 7, valid := true }, { pba := 0, valid := false }]
      ∧ chan1._t1_lvls = (default_channel small_config)._t1_lvls
      ∧ chan1._gen_prim = default_gen_prim
      ∧ chan1._lvl_to_read = 0 :=
  C8_leaf_step_counter_nonzero
    { default_channel small_config with
      _t2_lvl := { children_state := [READ_BLOCK, READ_BLOCK]
                   children := [{ pba := 7, valid := true }, { pba := 0, valid := false }] }
      _nr_of_leaves := 2 } 0 { pba := 7, valid := true } false rfl rfl (by decide)

open Ft_check Child_state in
/-- C9: in the leaf step for a leaf in state `READ_BLOCK` while the
remaining-leaves counter is zero, a valid leaf fails the request (`success =
false`, root state `DONE`, progress reported), and an invalid leaf becomes
`DONE` with the counter still zero and progress reported. -/
theorem C9_leaf_step_counter_zero (chan : Ft_check_channel) (child_idx : Nat)
    (child : Type_2_node) (progress : Bool)
    (hchild : chan._t2_lvl.children[child_idx]? = some child)
    (hstate : chan._t2_lvl.children_state[child_idx]? = some READ_BLOCK)
    (hn : chan._nr_of_leaves = 0) :
    ∃ chan1 : Ft_check_channel,
      _execute_leaf_child chan child_idx progress = .returned chan1 true
      ∧ (child.valid = true →
          chan1 = (_mark_req_failed chan progress).1
          ∧ chan1._request._success = false ∧ chan1._root_state = DONE)
      ∧ (child.valid = false →
          chan1 = set_t2_child_state chan child_idx DONE
          ∧ chan1._t2_lvl.children_state[child_idx]? = some DONE
          ∧ chan1._nr_of_leaves = 0
          ∧ chan1._request = chan._request ∧ chan1._root_state = chan._root_state) := by
  have hlt : child_idx < chan._t2_lvl.children_state.length := by
    rcases Nat.lt_or_ge child_idx chan._t2_lvl.children_state.length with h | h
    · exact h
    · rw [List.getElem?_eq_none h] at hstate; cases hstate
  cases hv : child.valid with
  | true =>
    refine ⟨(_mark_req_failed chan progress).1, ?_, fun _ => ⟨rfl, rfl, rfl⟩, fun h => Bool.noConfusion h⟩
    simp [_execute_leaf_child, hchild, hstate, hn, hv, _mark_req_failed]
  | false =>
    refine ⟨set_t2_child_state chan child_idx DONE, ?_, fun h => Bool.noConfusion h,
      fun _ => ⟨rfl, ?_, hn, rfl, rfl⟩⟩
    · simp [_execute_leaf_child, hchild, hstate, hn, hv]
    · simp [set_t2_child_state, hlt]

open Ft_check Child_state in
/-- Witness of C9: a valid leaf met while the counter is zero. -/
theorem C9_leaf_step_counter_zero_witness :
    ∃ chan1 : Ft_check_channel,
      _execute_leaf_child
          { default_channel small_config with
            _t2_lvl := { children_state := [READ_BLOCK, READ_BLOCK]
                         children := [{ pba := 7, valid := true }, { pba := 0, valid := false }] }
            _root_state := CHECK_HASH } 0 false = .returned chan1 true
      ∧ ((true : Bool) = true →
          chan1 = (_mark_req_failed
            { default_channel small_config with
              _t2_lvl := { children_state := [READ_BLOCK, READ_BLOCK]
                           children := [{ pba := 7, valid := true },
                                        { pba := 0, valid := false }] }
              _root_state := CHECK_HASH } false).1
          ∧ chan1._request._success = false ∧ chan1._root_state = DONE)
      ∧ ((true : Bool) = false →
          chan1 = set_t2_child_state
            { default_channel small_config with
              _t2_lvl := { children_state := [READ_BLOCK, READ_BLOCK]
                           children := [{ pba := 7, valid := true },
                                        { pba := 0, valid := false }] }
              _root_state := CHECK_HASH } 0 DONE
          ∧ chan1._t2_lvl.children_state[0]? = some DONE
          ∧ chan1._nr_of_leaves = 0
          ∧ chan1._request = default_request ∧ chan1._root_state = CHECK_HASH) :=
  C9_leaf_step_counter_zero
    { default_channel small_config with
      _t2_lvl := { children_state := [READ_BLOCK, READ_BLOCK]
                   children := [{ pba := 7, valid := true }, { pba := 0, valid := false }] }
      _root_state := CHECK_HASH } 0 { pba := 7, valid := true } false rfl rfl rfl

namespace Ft_check

open Child_state

theorem lt_length_of_getElem?_eq_some {α : Type} {l : List α} {i : Nat} {a : α}
    (h : l[i]? = some a) : i < l.length := by
  rcases Nat.lt_or_ge i l.length with h1 | h1
  · exact h1
  · rw [List.getElem?_eq_none h1] at h; cases h

theorem get_t1_child_state_eq (chan : Ft_check_channel) (lvl child_idx : Nat)
    (t1_lvl : Type_1_level) (hl : chan._t1_lvls[lvl]? = some t1_lvl) :
    get_child_state chan (Child_state_ref.t1_child lvl child_idx)
      = t1_lvl.children_state[child_idx]? := by
  simp [get_child_state, hl]

theorem get_t1_child_state_some (chan : Ft_check_channel) (lvl child_idx : Nat)
    (state : Child_state)
    (h : get_child_state chan (Child_state_ref.t1_child lvl child_idx) = some state) :
    ∃ t1_lvl : Type_1_level, chan._t1_lvls[lvl]? = some t1_lvl
      ∧ t1_lvl.children_state[child_idx]? = some state := by
  unfold get_child_state at h
  cases hl : chan._t1_lvls[lvl]? with
  | none => simp [hl] at h
  | some t1_lvl => exact ⟨t1_lvl, rfl, by simpa [hl] using h⟩

end Ft_check

open Ft_check Child_state in
/-- Counterexample to C10 as stated: the root of a freshly submitted request is
invalid while one leaf is still expected; the step on the root fails the
request, and the root (the child that was processed) has state `DONE` although
the remaining-leaves counter is not zero. -/
theorem C10_counterexample :
    ∃ (chan chan1 : Ft_check_channel),
      (submit_request (construct small_config)
          (check_request 0 0 2 1 1 { pba := 0, gen := 0, hash := 0, valid := false })).state
        = { _channels := [chan] }
      ∧ chan._root_state = READ_BLOCK
      ∧ chan._request._root.valid = false
      ∧ chan._nr_of_leaves ≠ 0
      ∧ _execute_check small_config chan false = .returned chan1 true
      ∧ chan1._root_state = DONE
      ∧ chan1._request._success = false := by
  refine ⟨_, _, rfl, rfl, rfl, by decide, rfl, rfl, rfl⟩

open Ft_check Child_state in
/-- C10 (amended): the inner-node step for a child in state `READ_BLOCK` whose
node is invalid reports progress and generates no block read.  A child of a
type-1 level becomes `DONE` iff the remaining-leaves counter is zero; otherwise
the request is failed and the child stays in `READ_BLOCK`.  For the root, the
root state becomes `DONE` in both cases: by the step itself when the counter is
zero, and by the failure of the request (`success = false`) otherwise. -/
theorem C10_invalid_inner_child (c : Config) (chan : Ft_check_channel) (child : Type_1_node)
    (progress : Bool) (hinvalid : child.valid = false) :
    (∀ (lvl child_idx : Nat) (t1_lvl : Type_1_level),
        chan._t1_lvls[lvl]? = some t1_lvl →
        t1_lvl.children_state[child_idx]? = some READ_BLOCK →
        t1_lvl.children[child_idx]? = some child →
        ∃ chan1 : Ft_check_channel,
          _execute_inner_t2_child c chan lvl child_idx progress = .returned chan1 true
          ∧ chan1._gen_prim = chan._gen_prim ∧ chan1._lvl_to_read = chan._lvl_to_read
          ∧ (chan._nr_of_leaves = 0 → chan1 = set_t1_child_state chan lvl child_idx DONE)
          ∧ (chan._nr_of_leaves ≠ 0 → chan1 = (_mark_req_failed chan progress).1)
          ∧ (get_child_state chan1 (Child_state_ref.t1_child lvl child_idx) = some DONE
              ↔ chan._nr_of_leaves = 0))
    ∧ (∀ (child_lvl_idx lvl child_idx lvl_arg child_idx_arg : Nat) (child_lvl : Type_1_level),
        get_child_state chan (Child_state_ref.t1_child lvl child_idx) = some READ_BLOCK →
        chan._t1_lvls[child_lvl_idx]? = some child_lvl →
        ∃ chan1 : Ft_check_channel,
          _execute_inner_t1_child c chan child child_lvl_idx
              (Child_state_ref.t1_child lvl child_idx) lvl_arg child_idx_arg progress
            = .returned chan1 true
          ∧ chan1._gen_prim = chan._gen_prim ∧ chan1._lvl_to_read = chan._lvl_to_read
          ∧ (chan._nr_of_leaves = 0 → chan1 = set_t1_child_state chan lvl child_idx DONE)
          ∧ (chan._nr_of_leaves ≠ 0 → chan1 = (_mark_req_failed chan progress).1)
          ∧ (get_child_state chan1 (Child_state_ref.t1_child lvl child_idx) = some DONE
              ↔ chan._nr_of_leaves = 0))
    ∧ (∀ (child_lvl_idx lvl_arg child_idx_arg : Nat) (child_lvl : Type_1_level),
        chan._root_state = READ_BLOCK →
        chan._t1_lvls[child_lvl_idx]? = some child_lvl →
        ∃ chan1 : Ft_check_channel,
          _execute_inner_t1_child c chan child child_lvl_idx Child_state_ref.root_state
              lvl_arg child_idx_arg progress
            = .returned chan1 true
          ∧ chan1._gen_prim = chan._gen_prim ∧ chan1._lvl_to_read = chan._lvl_to_read
          ∧ chan1._root_state = DONE
          ∧ (chan._nr_of_leaves = 0 → chan1 = { chan with _root_state := DONE })
          ∧ (chan._nr_of_leaves ≠ 0 →
              chan1 = (_mark_req_failed chan progress).1 ∧ chan1._request._success = false)) := by
  refine ⟨?_, ?_, ?_⟩
  · intro lvl child_idx t1_lvl hl hs hc
    have hlt := lt_length_of_getElem?_eq_some hs
    by_cases hn : chan._nr_of_leaves = 0
    · refine ⟨set_t1_child_state chan lvl child_idx DONE, ?_, rfl, rfl, fun _ => rfl,
        fun h => absurd hn h, ?_⟩
      · simp [_execute_inner_t2_child, hl, hs, hc, hinvalid, hn]
      · simp [get_set_t1_child_state chan lvl child_idx DONE t1_lvl hl hlt, hn]
    · refine ⟨(_mark_req_failed chan progress).1, ?_, rfl, rfl, fun h => absurd h hn,
        fun _ => rfl, ?_⟩
      · simp [_execute_inner_t2_child, hl, hs, hc, hinvalid, hn, _mark_req_failed]
      · simp [get_t1_child_state_mark_req_failed, get_t1_child_state_eq chan lvl child_idx t1_lvl hl,
          hs, hn]
  · intro child_lvl_idx lvl child_idx lvl_arg child_idx_arg child_lvl hs hcl
    obtain ⟨t1_lvl, hl, hs1⟩ := get_t1_child_state_some chan lvl child_idx READ_BLOCK hs
    have hlt := lt_length_of_getElem?_eq_some hs1
    by_cases hn : chan._nr_of_leaves = 0
    · refine ⟨set_t1_child_state chan lvl child_idx DONE, ?_, rfl, rfl, fun _ => rfl,
        fun h => absurd hn h, ?_⟩
      · simp [_execute_inner_t1_child, hs, hcl, hinvalid, hn, set_child_state]
      · simp [get_set_t1_child_state chan lvl child_idx DONE t1_lvl hl hlt, hn]
    · refine ⟨(_mark_req_failed chan progress).1, ?_, rfl, rfl, fun h => absurd h hn,
        fun _ => rfl, ?_⟩
      · simp [_execute_inner_t1_child, hs, hcl, hinvalid, hn, _mark_req_failed]
      · simp [get_t1_child_state_mark_req_failed, hs, hn]
  · intro child_lvl_idx lvl_arg child_idx_arg child_lvl hs hcl
    by_cases hn : chan._nr_of_leaves = 0
    · refine ⟨{ chan with _root_state := DONE }, ?_, rfl, rfl, rfl, fun _ => rfl,
        fun h => absurd hn h⟩
      simp [_execute_inner_t1_child, get_child_state, hs, hcl, hinvalid, hn, set_child_state]
    · refine ⟨(_mark_req_failed chan progress).1, ?_, rfl, rfl, rfl, fun h => absurd h hn,
        fun _ => ⟨rfl, rfl⟩⟩
      simp [_execute_inner_t1_child, get_child_state, hs, hcl, hinvalid, hn, _mark_req_failed]

open Ft_check Child_state in
/-- Witness of C10 (amended): an invalid child of level 2 met while the counter
is zero. -/
theorem C10_invalid_inner_child_witness :
    ∃ chan1 : Ft_check_channel,
      _execute_inner_t2_child small_config
          (example_chan_at_child READ_BLOCK default_type_1_node 0) 2 0 false
        = .returned chan1 true
      ∧ chan1._gen_prim = (example_chan_at_child READ_BLOCK default_type_1_node 0)._gen_prim
      ∧ chan1._lvl_to_read = (example_chan_at_child READ_BLOCK default_type_1_node 0)._lvl_to_read
      ∧ ((example_chan_at_child READ_BLOCK default_type_1_node 0)._nr_of_leaves = 0 →
          chan1 = set_t1_child_state (example_chan_at_child READ_BLOCK default_type_1_node 0)
            2 0 DONE)
      ∧ ((example_chan_at_child READ_BLOCK default_type_1_node 0)._nr_of_leaves ≠ 0 →
          chan1 = (_mark_req_failed (example_chan_at_child READ_BLOCK default_type_1_node 0)
            false).1)
      ∧ (get_child_state chan1 (Child_state_ref.t1_child 2 0) = some DONE
          ↔ (example_chan_at_child READ_BLOCK default_type_1_node 0)._nr_of_leaves = 0) :=
  (C10_invalid_inner_child small_config (example_chan_at_child READ_BLOCK default_type_1_node 0)
    default_type_1_node false rfl).1 2 0
    { children_state := [READ_BLOCK, READ_BLOCK],
      children := [default_type_1_node, default_type_1_node] } rfl rfl rfl

open Ft_check Child_state in
/-- Counterexample to C6 as stated: the root is in state `CHECK_HASH`, its
generation is not `INITIAL_GENERATION` and its stored hash differs from the
hash of the block read for it; the step leaves the root in state `DONE` and the
success flag `false`. -/
theorem C6_counterexample :
    ∃ (chan1 : Ft_check_channel),
      (example_chan_at_root CHECK_HASH { example_root with hash := 0 } 0)._root_state = CHECK_HASH
      ∧ ({ example_root with hash := 0 } : Type_1_node).gen ≠ small_config.INITIAL_GENERATION
      ∧ small_config.sha256_4k_t1 example_inner_block.t1
          ≠ ({ example_root with hash := 0 } : Type_1_node).hash
      ∧ _execute_check small_config
          (example_chan_at_root CHECK_HASH { example_root with hash := 0 } 0) false
          = .returned chan1 true
      ∧ chan1._root_state = DONE
      ∧ chan1._request._success = false := by
  refine ⟨_, rfl, by decide, by decide, rfl, rfl, rfl⟩

open Ft_check Child_state in
/-- C6 (amended): in state `CHECK_HASH`, a child whose generation is
`INITIAL_GENERATION` becomes `DONE` whatever its stored hash is.  Any other child
of a type-1 level becomes `DONE` iff the hash of the block read for it equals
its stored hash; otherwise the request is failed and the child stays in
`CHECK_HASH`.  For the root, a match (or the generation `INITIAL_GENERATION`) sets
the root state to `DONE` and the success flag to `true`, and a mismatch fails the
request, which sets the root state to `DONE` as well, with `success = false`. -/
theorem C6_check_hash_step (c : Config) (chan : Ft_check_channel) (child : Type_1_node)
    (progress : Bool) :
    (∀ (lvl child_idx : Nat) (t1_lvl : Type_1_level),
        chan._t1_lvls[lvl]? = some t1_lvl →
        t1_lvl.children_state[child_idx]? = some CHECK_HASH →
        t1_lvl.children[child_idx]? = some child →
        ∃ chan1 : Ft_check_channel,
          _execute_inner_t2_child c chan lvl child_idx progress = .returned chan1 true
          ∧ (child.gen = c.INITIAL_GENERATION → chan1 = set_t1_child_state chan lvl child_idx DONE)
          ∧ (c.sha256_4k_t2 chan._t2_lvl.children = child.hash →
              chan1 = set_t1_child_state chan lvl child_idx DONE)
          ∧ (child.gen ≠ c.INITIAL_GENERATION →
              c.sha256_4k_t2 chan._t2_lvl.children ≠ child.hash →
              chan1 = (_mark_req_failed chan progress).1)
          ∧ (child.gen ≠ c.INITIAL_GENERATION →
              (get_child_state chan1 (Child_state_ref.t1_child lvl child_idx) = some DONE
                ↔ c.sha256_4k_t2 chan._t2_lvl.children = child.hash)))
    ∧ (∀ (child_lvl_idx lvl child_idx lvl_arg child_idx_arg : Nat) (child_lvl : Type_1_level),
        get_child_state chan (Child_state_ref.t1_child lvl child_idx) = some CHECK_HASH →
        chan._t1_lvls[child_lvl_idx]? = some child_lvl →
        ∃ chan1 : Ft_check_channel,
          _execute_inner_t1_child c chan child child_lvl_idx
              (Child_state_ref.t1_child lvl child_idx) lvl_arg child_idx_arg progress
            = .returned chan1 true
          ∧ (child.gen = c.INITIAL_GENERATION → chan1 = set_t1_child_state chan lvl child_idx DONE)
          ∧ (c.sha256_4k_t1 child_lvl.children = child.hash →
              chan1 = set_t1_child_state chan lvl child_idx DONE)
          ∧ (child.gen ≠ c.INITIAL_GENERATION →
              c.sha256_4k_t1 child_lvl.children ≠ child.hash →
              chan1 = (_mark_req_failed chan progress).1)
          ∧ (child.gen ≠ c.INITIAL_GENERATION →
              (get_child_state chan1 (Child_state_ref.t1_child lvl child_idx) = some DONE
                ↔ c.sha256_4k_t1 child_lvl.children = child.hash)))
    ∧ (∀ (child_lvl_idx lvl_arg child_idx_arg : Nat) (child_lvl : Type_1_level),
        chan._root_state = CHECK_HASH →
        chan._t1_lvls[child_lvl_idx]? = some child_lvl →
        ∃ chan1 : Ft_check_channel,
          _execute_inner_t1_child c chan child child_lvl_idx Child_state_ref.root_state
              lvl_arg child_idx_arg progress
            = .returned chan1 true
          ∧ chan1._root_state = DONE
          ∧ (child.gen = c.INITIAL_GENERATION ∨ c.sha256_4k_t1 child_lvl.children = child.hash →
              chan1 = { chan with _root_state := DONE
                                  _request := { chan._request with _success := true } })
          ∧ (child.gen ≠ c.INITIAL_GENERATION →
              c.sha256_4k_t1 child_lvl.children ≠ child.hash →
              chan1 = (_mark_req_failed chan progress).1)
          ∧ (child.gen ≠ c.INITIAL_GENERATION →
              (chan1._request._success = true
                ↔ c.sha256_4k_t1 child_lvl.children = child.hash))) := by
  refine ⟨?_, ?_, ?_⟩
  · intro lvl child_idx t1_lvl hl hs hc
    have hlt := lt_length_of_getElem?_eq_some hs
    by_cases hok : child.gen = c.INITIAL_GENERATION ∨ c.sha256_4k_t2 chan._t2_lvl.children = child.hash
    · refine ⟨set_t1_child_state chan lvl child_idx DONE, ?_, fun _ => rfl, fun _ => rfl,
        fun h1 h2 => absurd hok (by simp [h1, h2]), fun h1 => ?_⟩
      · simp [_execute_inner_t2_child, hl, hs, hc, check_sha256_4k_hash, hok]
      · simp only [get_set_t1_child_state chan lvl child_idx DONE t1_lvl hl hlt, true_iff]
        exact hok.resolve_left h1
    · have h1 : child.gen ≠ c.INITIAL_GENERATION := fun h => hok (Or.inl h)
      have h2 : c.sha256_4k_t2 chan._t2_lvl.children ≠ child.hash := fun h => hok (Or.inr h)
      refine ⟨(_mark_req_failed chan progress).1, ?_, fun h => absurd h h1, fun h => absurd h h2,
        fun _ _ => rfl, fun _ => ?_⟩
      · simp [_execute_inner_t2_child, hl, hs, hc, check_sha256_4k_hash, h1, h2, _mark_req_failed]
      · simp [get_t1_child_state_mark_req_failed, get_t1_child_state_eq chan lvl child_idx t1_lvl hl,
          hs, h2]
  · intro child_lvl_idx lvl child_idx lvl_arg child_idx_arg child_lvl hs hcl
    obtain ⟨t1_lvl, hl, hs1⟩ := get_t1_child_state_some chan lvl child_idx CHECK_HASH hs
    have hlt := lt_length_of_getElem?_eq_some hs1
    by_cases hok : child.gen = c.INITIAL_GENERATION ∨ c.sha256_4k_t1 child_lvl.children = child.hash
    · refine ⟨set_t1_child_state chan lvl child_idx DONE, ?_, fun _ => rfl, fun _ => rfl,
        fun h1 h2 => absurd hok (by simp [h1, h2]), fun h1 => ?_⟩
      · simp [_execute_inner_t1_child, hs, hcl, check_sha256_4k_hash, hok, set_child_state]
      · simp only [get_set_t1_child_state chan lvl child_idx DONE t1_lvl hl hlt, true_iff]
        exact hok.resolve_left h1
    · have h1 : child.gen ≠ c.INITIAL_GENERATION := fun h => hok (Or.inl h)
      have h2 : c.sha256_4k_t1 child_lvl.children ≠ child.hash := fun h => hok (Or.inr h)
      refine ⟨(_mark_req_failed chan progress).1, ?_, fun h => absurd h h1, fun h => absurd h h2,
        fun _ _ => rfl, fun _ => ?_⟩
      · simp [_execute_inner_t1_child, hs, hcl, check_sha256_4k_hash, h1, h2, _mark_req_failed]
      · simp [get_t1_child_state_mark_req_failed, hs, h2]
  · intro child_lvl_idx lvl_arg child_idx_arg child_lvl hs hcl
    by_cases hok : child.gen = c.INITIAL_GENERATION ∨ c.sha256_4k_t1 child_lvl.children = child.hash
    · refine ⟨{ chan with _root_state := DONE
                          _request := { chan._request with _success := true } },
        ?_, rfl, fun _ => rfl, fun h1 h2 => absurd hok (by simp [h1, h2]), fun h1 => ?_⟩
      · simp [_execute_inner_t1_child, get_child_state, hs, hcl, check_sha256_4k_hash, hok,
          set_child_state]
      · simp only [true_iff]
        exact hok.resolve_left h1
    · have h1 : child.gen ≠ c.INITIAL_GENERATION := fun h => hok (Or.inl h)
      have h2 : c.sha256_4k_t1 child_lvl.children ≠ child.hash := fun h => hok (Or.inr h)
      refine ⟨(_mark_req_failed chan progress).1, ?_, rfl, fun h => absurd h hok,
        fun _ _ => rfl, fun _ => ?_⟩
      · simp [_execute_inner_t1_child, get_child_state, hs, hcl, check_sha256_4k_hash, h1, h2,
          _mark_req_failed]
      · simp [_mark_req_failed, h2]

open Ft_check Child_state in
/-- Witness of C6 (amended): the root in state `CHECK_HASH` with a stored hash
that matches the block read for it. -/
theorem C6_check_hash_step_witness :
    ∃ chan1 : Ft_check_channel,
      _execute_inner_t1_child small_config (example_chan_at_root CHECK_HASH example_root 0)
          example_root 2 Child_state_ref.root_state 3 0 false
        = .returned chan1 true
      ∧ chan1._root_state = DONE
      ∧ (example_root.gen = small_config.INITIAL_GENERATION
          ∨ small_config.sha256_4k_t1 example_inner_block.t1 = example_root.hash →
          chan1 = { example_chan_at_root CHECK_HASH example_root 0 with
                    _root_state := DONE
                    _request := { (example_chan_at_root CHECK_HASH example_root 0)._request with
                                  _success := true } })
      ∧ (example_root.gen ≠ small_config.INITIAL_GENERATION →
          small_config.sha256_4k_t1 example_inner_block.t1 ≠ example_root.hash →
          chan1 = (_mark_req_failed (example_chan_at_root CHECK_HASH example_root 0) false).1)
      ∧ (example_root.gen ≠ small_config.INITIAL_GENERATION →
          (chan1._request._success = true
            ↔ small_config.sha256_4k_t1 example_inner_block.t1 = example_root.hash)) :=
  (C6_check_hash_step small_config (example_chan_at_root CHECK_HASH example_root 0) example_root
    false).2.2 2 3 0 { children_state := [DONE, DONE], children := example_inner_block.t1 }
    rfl rfl

/-! ## Free-tree check: the child selected by `_execute_check` -/

namespace Ft_check

open Child_state

theorem execute_check_levels_eq (c : Config) (chan : Ft_check_channel) (p : Bool) (count : Nat) :
    ∀ lvl : Nat,
      execute_check_levels c chan p lvl count
        = (find_target_levels c chan lvl count).map (fun t => execute_target c chan t p) := by
  induction count with
  | zero => intro lvl; rfl
  | succ n ih =>
    intro lvl
    simp only [execute_check_levels, find_target_levels]
    cases h1 : chan._t1_lvls[lvl]? with
    | none => simp [execute_target]
    | some t1_lvl =>
      simp only []
      cases h2 : scan_children t1_lvl.children_state 0 (chan._request._max_child_idx + 1) with
      | out_of_bounds => simp [execute_target]
      | all_done => simp [ih]
      | found i =>
        simp only []
        by_cases h3 : lvl = c.FT_LOWEST_T1_LVL
        · simp [h3, execute_target]
        · simp only [h3, if_false]
          cases h4 : t1_lvl.children[i]? with
          | none => simp [execute_target]
          | some child => simp [execute_target]

theorem execute_check_eq (c : Config) (chan : Ft_check_channel) (p : Bool) :
    _execute_check c chan p = execute_target c chan (find_target c chan) p := by
  simp only [_execute_check, find_target]
  cases h1 : scan_children chan._t2_lvl.children_state 0 (chan._request._max_child_idx + 1) with
  | out_of_bounds => simp [execute_target]
  | found i => simp [execute_target]
  | all_done =>
    simp only [execute_check_levels_eq]
    cases h2 : find_target_levels c chan c.FT_LOWEST_T1_LVL
        (chan._request._max_lvl + 1 - c.FT_LOWEST_T1_LVL) with
    | some t => simp
    | none =>
      by_cases h3 : chan._root_state = DONE
      · simp [h3, execute_target]
      · simp [h3, execute_target]

theorem scan_children_all_done (states : List Child_state) (count : Nat) :
    ∀ start : Nat,
      (∀ j, start ≤ j → j < start + count → states[j]? = some DONE) →
      scan_children states start count = Scan.all_done := by
  induction count with
  | zero => intro start _; rfl
  | succ n ih =>
    intro start h
    have h0 := h start (Nat.le_refl _) (by omega)
    simp only [scan_children, h0]
    simp only [ne_eq, not_true_eq_false, if_false]
    exact ih (start + 1) (fun j hj1 hj2 => h j (by omega) (by omega))

theorem scan_children_found (states : List Child_state) (i : Nat) (state : Child_state)
    (hi : states[i]? = some state) (hne : state ≠ DONE) (count : Nat) :
    ∀ start : Nat,
      (∀ j, start ≤ j → j < i → states[j]? = some DONE) →
      start ≤ i → i < start + count →
      scan_children states start count = Scan.found i := by
  induction count with
  | zero => intro start _ h1 h2; omega
  | succ n ih =>
    intro start h h1 h2
    by_cases he : start = i
    · subst he
      simp [scan_children, hi, hne]
    · have h0 := h start (Nat.le_refl _) (by omega)
      simp only [scan_children, h0]
      simp only [ne_eq, not_true_eq_false, if_false]
      exact ih (start + 1) (fun j hj1 hj2 => h j (by omega) hj2) (by omega) (by omega)

end Ft_check

/-! ## Free-tree check: a failed request stays as it is -/

namespace Ft_check

open Child_state

theorem mark_req_failed_idem (chan : Ft_check_channel) (p q : Bool) :
    (_mark_req_failed (_mark_req_failed chan p).1 q).1 = (_mark_req_failed chan p).1 := rfl

theorem execute_leaf_child_failed (chan : Ft_check_channel) (i : Nat) (p q : Bool) :
    _execute_leaf_child (_mark_req_failed chan q).1 i p
      = (_execute_leaf_child chan i p).map_state (fun s => (_mark_req_failed s q).1) := by
  unfold _execute_leaf_child
  simp only [_mark_req_failed]
  cases chan._t2_lvl.children[i]? <;> cases chan._t2_lvl.children_state[i]? <;>
    simp only [Outcome.map_state]
  split_ifs <;> simp [Outcome.map_state, set_t2_child_state]

theorem execute_inner_t2_child_failed (c : Config) (chan : Ft_check_channel) (lvl i : Nat)
    (p q : Bool) :
    _execute_inner_t2_child c (_mark_req_failed chan q).1 lvl i p
      = (_execute_inner_t2_child c chan lvl i p).map_state (fun s => (_mark_req_failed s q).1) := by
  unfold _execute_inner_t2_child
  simp only [_mark_req_failed]
  cases chan._t1_lvls[lvl]? with
  | none => simp [Outcome.map_state]
  | some t1_lvl =>
    simp only []
    cases t1_lvl.children_state[i]? <;> cases t1_lvl.children[i]? <;>
      simp only [Outcome.map_state]
    split_ifs <;> simp [Outcome.map_state, set_t1_child_state]

theorem execute_inner_t1_child_failed (c : Config) (chan : Ft_check_channel) (child : Type_1_node)
    (k lvl i a b : Nat) (p q : Bool) :
    _execute_inner_t1_child c (_mark_req_failed chan q).1 child k (Child_state_ref.t1_child lvl i)
        a b p
      = (_execute_inner_t1_child c chan child k (Child_state_ref.t1_child lvl i) a b p).map_state
          (fun s => (_mark_req_failed s q).1) := by
  unfold _execute_inner_t1_child
  simp only [_mark_req_failed, get_child_state]
  cases chan._t1_lvls[lvl]? with
  | none => simp [Outcome.map_state]
  | some t1_lvl =>
    simp only []
    cases t1_lvl.children_state[i]? <;> cases chan._t1_lvls[k]? <;>
      simp only [Outcome.map_state]
    split_ifs <;> first | contradiction | simp [Outcome.map_state, set_t1_child_state, set_child_state]


theorem find_target_levels_failed (c : Config) (chan : Ft_check_channel) (q : Bool) (count : Nat) :
    ∀ lvl : Nat, find_target_levels c (_mark_req_failed chan q).1 lvl count
      = find_target_levels c chan lvl count := by
  induction count with
  | zero => intro lvl; rfl
  | succ n ih =>
    intro lvl
    simp only [find_target_levels]
    rw [ih]
    rfl

theorem find_target_levels_kind (c : Config) (chan : Ft_check_channel) (count : Nat) :
    ∀ (lvl : Nat) (t : Target), find_target_levels c chan lvl count = some t →
      t = Target.out_of_bounds ∨ (∃ l i, t = Target.inner_t2 l i)
        ∨ (∃ l i child, t = Target.inner_t1 l i child) := by
  induction count with
  | zero => intro lvl t h; simp [find_target_levels] at h
  | succ n ih =>
    intro lvl t h
    simp only [find_target_levels] at h
    split at h
    · simp at h; exact Or.inl h.symm
    · split at h
      · simp at h; exact Or.inl h.symm
      · split at h
        · simp at h; exact Or.inr (Or.inl ⟨_, _, h.symm⟩)
        · split at h
          · simp at h; exact Or.inl h.symm
          · simp at h; exact Or.inr (Or.inr ⟨_, _, _, h.symm⟩)
      · exact ih _ t h

theorem find_target_failed (c : Config) (chan : Ft_check_channel) (q : Bool) :
    find_target c (_mark_req_failed chan q).1
      = match find_target c chan with
        | Target.root => Target.nothing
        | t => t := by
  simp only [find_target, find_target_levels_failed]
  simp only [_mark_req_failed]
  cases scan_children chan._t2_lvl.children_state 0 (chan._request._max_child_idx + 1) with
  | out_of_bounds => rfl
  | found i => rfl
  | all_done =>
    simp only []
    cases h : find_target_levels c chan c.FT_LOWEST_T1_LVL
        (chan._request._max_lvl + 1 - c.FT_LOWEST_T1_LVL) with
    | none =>
      by_cases h3 : chan._root_state = DONE <;> simp [h3]
    | some t =>
      rcases find_target_levels_kind c chan _ _ t h with h1 | ⟨l, i, h1⟩ | ⟨l, i, child, h1⟩ <;>
        subst h1 <;> rfl

theorem execute_target_progress (c : Config) (chan : Ft_check_channel) (t : Target) (p : Bool) :
    execute_target c chan t p
      = match execute_target c chan t false with
        | .returned s a => .returned s (p || a)
        | .raised s e => .raised s e := by
  cases t with
  | leaf i =>
    simp only [execute_target, _execute_leaf_child, _mark_req_failed]
    cases chan._t2_lvl.children[i]? <;> cases chan._t2_lvl.children_state[i]? <;> simp only []
    split_ifs <;> simp
  | inner_t2 lvl i =>
    simp only [execute_target, _execute_inner_t2_child, _mark_req_failed]
    cases chan._t1_lvls[lvl]? with
    | none => simp
    | some t1_lvl =>
      simp only []
      cases t1_lvl.children_state[i]? <;> cases t1_lvl.children[i]? <;> simp only []
      split_ifs <;> simp
  | inner_t1 lvl i child =>
    simp only [execute_target, _execute_inner_t1_child, _mark_req_failed]
    cases get_child_state chan (Child_state_ref.t1_child lvl i) <;>
      cases chan._t1_lvls[lvl - 1]? <;> simp only []
    split_ifs <;> simp
  | root =>
    simp only [execute_target, _execute_inner_t1_child, _mark_req_failed]
    cases get_child_state chan Child_state_ref.root_state <;>
      cases chan._t1_lvls[chan._request._max_lvl]? <;> simp only []
    split_ifs <;> simp
  | nothing => simp [execute_target]
  | out_of_bounds => simp [execute_target]

theorem execute_check_failed_stable (c : Config) (chan : Ft_check_channel) (p p1 q : Bool)
    (h : _execute_check c chan p = .returned (_mark_req_failed chan q).1 p1) (p2 : Bool) :
    ∃ p3 : Bool,
      _execute_check c (_mark_req_failed chan q).1 p2 = .returned (_mark_req_failed chan q).1 p3 := by
  rw [execute_check_eq] at h
  rw [execute_check_eq, find_target_failed]
  rw [execute_target_progress] at h
  cases ht : find_target c chan with
  | leaf i =>
    rw [ht] at h
    simp only [execute_target] at h ⊢
    rw [execute_leaf_child_failed]
    have hp := execute_target_progress c chan (Target.leaf i) p2
    simp only [execute_target] at hp
    rw [hp]
    cases h0 : _execute_leaf_child chan i false with
    | raised s e => simp [h0] at h
    | returned s a =>
      simp only [h0, Outcome.returned.injEq] at h
      refine ⟨p2 || a, ?_⟩
      simp only [Outcome.map_state, h.1]
      rfl
  | inner_t2 lvl i =>
    rw [ht] at h
    simp only [execute_target] at h ⊢
    rw [execute_inner_t2_child_failed]
    have hp := execute_target_progress c chan (Target.inner_t2 lvl i) p2
    simp only [execute_target] at hp
    rw [hp]
    cases h0 : _execute_inner_t2_child c chan lvl i false with
    | raised s e => simp [h0] at h
    | returned s a =>
      simp only [h0, Outcome.returned.injEq] at h
      refine ⟨p2 || a, ?_⟩
      simp only [Outcome.map_state, h.1]
      rfl
  | inner_t1 lvl i child =>
    rw [ht] at h
    simp only [execute_target] at h ⊢
    rw [execute_inner_t1_child_failed]
    have hp := execute_target_progress c chan (Target.inner_t1 lvl i child) p2
    simp only [execute_target] at hp
    rw [hp]
    cases h0 : _execute_inner_t1_child c chan child (lvl - 1) (Child_state_ref.t1_child lvl i)
        lvl i false with
    | raised s e => simp [h0] at h
    | returned s a =>
      simp only [h0, Outcome.returned.injEq] at h
      refine ⟨p2 || a, ?_⟩
      simp only [Outcome.map_state, h.1]
      rfl
  | root => exact ⟨p2, rfl⟩
  | nothing => exact ⟨p2, rfl⟩
  | out_of_bounds =>
    rw [ht] at h
    simp [execute_target] at h

end Ft_check

namespace Ft_check

open Child_state

theorem execute_single (c : Config) (chan : Ft_check_channel) (p : Bool)
    (htype : chan._request._type = Ft_check_request_type.CHECK) :
    execute c { _channels := [chan] } p
      = (_execute_check c chan p).map_state (fun ch => { _channels := [ch] }) := by
  simp only [execute, execute_channels, htype]
  cases _execute_check c chan p <;> simp [Outcome.map_state, execute_channels]

theorem execute_check_of_check_fails (c : Config) (chan : Ft_check_channel)
    (hfail : check_fails c chan = true) (p : Bool) :
    _execute_check c chan p = .returned (_mark_req_failed chan p).1 true := by
  rw [execute_check_eq]
  unfold check_fails at hfail
  cases ht : find_target c chan with
  | leaf i =>
    simp only [ht] at hfail
    simp only [execute_target, _execute_leaf_child]
    cases h1 : chan._t2_lvl.children[i]? <;> cases h2 : chan._t2_lvl.children_state[i]? <;>
      simp only [h1, h2] at hfail <;> first | exact absurd hfail Bool.false_ne_true | skip
    simp only [Bool.and_eq_true, beq_iff_eq] at hfail
    simp [hfail.1.1, hfail.1.2, hfail.2, _mark_req_failed]
  | inner_t2 lvl i =>
    simp only [ht] at hfail
    simp only [execute_target, _execute_inner_t2_child]
    cases h0 : chan._t1_lvls[lvl]? with
    | none => simp [h0] at hfail
    | some t1_lvl =>
      simp only [h0] at hfail
      cases h1 : t1_lvl.children_state[i]? <;> cases h2 : t1_lvl.children[i]? <;>
        simp only [h1, h2] at hfail <;> first | exact absurd hfail Bool.false_ne_true | skip
      simp only [inner_child_fails, Bool.or_eq_true, Bool.and_eq_true, beq_iff_eq,
        Bool.not_eq_true', bne_iff_ne, ne_eq] at hfail
      rcases hfail with ⟨⟨hs, hv⟩, hn⟩ | ⟨⟨hs, hg⟩, hh⟩
      · simp [h0, h1, h2, hs, hv, hn, _mark_req_failed]
      · simp [h0, h1, h2, hs, hg, hh, _mark_req_failed, check_sha256_4k_hash]
  | inner_t1 lvl i child =>
    simp only [ht] at hfail
    simp only [execute_target, _execute_inner_t1_child]
    cases h1 : get_child_state chan (Child_state_ref.t1_child lvl i) <;>
      cases h2 : chan._t1_lvls[lvl - 1]? <;>
      simp only [h1, h2] at hfail <;> first | exact absurd hfail Bool.false_ne_true | skip
    simp only [inner_child_fails, Bool.or_eq_true, Bool.and_eq_true, beq_iff_eq,
      Bool.not_eq_true', bne_iff_ne, ne_eq] at hfail
    rcases hfail with ⟨⟨hs, hv⟩, hn⟩ | ⟨⟨hs, hg⟩, hh⟩
    · simp [h1, h2, hs, hv, hn, _mark_req_failed]
    · simp [h1, h2, hs, hg, hh, _mark_req_failed, check_sha256_4k_hash]
  | root =>
    simp only [ht] at hfail
    simp only [execute_target, _execute_inner_t1_child, get_child_state]
    cases h2 : chan._t1_lvls[chan._request._max_lvl]? <;>
      simp only [h2] at hfail <;> first | exact absurd hfail Bool.false_ne_true | skip
    simp only [inner_child_fails, Bool.or_eq_true, Bool.and_eq_true, beq_iff_eq,
      Bool.not_eq_true', bne_iff_ne, ne_eq] at hfail
    rcases hfail with ⟨⟨hs, hv⟩, hn⟩ | ⟨⟨hs, hg⟩, hh⟩
    · simp [h2, hs, hv, hn, _mark_req_failed]
    · simp [h2, hs, hg, hh, _mark_req_failed, check_sha256_4k_hash]
  | nothing => simp [ht] at hfail
  | out_of_bounds => simp [ht] at hfail

theorem execute_times_stable (c : Config) (chan : Ft_check_channel)
    (htype : chan._request._type = Ft_check_request_type.CHECK)
    (hstable : ∀ p : Bool, ∃ p1 : Bool, _execute_check c chan p = .returned chan p1) (calls : Nat) :
    ∀ p : Bool, ∃ p1 : Bool,
      execute_times c calls { _channels := [chan] } p = .returned { _channels := [chan] } p1 := by
  induction calls with
  | zero => intro p; exact ⟨p, rfl⟩
  | succ n ih =>
    intro p
    obtain ⟨p1, h1⟩ := hstable p
    obtain ⟨p2, h2⟩ := ih p1
    refine ⟨p2, ?_⟩
    simp [execute_times, execute_single c chan p htype, h1, Outcome.map_state, Outcome.and_then, h2]

end Ft_check

open Ft_check Child_state in
/-- C7: when the check of the selected child fails (an invalid node while leaves
are still expected, a valid leaf while none is expected, or a hash mismatch),
`execute` sets the success flag of the request to `false` and the root state to
`DONE` and changes nothing else; `_peek_completed_request` then reports the
request; and any number of later `execute` calls leave the channel exactly as it
is (no child state, leaf counter, success flag or generated primitive changes),
so that with no generated request pending `_peek_generated_request` returns
`false`. -/
theorem C7_failure_is_final (c : Config) (chan : Ft_check_channel) (buf_size : Nat) (p : Bool)
    (hbuf : c.sizeof_ft_check_request ≤ buf_size)
    (htype : chan._request._type = Ft_check_request_type.CHECK)
    (hfail : check_fails c chan = true) :
    ∃ chan1 : Ft_check_channel,
      execute c { _channels := [chan] } p = .returned { _channels := [chan1] } true
      ∧ chan1 = { chan with _request := { chan._request with _success := false }
                            _root_state := DONE }
      ∧ _peek_completed_request c { _channels := [chan1] } buf_size
          = .returned { _channels := [chan1] } (some chan1._request)
      ∧ (∀ (calls : Nat) (p1 : Bool), ∃ p2 : Bool,
          execute_times c calls { _channels := [chan1] } p1
            = .returned { _channels := [chan1] } p2)
      ∧ (chan._gen_prim.valid = false ∨ chan._gen_prim.dropped = true →
          ∀ buf_size1 : Nat,
            _peek_generated_request c { _channels := [chan1] } buf_size1
              = .returned { _channels := [chan1] } none) := by
  have hex := execute_check_of_check_fails c chan hfail p
  have hb : ¬ (buf_size < c.sizeof_ft_check_request) := Nat.not_lt.mpr hbuf
  refine ⟨(_mark_req_failed chan p).1, ?_, rfl, ?_, ?_, ?_⟩
  · rw [execute_single c chan p htype, hex]; rfl
  · simp [_peek_completed_request, peek_channels, _mark_req_failed, htype, hb]
  · intro calls p1
    exact execute_times_stable c (_mark_req_failed chan p).1 htype
      (fun q => execute_check_failed_stable c chan p true p hex q) calls p1
  · intro hgen buf_size1
    rcases hgen with h | h <;>
      simp [_peek_generated_request, peek_generated_channels, _mark_req_failed, h]

open Ft_check Child_state in
/-- Witness of C7: child 0 of level 2 is in state `CHECK_HASH` with a stored
hash that does not match the leaf block read for it. -/
theorem C7_failure_is_final_witness :
    ∃ chan1 : Ft_check_channel,
      execute small_config { _channels := [example_chan_at_child CHECK_HASH (example_node 20 0) 1] }
          false = .returned { _channels := [chan1] } true
      ∧ chan1 = { example_chan_at_child CHECK_HASH (example_node 20 0) 1 with
                  _request := { (example_chan_at_child CHECK_HASH (example_node 20 0) 1)._request
                                with _success := false }
                  _root_state := DONE }
      ∧ _peek_completed_request small_config { _channels := [chan1] } 128
          = .returned { _channels := [chan1] } (some chan1._request)
      ∧ (∀ (calls : Nat) (p1 : Bool), ∃ p2 : Bool,
          execute_times small_config calls { _channels := [chan1] } p1
            = .returned { _channels := [chan1] } p2)
      ∧ ((example_chan_at_child CHECK_HASH (example_node 20 0) 1)._gen_prim.valid = false
          ∨ (example_chan_at_child CHECK_HASH (example_node 20 0) 1)._gen_prim.dropped = true →
          ∀ buf_size1 : Nat,
            _peek_generated_request small_config { _channels := [chan1] } buf_size1
              = .returned { _channels := [chan1] } none) :=
  C7_failure_is_final small_config (example_chan_at_child CHECK_HASH (example_node 20 0) 1) 128
    false (by decide) rfl (by decide)

/-! ## Free-tree check: following a run -/

namespace Ft_check

open Child_state

theorem find_target_levels_none (c : Config) (chan : Ft_check_channel) (count : Nat) :
    ∀ start : Nat,
      (∀ l, start ≤ l → l < start + count → level_done chan l) →
      find_target_levels c chan start count = none := by
  induction count with
  | zero => intro start _; rfl
  | succ n ih =>
    intro start h
    obtain ⟨lv, hlv, hdone⟩ := h start (Nat.le_refl _) (by omega)
    simp only [find_target_levels, hlv]
    rw [scan_children_all_done lv.children_state _ 0 (fun j _ hj => hdone j (by omega))]
    exact ih (start + 1) (fun l h1 h2 => h l (by omega) (by omega))

theorem find_target_levels_found (c : Config) (chan : Ft_check_channel) (lvl i : Nat)
    (lv : Type_1_level) (state : Child_state) (child : Type_1_node)
    (hlv : chan._t1_lvls[lvl]? = some lv)
    (hbefore : ∀ j, j < i → lv.children_state[j]? = some DONE)
    (hstate : lv.children_state[i]? = some state) (hne : state ≠ DONE)
    (hchild : lv.children[i]? = some child)
    (hi : i ≤ chan._request._max_child_idx) (count : Nat) :
    ∀ start : Nat,
      (∀ l, start ≤ l → l < lvl → level_done chan l) →
      start ≤ lvl → lvl < start + count →
      find_target_levels c chan start count
        = some (if lvl = c.FT_LOWEST_T1_LVL then Target.inner_t2 lvl i
                else Target.inner_t1 lvl i child) := by
  induction count with
  | zero => intro start _ h1 h2; omega
  | succ n ih =>
    intro start h h1 h2
    by_cases he : start = lvl
    · subst he
      simp only [find_target_levels, hlv]
      rw [scan_children_found lv.children_state i state hstate hne _ 0
        (fun j _ hj => hbefore j hj) (Nat.zero_le _) (by omega)]
      by_cases hl : start = c.FT_LOWEST_T1_LVL
      · simp [hl]
      · simp [hl, hchild]
    · obtain ⟨lv0, hlv0, hdone⟩ := h start (Nat.le_refl _) (by omega)
      simp only [find_target_levels, hlv0]
      rw [scan_children_all_done lv0.children_state _ 0 (fun j _ hj => hdone j (by omega))]
      exact ih (start + 1) (fun l h3 h4 => h l (by omega) h4) (by omega) (by omega)

theorem find_target_leaf (c : Config) (chan : Ft_check_channel) (i : Nat) (state : Child_state)
    (hbefore : ∀ j, j < i → chan._t2_lvl.children_state[j]? = some DONE)
    (hstate : chan._t2_lvl.children_state[i]? = some state) (hne : state ≠ DONE)
    (hi : i ≤ chan._request._max_child_idx) :
    find_target c chan = Target.leaf i := by
  simp only [find_target]
  rw [scan_children_found chan._t2_lvl.children_state i state hstate hne _ 0
    (fun j _ hj => hbefore j hj) (Nat.zero_le _) (by omega)]

theorem find_target_inner (c : Config) (chan : Ft_check_channel) (lvl i : Nat)
    (lv : Type_1_level) (state : Child_state) (child : Type_1_node)
    (hleaves : all_done chan._request._max_child_idx chan._t2_lvl.children_state)
    (hbelow : ∀ l, c.FT_LOWEST_T1_LVL ≤ l → l < lvl → level_done chan l)
    (hlow : c.FT_LOWEST_T1_LVL ≤ lvl) (hmax : lvl ≤ chan._request._max_lvl)
    (hlv : chan._t1_lvls[lvl]? = some lv)
    (hbefore : ∀ j, j < i → lv.children_state[j]? = some DONE)
    (hstate : lv.children_state[i]? = some state) (hne : state ≠ DONE)
    (hchild : lv.children[i]? = some child)
    (hi : i ≤ chan._request._max_child_idx) :
    find_target c chan
      = if lvl = c.FT_LOWEST_T1_LVL then Target.inner_t2 lvl i
        else Target.inner_t1 lvl i child := by
  simp only [find_target]
  rw [scan_children_all_done chan._t2_lvl.children_state _ 0 (fun j _ hj => hleaves j (by omega))]
  simp only []
  rw [find_target_levels_found c chan lvl i lv state child hlv hbefore hstate hne hchild hi _ _
    hbelow hlow (by omega)]

theorem find_target_top (c : Config) (chan : Ft_check_channel)
    (hleaves : all_done chan._request._max_child_idx chan._t2_lvl.children_state)
    (hbelow : ∀ l, c.FT_LOWEST_T1_LVL ≤ l → l < chan._request._max_lvl + 1 → level_done chan l) :
    find_target c chan = if chan._root_state ≠ DONE then Target.root else Target.nothing := by
  simp only [find_target]
  rw [scan_children_all_done chan._t2_lvl.children_state _ 0 (fun j _ hj => hleaves j (by omega))]
  simp only []
  rw [find_target_levels_none c chan _ _ (fun l h1 h2 => hbelow l h1 (by omega))]

end Ft_check

namespace Ft_check

open Child_state

theorem drive_step_no_read (c : Config) (store : Block_store) (buf_size : Nat)
    (chan chan1 : Ft_check_channel) (p : Bool)
    (htype : chan._request._type = Ft_check_request_type.CHECK)
    (hex : _execute_check c chan false = .returned chan1 p)
    (hq : chan1._gen_prim.valid = false ∨ chan1._gen_prim.dropped = true) :
    drive_step c store buf_size { _channels := [chan] } = .returned { _channels := [chan1] } p := by
  simp only [drive_step, execute_single c chan false htype, hex, Outcome.map_state,
    Outcome.and_then]
  rcases hq with h | h <;>
    simp [_peek_generated_request, peek_generated_channels, h, Outcome.and_then]

theorem drive_step_read (c : Config) (store : Block_store) (buf_size : Nat)
    (chan chan1 : Ft_check_channel) (p : Bool)
    (htype : chan._request._type = Ft_check_request_type.CHECK)
    (hbuf : c.sizeof_block_io_request ≤ buf_size)
    (hex : _execute_check c chan false = .returned chan1 p)
    (htag : chan1._gen_prim.tag = Primitive_tag.BLOCK_IO)
    (hdropped : chan1._gen_prim.dropped = false)
    (hlvl : chan1._lvl_to_read = 1 ∨ chan1._lvl_to_read < chan1._t1_lvls.length) :
    drive_step c store buf_size { _channels := [chan] }
      = .returned { _channels := [after_read store chan1] } p := by
  have hb : ¬ (buf_size < c.sizeof_block_io_request) := Nat.not_lt.mpr hbuf
  have hv : chan1._gen_prim.valid = true := by simp [Generated_primitive.valid, htag]
  simp only [drive_step, execute_single c chan false htype, hex, Outcome.map_state,
    Outcome.and_then]
  by_cases h1 : chan1._lvl_to_read = 1
  · simp [_peek_generated_request, peek_generated_channels, hv, hdropped, htag, h1, hb,
      Outcome.and_then, _drop_generated_request, NR_OF_CHANNELS, read_into,
      generated_request_complete, after_read]
  · have h2 : ¬ (chan1._t1_lvls.length ≤ chan1._lvl_to_read) := by
      rcases hlvl with h | h
      · exact absurd h h1
      · omega
    simp [_peek_generated_request, peek_generated_channels, hv, hdropped, htag, h1, h2, hb,
      Outcome.and_then, _drop_generated_request, NR_OF_CHANNELS, read_into,
      generated_request_complete, after_read]

theorem reaches_refl (c : Config) (store : Block_store) (buf_size : Nat)
    (chan : Ft_check_channel) : reaches c store buf_size chan chan :=
  ⟨0, rfl⟩

theorem drive_add (c : Config) (store : Block_store) (buf_size : Nat) (a b : Nat) :
    ∀ ft : Ft_check,
      drive c store buf_size (a + b) ft
        = (drive c store buf_size a ft).and_then (fun ft1 _ => drive c store buf_size b ft1) := by
  induction a with
  | zero => intro ft; simp [drive, Outcome.and_then]
  | succ n ih =>
    intro ft
    have e : n + 1 + b = (n + b) + 1 := by omega
    rw [e]
    simp only [drive]
    cases drive_step c store buf_size ft with
    | raised s e => rfl
    | returned s p => simp only [Outcome.and_then]; exact ih s

theorem reaches_trans (c : Config) (store : Block_store) (buf_size : Nat)
    (chan chan1 chan2 : Ft_check_channel)
    (h1 : reaches c store buf_size chan chan1) (h2 : reaches c store buf_size chan1 chan2) :
    reaches c store buf_size chan chan2 := by
  obtain ⟨a, ha⟩ := h1
  obtain ⟨b, hb⟩ := h2
  exact ⟨a + b, by rw [drive_add, ha]; exact hb⟩

theorem reaches_step (c : Config) (store : Block_store) (buf_size : Nat)
    (chan chan1 : Ft_check_channel) (p : Bool)
    (h : drive_step c store buf_size { _channels := [chan] }
      = .returned { _channels := [chan1] } p) :
    reaches c store buf_size chan chan1 :=
  ⟨1, by simp [drive, h, Outcome.and_then]⟩

theorem drive_stable (c : Config) (store : Block_store) (buf_size : Nat)
    (chan : Ft_check_channel) (p : Bool)
    (h : drive_step c store buf_size { _channels := [chan] }
      = .returned { _channels := [chan] } p) (rounds : Nat) :
    drive c store buf_size rounds { _channels := [chan] } = .returned { _channels := [chan] } () := by
  induction rounds with
  | zero => rfl
  | succ n ih => simp [drive, h, Outcome.and_then, ih]

end Ft_check

namespace Ft_check

open Child_state

theorem failed_of_check_fails (c : Config) (store : Block_store) (buf_size : Nat)
    (chan : Ft_check_channel)
    (htype : chan._request._type = Ft_check_request_type.CHECK)
    (hgen : chan._gen_prim.valid = false)
    (hfail : check_fails c chan = true) :
    reaches c store buf_size chan (_mark_req_failed chan false).1
      ∧ failed_for_good c store buf_size (_mark_req_failed chan false).1 := by
  have hex := execute_check_of_check_fails c chan hfail false
  have hstep := drive_step_no_read c store buf_size chan _ true htype hex (Or.inl hgen)
  obtain ⟨p3, hex2⟩ := execute_check_failed_stable c chan false true false hex false
  have hstep2 := drive_step_no_read c store buf_size (_mark_req_failed chan false).1 _ p3 htype
    hex2 (Or.inl hgen)
  exact ⟨reaches_step c store buf_size _ _ true hstep, htype, rfl, rfl, p3, hstep2⟩

theorem tree_children_drop {α : Type} (max_child_idx : Nat) (nodes : List α) (i : Nat) (a : α)
    (hi : i ≤ max_child_idx) (ha : nodes[i]? = some a) :
    (tree_children max_child_idx nodes).drop i
      = a :: (tree_children max_child_idx nodes).drop (i + 1) := by
  have hlt : i < nodes.length := lt_length_of_getElem?_eq_some ha
  have hlt2 : i < (tree_children max_child_idx nodes).length := by
    simp only [tree_children, List.length_take]; omega
  rw [List.drop_eq_getElem_cons hlt2]
  congr 1
  have h1 : (tree_children max_child_idx nodes)[i]? = some a := by
    simp only [tree_children]
    rw [List.getElem?_take_of_lt (by omega)]
    exact ha
  rw [List.getElem?_eq_getElem hlt2] at h1
  exact Option.some.inj h1

theorem tree_children_drop_all {α : Type} (max_child_idx : Nat) (nodes : List α) :
    (tree_children max_child_idx nodes).drop (max_child_idx + 1) = [] := by
  apply List.drop_eq_nil_of_le
  simp only [tree_children, List.length_take]
  omega

theorem leaves_run (c : Config) (store : Block_store) (buf_size : Nat) (count : Nat) :
    ∀ (i : Nat) (chan : Ft_check_channel),
      chan._request._type = Ft_check_request_type.CHECK →
      chan._gen_prim = default_gen_prim →
      i + count = chan._request._max_child_idx + 1 →
      (∀ j, j < i → chan._t2_lvl.children_state[j]? = some DONE) →
      (∀ j, i ≤ j → j ≤ chan._request._max_child_idx →
        chan._t2_lvl.children_state[j]? = some READ_BLOCK) →
      chan._request._max_child_idx < chan._t2_lvl.children.length →
      ∃ chan1 : Ft_check_channel,
        reaches c store buf_size chan chan1
        ∧ (check_leaves ((tree_children chan._request._max_child_idx chan._t2_lvl.children).drop i)
              chan._nr_of_leaves = none →
            failed_for_good c store buf_size chan1)
        ∧ (∀ n1 : Nat,
            check_leaves ((tree_children chan._request._max_child_idx chan._t2_lvl.children).drop i)
              chan._nr_of_leaves = some n1 →
            chan1._nr_of_leaves = n1
            ∧ all_done chan._request._max_child_idx chan1._t2_lvl.children_state
            ∧ chan1._t2_lvl.children = chan._t2_lvl.children
            ∧ chan1._t1_lvls = chan._t1_lvls ∧ chan1._request = chan._request
            ∧ chan1._root_state = chan._root_state ∧ chan1._gen_prim = default_gen_prim) := by
  induction count with
  | zero =>
    intro i chan _ hgen hi hbefore _ _
    have hi1 : i = chan._request._max_child_idx + 1 := by omega
    refine ⟨chan, reaches_refl _ _ _ _, ?_, ?_⟩
    · rw [hi1, tree_children_drop_all]; simp [check_leaves]
    · intro n1 h
      rw [hi1, tree_children_drop_all] at h
      simp only [check_leaves, Option.some.injEq] at h
      exact ⟨h, fun j hj => hbefore j (by omega), rfl, rfl, rfl, rfl, hgen⟩
  | succ n ih =>
    intro i chan htype hgen hi hbefore hrest hlen
    have hile : i ≤ chan._request._max_child_idx := by omega
    have hstate := hrest i (Nat.le_refl _) hile
    have hilt : i < chan._t2_lvl.children.length := by omega
    have hleaf : chan._t2_lvl.children[i]? = some chan._t2_lvl.children[i] :=
      List.getElem?_eq_getElem hilt
    generalize chan._t2_lvl.children[i] = leaf at hleaf
    have htarget := find_target_leaf c chan i READ_BLOCK hbefore hstate (by decide) hile
    have hgv : chan._gen_prim.valid = false := by rw [hgen]; rfl
    rw [tree_children_drop _ _ i leaf hile hleaf]
    have hslt := lt_length_of_getElem?_eq_some hstate
    by_cases hn : chan._nr_of_leaves = 0
    · cases hv : leaf.valid with
      | true =>
        have hfail : check_fails c chan = true := by
          simp [check_fails, htarget, hleaf, hstate, hn, hv]
        obtain ⟨hr, hf⟩ := failed_of_check_fails c store buf_size chan htype hgv hfail
        refine ⟨_, hr, fun _ => hf, ?_⟩
        intro n1 h
        simp [check_leaves, hn, hv] at h
      | false =>
        have hex : _execute_check c chan false
            = .returned (set_t2_child_state chan i DONE) true := by
          rw [execute_check_eq, htarget]
          simp [execute_target, _execute_leaf_child, hleaf, hstate, hn, hv]
        have hstep := drive_step_no_read c store buf_size chan _ true htype hex (Or.inl hgv)
        obtain ⟨chan1, hr, hnone, hsome⟩ := ih (i + 1) (set_t2_child_state chan i DONE) htype hgen
          (by simp only [set_t2_child_state]; omega)
          (by
            intro j hj
            simp only [set_t2_child_state]
            by_cases hji : j = i
            · subst hji; simp [hslt]
            · rw [List.getElem?_set_ne (Ne.symm hji)]; exact hbefore j (by omega))
          (by
            intro j hj1 hj2
            simp only [set_t2_child_state]
            rw [List.getElem?_set_ne (by omega)]
            exact hrest j (by omega) hj2)
          hlen
        refine ⟨chan1, reaches_trans _ _ _ _ _ _ (reaches_step _ _ _ _ _ true hstep) hr, ?_, ?_⟩
        · intro h
          apply hnone
          simpa [check_leaves, hn, hv, set_t2_child_state] using h
        · intro n1 h
          have h1 := hsome n1 (by simpa [check_leaves, hn, hv, set_t2_child_state] using h)
          exact h1
    · have hex : _execute_check c chan false
          = .returned (set_t2_child_state
              { chan with _nr_of_leaves := chan._nr_of_leaves - 1 } i DONE) true := by
        rw [execute_check_eq, htarget]
        simp [execute_target, _execute_leaf_child, hleaf, hstate, hn]
      have hstep := drive_step_no_read c store buf_size chan _ true htype hex (Or.inl hgv)
      obtain ⟨chan1, hr, hnone, hsome⟩ := ih (i + 1)
        (set_t2_child_state { chan with _nr_of_leaves := chan._nr_of_leaves - 1 } i DONE)
        htype hgen
        (by simp only [set_t2_child_state]; omega)
        (by
          intro j hj
          simp only [set_t2_child_state]
          by_cases hji : j = i
          · subst hji; simp [hslt]
          · rw [List.getElem?_set_ne (Ne.symm hji)]; exact hbefore j (by omega))
        (by
          intro j hj1 hj2
          simp only [set_t2_child_state]
          rw [List.getElem?_set_ne (by omega)]
          exact hrest j (by omega) hj2)
        hlen
      refine ⟨chan1, reaches_trans _ _ _ _ _ _ (reaches_step _ _ _ _ _ true hstep) hr, ?_, ?_⟩
      · intro h
        apply hnone
        simpa [check_leaves, hn, set_t2_child_state] using h
      · intro n1 h
        have h1 := hsome n1 (by simpa [check_leaves, hn, set_t2_child_state] using h)
        exact h1

end Ft_check

namespace Ft_check

open Child_state

theorem children_run (c : Config) (store : Block_store) (buf_size : Nat) (depth : Nat)
    (hnode : node_run_holds c store buf_size depth) (count : Nat) :
    ∀ (j : Nat) (chan : Ft_check_channel) (lv : Type_1_level),
      chan._request._type = Ft_check_request_type.CHECK →
      store_has_children store chan._request._max_child_idx →
      depth + 2 ≤ chan._request._max_lvl →
      quiet_below c chan (depth + 2) →
      chan._t1_lvls[depth + 2]? = some lv →
      j + count = chan._request._max_child_idx + 1 →
      (∀ k, k < j → lv.children_state[k]? = some DONE) →
      (∀ k, j ≤ k → k ≤ chan._request._max_child_idx →
        lv.children_state[k]? = some READ_BLOCK) →
      chan._request._max_child_idx < lv.children.length →
      ∃ chan1 : Ft_check_channel,
        reaches c store buf_size chan chan1
        ∧ (check_children (check_node c store chan._request._max_child_idx depth)
              ((tree_children chan._request._max_child_idx lv.children).drop j)
              chan._nr_of_leaves = none →
            failed_for_good c store buf_size chan1)
        ∧ (∀ n1 : Nat,
            check_children (check_node c store chan._request._max_child_idx depth)
              ((tree_children chan._request._max_child_idx lv.children).drop j)
              chan._nr_of_leaves = some n1 →
            chan1._nr_of_leaves = n1
            ∧ quiet_below c chan1 (depth + 3)
            ∧ chan1._request = chan._request
            ∧ chan1._root_state = chan._root_state
            ∧ (∀ l, depth + 2 < l → chan1._t1_lvls[l]? = chan._t1_lvls[l]?)
            ∧ ∃ lv1 : Type_1_level, chan1._t1_lvls[depth + 2]? = some lv1
                ∧ lv1.children = lv.children) := by
  induction count with
  | zero =>
    intro j chan lv _ _ _ hq hlv hj hbefore _ _
    have hj1 : j = chan._request._max_child_idx + 1 := by omega
    refine ⟨chan, reaches_refl _ _ _ _, ?_, ?_⟩
    · rw [hj1, tree_children_drop_all]; simp [check_children]
    · intro n1 h
      rw [hj1, tree_children_drop_all] at h
      simp only [check_children, Option.some.injEq] at h
      refine ⟨h, ⟨hq.1, hq.2.1, ?_⟩, rfl, rfl, fun _ _ => rfl, lv, hlv, rfl⟩
      intro l h1 h2
      by_cases hl : l = depth + 2
      · subst hl
        exact ⟨lv, hlv, fun k hk => hbefore k (by omega)⟩
      · exact hq.2.2 l h1 (by omega)
  | succ n ih =>
    intro j chan lv htype hstore hmax hq hlv hj hbefore hrest hlen
    have hjle : j ≤ chan._request._max_child_idx := by omega
    have hstate := hrest j (Nat.le_refl _) hjle
    have hjlt : j < lv.children.length := by omega
    have hchild : lv.children[j]? = some lv.children[j] := List.getElem?_eq_getElem hjlt
    generalize lv.children[j] = node at hchild
    rw [tree_children_drop _ _ j node hjle hchild]
    obtain ⟨chan1, hr1, hnone1, hsome1⟩ :=
      hnode chan j lv node htype hstore hmax hq hlv hbefore hstate hchild hjle
    have hslt := lt_length_of_getElem?_eq_some hstate
    cases hc : check_node c store chan._request._max_child_idx depth node chan._nr_of_leaves with
    | none =>
      refine ⟨chan1, hr1, fun _ => hnone1 hc, ?_⟩
      intro n1 h
      simp [check_children, hc] at h
    | some n2 =>
      obtain ⟨hn, hq1, hreq, hroot, habove, hlevel⟩ := hsome1 n2 hc
      obtain ⟨chan2, hr2, hnone2, hsome2⟩ := ih (j + 1) chan1
        { lv with children_state := lv.children_state.set j DONE }
        (by rw [hreq]; exact htype) (by rw [hreq]; exact hstore) (by rw [hreq]; exact hmax)
        hq1 hlevel (by rw [hreq]; omega)
        (by
          intro k hk
          by_cases hkj : k = j
          · subst hkj; simp [hslt]
          · simp only []
            rw [List.getElem?_set_ne (Ne.symm hkj)]; exact hbefore k (by omega))
        (by
          intro k hk1 hk2
          simp only []
          rw [List.getElem?_set_ne (by omega)]
          exact hrest k (by omega) (by rw [hreq] at hk2; exact hk2))
        (by rw [hreq]; exact hlen)
      rw [hreq, hn] at hnone2 hsome2
      simp only [] at hnone2 hsome2
      refine ⟨chan2, reaches_trans _ _ _ _ _ _ hr1 hr2, ?_, ?_⟩
      · intro h
        apply hnone2
        simpa [check_children, hc] using h
      · intro n1 h
        obtain ⟨h1, h2, h3, h4, h5, lv1, h6, h7⟩ :=
          hsome2 n1 (by simpa [check_children, hc] using h)
        exact ⟨h1, h2, h3, h4.trans hroot,
          fun l hl => (h5 l hl).trans (habove l hl), lv1, h6, h7⟩

end Ft_check

namespace Ft_check

open Child_state

theorem reset_children_state_getElem? (states : List Child_state) (j : Nat)
    (h : j < states.length) : (reset_children_state states)[j]? = some READ_BLOCK := by
  unfold reset_children_state
  rw [List.getElem?_map, List.getElem?_eq_getElem h]
  rfl

theorem all_done_length {max_child_idx : Nat} {states : List Child_state}
    (h : all_done max_child_idx states) : max_child_idx < states.length :=
  lt_length_of_getElem?_eq_some (h max_child_idx (Nat.le_refl _))

theorem node_run_zero (c : Config) (store : Block_store) (buf_size : Nat)
    (hlow : c.FT_LOWEST_T1_LVL = 2) (hbuf : c.sizeof_block_io_request ≤ buf_size) :
    node_run_holds c store buf_size 0 := by
  intro chan i lv node htype hstore hmax hq hlv hbefore hstate hchild hi
  obtain ⟨hgen, hleaves, hbelow⟩ := hq
  have hslt := lt_length_of_getElem?_eq_some hstate
  have hgv : chan._gen_prim.valid = false := by rw [hgen]; rfl
  have htarget : find_target c chan = Target.inner_t2 2 i := by
    rw [find_target_inner c chan 2 i lv READ_BLOCK node hleaves hbelow (by omega) hmax hlv hbefore
      hstate (by decide) hchild hi]
    simp [hlow]
  cases hv : node.valid with
  | false =>
    by_cases hn : chan._nr_of_leaves = 0
    · have hex : _execute_check c chan false
          = .returned (set_t1_child_state chan 2 i DONE) true := by
        rw [execute_check_eq, htarget]
        simp [execute_target, _execute_inner_t2_child, hlv, hstate, hchild, hv, hn]
      have hstep := drive_step_no_read c store buf_size chan _ true htype hex (Or.inl hgv)
      refine ⟨_, reaches_step _ _ _ _ _ true hstep, ?_, ?_⟩
      · intro h; simp [check_node, hv, hn] at h
      · intro n1 h
        simp only [check_node, hv, hn] at h
        simp only [Bool.not_false, if_true, Option.some.injEq] at h
        refine ⟨by rw [← h]; exact hn, ⟨hgen, hleaves, ?_⟩, rfl, rfl, ?_, ?_⟩
        · intro l h1 h2; omega
        · intro l hl
          rw [t1_lvls_set_t1_child_state]
          simp [show l ≠ 2 by omega]
        · rw [t1_lvls_set_t1_child_state]
          simp [hlv]
    · have hfail : check_fails c chan = true := by
        simp [check_fails, htarget, hlv, hstate, hchild, inner_child_fails, hv, hn]
      obtain ⟨hr, hf⟩ := failed_of_check_fails c store buf_size chan htype hgv hfail
      refine ⟨_, hr, fun _ => hf, ?_⟩
      intro n1 h
      simp [check_node, hv, hn] at h
  | true =>
    -- the read of the block of leaves is generated and served
    have hexE : _execute_check c chan false
        = .returned
            { chan with
              _gen_prim := { success := false, tag := Primitive_tag.BLOCK_IO,
                             blk_nr := node.pba, dropped := false }
              _lvl_to_read := 2 - 1 } true := by
      rw [execute_check_eq, htarget]
      simp [execute_target, _execute_inner_t2_child, hlv, hstate, hchild, hv, hgv]
    have hstep1 := drive_step_read c store buf_size chan _ true htype hbuf hexE rfl rfl
      (Or.inl rfl)
    generalize hR : after_read store
        { chan with
          _gen_prim := { success := false, tag := Primitive_tag.BLOCK_IO,
                         blk_nr := node.pba, dropped := false }
          _lvl_to_read := 2 - 1 } = chanR at hstep1
    have hRdef : chanR
        = { chan with
            _t2_lvl := { chan._t2_lvl with children := (store node.pba).t2 }
            _gen_prim := { success := true, tag := Primitive_tag.BLOCK_IO,
                           blk_nr := node.pba, dropped := true }
            _lvl_to_read := 1 } := by
      rw [← hR]; simp [after_read]
    -- the completed read is consumed
    have htargetR : find_target c chanR = Target.inner_t2 2 i := by
      rw [find_target_inner c chanR 2 i lv READ_BLOCK node (by rw [hRdef]; exact hleaves)
        (by rw [hRdef]; exact hbelow) (by omega) (by rw [hRdef]; exact hmax)
        (by rw [hRdef]; exact hlv) hbefore hstate (by decide) hchild (by rw [hRdef]; exact hi)]
      simp [hlow]
    have hex2 : _execute_check c chanR false
        = .returned
            (set_t1_child_state
              { chan with
                _t2_lvl := { children_state := reset_children_state chan._t2_lvl.children_state
                             children := (store node.pba).t2 }
                _gen_prim := default_gen_prim
                _lvl_to_read := 1 } 2 i CHECK_HASH) true := by
      rw [execute_check_eq, htargetR, hRdef]
      simp [execute_target, _execute_inner_t2_child, hlv, hstate, hchild, hv,
        Generated_primitive.valid]
    have hstep2 := drive_step_no_read c store buf_size chanR _ true
      (by rw [hRdef]; exact htype) hex2 (Or.inl rfl)
    generalize h2 : set_t1_child_state
        { chan with
          _t2_lvl := { children_state := reset_children_state chan._t2_lvl.children_state
                       children := (store node.pba).t2 }
          _gen_prim := default_gen_prim
          _lvl_to_read := 1 } 2 i CHECK_HASH = chan2 at hstep2
    have h2req : chan2._request = chan._request := by rw [← h2]; rfl
    have h2root : chan2._root_state = chan._root_state := by rw [← h2]; rfl
    have h2gen : chan2._gen_prim = default_gen_prim := by rw [← h2]; rfl
    have h2nr : chan2._nr_of_leaves = chan._nr_of_leaves := by rw [← h2]; rfl
    have h2t2c : chan2._t2_lvl.children = (store node.pba).t2 := by rw [← h2]; rfl
    have h2t2s : chan2._t2_lvl.children_state
        = reset_children_state chan._t2_lvl.children_state := by rw [← h2]; rfl
    have h2lvls : ∀ l, chan2._t1_lvls[l]?
        = if l = 2 then some { lv with children_state := lv.children_state.set i CHECK_HASH }
          else chan._t1_lvls[l]? := by
      intro l
      rw [← h2, t1_lvls_set_t1_child_state]
      by_cases hl : l = 2
      · subst hl; simp [hlv]
      · simp [hl]
    -- the leaves are processed
    obtain ⟨chan3, hr3, hnone3, hsome3⟩ := leaves_run c store buf_size
      (chan._request._max_child_idx + 1) 0 chan2 (by rw [h2req]; exact htype) h2gen
      (by rw [h2req]; omega) (fun j hj => absurd hj (Nat.not_lt_zero _))
      (by
        intro j _ hj
        rw [h2t2s]
        rw [h2req] at hj
        exact reset_children_state_getElem? _ j
          (lt_of_le_of_lt hj (all_done_length hleaves)))
      (by rw [h2req, h2t2c]; exact (hstore node.pba).2)
    rw [h2req, h2t2c, h2nr, List.drop_zero] at hnone3 hsome3
    have hr2 : reaches c store buf_size chan chan2 :=
      reaches_trans _ _ _ _ _ _ (reaches_step _ _ _ _ _ true hstep1)
        (reaches_step _ _ _ _ _ true hstep2)
    cases hcl : check_leaves (tree_children chan._request._max_child_idx (store node.pba).t2)
        chan._nr_of_leaves with
    | none =>
      refine ⟨chan3, reaches_trans _ _ _ _ _ _ hr2 hr3, fun _ => hnone3 hcl, ?_⟩
      intro n1 h
      simp [check_node, hv, hcl] at h
    | some n2 =>
      obtain ⟨h3nr, h3done, h3t2c, h3lvls, h3req, h3root, h3gen⟩ := hsome3 n2 hcl
      have h3gv : chan3._gen_prim.valid = false := by rw [h3gen]; rfl
      have h3lv : chan3._t1_lvls[2]?
          = some { lv with children_state := lv.children_state.set i CHECK_HASH } := by
        rw [h3lvls, h2lvls]; simp
      have h3state : (lv.children_state.set i CHECK_HASH)[i]? = some CHECK_HASH := by
        simp [hslt]
      have htarget3 : find_target c chan3 = Target.inner_t2 2 i := by
        rw [find_target_inner c chan3 2 i
          { lv with children_state := lv.children_state.set i CHECK_HASH } CHECK_HASH node
          (by rw [h3req]; exact h3done) (by intro l h1 h2; omega) (by omega)
          (by rw [h3req]; exact hmax) h3lv
          (by
            intro j hj
            simp only []
            rw [List.getElem?_set_ne (by omega)]
            exact hbefore j hj)
          h3state (by decide) hchild (by rw [h3req]; exact hi)]
        simp [hlow]
      by_cases hok : node.gen = c.INITIAL_GENERATION ∨
          check_sha256_4k_hash (c.sha256_4k_t2 (store node.pba).t2) node.hash = true
      · have hex4 : _execute_check c chan3 false
            = .returned (set_t1_child_state chan3 2 i DONE) true := by
          rw [execute_check_eq, htarget3]
          simp [execute_target, _execute_inner_t2_child, h3lv, h3state, hchild, h3t2c, hok]
        have hstep4 := drive_step_no_read c store buf_size chan3 _ true
          (by rw [h3req]; exact htype) hex4 (Or.inl h3gv)
        refine ⟨_, reaches_trans _ _ _ _ _ _ (reaches_trans _ _ _ _ _ _ hr2 hr3)
          (reaches_step _ _ _ _ _ true hstep4), ?_, ?_⟩
        · intro h; simp [check_node, hv, hcl, hok] at h
        · intro n1 h
          simp only [check_node, hv, hcl, hok] at h
          simp only [Bool.not_true, Bool.false_eq_true, if_false, if_true,
            Option.some.injEq] at h
          refine ⟨by rw [← h]; exact h3nr, ⟨h3gen, by rw [← h3req] at h3done; exact h3done, ?_⟩,
            h3req, h3root.trans h2root, ?_, ?_⟩
          · intro l h1 h2; omega
          · intro l hl
            rw [t1_lvls_set_t1_child_state, h3lvls, h2lvls]
            simp [show l ≠ 2 by omega]
          · rw [t1_lvls_set_t1_child_state, h3lv]
            simp [List.set_set]
      · have hfail : check_fails c chan3 = true := by
          simp only [not_or] at hok
          simp [check_fails, htarget3, h3lv, h3state, hchild, inner_child_fails, h3t2c, hok.1]
          simpa [check_sha256_4k_hash] using hok.2
        obtain ⟨hr4, hf⟩ := failed_of_check_fails c store buf_size chan3
          (by rw [h3req]; exact htype) h3gv hfail
        refine ⟨_, reaches_trans _ _ _ _ _ _ (reaches_trans _ _ _ _ _ _ hr2 hr3) hr4,
          fun _ => hf, ?_⟩
        intro n1 h
        simp [check_node, hv, hcl, hok] at h

end Ft_check

namespace Ft_check

open Child_state

theorem level_done_congr_idx (chan chan1 : Ft_check_channel) (l : Nat)
    (hidx : chan1._request._max_child_idx = chan._request._max_child_idx)
    (hl : chan1._t1_lvls[l]? = chan._t1_lvls[l]?)
    (h : level_done chan l) : level_done chan1 l := by
  obtain ⟨lv, h1, h2⟩ := h
  exact ⟨lv, by rw [hl]; exact h1, by rw [hidx]; exact h2⟩

theorem level_done_congr (chan chan1 : Ft_check_channel) (l : Nat)
    (hreq : chan1._request = chan._request) (hl : chan1._t1_lvls[l]? = chan._t1_lvls[l]?)
    (h : level_done chan l) : level_done chan1 l :=
  level_done_congr_idx chan chan1 l (by rw [hreq]) hl h

theorem node_run_succ (c : Config) (store : Block_store) (buf_size : Nat)
    (hlow : c.FT_LOWEST_T1_LVL = 2) (hbuf : c.sizeof_block_io_request ≤ buf_size)
    (depth : Nat) (hnode : node_run_holds c store buf_size depth) :
    node_run_holds c store buf_size (depth + 1) := by
  intro chan i lv node htype hstore hmax hq hlv hbefore hstate hchild hi
  obtain ⟨hgen, hleaves, hbelow⟩ := hq
  have hslt := lt_length_of_getElem?_eq_some hstate
  have hgv : chan._gen_prim.valid = false := by rw [hgen]; rfl
  obtain ⟨cl, hcl, hcldone⟩ := hbelow (depth + 2) (by omega) (by omega)
  have hgs : get_child_state chan (Child_state_ref.t1_child (depth + 1 + 2) i)
      = some READ_BLOCK := by
    rw [get_t1_child_state_eq chan _ i lv hlv]; exact hstate
  have hcl1 : chan._t1_lvls[depth + 1 + 2 - 1]? = some cl := hcl
  have htarget : find_target c chan = Target.inner_t1 (depth + 1 + 2) i node := by
    rw [find_target_inner c chan (depth + 1 + 2) i lv READ_BLOCK node hleaves hbelow (by omega)
      hmax hlv hbefore hstate (by decide) hchild hi]
    simp [hlow]
  cases hv : node.valid with
  | false =>
    by_cases hn : chan._nr_of_leaves = 0
    · have hex : _execute_check c chan false
          = .returned (set_t1_child_state chan (depth + 1 + 2) i DONE) true := by
        rw [execute_check_eq, htarget]
        simp [execute_target, _execute_inner_t1_child, hgs, hcl1, hcl, hv, hn, set_child_state]
      have hstep := drive_step_no_read c store buf_size chan _ true htype hex (Or.inl hgv)
      refine ⟨_, reaches_step _ _ _ _ _ true hstep, ?_, ?_⟩
      · intro h; simp [check_node, hv, hn] at h
      · intro n1 h
        simp only [check_node, hv, hn] at h
        simp only [Bool.not_false, if_true, Option.some.injEq] at h
        refine ⟨by rw [← h]; exact hn, ⟨hgen, hleaves, ?_⟩, rfl, rfl, ?_, ?_⟩
        · intro l h1 h2
          refine level_done_congr chan _ l rfl ?_ (hbelow l h1 h2)
          rw [t1_lvls_set_t1_child_state]
          simp [show l ≠ depth + 1 + 2 by omega]
        · intro l hl
          rw [t1_lvls_set_t1_child_state]
          simp [show l ≠ depth + 1 + 2 by omega]
        · rw [t1_lvls_set_t1_child_state]
          simp [hlv]
    · have hfail : check_fails c chan = true := by
        simp [check_fails, htarget, hgs, hcl1, hcl, inner_child_fails, hv, hn]
      obtain ⟨hr, hf⟩ := failed_of_check_fails c store buf_size chan htype hgv hfail
      refine ⟨_, hr, fun _ => hf, ?_⟩
      intro n1 h
      simp [check_node, hv, hn] at h
  | true =>
    -- the read of the block of type-1 nodes is generated and served
    have hexE : _execute_check c chan false
        = .returned
            { chan with
              _gen_prim := { success := false, tag := Primitive_tag.BLOCK_IO,
                             blk_nr := node.pba, dropped := false }
              _lvl_to_read := depth + 1 + 2 - 1 } true := by
      rw [execute_check_eq, htarget]
      simp [execute_target, _execute_inner_t1_child, hgs, hcl1, hcl, hv, hgv]
    have hstep1 := drive_step_read c store buf_size chan _ true htype hbuf hexE rfl rfl
      (Or.inr (lt_length_of_getElem?_eq_some hcl))
    generalize hR : after_read store
        { chan with
          _gen_prim := { success := false, tag := Primitive_tag.BLOCK_IO,
                         blk_nr := node.pba, dropped := false }
          _lvl_to_read := depth + 1 + 2 - 1 } = chanR at hstep1
    have hRdef : chanR
        = { chan with
            _t1_lvls := chan._t1_lvls.modify
              (fun t1_lvl => { t1_lvl with children := (store node.pba).t1 }) (depth + 2)
            _gen_prim := { success := true, tag := Primitive_tag.BLOCK_IO,
                           blk_nr := node.pba, dropped := true }
            _lvl_to_read := depth + 2 } := by
      rw [← hR]; simp [after_read]
    have hRlvls : ∀ l, chanR._t1_lvls[l]?
        = if l = depth + 2 then some { cl with children := (store node.pba).t1 }
          else chan._t1_lvls[l]? := by
      intro l
      rw [hRdef]
      by_cases hl : l = depth + 2
      · subst hl; simp [hcl]
      · simp [hl, List.getElem?_modify_ne _ _ (Ne.symm hl)]
    have hRlv : chanR._t1_lvls[depth + 1 + 2]? = some lv := by
      rw [hRlvls]; simp [hlv]
    have hRcl : chanR._t1_lvls[depth + 1 + 2 - 1]?
        = some { cl with children := (store node.pba).t1 } := by
      rw [hRlvls]; simp
    have hRcl2 : chanR._t1_lvls[depth + 2]?
        = some { cl with children := (store node.pba).t1 } := hRcl
    have hRgs : get_child_state chanR (Child_state_ref.t1_child (depth + 1 + 2) i)
        = some READ_BLOCK := by
      rw [get_t1_child_state_eq chanR _ i lv hRlv]; exact hstate
    -- the completed read is consumed
    have htargetR : find_target c chanR = Target.inner_t1 (depth + 1 + 2) i node := by
      rw [find_target_inner c chanR (depth + 1 + 2) i lv READ_BLOCK node
        (by rw [hRdef]; exact hleaves)
        (by
          intro l h1 h2
          by_cases hl : l = depth + 2
          · subst hl
            exact ⟨_, hRcl, by rw [hRdef]; exact hcldone⟩
          · refine level_done_congr chan _ l (by rw [hRdef]) ?_ (hbelow l h1 h2)
            rw [hRlvls]; simp [hl])
        (by omega) (by rw [hRdef]; exact hmax) hRlv hbefore hstate (by decide) hchild
        (by rw [hRdef]; exact hi)]
      simp [hlow]
    have hRgen : chanR._gen_prim = { success := true, tag := Primitive_tag.BLOCK_IO,
                                     blk_nr := node.pba, dropped := true } := by rw [hRdef]
    have hex2 : _execute_check c chanR false
        = .returned
            (set_t1_child_state
              { chanR with
                _t1_lvls := chanR._t1_lvls.set (depth + 1 + 2 - 1)
                  { children_state := reset_children_state cl.children_state
                    children := (store node.pba).t1 }
                _gen_prim := default_gen_prim } (depth + 1 + 2) i CHECK_HASH) true := by
      rw [execute_check_eq, htargetR]
      simp [execute_target, _execute_inner_t1_child, hRgs, hRcl, hRcl2, hv, hRgen,
        Generated_primitive.valid, set_child_state]
    have hstep2 := drive_step_no_read c store buf_size chanR _ true
      (by rw [hRdef]; exact htype) hex2 (Or.inl rfl)
    generalize h2 : set_t1_child_state
        { chanR with
          _t1_lvls := chanR._t1_lvls.set (depth + 1 + 2 - 1)
            { children_state := reset_children_state cl.children_state
              children := (store node.pba).t1 }
          _gen_prim := default_gen_prim } (depth + 1 + 2) i CHECK_HASH = chan2 at hstep2
    have h2req : chan2._request = chan._request := by rw [← h2, hRdef]; rfl
    have h2root : chan2._root_state = chan._root_state := by rw [← h2, hRdef]; rfl
    have h2gen : chan2._gen_prim = default_gen_prim := by rw [← h2]; rfl
    have h2nr : chan2._nr_of_leaves = chan._nr_of_leaves := by rw [← h2, hRdef]; rfl
    have h2t2 : chan2._t2_lvl = chan._t2_lvl := by rw [← h2, hRdef]; rfl
    have h2lvls : ∀ l, chan2._t1_lvls[l]?
        = if l = depth + 1 + 2 then
            some { lv with children_state := lv.children_state.set i CHECK_HASH }
          else if l = depth + 2 then
            some { children_state := reset_children_state cl.children_state
                   children := (store node.pba).t1 }
          else chan._t1_lvls[l]? := by
      intro l
      rw [← h2, t1_lvls_set_t1_child_state]
      have hlen : depth + 2 < chanR._t1_lvls.length := lt_length_of_getElem?_eq_some hRcl
      by_cases hl : l = depth + 1 + 2
      · subst hl
        simp only [if_true]
        rw [List.getElem?_set_ne (by omega), hRlv]
        rfl
      · by_cases hl2 : l = depth + 2
        · subst hl2
          simp [hlen]
        · simp only [hl, hl2, if_false]
          rw [List.getElem?_set_ne (by omega), hRlvls]
          simp [hl2]
    -- the children are processed
    obtain ⟨chan3, hr3, hnone3, hsome3⟩ := children_run c store buf_size depth hnode
      (chan._request._max_child_idx + 1) 0 chan2
      { children_state := reset_children_state cl.children_state
        children := (store node.pba).t1 }
      (by rw [h2req]; exact htype) (by rw [h2req]; exact hstore) (by rw [h2req]; omega)
      ⟨h2gen, by rw [h2req, h2t2]; exact hleaves, by
        intro l h1 h2'
        refine level_done_congr chan _ l h2req ?_ (hbelow l h1 (by omega))
        rw [h2lvls]; simp [show l ≠ depth + 1 + 2 by omega, show l ≠ depth + 2 by omega]⟩
      (by rw [h2lvls]; simp)
      (by rw [h2req]; omega) (fun k hk => absurd hk (Nat.not_lt_zero _))
      (by
        intro k _ hk
        rw [h2req] at hk
        exact reset_children_state_getElem? _ k
          (lt_of_le_of_lt hk (all_done_length hcldone)))
      (by rw [h2req]; exact (hstore node.pba).1)
    rw [h2req, h2nr] at hnone3 hsome3
    simp only [List.drop_zero] at hnone3 hsome3
    have hr2 : reaches c store buf_size chan chan2 :=
      reaches_trans _ _ _ _ _ _ (reaches_step _ _ _ _ _ true hstep1)
        (reaches_step _ _ _ _ _ true hstep2)
    cases hcc : check_children (check_node c store chan._request._max_child_idx depth)
        (tree_children chan._request._max_child_idx (store node.pba).t1)
        chan._nr_of_leaves with
    | none =>
      refine ⟨chan3, reaches_trans _ _ _ _ _ _ hr2 hr3, fun _ => hnone3 hcc, ?_⟩
      intro n1 h
      simp [check_node, hv, hcc] at h
    | some n2 =>
      obtain ⟨h3nr, h3q, h3req, h3root, h3above, lv1, h3lv1, h3children⟩ := hsome3 n2 hcc
      obtain ⟨h3gen, h3leaves, h3below⟩ := h3q
      have h3gv : chan3._gen_prim.valid = false := by rw [h3gen]; rfl
      have h3lv : chan3._t1_lvls[depth + 1 + 2]?
          = some { lv with children_state := lv.children_state.set i CHECK_HASH } := by
        rw [h3above (depth + 1 + 2) (by omega), h2lvls]; simp
      have h3state : (lv.children_state.set i CHECK_HASH)[i]? = some CHECK_HASH := by
        simp [hslt]
      have h3gs : get_child_state chan3 (Child_state_ref.t1_child (depth + 1 + 2) i)
          = some CHECK_HASH := by
        rw [get_t1_child_state_eq chan3 _ i _ h3lv]; exact h3state
      have h3cl : chan3._t1_lvls[depth + 1 + 2 - 1]? = some lv1 := h3lv1
      have htarget3 : find_target c chan3 = Target.inner_t1 (depth + 1 + 2) i node := by
        rw [find_target_inner c chan3 (depth + 1 + 2) i
          { lv with children_state := lv.children_state.set i CHECK_HASH } CHECK_HASH node
          h3leaves h3below (by omega)
          (by rw [h3req]; exact hmax) h3lv
          (by
            intro j hj
            simp only []
            rw [List.getElem?_set_ne (by omega)]
            exact hbefore j hj)
          h3state (by decide) hchild (by rw [h3req]; exact hi)]
        simp [hlow]
      by_cases hok : node.gen = c.INITIAL_GENERATION ∨
          check_sha256_4k_hash (c.sha256_4k_t1 (store node.pba).t1) node.hash = true
      · have hex4 : _execute_check c chan3 false
            = .returned (set_t1_child_state chan3 (depth + 1 + 2) i DONE) true := by
          rw [execute_check_eq, htarget3]
          simp [execute_target, _execute_inner_t1_child, h3gs, h3cl, h3lv1, h3children, hok,
            set_child_state]
        have hstep4 := drive_step_no_read c store buf_size chan3 _ true
          (by rw [h3req]; exact htype) hex4 (Or.inl h3gv)
        refine ⟨_, reaches_trans _ _ _ _ _ _ (reaches_trans _ _ _ _ _ _ hr2 hr3)
          (reaches_step _ _ _ _ _ true hstep4), ?_, ?_⟩
        · intro h; simp [check_node, hv, hcc, hok] at h
        · intro n1 h
          simp only [check_node, hv, hcc, hok] at h
          simp only [Bool.not_true, Bool.false_eq_true, if_false, if_true,
            Option.some.injEq] at h
          refine ⟨by rw [← h]; exact h3nr, ⟨h3gen, h3leaves, ?_⟩,
            h3req, h3root.trans h2root, ?_, ?_⟩
          · intro l h1 h2'
            refine level_done_congr chan3 _ l rfl ?_ (h3below l h1 h2')
            rw [t1_lvls_set_t1_child_state]
            simp [show l ≠ depth + 1 + 2 by omega]
          · intro l hl
            rw [t1_lvls_set_t1_child_state, h3above l (by omega), h2lvls]
            simp [show l ≠ depth + 1 + 2 by omega, show l ≠ depth + 2 by omega]
          · rw [t1_lvls_set_t1_child_state, h3lv]
            simp [List.set_set]
      · have hfail : check_fails c chan3 = true := by
          simp only [not_or] at hok
          simp [check_fails, htarget3, h3gs, h3cl, h3lv1, inner_child_fails, h3children, hok.1]
          simpa [check_sha256_4k_hash] using hok.2
        obtain ⟨hr4, hf⟩ := failed_of_check_fails c store buf_size chan3
          (by rw [h3req]; exact htype) h3gv hfail
        refine ⟨_, reaches_trans _ _ _ _ _ _ (reaches_trans _ _ _ _ _ _ hr2 hr3) hr4,
          fun _ => hf, ?_⟩
        intro n1 h
        simp [check_node, hv, hcc, hok] at h

theorem node_run (c : Config) (store : Block_store) (buf_size : Nat)
    (hlow : c.FT_LOWEST_T1_LVL = 2) (hbuf : c.sizeof_block_io_request ≤ buf_size) :
    ∀ depth : Nat, node_run_holds c store buf_size depth
  | 0 => node_run_zero c store buf_size hlow hbuf
  | depth + 1 =>
    node_run_succ c store buf_size hlow hbuf depth (node_run c store buf_size hlow hbuf depth)

end Ft_check

namespace Ft_check

open Child_state

theorem completed_of_failed (c : Config) (store : Block_store) (buf_size : Nat)
    (chan : Ft_check_channel) (h : failed_for_good c store buf_size chan) :
    completed_for_good c store buf_size chan :=
  ⟨h.1, h.2.1, h.2.2.2⟩

theorem completed_of_all_done (c : Config) (store : Block_store) (buf_size : Nat)
    (chan : Ft_check_channel)
    (htype : chan._request._type = Ft_check_request_type.CHECK)
    (hq : quiet_below c chan (chan._request._max_lvl + 1))
    (hroot : chan._root_state = DONE) :
    completed_for_good c store buf_size chan := by
  refine ⟨htype, hroot, false, ?_⟩
  have hex : _execute_check c chan false = .returned chan false := by
    rw [execute_check_eq, find_target_top c chan hq.2.1 hq.2.2]
    simp [hroot, execute_target]
  exact drive_step_no_read c store buf_size chan chan false htype hex
    (Or.inl (by rw [hq.1]; rfl))

theorem root_run (c : Config) (store : Block_store) (buf_size : Nat)
    (hlow : c.FT_LOWEST_T1_LVL = 2) (hbuf : c.sizeof_block_io_request ≤ buf_size)
    (chan : Ft_check_channel) (depth : Nat)
    (htype : chan._request._type = Ft_check_request_type.CHECK)
    (hstore : store_has_children store chan._request._max_child_idx)
    (hmax : chan._request._max_lvl = depth + 2)
    (hq : quiet_below c chan (chan._request._max_lvl + 1))
    (hroot : chan._root_state = READ_BLOCK) :
    ∃ chan1 : Ft_check_channel,
      reaches c store buf_size chan chan1
      ∧ completed_for_good c store buf_size chan1
      ∧ (check_node c store chan._request._max_child_idx (depth + 1) chan._request._root
            chan._nr_of_leaves = none → chan1._request._success = false)
      ∧ (chan._request._root.valid = true →
          ∀ n1 : Nat,
            check_node c store chan._request._max_child_idx (depth + 1) chan._request._root
              chan._nr_of_leaves = some n1 →
            chan1._request._success = true ∧ chan1._nr_of_leaves = n1)
      ∧ (chan._request._root.valid = false → chan._nr_of_leaves = 0 →
          chan1 = { chan with _root_state := DONE }) := by
  obtain ⟨hgen, hleaves, hbelow⟩ := hq
  have hgv : chan._gen_prim.valid = false := by rw [hgen]; rfl
  obtain ⟨cl, hcl, hcldone⟩ := hbelow (depth + 2) (by omega) (by omega)
  have hcl1 : chan._t1_lvls[chan._request._max_lvl]? = some cl := by rw [hmax]; exact hcl
  have hgs : get_child_state chan Child_state_ref.root_state = some READ_BLOCK := by
    simp [get_child_state, hroot]
  have htarget : find_target c chan = Target.root := by
    rw [find_target_top c chan hleaves hbelow]
    simp [hroot]
  generalize hnode_def : chan._request._root = node at *
  cases hv : node.valid with
  | false =>
    by_cases hn : chan._nr_of_leaves = 0
    · have hex : _execute_check c chan false
          = .returned { chan with _root_state := DONE } true := by
        rw [execute_check_eq, htarget]
        simp [execute_target, _execute_inner_t1_child, hgs, hcl1, hnode_def, hv, hn,
          set_child_state]
      have hstep := drive_step_no_read c store buf_size chan _ true htype hex (Or.inl hgv)
      refine ⟨_, reaches_step _ _ _ _ _ true hstep, ?_, ?_, ?_, fun _ _ => rfl⟩
      · exact completed_of_all_done c store buf_size _ htype ⟨hgen, hleaves, hbelow⟩ rfl
      · intro h; simp [check_node, hv, hn] at h
      · intro h; cases h
    · have hfail : check_fails c chan = true := by
        simp [check_fails, htarget, hcl1, hroot, hnode_def, inner_child_fails, hv, hn]
      obtain ⟨hr, hf⟩ := failed_of_check_fails c store buf_size chan htype hgv hfail
      refine ⟨_, hr, completed_of_failed _ _ _ _ hf, fun _ => hf.2.2.1, ?_,
        fun _ h => absurd h hn⟩
      intro h; cases h
  | true =>
    -- the read of the root block is generated and served
    have hexE : _execute_check c chan false
        = .returned
            { chan with
              _gen_prim := { success := false, tag := Primitive_tag.BLOCK_IO,
                             blk_nr := node.pba, dropped := false }
              _lvl_to_read := chan._request._max_lvl + 1 - 1 } true := by
      rw [execute_check_eq, htarget]
      simp [execute_target, _execute_inner_t1_child, hgs, hcl1, hnode_def, hv, hgv]
    have hstep1 := drive_step_read c store buf_size chan _ true htype hbuf hexE rfl rfl
      (Or.inr (by
        show chan._request._max_lvl + 1 - 1 < chan._t1_lvls.length
        rw [Nat.add_sub_cancel]
        exact lt_length_of_getElem?_eq_some hcl1))
    generalize hR : after_read store
        { chan with
          _gen_prim := { success := false, tag := Primitive_tag.BLOCK_IO,
                         blk_nr := node.pba, dropped := false }
          _lvl_to_read := chan._request._max_lvl + 1 - 1 } = chanR at hstep1
    have hRdef : chanR
        = { chan with
            _t1_lvls := chan._t1_lvls.modify
              (fun t1_lvl => { t1_lvl with children := (store node.pba).t1 }) (depth + 2)
            _gen_prim := { success := true, tag := Primitive_tag.BLOCK_IO,
                           blk_nr := node.pba, dropped := true }
            _lvl_to_read := depth + 2 } := by
      rw [← hR]; simp [after_read, hmax]
    have hRlvls : ∀ l, chanR._t1_lvls[l]?
        = if l = depth + 2 then some { cl with children := (store node.pba).t1 }
          else chan._t1_lvls[l]? := by
      intro l
      rw [hRdef]
      by_cases hl : l = depth + 2
      · subst hl; simp [hcl]
      · simp [hl, List.getElem?_modify_ne _ _ (Ne.symm hl)]
    have hRcl : chanR._t1_lvls[chanR._request._max_lvl]?
        = some { cl with children := (store node.pba).t1 } := by
      rw [hRlvls, hRdef]; simp [hmax]
    have hRreq : chanR._request = chan._request := by rw [hRdef]
    have hRgs : get_child_state chanR Child_state_ref.root_state = some READ_BLOCK := by
      rw [hRdef]; simp [get_child_state, hroot]
    -- the completed read is consumed
    have htargetR : find_target c chanR = Target.root := by
      rw [find_target_top c chanR (by rw [hRdef]; exact hleaves)
        (by
          intro l h1 h2
          rw [hRreq] at h2
          by_cases hl : l = depth + 2
          · subst hl
            exact ⟨{ cl with children := (store node.pba).t1 }, by rw [hRlvls]; simp,
              by rw [hRreq]; exact hcldone⟩
          · refine level_done_congr chan _ l hRreq ?_ (hbelow l h1 h2)
            rw [hRlvls]; simp [hl])]
      rw [hRdef]; simp [hroot]
    have hRgen : chanR._gen_prim = { success := true, tag := Primitive_tag.BLOCK_IO,
                                     blk_nr := node.pba, dropped := true } := by rw [hRdef]
    have hRroot : chanR._request._root = node := by rw [hRreq]; exact hnode_def
    have hex2 : _execute_check c chanR false
        = .returned
            { chanR with
              _t1_lvls := chanR._t1_lvls.set (depth + 2)
                { children_state := reset_children_state cl.children_state
                  children := (store node.pba).t1 }
              _gen_prim := default_gen_prim
              _root_state := CHECK_HASH } true := by
      rw [execute_check_eq, htargetR]
      simp only [execute_target, _execute_inner_t1_child, hRgs, hRcl, hRroot]
      simp [hv, hRgen, Generated_primitive.valid, set_child_state, hRreq, hmax]
    have hstep2 := drive_step_no_read c store buf_size chanR _ true
      (by rw [hRdef]; exact htype) hex2 (Or.inl rfl)
    generalize h2 :
        ({ chanR with
           _t1_lvls := chanR._t1_lvls.set (depth + 2)
             { children_state := reset_children_state cl.children_state
               children := (store node.pba).t1 }
           _gen_prim := default_gen_prim
           _root_state := CHECK_HASH } : Ft_check_channel) = chan2 at hstep2
    have h2req : chan2._request = chan._request := by rw [← h2, hRdef]
    have h2root : chan2._root_state = CHECK_HASH := by rw [← h2]
    have h2gen : chan2._gen_prim = default_gen_prim := by rw [← h2]
    have h2nr : chan2._nr_of_leaves = chan._nr_of_leaves := by rw [← h2, hRdef]
    have h2t2 : chan2._t2_lvl = chan._t2_lvl := by rw [← h2, hRdef]
    have h2lvls : ∀ l, chan2._t1_lvls[l]?
        = if l = depth + 2 then
            some { children_state := reset_children_state cl.children_state
                   children := (store node.pba).t1 }
          else chan._t1_lvls[l]? := by
      intro l
      rw [← h2]
      have hx : chanR._t1_lvls[depth + 2]?
          = some { cl with children := (store node.pba).t1 } := by rw [hRlvls]; simp
      have hlen : depth + 2 < chanR._t1_lvls.length := lt_length_of_getElem?_eq_some hx
      by_cases hl : l = depth + 2
      · subst hl
        simp [hlen]
      · simp only [hl, if_false]
        rw [List.getElem?_set_ne (Ne.symm hl), hRlvls]
        simp [hl]
    -- the children are processed
    obtain ⟨chan3, hr3, hnone3, hsome3⟩ := children_run c store buf_size depth
      (node_run c store buf_size hlow hbuf depth)
      (chan._request._max_child_idx + 1) 0 chan2
      { children_state := reset_children_state cl.children_state
        children := (store node.pba).t1 }
      (by rw [h2req]; exact htype) (by rw [h2req]; exact hstore) (by rw [h2req]; omega)
      ⟨h2gen, by rw [h2req, h2t2]; exact hleaves, by
        intro l h1 h2'
        refine level_done_congr chan _ l h2req ?_ (hbelow l h1 (by omega))
        rw [h2lvls]; simp [show l ≠ depth + 2 by omega]⟩
      (by rw [h2lvls]; simp)
      (by rw [h2req]; omega) (fun k hk => absurd hk (Nat.not_lt_zero _))
      (by
        intro k _ hk
        rw [h2req] at hk
        exact reset_children_state_getElem? _ k
          (lt_of_le_of_lt hk (all_done_length hcldone)))
      (by rw [h2req]; exact (hstore node.pba).1)
    rw [h2req, h2nr] at hnone3 hsome3
    simp only [List.drop_zero] at hnone3 hsome3
    have hr2 : reaches c store buf_size chan chan2 :=
      reaches_trans _ _ _ _ _ _ (reaches_step _ _ _ _ _ true hstep1)
        (reaches_step _ _ _ _ _ true hstep2)
    cases hcc : check_children (check_node c store chan._request._max_child_idx depth)
        (tree_children chan._request._max_child_idx (store node.pba).t1)
        chan._nr_of_leaves with
    | none =>
      have hf := hnone3 hcc
      refine ⟨chan3, reaches_trans _ _ _ _ _ _ hr2 hr3, completed_of_failed _ _ _ _ hf,
        fun _ => hf.2.2.1, ?_, fun h => by cases h⟩
      intro _ n1 h
      simp [check_node, hv, hcc] at h
    | some n2 =>
      obtain ⟨h3nr, h3q, h3req, h3root, h3above, lv1, h3lv1, h3children⟩ := hsome3 n2 hcc
      obtain ⟨h3gen, h3leaves, h3below⟩ := h3q
      have h3gv : chan3._gen_prim.valid = false := by rw [h3gen]; rfl
      have h3root2 : chan3._root_state = CHECK_HASH := h3root.trans h2root
      have h3gs : get_child_state chan3 Child_state_ref.root_state = some CHECK_HASH := by
        simp [get_child_state, h3root2]
      have h3max : chan3._request._max_lvl = depth + 2 := by rw [h3req]; exact hmax
      have h3cl : chan3._t1_lvls[chan3._request._max_lvl]? = some lv1 := by
        rw [h3max]; exact h3lv1
      have h3node : chan3._request._root = node := by rw [h3req]; exact hnode_def
      have htarget3 : find_target c chan3 = Target.root := by
        rw [find_target_top c chan3 h3leaves (by rw [h3max]; exact h3below)]
        simp [h3root2]
      by_cases hok : node.gen = c.INITIAL_GENERATION ∨
          check_sha256_4k_hash (c.sha256_4k_t1 (store node.pba).t1) node.hash = true
      · have hex4 : _execute_check c chan3 false
            = .returned
                { chan3 with _root_state := DONE
                             _request := { chan3._request with _success := true } } true := by
          rw [execute_check_eq, htarget3]
          simp only [execute_target, _execute_inner_t1_child, h3gs, h3cl, h3node]
          simp [h3children, hok, set_child_state, h3node]
        have hstep4 := drive_step_no_read c store buf_size chan3 _ true
          (by rw [h3req]; exact htype) hex4 (Or.inl h3gv)
        refine ⟨_, reaches_trans _ _ _ _ _ _ (reaches_trans _ _ _ _ _ _ hr2 hr3)
          (reaches_step _ _ _ _ _ true hstep4), ?_, ?_, ?_, fun h => by cases h⟩
        · refine completed_of_all_done c store buf_size _ (by rw [h3req]; exact htype)
            ⟨h3gen, h3leaves, ?_⟩ rfl
          intro l h1 h2'
          have h2'' : l < depth + 3 := by
            have : chan3._request._max_lvl + 1 = depth + 3 := by rw [h3max]
            simp only [] at h2'
            omega
          exact level_done_congr_idx chan3 _ l rfl rfl (h3below l h1 h2'')
        · intro h; simp [check_node, hv, hcc, hok] at h
        · intro _ n1 h
          simp only [check_node, hv, hcc, hok] at h
          simp only [Bool.not_true, Bool.false_eq_true, if_false, if_true,
            Option.some.injEq] at h
          exact ⟨rfl, by rw [← h]; exact h3nr⟩
      · have hfail : check_fails c chan3 = true := by
          simp only [not_or] at hok
          simp [check_fails, htarget3, h3cl, h3root2, h3node, inner_child_fails, h3children,
            hok.1]
          simpa [check_sha256_4k_hash] using hok.2
        obtain ⟨hr4, hf⟩ := failed_of_check_fails c store buf_size chan3
          (by rw [h3req]; exact htype) h3gv hfail
        refine ⟨_, reaches_trans _ _ _ _ _ _ (reaches_trans _ _ _ _ _ _ hr2 hr3) hr4,
          completed_of_failed _ _ _ _ hf, fun _ => hf.2.2.1, ?_, fun h => by cases h⟩
        intro _ n1 h
        simp [check_node, hv, hcc, hok] at h

end Ft_check

namespace Ft_check

open Child_state

theorem submit_request_construct (c : Config) (req : Ft_check_request) :
    submit_request (construct c) req
      = .returned { _channels := [submitted_channel c req] } { req with dst_request_id := 0 } := by
  simp [submit_request, construct, NR_OF_CHANNELS, submit_channels, default_channel,
    default_request, submitted_channel]

theorem quiet_submitted_channel (c : Config) (req : Ft_check_request)
    (hlvl : req._max_lvl < c.TREE_MAX_LEVEL)
    (hidx : req._max_child_idx < c.NR_OF_T1_NODES_PER_BLK) :
    quiet_below c (submitted_channel c req) ((submitted_channel c req)._request._max_lvl + 1) := by
  refine ⟨rfl, ?_, ?_⟩
  · intro j hj
    have hj1 : j < c.NR_OF_T1_NODES_PER_BLK := lt_of_le_of_lt hj hidx
    simp [submitted_channel, default_channel, default_type_2_level, hj1]
  · intro l _ h2
    have hl : l < c.TREE_MAX_LEVEL := by
      simp only [submitted_channel] at h2
      omega
    refine ⟨default_type_1_level c, ?_, ?_⟩
    · simp [submitted_channel, default_channel, hl]
    · intro j hj
      have hj1 : j < c.NR_OF_T1_NODES_PER_BLK := lt_of_le_of_lt hj hidx
      simp [default_type_1_level, hj1]

theorem check_run (c : Config) (store : Block_store) (buf_size : Nat) (req : Ft_check_request)
    (hlow : c.FT_LOWEST_T1_LVL = 2) (hbuf : c.sizeof_block_io_request ≤ buf_size)
    (htype : req._type = Ft_check_request_type.CHECK)
    (hlvl2 : 2 ≤ req._max_lvl) (hlvl : req._max_lvl < c.TREE_MAX_LEVEL)
    (hidx : req._max_child_idx < c.NR_OF_T1_NODES_PER_BLK)
    (hstore : store_has_children store req._max_child_idx) :
    ∃ (rounds : Nat) (chan1 : Ft_check_channel),
      (∀ more : Nat,
        drive c store buf_size (rounds + more) { _channels := [submitted_channel c req] }
          = .returned { _channels := [chan1] } ())
      ∧ chan1._root_state = DONE
      ∧ chan1._request._type = Ft_check_request_type.CHECK
      ∧ (check_node c store req._max_child_idx (req._max_lvl - 1) req._root req._nr_of_leaves
            = none → chan1._request._success = false)
      ∧ (req._root.valid = true →
          ∀ n1 : Nat,
            check_node c store req._max_child_idx (req._max_lvl - 1) req._root req._nr_of_leaves
              = some n1 →
            chan1._request._success = true) := by
  obtain ⟨depth, hdepth⟩ : ∃ depth, req._max_lvl = depth + 2 := ⟨req._max_lvl - 2, by omega⟩
  have hd1 : req._max_lvl - 1 = depth + 1 := by omega
  obtain ⟨chan1, ⟨rounds, hrounds⟩, hcompl, hnone, hsome, _⟩ :=
    root_run c store buf_size hlow hbuf (submitted_channel c req) depth htype hstore hdepth
      (quiet_submitted_channel c req hlvl hidx) rfl
  obtain ⟨hty, hroot, p, hfix⟩ := hcompl
  refine ⟨rounds, chan1, ?_, hroot, hty, ?_, ?_⟩
  · intro more
    rw [drive_add, hrounds]
    exact drive_stable c store buf_size chan1 p hfix more
  · intro h
    rw [hd1] at h
    exact hnone h
  · intro hv n1 h
    rw [hd1] at h
    exact (hsome hv n1 h).1

/-! ## Free-tree check: what the recursive check implies for the tree -/

theorem check_leaves_count (leaves : List Type_2_node) :
    ∀ n n1 : Nat, check_leaves leaves n = some n1 →
      (leaves.filter (fun leaf => leaf.valid)).length + n1 ≤ n := by
  induction leaves with
  | nil => intro n n1 h; simp [check_leaves] at h; simp [h]
  | cons leaf rest ih =>
    intro n n1 h
    simp only [check_leaves] at h
    by_cases hn : n = 0
    · simp only [hn, if_true] at h
      cases hv : leaf.valid with
      | true => simp [hv] at h
      | false =>
        simp only [hv, Bool.false_eq_true, if_false] at h
        have := ih 0 n1 h
        simp [List.filter_cons, hv]
        omega
    · simp only [hn, if_false] at h
      have := ih (n - 1) n1 h
      by_cases hv : leaf.valid = true
      · simp [List.filter_cons, hv]; omega
      · simp [List.filter_cons, hv]; omega

theorem check_children_count (check : Type_1_node → Nat → Option Nat)
    (count : Type_1_node → Nat) (nodes : List Type_1_node)
    (hcheck : ∀ node, node ∈ nodes → ∀ n n1, check node n = some n1 → count node + n1 ≤ n) :
    ∀ n n1 : Nat, check_children check nodes n = some n1 → (nodes.map count).sum + n1 ≤ n := by
  induction nodes with
  | nil => intro n n1 h; simp [check_children] at h; simp [h]
  | cons node rest ih =>
    intro n n1 h
    simp only [check_children] at h
    cases hc : check node n with
    | none => simp [hc] at h
    | some n2 =>
      simp only [hc] at h
      have h1 := hcheck node (List.mem_cons_self _ _) n n2 hc
      have h2 := ih (fun x hx => hcheck x (List.mem_cons_of_mem _ hx)) n2 n1 h
      simp only [List.map_cons, List.sum_cons]
      omega

theorem check_node_count (c : Config) (store : Block_store) (max_child_idx : Nat) :
    ∀ (depth : Nat) (node : Type_1_node) (n n1 : Nat),
      check_node c store max_child_idx depth node n = some n1 →
      valid_leaves store max_child_idx depth node + n1 ≤ n := by
  intro depth
  induction depth with
  | zero =>
    intro node n n1 h
    simp only [check_node] at h
    cases hv : node.valid with
    | false =>
      simp only [hv, Bool.not_false, if_true] at h
      split at h
      · simp only [Option.some.injEq] at h
        simp [valid_leaves, hv, ← h]
      · cases h
    | true =>
      simp only [hv, Bool.not_true, Bool.false_eq_true, if_false] at h
      cases hl : check_leaves (tree_children max_child_idx (store node.pba).t2) n with
      | none => simp [hl] at h
      | some n2 =>
        simp only [hl] at h
        split at h
        · simp only [Option.some.injEq] at h
          have := check_leaves_count _ n n2 hl
          simp only [valid_leaves, hv, if_true, valid_leaves_of_block]
          omega
        · cases h
  | succ d ih =>
    intro node n n1 h
    simp only [check_node] at h
    cases hv : node.valid with
    | false =>
      simp only [hv, Bool.not_false, if_true] at h
      split at h
      · simp only [Option.some.injEq] at h
        simp [valid_leaves, hv, ← h]
      · cases h
    | true =>
      simp only [hv, Bool.not_true, Bool.false_eq_true, if_false] at h
      cases hl : check_children (check_node c store max_child_idx d)
          (tree_children max_child_idx (store node.pba).t1) n with
      | none => simp [hl] at h
      | some n2 =>
        simp only [hl] at h
        split at h
        · simp only [Option.some.injEq] at h
          have := check_children_count (check_node c store max_child_idx d)
            (valid_leaves store max_child_idx d) _ (fun x _ a b hab => ih x a b hab) n n2 hl
          simp only [valid_leaves, hv, if_true]
          omega
        · cases h

theorem check_children_none (check : Type_1_node → Nat → Option Nat) (nodes : List Type_1_node)
    (bad : Type_1_node) (hbad : bad ∈ nodes) (hcheck : ∀ n, check bad n = none) :
    ∀ n : Nat, check_children check nodes n = none := by
  induction nodes with
  | nil => simp at hbad
  | cons node rest ih =>
    intro n
    simp only [check_children]
    cases hc : check node n with
    | none => rfl
    | some n2 =>
      simp only []
      rcases List.mem_cons.mp hbad with h | h
      · rw [← h, hcheck] at hc; cases hc
      · exact ih h n2

theorem check_node_hash_mismatch (c : Config) (store : Block_store) (max_child_idx : Nat) :
    ∀ (depth : Nat) (node : Type_1_node),
      has_hash_mismatch c store max_child_idx depth node = true →
      ∀ n : Nat, check_node c store max_child_idx depth node n = none := by
  intro depth
  induction depth with
  | zero =>
    intro node h n
    simp only [has_hash_mismatch, hash_mismatch, Bool.and_eq_true, bne_iff_ne, ne_eq] at h
    obtain ⟨⟨hv, hg⟩, hh⟩ := h
    simp only [check_node, hv, Bool.not_true, Bool.false_eq_true, if_false]
    cases check_leaves (tree_children max_child_idx (store node.pba).t2) n with
    | none => rfl
    | some n2 => simp [hg, check_sha256_4k_hash, hh]
  | succ d ih =>
    intro node h n
    simp only [has_hash_mismatch, hash_mismatch, Bool.or_eq_true, Bool.and_eq_true, bne_iff_ne,
      ne_eq, List.any_eq_true] at h
    rcases h with ⟨⟨hv, hg⟩, hh⟩ | ⟨hv, bad, hbad, hmis⟩
    · simp only [check_node, hv, Bool.not_true, Bool.false_eq_true, if_false]
      cases check_children (check_node c store max_child_idx d)
          (tree_children max_child_idx (store node.pba).t1) n with
      | none => rfl
      | some n2 => simp [hg, check_sha256_4k_hash, hh]
    · simp only [check_node, hv, Bool.not_true, Bool.false_eq_true, if_false]
      rw [check_children_none (check_node c store max_child_idx d) _ bad hbad (ih bad hmis) n]

end Ft_check

/-! ## Claims on complete runs of the free-tree check -/

namespace Ft_check

theorem example_store_has_children : store_has_children example_store 1 := by
  intro pba
  simp only [example_store]
  split_ifs <;> decide

theorem example_store_bad_hash_has_children : store_has_children example_store_bad_hash 1 := by
  intro pba
  simp only [example_store_bad_hash, example_store]
  split_ifs <;> decide

end Ft_check

open Ft_check Child_state in
/-- Counterexample to C4 as stated: the tree of `example_store` has three valid
leaves and all its stored hashes match; a request that declares five leaves is
driven to completion with every read succeeding, and completes with
`success = true`. -/
theorem C4_counterexample :
    ∃ chan1 : Ft_check_channel,
      valid_leaves example_store 1 1 example_root = 3
      ∧ has_hash_mismatch small_config example_store 1 1 example_root = false
      ∧ (submit_request (construct small_config) (check_request 0 0 2 1 5 example_root)).and_then
          (fun ft _ => drive small_config example_store 96 13 ft)
        = .returned { _channels := [chan1] } ()
      ∧ chan1._root_state = DONE
      ∧ chan1._request._nr_of_leaves = 5
      ∧ chan1._request._success = true :=
  ⟨_, by decide, by decide, rfl, rfl, rfl, rfl⟩

open Ft_check Child_state in
/-- C4 (amended): a `CHECK` request that declares fewer leaves than there are
valid leaves in the tree completes with `success = false` when it is driven to
completion with every generated block read succeeding: after some number of
rounds the root state is `DONE`, the success flag is `false`, further rounds
change nothing, and `_peek_completed_request` reports the request. -/
theorem C4_fewer_declared_leaves_fail (c : Config) (store : Block_store)
    (buf_size buf_size1 : Nat) (req : Ft_check_request)
    (hlow : c.FT_LOWEST_T1_LVL = 2) (hbuf : c.sizeof_block_io_request ≤ buf_size)
    (hbuf1 : c.sizeof_ft_check_request ≤ buf_size1)
    (htype : req._type = Ft_check_request_type.CHECK)
    (hlvl2 : 2 ≤ req._max_lvl) (hlvl : req._max_lvl < c.TREE_MAX_LEVEL)
    (hidx : req._max_child_idx < c.NR_OF_T1_NODES_PER_BLK)
    (hstore : store_has_children store req._max_child_idx)
    (hfewer : req._nr_of_leaves
      < valid_leaves store req._max_child_idx (req._max_lvl - 1) req._root) :
    ∃ (ft0 : Ft_check) (req0 : Ft_check_request) (rounds : Nat) (chan1 : Ft_check_channel),
      submit_request (construct c) req = .returned ft0 req0
      ∧ (∀ more : Nat,
          drive c store buf_size (rounds + more) ft0 = .returned { _channels := [chan1] } ())
      ∧ chan1._root_state = DONE
      ∧ chan1._request._success = false
      ∧ _peek_completed_request c { _channels := [chan1] } buf_size1
          = .returned { _channels := [chan1] } (some chan1._request) := by
  obtain ⟨rounds, chan1, hrun, hroot, hty, hnone, _⟩ :=
    check_run c store buf_size req hlow hbuf htype hlvl2 hlvl hidx hstore
  have hcheck : check_node c store req._max_child_idx (req._max_lvl - 1) req._root
      req._nr_of_leaves = none := by
    cases h : check_node c store req._max_child_idx (req._max_lvl - 1) req._root
        req._nr_of_leaves with
    | none => rfl
    | some n1 =>
      have := check_node_count c store req._max_child_idx _ _ _ _ h
      omega
  have hb : ¬ (buf_size1 < c.sizeof_ft_check_request) := Nat.not_lt.mpr hbuf1
  refine ⟨_, _, rounds, chan1, submit_request_construct c req, hrun, hroot, hnone hcheck, ?_⟩
  simp [_peek_completed_request, peek_channels, hty, hroot, hb]

open Ft_check Child_state in
/-- Witness of C4 (amended): two leaves declared for the tree of `example_store`,
which has three valid leaves. -/
theorem C4_fewer_declared_leaves_fail_witness :
    ∃ (ft0 : Ft_check) (req0 : Ft_check_request) (rounds : Nat) (chan1 : Ft_check_channel),
      submit_request (construct small_config) (check_request 0 0 2 1 2 example_root)
        = .returned ft0 req0
      ∧ (∀ more : Nat,
          drive small_config example_store 96 (rounds + more) ft0
            = .returned { _channels := [chan1] } ())
      ∧ chan1._root_state = DONE
      ∧ chan1._request._success = false
      ∧ _peek_completed_request small_config { _channels := [chan1] } 128
          = .returned { _channels := [chan1] } (some chan1._request) :=
  C4_fewer_declared_leaves_fail small_config example_store 96 128
    (check_request 0 0 2 1 2 example_root) rfl (by decide) (by decide) rfl (by decide)
    (by decide) (by decide) example_store_has_children (by decide)

open Ft_check Child_state in
/-- Counterexample to C5 as stated: in `example_store_bad_hash` the stored hash of
child 1 of level 2 does not match its leaf block.  After eleven rounds the root
is in state `CHECK_HASH`; the twelfth round detects the mismatch, and after it
the root, a node closer to the root than the corrupted one, has state `DONE`.
And a request with `max_lvl = 1`, below `FT_LOWEST_T1_LVL = 2`, whose root of
generation 1 stores a hash that does not match the leaf block 20 it points to,
completes after three rounds with `success = true`: the block is read into the
buffer of the leaves, and the hash of the root is compared with the node block
of the type-1 level 1, which was never loaded. -/
theorem C5_counterexample :
    (∃ chan11 chan12 : Ft_check_channel,
      has_hash_mismatch small_config example_store_bad_hash 1 0 example_inner_block.t1[1] = true
      ∧ drive small_config example_store_bad_hash 96 11
          { _channels := [submitted_channel small_config (check_request 0 0 2 1 3 example_root)] }
        = .returned { _channels := [chan11] } ()
      ∧ chan11._root_state = CHECK_HASH
      ∧ find_target small_config chan11 = Target.inner_t2 2 1
      ∧ get_child_state chan11 (Child_state_ref.t1_child 2 1) = some CHECK_HASH
      ∧ drive_step small_config example_store_bad_hash 96 { _channels := [chan11] }
        = .returned { _channels := [chan12] } true
      ∧ chan12._root_state = DONE
      ∧ chan12._request._success = false)
    ∧ (∃ chan3 : Ft_check_channel,
      has_hash_mismatch small_config example_store 1 0
          { pba := 20, gen := 1, hash := 2, valid := true } = true
      ∧ small_config.sha256_4k_t2 (example_store 20).t2 = 203
      ∧ drive small_config example_store 96 3
          { _channels := [submitted_channel small_config
              (check_request 0 0 1 1 2 { pba := 20, gen := 1, hash := 2, valid := true })] }
        = .returned { _channels := [chan3] } ()
      ∧ chan3._root_state = DONE
      ∧ chan3._request._success = true
      ∧ drive_step small_config example_store 96 { _channels := [chan3] }
        = .returned { _channels := [chan3] } false) :=
  ⟨⟨_, _, by decide, rfl, rfl, by decide, rfl, rfl, rfl, rfl⟩,
    ⟨_, by decide, by decide, rfl, rfl, rfl, rfl⟩⟩

open Ft_check Child_state in
/-- C5 (amended): for a `CHECK` request with
`FT_LOWEST_T1_LVL = 2 ≤ max_lvl < TREE_MAX_LEVEL` and
`max_child_idx < NR_OF_T1_NODES_PER_BLK`, submitted to a fresh module, if the
stored hash of a valid node with a generation other than `INITIAL_GENERATION`,
anywhere in the checked tree, does not match the block the node points to, the
request, driven to completion with successful reads, completes with
`success = false`.  Moreover the step that detects a failed check
changes nothing but the success flag and the root state, which it sets to `DONE`
to mark the request complete: no child of any level is marked `DONE` by it, and
any number of later `execute` calls leave the channel as it is. -/
theorem C5_hash_mismatch_fails (c : Config) (store : Block_store)
    (buf_size : Nat) (req : Ft_check_request)
    (hlow : c.FT_LOWEST_T1_LVL = 2) (hbuf : c.sizeof_block_io_request ≤ buf_size)
    (htype : req._type = Ft_check_request_type.CHECK)
    (hlvl2 : 2 ≤ req._max_lvl) (hlvl : req._max_lvl < c.TREE_MAX_LEVEL)
    (hidx : req._max_child_idx < c.NR_OF_T1_NODES_PER_BLK)
    (hstore : store_has_children store req._max_child_idx)
    (hmismatch : has_hash_mismatch c store req._max_child_idx (req._max_lvl - 1) req._root
      = true) :
    (∃ (ft0 : Ft_check) (req0 : Ft_check_request) (rounds : Nat) (chan1 : Ft_check_channel),
      submit_request (construct c) req = .returned ft0 req0
      ∧ (∀ more : Nat,
          drive c store buf_size (rounds + more) ft0 = .returned { _channels := [chan1] } ())
      ∧ chan1._root_state = DONE
      ∧ chan1._request._success = false)
    ∧ (∀ (chan : Ft_check_channel) (p : Bool),
        chan._request._type = Ft_check_request_type.CHECK →
        check_fails c chan = true →
        ∃ chan1 : Ft_check_channel,
          execute c { _channels := [chan] } p = .returned { _channels := [chan1] } true
          ∧ chan1._root_state = DONE
          ∧ chan1._request._success = false
          ∧ chan1._t1_lvls = chan._t1_lvls
          ∧ chan1._t2_lvl = chan._t2_lvl
          ∧ chan1._nr_of_leaves = chan._nr_of_leaves
          ∧ ∀ (calls : Nat) (p1 : Bool), ∃ p2 : Bool,
              execute_times c calls { _channels := [chan1] } p1
                = .returned { _channels := [chan1] } p2) := by
  constructor
  · obtain ⟨rounds, chan1, hrun, hroot, _, hnone, _⟩ :=
      check_run c store buf_size req hlow hbuf htype hlvl2 hlvl hidx hstore
    exact ⟨_, _, rounds, chan1, submit_request_construct c req, hrun, hroot,
      hnone (check_node_hash_mismatch c store _ _ _ hmismatch _)⟩
  · intro chan p hty hfail
    have hex := execute_check_of_check_fails c chan hfail p
    refine ⟨(_mark_req_failed chan p).1, ?_, rfl, rfl, rfl, rfl, rfl, ?_⟩
    · rw [execute_single c chan p hty, hex]; rfl
    · intro calls p1
      exact execute_times_stable c (_mark_req_failed chan p).1 hty
        (fun q => execute_check_failed_stable c chan p true p hex q) calls p1

open Ft_check Child_state in
/-- Witness of C5 (amended): the tree of `example_store_bad_hash`. -/
theorem C5_hash_mismatch_fails_witness :
    (∃ (ft0 : Ft_check) (req0 : Ft_check_request) (rounds : Nat) (chan1 : Ft_check_channel),
      submit_request (construct small_config) (check_request 0 0 2 1 3 example_root)
        = .returned ft0 req0
      ∧ (∀ more : Nat,
          drive small_config example_store_bad_hash 96 (rounds + more) ft0
            = .returned { _channels := [chan1] } ())
      ∧ chan1._root_state = DONE
      ∧ chan1._request._success = false)
    ∧ (∀ (chan : Ft_check_channel) (p : Bool),
        chan._request._type = Ft_check_request_type.CHECK →
        check_fails small_config chan = true →
        ∃ chan1 : Ft_check_channel,
          execute small_config { _channels := [chan] } p = .returned { _channels := [chan1] } true
          ∧ chan1._root_state = DONE
          ∧ chan1._request._success = false
          ∧ chan1._t1_lvls = chan._t1_lvls
          ∧ chan1._t2_lvl = chan._t2_lvl
          ∧ chan1._nr_of_leaves = chan._nr_of_leaves
          ∧ ∀ (calls : Nat) (p1 : Bool), ∃ p2 : Bool,
              execute_times small_config calls { _channels := [chan1] } p1
                = .returned { _channels := [chan1] } p2) :=
  C5_hash_mismatch_fails small_config example_store_bad_hash 96
    (check_request 0 0 2 1 3 example_root) rfl (by decide) rfl (by decide) (by decide)
    (by decide) example_store_bad_hash_has_children (by decide)

/-! ## Block allocator: the channel protocol -/

namespace Block_allocator

open Block_allocator_channel_state Block_allocator_request_type

theorem ba_submit_channels_none_iff (req : Block_allocator_request)
    (chs : List Block_allocator_channel) :
    ∀ k : Nat, submit_channels req chs k = none ↔ ∀ ch ∈ chs, ch._state ≠ INACTIVE := by
  induction chs with
  | nil => intro k; simp [submit_channels]
  | cons ch rest ih =>
    intro k
    by_cases h : ch._state = INACTIVE
    · simp [submit_channels, h]
    · simp only [submit_channels, h, if_false, List.mem_cons, forall_eq_or_imp, ne_eq,
        not_false_eq_true, true_and]
      rw [← ih (k + 1)]
      cases submit_channels req rest (k + 1) with
      | none => simp
      | some r => simp

theorem ba_submit_channels_some (req : Block_allocator_request)
    (chs : List Block_allocator_channel) :
    ∀ (k i : Nat) (chs1 : List Block_allocator_channel),
      submit_channels req chs k = some (i, chs1) →
      ∃ (j : Nat) (ch : Block_allocator_channel),
        i = k + j ∧ chs[j]? = some ch ∧ ch._state = INACTIVE
        ∧ (∀ m chm, m < j → chs[m]? = some chm → chm._state ≠ INACTIVE)
        ∧ chs1 = chs.set j { _state := SUBMITTED, _request := { req with dst_request_id := i } } := by
  induction chs with
  | nil => intro k i chs1 h; simp [submit_channels] at h
  | cons ch rest ih =>
    intro k i chs1 h
    by_cases h0 : ch._state = INACTIVE
    · simp only [submit_channels, h0, if_true, Option.some.injEq, Prod.mk.injEq] at h
      obtain ⟨h1, h2⟩ := h
      refine ⟨0, ch, by omega, by simp, h0, fun m chm hm => absurd hm (Nat.not_lt_zero _), ?_⟩
      rw [← h2, ← h1]; rfl
    · simp only [submit_channels, h0, if_false] at h
      cases hr : submit_channels req rest (k + 1) with
      | none => simp [hr] at h
      | some r =>
        obtain ⟨i1, rest1⟩ := r
        simp only [hr, Option.some.injEq, Prod.mk.injEq] at h
        obtain ⟨h1, h2⟩ := h
        obtain ⟨j, chj, hj1, hj2, hj3, hj4, hj5⟩ := ih (k + 1) i1 rest1 hr
        refine ⟨j + 1, chj, by omega, by simpa using hj2, hj3, ?_, ?_⟩
        · intro m chm hm hget
          cases m with
          | zero => simp at hget; rw [← hget]; exact h0
          | succ m1 => exact hj4 m1 chm (by omega) (by simpa using hget)
        · rw [← h2, hj5, ← h1]; rfl

theorem ba_ready_to_submit_request_iff (ba : Block_allocator) :
    ready_to_submit_request ba = true ↔ ∃ ch ∈ ba._channels, ch._state = INACTIVE := by
  simp [ready_to_submit_request]

theorem ba_submit_request_raised_iff (ba : Block_allocator) (req : Block_allocator_request) :
    (submit_request ba req).is_returned = false ↔ ready_to_submit_request ba = false := by
  have h := ba_submit_channels_none_iff req ba._channels 0
  unfold submit_request
  cases hs : submit_channels req ba._channels 0 with
  | none =>
    simp only [Outcome.is_returned, true_iff]
    rw [hs] at h
    have h1 := h.mp rfl
    simp only [ready_to_submit_request, List.any_eq_false, decide_eq_true_eq]
    exact fun ch hch => h1 ch hch
  | some r =>
    obtain ⟨i, chs1⟩ := r
    simp only [Outcome.is_returned, Bool.true_eq_false, false_iff, Bool.not_eq_false]
    rw [hs] at h
    rw [ba_ready_to_submit_request_iff]
    by_contra hcon
    have : ∀ ch ∈ ba._channels, ch._state ≠ INACTIVE := fun ch hch hst => hcon ⟨ch, hch, hst⟩
    have := h.mpr this
    cases this

theorem ba_submit_request_raised_state (ba : Block_allocator) (req : Block_allocator_request)
    (h : (submit_request ba req).is_returned = false) :
    submit_request ba req = .raised ba Error.Invalid_call := by
  unfold submit_request at h ⊢
  cases hs : submit_channels req ba._channels 0 with
  | none => rfl
  | some r => obtain ⟨i, chs1⟩ := r; simp [hs, Outcome.is_returned] at h

theorem ba_peek_channels_spec (c : Config) (buf_size : Nat)
    (hbuf : c.sizeof_block_allocator_request ≤ buf_size) (chs : List Block_allocator_channel) :
    ∃ r : Option Block_allocator_request,
      peek_channels c buf_size chs = .ok r
      ∧ (r = none ↔ ∀ ch ∈ chs, ch._state ≠ COMPLETE)
      ∧ (∀ req, r = some req →
          ∃ (id : Nat) (ch : Block_allocator_channel),
            chs[id]? = some ch ∧ ch._state = COMPLETE ∧ ch._request = req
            ∧ ∀ m chm, m < id → chs[m]? = some chm → chm._state ≠ COMPLETE) := by
  have hb : ¬ (buf_size < c.sizeof_block_allocator_request) := Nat.not_lt.mpr hbuf
  induction chs with
  | nil => exact ⟨none, rfl, by simp, by intro req h; cases h⟩
  | cons ch rest ih =>
    by_cases h0 : ch._state = COMPLETE
    · refine ⟨some ch._request, by simp [peek_channels, h0, hb], ?_, ?_⟩
      · simp [h0]
      · intro req h
        simp only [Option.some.injEq] at h
        exact ⟨0, ch, by simp, h0, h, fun m chm hm => absurd hm (Nat.not_lt_zero _)⟩
    · obtain ⟨r, hr1, hr2, hr3⟩ := ih
      refine ⟨r, by simp [peek_channels, h0, hr1], ?_, ?_⟩
      · simp [h0, hr2]
      · intro req h
        obtain ⟨id, chi, h1, h2, h3, h4⟩ := hr3 req h
        refine ⟨id + 1, chi, by simpa using h1, h2, h3, ?_⟩
        intro m chm hm hget
        cases m with
        | zero => simp at hget; rw [← hget]; exact h0
        | succ m1 => exact h4 m1 chm (by omega) (by simpa using hget)

end Block_allocator

/-! ## Free-tree check: the channel protocol -/

namespace Ft_check

open Child_state

theorem ft_submit_channels_none_iff (req : Ft_check_request) (chs : List Ft_check_channel) :
    ∀ k : Nat, submit_channels req chs k = none
      ↔ ∀ ch ∈ chs, ch._request._type ≠ Ft_check_request_type.INVALID := by
  induction chs with
  | nil => intro k; simp [submit_channels]
  | cons ch rest ih =>
    intro k
    by_cases h : ch._request._type = Ft_check_request_type.INVALID
    · simp [submit_channels, h]
    · simp only [submit_channels, h, if_false, List.mem_cons, forall_eq_or_imp, ne_eq,
        not_false_eq_true, true_and]
      rw [← ih (k + 1)]
      cases submit_channels req rest (k + 1) with
      | none => simp
      | some r => simp

theorem ft_submit_channels_some (req : Ft_check_request) (chs : List Ft_check_channel) :
    ∀ (k i : Nat) (chs1 : List Ft_check_channel),
      submit_channels req chs k = some (i, chs1) →
      ∃ (j : Nat) (ch : Ft_check_channel),
        i = k + j ∧ chs[j]? = some ch ∧ ch._request._type = Ft_check_request_type.INVALID
        ∧ (∀ m chm, m < j → chs[m]? = some chm →
            chm._request._type ≠ Ft_check_request_type.INVALID)
        ∧ chs1 = chs.set j
            { ch with
              _request := { req with dst_request_id := i }
              _nr_of_leaves := req._nr_of_leaves
              _root_state := READ_BLOCK } := by
  induction chs with
  | nil => intro k i chs1 h; simp [submit_channels] at h
  | cons ch rest ih =>
    intro k i chs1 h
    by_cases h0 : ch._request._type = Ft_check_request_type.INVALID
    · simp only [submit_channels, h0, if_true, Option.some.injEq, Prod.mk.injEq] at h
      obtain ⟨h1, h2⟩ := h
      refine ⟨0, ch, by omega, by simp, h0, fun m chm hm => absurd hm (Nat.not_lt_zero _), ?_⟩
      rw [← h2, ← h1]; rfl
    · simp only [submit_channels, h0, if_false] at h
      cases hr : submit_channels req rest (k + 1) with
      | none => simp [hr] at h
      | some r =>
        obtain ⟨i1, rest1⟩ := r
        simp only [hr, Option.some.injEq, Prod.mk.injEq] at h
        obtain ⟨h1, h2⟩ := h
        obtain ⟨j, chj, hj1, hj2, hj3, hj4, hj5⟩ := ih (k + 1) i1 rest1 hr
        refine ⟨j + 1, chj, by omega, by simpa using hj2, hj3, ?_, ?_⟩
        · intro m chm hm hget
          cases m with
          | zero => simp at hget; rw [← hget]; exact h0
          | succ m1 => exact hj4 m1 chm (by omega) (by simpa using hget)
        · rw [← h2, hj5, ← h1]; rfl

theorem ft_ready_to_submit_request_iff (ft : Ft_check) :
    ready_to_submit_request ft = true
      ↔ ∃ ch ∈ ft._channels, ch._request._type = Ft_check_request_type.INVALID := by
  simp [ready_to_submit_request]

theorem ft_submit_request_raised_iff (ft : Ft_check) (req : Ft_check_request) :
    (submit_request ft req).is_returned = false ↔ ready_to_submit_request ft = false := by
  have h := ft_submit_channels_none_iff req ft._channels 0
  unfold submit_request
  cases hs : submit_channels req ft._channels 0 with
  | none =>
    simp only [Outcome.is_returned, true_iff]
    rw [hs] at h
    have h1 := h.mp rfl
    simp only [ready_to_submit_request, List.any_eq_false, decide_eq_true_eq]
    exact fun ch hch => h1 ch hch
  | some r =>
    obtain ⟨i, chs1⟩ := r
    simp only [Outcome.is_returned, Bool.true_eq_false, false_iff, Bool.not_eq_false]
    rw [hs] at h
    rw [ft_ready_to_submit_request_iff]
    by_contra hcon
    have : ∀ ch ∈ ft._channels, ch._request._type ≠ Ft_check_request_type.INVALID :=
      fun ch hch hst => hcon ⟨ch, hch, hst⟩
    have := h.mpr this
    cases this

theorem ft_submit_request_raised_state (ft : Ft_check) (req : Ft_check_request)
    (h : (submit_request ft req).is_returned = false) :
    submit_request ft req = .raised ft Error.Exception_1 := by
  unfold submit_request at h ⊢
  cases hs : submit_channels req ft._channels 0 with
  | none => rfl
  | some r => obtain ⟨i, chs1⟩ := r; simp [hs, Outcome.is_returned] at h

theorem ft_peek_channels_spec (c : Config) (buf_size : Nat)
    (hbuf : c.sizeof_ft_check_request ≤ buf_size) (chs : List Ft_check_channel) :
    ∃ r : Option Ft_check_request,
      peek_channels c buf_size chs = .ok r
      ∧ (r = none ↔ ∀ ch ∈ chs,
          ¬ (ch._request._type ≠ Ft_check_request_type.INVALID ∧ ch._root_state = DONE))
      ∧ (∀ req, r = some req →
          ∃ (id : Nat) (ch : Ft_check_channel),
            chs[id]? = some ch
            ∧ ch._request._type ≠ Ft_check_request_type.INVALID ∧ ch._root_state = DONE
            ∧ ch._request = req
            ∧ ∀ m chm, m < id → chs[m]? = some chm →
                ¬ (chm._request._type ≠ Ft_check_request_type.INVALID
                    ∧ chm._root_state = DONE)) := by
  have hb : ¬ (buf_size < c.sizeof_ft_check_request) := Nat.not_lt.mpr hbuf
  induction chs with
  | nil => exact ⟨none, rfl, by simp, by intro req h; cases h⟩
  | cons ch rest ih =>
    by_cases h0 : ch._request._type ≠ Ft_check_request_type.INVALID ∧ ch._root_state = DONE
    · refine ⟨some ch._request, ?_, ?_, ?_⟩
      · simp only [peek_channels]
        rw [if_pos h0, if_neg (by simpa using hbuf)]
      · constructor
        · intro h; cases h
        · intro h; exact absurd h0 (h ch (List.mem_cons_self _ _))
      · intro req h
        simp only [Option.some.injEq] at h
        exact ⟨0, ch, by simp, h0.1, h0.2, h, fun m chm hm => absurd hm (Nat.not_lt_zero _)⟩
    · obtain ⟨r, hr1, hr2, hr3⟩ := ih
      refine ⟨r, ?_, ?_, ?_⟩
      · simp only [peek_channels]
        rw [if_neg h0]; exact hr1
      · rw [hr2]
        simp only [List.mem_cons, forall_eq_or_imp]
        exact ⟨fun h => ⟨h0, h⟩, fun h => h.2⟩
      · intro req h
        obtain ⟨id, chi, h1, h2, h3, h4, h5⟩ := hr3 req h
        refine ⟨id + 1, chi, by simpa using h1, h2, h3, h4, ?_⟩
        intro m chm hm hget
        cases m with
        | zero => simp at hget; rw [← hget]; exact h0
        | succ m1 => exact h5 m1 chm (by omega) (by simpa using hget)

end Ft_check

/-! ## Free-tree check: frame of the steps -/

namespace Ft_check

open Child_state

theorem get_child_state_set_t1_child_state_ne (chan : Ft_check_channel) (lvl child_idx : Nat)
    (state : Child_state) (ref : Child_state_ref)
    (hne : ref ≠ Child_state_ref.t1_child lvl child_idx) :
    get_child_state (set_t1_child_state chan lvl child_idx state) ref
      = get_child_state chan ref := by
  cases ref with
  | root_state => rfl
  | t1_child l j =>
    simp only [get_child_state, t1_lvls_set_t1_child_state]
    by_cases hl : l = lvl
    · subst hl
      have hj : child_idx ≠ j := by
        intro h; subst h; exact hne rfl
      cases hget : chan._t1_lvls[l]? with
      | none => simp
      | some t1_lvl => simp [List.getElem?_set_ne hj]
    · simp [hl]

theorem get_child_state_set_child_state_ne (chan : Ft_check_channel) (ref0 : Child_state_ref)
    (state : Child_state) (ref : Child_state_ref) (hne : ref ≠ ref0) :
    get_child_state (set_child_state chan ref0 state) ref = get_child_state chan ref := by
  cases ref0 with
  | root_state =>
    cases ref with
    | root_state => exact absurd rfl hne
    | t1_child l j => rfl
  | t1_child l0 j0 => exact get_child_state_set_t1_child_state_ne chan l0 j0 state ref hne

theorem get_child_state_set_child_state (chan : Ft_check_channel) (ref : Child_state_ref)
    (state old : Child_state) (h : get_child_state chan ref = some old) :
    get_child_state (set_child_state chan ref state) ref = some state := by
  cases ref with
  | root_state => rfl
  | t1_child l j =>
    obtain ⟨t1_lvl, h1, h2⟩ := get_t1_child_state_some chan l j old h
    exact get_set_t1_child_state chan l j state t1_lvl h1 (lt_length_of_getElem?_eq_some h2)

end Ft_check

namespace Ft_check

open Child_state

theorem map_children_modify (lvls : List Type_1_level) (f : Type_1_level → Type_1_level)
    (hf : ∀ x, (f x).children = x.children) (i : Nat) :
    (lvls.modify f i).map (fun l => l.children) = lvls.map (fun l => l.children) := by
  apply List.ext_getElem?
  intro l
  by_cases h : i = l
  · subst h
    cases hget : lvls[i]? with
    | none => simp [List.getElem?_map, List.getElem?_modify, hget]
    | some x => simp [List.getElem?_map, List.getElem?_modify, hget, hf]
  · simp [List.getElem?_map, List.getElem?_modify_ne _ _ h]

theorem map_children_set (lvls : List Type_1_level) (i : Nat) (x y : Type_1_level)
    (hget : lvls[i]? = some y) (hxy : x.children = y.children) :
    (lvls.set i x).map (fun l => l.children) = lvls.map (fun l => l.children) := by
  have hlen : i < lvls.length := lt_length_of_getElem?_eq_some hget
  apply List.ext_getElem?
  intro l
  by_cases h : i = l
  · subst h
    have hy : lvls[i] = y := by
      have h := List.getElem?_eq_getElem hlen
      rw [hget] at h
      exact (Option.some.inj h).symm
    simp [List.getElem?_map, hget, hlen, hxy, hy]
  · simp [List.getElem?_map, List.getElem?_set_ne h]

end Ft_check

namespace Ft_check

open Child_state

/-- The root state after a step on another child: as before, or `DONE` with the
success flag cleared when the step failed the request. -/
theorem root_kept_or_failed_of_mark (chan : Ft_check_channel) (p : Bool) :
    (_mark_req_failed chan p).1._root_state = chan._root_state
      ∨ ((_mark_req_failed chan p).1._root_state = DONE
          ∧ (_mark_req_failed chan p).1._request._success = false) :=
  Or.inr ⟨rfl, rfl⟩

theorem execute_leaf_child_frame (chan chan1 : Ft_check_channel) (i : Nat) (p p1 : Bool)
    (h : _execute_leaf_child chan i p = .returned chan1 p1) :
    chan1._t1_lvls = chan._t1_lvls
    ∧ (∀ j, j ≠ i → chan1._t2_lvl.children_state[j]? = chan._t2_lvl.children_state[j]?)
    ∧ (chan1._root_state = chan._root_state
        ∨ (chan1._root_state = DONE ∧ chan1._request._success = false)) := by
  unfold _execute_leaf_child at h
  split at h
  · split_ifs at h
    all_goals
      cases h
      refine ⟨rfl, ?_, ?_⟩
      · intro j hj
        have hij : i ≠ j := Ne.symm hj
        first
          | rfl
          | (simp only [set_t2_child_state]; exact List.getElem?_set_ne hij)
      · first
          | exact Or.inl rfl
          | exact Or.inr ⟨rfl, rfl⟩
  · cases h

theorem execute_inner_t2_child_frame (c : Config) (chan chan1 : Ft_check_channel) (lvl i : Nat)
    (p p1 : Bool) (h : _execute_inner_t2_child c chan lvl i p = .returned chan1 p1) :
    (∀ j : Nat, chan1._t2_lvl.children_state[j]? = chan._t2_lvl.children_state[j]?
        ∨ chan1._t2_lvl.children_state[j]? = some READ_BLOCK)
    ∧ (∀ l j, (l, j) ≠ (lvl, i) →
        get_child_state chan1 (Child_state_ref.t1_child l j)
          = get_child_state chan (Child_state_ref.t1_child l j))
    ∧ (chan1._root_state = chan._root_state
        ∨ (chan1._root_state = DONE ∧ chan1._request._success = false)) := by
  have hne : ∀ l j, (l, j) ≠ (lvl, i) →
      Child_state_ref.t1_child l j ≠ Child_state_ref.t1_child lvl i := by
    intro l j hlj heq
    cases heq
    exact hlj rfl
  unfold _execute_inner_t2_child at h
  split at h
  · cases h
  · split at h
    · split_ifs at h
      all_goals
        cases h
        first
          | exact ⟨fun j => Or.inl rfl, fun l j _ => rfl, Or.inr ⟨rfl, rfl⟩⟩
          | exact ⟨fun j => Or.inl rfl, fun l j _ => rfl, Or.inl rfl⟩
          | exact ⟨fun j => Or.inl rfl,
              fun l j hlj => get_child_state_set_t1_child_state_ne _ lvl i _ _ (hne l j hlj),
              Or.inl rfl⟩
          | refine ⟨?_, fun l j hlj =>
              (get_child_state_set_t1_child_state_ne _ lvl i _ _ (hne l j hlj)).trans rfl,
              Or.inl rfl⟩
            intro j
            by_cases hj : j < chan._t2_lvl.children_state.length
            · right
              simp [set_t1_child_state, reset_children_state, hj]
            · left
              have h1 : chan._t2_lvl.children_state[j]? = none :=
                List.getElem?_eq_none (by omega)
              have h2 : (reset_children_state chan._t2_lvl.children_state)[j]? = none :=
                List.getElem?_eq_none (by simp [reset_children_state]; omega)
              simp only [set_t1_child_state]
              rw [h1, h2]
    · cases h

theorem get_child_state_reset (chan : Ft_check_channel) (child_lvl_idx : Nat)
    (child_lvl : Type_1_level) (prim : Generated_primitive)
    (hcl : chan._t1_lvls[child_lvl_idx]? = some child_lvl) (ref : Child_state_ref) :
    get_child_state
        { chan with
          _t1_lvls := chan._t1_lvls.set child_lvl_idx
            { child_lvl with children_state := reset_children_state child_lvl.children_state }
          _gen_prim := prim } ref
      = get_child_state chan ref
    ∨ get_child_state
        { chan with
          _t1_lvls := chan._t1_lvls.set child_lvl_idx
            { child_lvl with children_state := reset_children_state child_lvl.children_state }
          _gen_prim := prim } ref
      = some READ_BLOCK := by
  have hlen : child_lvl_idx < chan._t1_lvls.length := lt_length_of_getElem?_eq_some hcl
  cases ref with
  | root_state => exact Or.inl rfl
  | t1_child l j =>
    by_cases hl : child_lvl_idx = l
    · subst hl
      by_cases hj : j < child_lvl.children_state.length
      · right
        simp [get_child_state, hlen, reset_children_state, hj]
      · left
        have h1 : child_lvl.children_state[j]? = none := List.getElem?_eq_none (by omega)
        have h2 : (reset_children_state child_lvl.children_state)[j]? = none :=
          List.getElem?_eq_none (by simp [reset_children_state]; omega)
        simp [get_child_state, hlen, hcl, h1, h2]
    · left
      simp [get_child_state, List.getElem?_set_ne hl]

theorem execute_inner_t1_child_frame (c : Config) (chan chan1 : Ft_check_channel)
    (child : Type_1_node) (child_lvl_idx : Nat) (ref : Child_state_ref) (lvl i : Nat)
    (p p1 : Bool)
    (h : _execute_inner_t1_child c chan child child_lvl_idx ref lvl i p = .returned chan1 p1) :
    chan1._t2_lvl.children_state = chan._t2_lvl.children_state
    ∧ (∀ ref1 : Child_state_ref, ref1 ≠ ref → ref1 ≠ Child_state_ref.root_state →
        get_child_state chan1 ref1 = get_child_state chan ref1
          ∨ get_child_state chan1 ref1 = some READ_BLOCK)
    ∧ (ref ≠ Child_state_ref.root_state →
        chan1._root_state = chan._root_state
          ∨ (chan1._root_state = DONE ∧ chan1._request._success = false)) := by
  have hroot : ∀ (X : Ft_check_channel) (s : Child_state),
      ref ≠ Child_state_ref.root_state → (set_child_state X ref s)._root_state = X._root_state := by
    intro X s hr
    cases ref with
    | root_state => exact absurd rfl hr
    | t1_child l j => rfl
  have ht2 : ∀ (X : Ft_check_channel) (s : Child_state),
      (set_child_state X ref s)._t2_lvl = X._t2_lvl := by
    intro X s
    cases ref <;> rfl
  have hreq : ∀ (X : Ft_check_channel) (r : Ft_check_request) (ref1 : Child_state_ref),
      get_child_state { X with _request := r } ref1 = get_child_state X ref1 := by
    intro X r ref1
    cases ref1 <;> rfl
  unfold _execute_inner_t1_child at h
  split at h
  · rename_i child_state child_lvl hs hcl
    split_ifs at h
    all_goals
      cases h
      refine ⟨?_, ?_, ?_⟩
      · first
          | rfl
          | simp only [ht2]
      · intro ref1 h1 h2
        first
          | exact Or.inl rfl
          | exact Or.inl (get_child_state_set_child_state_ne _ ref _ ref1 h1)
          | exact Or.inl ((hreq _ _ ref1).trans
              (get_child_state_set_child_state_ne _ ref _ ref1 h1))
          | (rw [get_child_state_set_child_state_ne _ ref _ ref1 h1]
             exact get_child_state_reset chan child_lvl_idx child_lvl default_gen_prim hcl ref1)
          | (cases ref1 with
             | root_state => exact absurd rfl h2
             | t1_child l j => exact Or.inl rfl)
      · intro hr
        first
          | exact Or.inl rfl
          | exact Or.inr ⟨rfl, rfl⟩
          | exact Or.inl (hroot _ _ hr)
  · cases h

end Ft_check

/-! ## A claimed channel stays occupied -/

theorem Outcome.state_map_state {σ τ α : Type} (f : σ → τ) (o : Outcome σ α) :
    (o.map_state f).state = f o.state := by
  cases o <;> rfl

namespace Block_allocator

open Block_allocator_channel_state Block_allocator_request_type

theorem execute_get_occupied (c : Config) (fb nr : Nat) (ch : Block_allocator_channel)
    (p : Bool) (h : ch._state ≠ INACTIVE) :
    (_execute_get c fb nr ch p).2.1._state ≠ INACTIVE := by
  unfold _execute_get
  split
  · split_ifs <;> simp [_mark_req_successful, _mark_req_failed]
  · exact h

theorem execute_channels_occupied (c : Config) (fb : Nat) (chs : List Block_allocator_channel) :
    ∀ (nr : Nat) (p : Bool) (k : Nat) (ch : Block_allocator_channel),
      chs[k]? = some ch → ch._state ≠ INACTIVE →
      ∃ ch1, (execute_channels c fb chs nr p).state.2[k]? = some ch1 ∧ ch1._state ≠ INACTIVE := by
  induction chs with
  | nil => intro nr p k ch h; simp at h
  | cons ch0 rest ih =>
    intro nr p k ch hk hocc
    unfold execute_channels
    by_cases h0 : ch0._state = INACTIVE
    · rw [if_pos h0, Outcome.state_map_state]
      cases k with
      | zero =>
        simp at hk
        rw [hk] at h0
        exact absurd h0 hocc
      | succ k1 =>
        obtain ⟨ch1, h1, h2⟩ := ih nr p k1 ch (by simpa using hk) hocc
        exact ⟨ch1, by simpa using h1, h2⟩
    · rw [if_neg h0]
      cases ht : ch0._request._type with
      | GET =>
        simp only [Outcome.state_map_state]
        cases k with
        | zero =>
          refine ⟨_, List.getElem?_cons_zero, ?_⟩
          apply execute_get_occupied
          split_ifs with hs
          · simp
          · exact h0
        | succ k1 =>
          obtain ⟨ch1, h1, h2⟩ := ih _ _ k1 ch (by simpa using hk) hocc
          exact ⟨ch1, by simpa using h1, h2⟩
      | INVALID =>
        exact ⟨ch, hk, hocc⟩

theorem execute_occupied (c : Config) (ba : Block_allocator) (p : Bool) (k : Nat)
    (ch : Block_allocator_channel) (hk : ba._channels[k]? = some ch)
    (hocc : ch._state ≠ INACTIVE) :
    ∃ ch1, (execute c ba p).state._channels[k]? = some ch1 ∧ ch1._state ≠ INACTIVE := by
  unfold execute
  rw [Outcome.state_map_state]
  exact execute_channels_occupied c ba._first_block ba._channels ba._nr_of_blks p k ch hk hocc

theorem after_executes_occupied (c : Config) (ps : List Bool) :
    ∀ (ba : Block_allocator) (k : Nat) (ch : Block_allocator_channel),
      ba._channels[k]? = some ch → ch._state ≠ INACTIVE →
      ∃ ch1, (after_executes c ps ba)._channels[k]? = some ch1 ∧ ch1._state ≠ INACTIVE := by
  induction ps with
  | nil => intro ba k ch hk hocc; exact ⟨ch, hk, hocc⟩
  | cons p rest ih =>
    intro ba k ch hk hocc
    obtain ⟨ch1, h1, h2⟩ := execute_occupied c ba p k ch hk hocc
    exact ih _ k ch1 h1 h2

theorem ba_submit_request_claims (ba ba1 : Block_allocator) (req req1 : Block_allocator_request)
    (h : submit_request ba req = .returned ba1 req1) :
    ∃ ch, ba._channels[req1.dst_request_id]? = some ch ∧ ch._state = INACTIVE
      ∧ ba1._channels[req1.dst_request_id]?
          = some { _state := SUBMITTED, _request := req1 } := by
  unfold submit_request at h
  cases hs : submit_channels req ba._channels 0 with
  | none => simp [hs] at h
  | some r =>
    obtain ⟨i, chs1⟩ := r
    simp only [hs, Outcome.returned.injEq] at h
    obtain ⟨hba, hreq⟩ := h
    obtain ⟨j, ch, hj1, hj2, hj3, _, hj5⟩ := ba_submit_channels_some req ba._channels 0 i chs1 hs
    have hij : i = j := by omega
    subst hij
    have hlt : i < ba._channels.length := Ft_check.lt_length_of_getElem?_eq_some hj2
    refine ⟨ch, by rw [← hreq]; exact hj2, hj3, ?_⟩
    rw [← hba, ← hreq]
    simp [hj5, hlt]

end Block_allocator

namespace Ft_check

open Child_state

theorem request_type_set_child_state (chan : Ft_check_channel) (ref : Child_state_ref)
    (s : Child_state) : (set_child_state chan ref s)._request = chan._request := by
  cases ref <;> rfl

theorem execute_leaf_child_type (chan : Ft_check_channel) (i : Nat) (p : Bool) :
    (_execute_leaf_child chan i p).state._request._type = chan._request._type := by
  unfold _execute_leaf_child
  split
  · split_ifs <;> rfl
  · rfl

theorem execute_inner_t2_child_type (c : Config) (chan : Ft_check_channel) (lvl i : Nat)
    (p : Bool) :
    (_execute_inner_t2_child c chan lvl i p).state._request._type = chan._request._type := by
  unfold _execute_inner_t2_child
  split
  · rfl
  · split
    · split_ifs <;> rfl
    · rfl

theorem execute_inner_t1_child_type (c : Config) (chan : Ft_check_channel) (child : Type_1_node)
    (child_lvl_idx : Nat) (ref : Child_state_ref) (lvl i : Nat) (p : Bool) :
    (_execute_inner_t1_child c chan child child_lvl_idx ref lvl i p).state._request._type
      = chan._request._type := by
  unfold _execute_inner_t1_child
  split
  · split_ifs <;>
      first
        | rfl
        | simp only [Outcome.state, request_type_set_child_state]
  · rfl

theorem execute_check_type (c : Config) (chan : Ft_check_channel) (p : Bool) :
    (_execute_check c chan p).state._request._type = chan._request._type := by
  rw [execute_check_eq]
  cases find_target c chan with
  | leaf i => exact execute_leaf_child_type chan i p
  | inner_t2 lvl i => exact execute_inner_t2_child_type c chan lvl i p
  | inner_t1 lvl i child => exact execute_inner_t1_child_type c chan child _ _ lvl i p
  | root => exact execute_inner_t1_child_type c chan _ _ _ _ 0 p
  | nothing => rfl
  | out_of_bounds => rfl

theorem execute_channels_type (c : Config) (chs : List Ft_check_channel) :
    ∀ (p : Bool) (k : Nat) (ch : Ft_check_channel),
      chs[k]? = some ch →
      ∃ ch1, (execute_channels c chs p).state[k]? = some ch1
        ∧ ch1._request._type = ch._request._type := by
  induction chs with
  | nil => intro p k ch h; simp at h
  | cons ch0 rest ih =>
    intro p k ch hk
    unfold execute_channels
    cases ht : ch0._request._type with
    | INVALID =>
      simp only [Outcome.state_map_state]
      cases k with
      | zero => exact ⟨ch0, by simp, by simp at hk; rw [hk]⟩
      | succ k1 =>
        obtain ⟨ch1, h1, h2⟩ := ih p k1 ch (by simpa using hk)
        exact ⟨ch1, by simpa using h1, h2⟩
    | CHECK =>
      have hty := execute_check_type c ch0 p
      cases hex : _execute_check c ch0 p with
      | returned chan1 p1 =>
        rw [hex] at hty
        simp only [Outcome.state_map_state]
        cases k with
        | zero =>
          simp at hk
          exact ⟨chan1, by simp, by rw [← hk]; exact hty⟩
        | succ k1 =>
          obtain ⟨ch1, h1, h2⟩ := ih p1 k1 ch (by simpa using hk)
          exact ⟨ch1, by simpa using h1, h2⟩
      | raised chan1 e =>
        rw [hex] at hty
        simp only [Outcome.state]
        cases k with
        | zero =>
          simp at hk
          exact ⟨chan1, by simp, by rw [← hk]; exact hty⟩
        | succ k1 => exact ⟨ch, by simpa using hk, rfl⟩

theorem execute_type (c : Config) (ft : Ft_check) (p : Bool) (k : Nat) (ch : Ft_check_channel)
    (hk : ft._channels[k]? = some ch) :
    ∃ ch1, (execute c ft p).state._channels[k]? = some ch1
      ∧ ch1._request._type = ch._request._type := by
  unfold execute
  rw [Outcome.state_map_state]
  exact execute_channels_type c ft._channels p k ch hk

theorem after_executes_type (c : Config) (ps : List Bool) :
    ∀ (ft : Ft_check) (k : Nat) (ch : Ft_check_channel),
      ft._channels[k]? = some ch →
      ∃ ch1, (after_executes c ps ft)._channels[k]? = some ch1
        ∧ ch1._request._type = ch._request._type := by
  induction ps with
  | nil => intro ft k ch hk; exact ⟨ch, hk, rfl⟩
  | cons p rest ih =>
    intro ft k ch hk
    obtain ⟨ch1, h1, h2⟩ := execute_type c ft p k ch hk
    obtain ⟨ch2, h3, h4⟩ := ih _ k ch1 h1
    exact ⟨ch2, h3, h4.trans h2⟩

theorem ft_submit_request_claims (ft ft1 : Ft_check) (req req1 : Ft_check_request)
    (h : submit_request ft req = .returned ft1 req1) :
    ∃ ch, ft._channels[req1.dst_request_id]? = some ch
      ∧ ch._request._type = Ft_check_request_type.INVALID
      ∧ req1 = { req with dst_request_id := req1.dst_request_id }
      ∧ ft1._channels[req1.dst_request_id]?
          = some { ch with
                   _request := req1
                   _nr_of_leaves := req._nr_of_leaves
                   _root_state := READ_BLOCK } := by
  unfold submit_request at h
  cases hs : submit_channels req ft._channels 0 with
  | none => simp [hs] at h
  | some r =>
    obtain ⟨i, chs1⟩ := r
    simp only [hs, Outcome.returned.injEq] at h
    obtain ⟨hft, hreq⟩ := h
    obtain ⟨j, ch, hj1, hj2, hj3, _, hj5⟩ := ft_submit_channels_some req ft._channels 0 i chs1 hs
    have hij : i = j := by omega
    subst hij
    have hlt : i < ft._channels.length := lt_length_of_getElem?_eq_some hj2
    refine ⟨ch, by rw [← hreq]; exact hj2, hj3, by rw [← hreq], ?_⟩
    rw [← hft, ← hreq]
    simp [hj5, hlt]

end Ft_check

/-! ## The step that emits a read, the step after the read, and the order of the steps -/

open Ft_check Child_state in
/-- C11: for a valid child at level `lvl ≥ 1` whose state is `READ_BLOCK`, when
the channel has no generated primitive, the step of either kind of inner child
(and of the root) returns with progress and changes the channel only by
recording a Block I/O primitive for the PBA of the child and by setting the
level to read to `lvl - 1`.  `_peek_generated_request` on the module with this
channel then constructs, in a buffer that is large enough, a `READ` request of
the Block I/O module for that PBA and one block, with the channel index as
source request id, whose block pointer is the node block of the type-2 level
when `lvl - 1 = 1` and the node block of the type-1 level `lvl - 1` otherwise. -/
theorem C11_emit_read (c : Config) (chan : Ft_check_channel) (lvl : Nat) (child : Type_1_node)
    (progress : Bool) (buf_size : Nat)
    (hlvl : 1 ≤ lvl) (hvalid : child.valid = true) (hprim : chan._gen_prim.valid = false)
    (hbuf : c.sizeof_block_io_request ≤ buf_size)
    (hdst : lvl - 1 = 1 ∨ lvl - 1 < chan._t1_lvls.length) :
    ∃ chan1 : Ft_check_channel,
      chan1 = { chan with
                _gen_prim := { success := false, tag := Primitive_tag.BLOCK_IO,
                               blk_nr := child.pba, dropped := false }
                _lvl_to_read := lvl - 1 }
      ∧ (∀ (child_idx : Nat) (t1_lvl : Type_1_level),
          chan._t1_lvls[lvl]? = some t1_lvl →
          t1_lvl.children_state[child_idx]? = some READ_BLOCK →
          t1_lvl.children[child_idx]? = some child →
          _execute_inner_t2_child c chan lvl child_idx progress = .returned chan1 true)
      ∧ (∀ (ref : Child_state_ref) (child_lvl_idx child_idx : Nat),
          get_child_state chan ref = some READ_BLOCK →
          child_lvl_idx < chan._t1_lvls.length →
          _execute_inner_t1_child c chan child child_lvl_idx ref lvl child_idx progress
            = .returned chan1 true)
      ∧ _peek_generated_request c { _channels := [chan1] } buf_size
          = .returned { _channels := [chan1] }
              (some
                { src_module_id := c.FT_CHECK
                  src_request_id := 0
                  dst_module_id := c.BLOCK_IO
                  _type := Block_io_request_type.READ
                  _client_req_offset := 0
                  _client_req_tag := 0
                  _key_id := 0
                  _pba := child.pba
                  _vba := 0
                  _blk_count := 1
                  _blk_ptr :=
                    if lvl - 1 = 1 then Blk_ptr.t2_lvl_children 0
                    else Blk_ptr.t1_lvl_children 0 (lvl - 1)
                  _hash_ptr := Blk_ptr.null
                  _success := false }) := by
  have hb : ¬ (buf_size < c.sizeof_block_io_request) := Nat.not_lt.mpr hbuf
  refine ⟨_, rfl, ?_, ?_, ?_⟩
  · intro child_idx t1_lvl h1 h2 h3
    simp [_execute_inner_t2_child, h1, h2, h3, hvalid, hprim]
  · intro ref child_lvl_idx child_idx h1 h2
    obtain ⟨child_lvl, h3⟩ : ∃ child_lvl, chan._t1_lvls[child_lvl_idx]? = some child_lvl :=
      ⟨_, List.getElem?_eq_getElem h2⟩
    simp [_execute_inner_t1_child, h1, h3, hvalid, hprim]
  · have hnb : ¬ (¬ lvl = 2 ∧ chan._t1_lvls.length ≤ lvl - 1) := by omega
    simp only [_peek_generated_request, peek_generated_channels, Generated_primitive.valid]
    simp [hnb, hb]

open Ft_check Child_state in
/-- Witness of C11: child 0 of the lowest type-1 level of a channel of the small
configuration points to block 20; the request reads block 20 into the node
block of the type-2 level. -/
theorem C11_emit_read_witness :
    ∃ chan1 : Ft_check_channel,
      _execute_inner_t2_child small_config
          (example_chan_at_child READ_BLOCK (example_node 20 7) 3) 2 0 false
        = .returned chan1 true
      ∧ chan1._lvl_to_read = 1
      ∧ _peek_generated_request small_config { _channels := [chan1] } 96
          = .returned { _channels := [chan1] }
              (some
                { src_module_id := 11
                  src_request_id := 0
                  dst_module_id := 4
                  _type := Block_io_request_type.READ
                  _client_req_offset := 0
                  _client_req_tag := 0
                  _key_id := 0
                  _pba := 20
                  _vba := 0
                  _blk_count := 1
                  _blk_ptr := Blk_ptr.t2_lvl_children 0
                  _hash_ptr := Blk_ptr.null
                  _success := false }) :=
  match C11_emit_read small_config (example_chan_at_child READ_BLOCK (example_node 20 7) 3) 2
      (example_node 20 7) false 96 (by decide) rfl rfl (by decide) (Or.inl rfl) with
  | ⟨chan1, h0, h1, _, h3⟩ =>
    ⟨chan1, h1 0 { children_state := [READ_BLOCK, READ_BLOCK],
                   children := [example_node 20 7, example_node 20 7] } rfl rfl rfl,
      by rw [h0], h3⟩

open Ft_check Child_state in
/-- C12: let the generated primitive of a channel be the Block I/O read of the
block of a valid child, and let `generated_request_complete` deliver a
successful Block I/O request for it.  Then the next step on that child, found in
state `READ_BLOCK`, returns with progress; afterwards every child state of the
level below (the type-2 level for `_execute_inner_t2_child`, the level
`child_lvl` for `_execute_inner_t1_child`) is `READ_BLOCK`, the generated
primitive is cleared, the state of the child is `CHECK_HASH`, and the counter of
remaining leaves, the request, the level to read, the node blocks and the child
states of all other levels (and of the siblings of the child) are unchanged. -/
theorem C12_read_complete (c : Config) (chan0 chan : Ft_check_channel) (child : Type_1_node)
    (mod_req : Block_io_request) (lvl : Nat) (progress : Bool)
    (hvalid : child.valid = true)
    (htag : chan0._gen_prim.tag = Primitive_tag.BLOCK_IO)
    (hblk : chan0._gen_prim.blk_nr = child.pba)
    (hsuccess : mod_req._success = true)
    (hcomplete : generated_request_complete c { _channels := [chan0] } mod_req
      = .returned { _channels := [chan] } ()) :
    (∀ (child_idx : Nat) (t1_lvl : Type_1_level),
        chan._t1_lvls[lvl]? = some t1_lvl →
        t1_lvl.children_state[child_idx]? = some READ_BLOCK →
        t1_lvl.children[child_idx]? = some child →
        ∃ chan1 : Ft_check_channel,
          _execute_inner_t2_child c chan lvl child_idx progress = .returned chan1 true
          ∧ chan1._t2_lvl.children_state.length = chan._t2_lvl.children_state.length
          ∧ (∀ s ∈ chan1._t2_lvl.children_state, s = READ_BLOCK)
          ∧ chan1._gen_prim = default_gen_prim
          ∧ get_child_state chan1 (Child_state_ref.t1_child lvl child_idx) = some CHECK_HASH
          ∧ chan1._nr_of_leaves = chan._nr_of_leaves
          ∧ chan1._request = chan._request
          ∧ chan1._lvl_to_read = chan._lvl_to_read
          ∧ chan1._t2_lvl.children = chan._t2_lvl.children
          ∧ chan1._t1_lvls.map (fun l => l.children) = chan._t1_lvls.map (fun l => l.children)
          ∧ (∀ ref : Child_state_ref, ref ≠ Child_state_ref.t1_child lvl child_idx →
              get_child_state chan1 ref = get_child_state chan ref))
    ∧ (∀ (ref : Child_state_ref) (child_lvl_idx child_idx : Nat) (child_lvl : Type_1_level),
        get_child_state chan ref = some READ_BLOCK →
        chan._t1_lvls[child_lvl_idx]? = some child_lvl →
        (∀ j, ref ≠ Child_state_ref.t1_child child_lvl_idx j) →
        ∃ chan1 : Ft_check_channel,
          _execute_inner_t1_child c chan child child_lvl_idx ref lvl child_idx progress
            = .returned chan1 true
          ∧ (∀ j, j < child_lvl.children_state.length →
              get_child_state chan1 (Child_state_ref.t1_child child_lvl_idx j)
                = some READ_BLOCK)
          ∧ chan1._gen_prim = default_gen_prim
          ∧ get_child_state chan1 ref = some CHECK_HASH
          ∧ chan1._nr_of_leaves = chan._nr_of_leaves
          ∧ chan1._request = chan._request
          ∧ chan1._lvl_to_read = chan._lvl_to_read
          ∧ chan1._t2_lvl = chan._t2_lvl
          ∧ chan1._t1_lvls.map (fun l => l.children) = chan._t1_lvls.map (fun l => l.children)
          ∧ (∀ ref1 : Child_state_ref, ref1 ≠ ref →
              (∀ j, ref1 ≠ Child_state_ref.t1_child child_lvl_idx j) →
              get_child_state chan1 ref1 = get_child_state chan ref1)) := by
  have hchan : chan = { chan0 with _gen_prim := { chan0._gen_prim with success := true } } := by
    unfold generated_request_complete at hcomplete
    by_cases hid : mod_req.src_request_id ≥ NR_OF_CHANNELS
    · simp [hid] at hcomplete
    · have h0 : mod_req.src_request_id = 0 := by
        simp only [NR_OF_CHANNELS] at hid; omega
      by_cases hdst : mod_req.dst_module_id = c.BLOCK_IO
      · simp [h0, NR_OF_CHANNELS, hdst, hsuccess] at hcomplete
        exact hcomplete.symm
      · simp [h0, NR_OF_CHANNELS, hdst] at hcomplete
  have hv : chan._gen_prim.valid = true := by
    rw [hchan]; simp [Generated_primitive.valid, htag]
  have ht : chan._gen_prim.tag = Primitive_tag.BLOCK_IO := by rw [hchan]; exact htag
  have hb : chan._gen_prim.blk_nr = child.pba := by rw [hchan]; exact hblk
  have hs : chan._gen_prim.success = true := by rw [hchan]
  constructor
  · intro child_idx t1_lvl h1 h2 h3
    have hi : child_idx < t1_lvl.children_state.length := lt_length_of_getElem?_eq_some h2
    refine ⟨set_t1_child_state
        { chan with
          _t2_lvl := { chan._t2_lvl with
                       children_state := reset_children_state chan._t2_lvl.children_state }
          _gen_prim := default_gen_prim } lvl child_idx CHECK_HASH,
      by simp [_execute_inner_t2_child, h1, h2, h3, hvalid, hv, ht, hb, hs],
      ?_, ?_, rfl, ?_, rfl, rfl, rfl, rfl, ?_, ?_⟩
    · simp [set_t1_child_state, reset_children_state]
    · intro s hmem
      simp [set_t1_child_state, reset_children_state] at hmem
      exact hmem.2
    · exact get_set_t1_child_state _ lvl child_idx CHECK_HASH t1_lvl h1 hi
    · simp only [set_t1_child_state]
      apply map_children_modify
      intro x
      rfl
    · intro ref hne
      rw [get_child_state_set_t1_child_state_ne _ lvl child_idx CHECK_HASH ref hne]
      cases ref <;> rfl
  · intro ref child_lvl_idx child_idx child_lvl h1 h2 hnot
    have hlen : child_lvl_idx < chan._t1_lvls.length := lt_length_of_getElem?_eq_some h2
    have hcl : chan._t1_lvls[child_lvl_idx] = child_lvl := by
      have h := List.getElem?_eq_getElem hlen
      rw [h2] at h
      exact (Option.some.inj h).symm
    have hframe : ∀ ref1 : Child_state_ref,
        (∀ j, ref1 ≠ Child_state_ref.t1_child child_lvl_idx j) →
        get_child_state
          { chan with
            _t1_lvls := chan._t1_lvls.set child_lvl_idx
              { child_lvl with
                children_state := reset_children_state child_lvl.children_state }
            _gen_prim := default_gen_prim } ref1
          = get_child_state chan ref1 := by
      intro ref1 hne
      cases ref1 with
      | root_state => rfl
      | t1_child l j =>
        have hl : child_lvl_idx ≠ l := by
          intro h; subst h; exact hne j rfl
        simp [get_child_state, List.getElem?_set_ne hl]
    refine ⟨set_child_state
        { chan with
          _t1_lvls := chan._t1_lvls.set child_lvl_idx
            { child_lvl with
              children_state := reset_children_state child_lvl.children_state }
          _gen_prim := default_gen_prim } ref CHECK_HASH,
      by simp [_execute_inner_t1_child, h1, h2, hvalid, hv, ht, hb, hs],
      ?_, ?_, ?_, ?_, ?_, ?_, ?_, ?_, ?_⟩
    · intro j hj
      rw [get_child_state_set_child_state_ne _ ref CHECK_HASH _ (Ne.symm (hnot j))]
      simp [get_child_state, hlen, reset_children_state, hj]
    · cases ref <;> rfl
    · exact get_child_state_set_child_state _ ref CHECK_HASH READ_BLOCK
        ((hframe ref hnot).trans h1)
    · cases ref <;> rfl
    · cases ref <;> rfl
    · cases ref <;> rfl
    · cases ref <;> rfl
    · cases ref with
      | root_state =>
        exact map_children_set chan._t1_lvls child_lvl_idx _ child_lvl h2 rfl
      | t1_child l0 j0 =>
        simp only [set_child_state, set_t1_child_state]
        have hm := map_children_set chan._t1_lvls child_lvl_idx
          { child_lvl with children_state := reset_children_state child_lvl.children_state }
          child_lvl h2 rfl
        rw [← hm]
        apply map_children_modify
        intro x
        rfl
    · intro ref1 hne1 hne2
      rw [get_child_state_set_child_state_ne _ ref CHECK_HASH ref1 hne1]
      exact hframe ref1 hne2

open Ft_check Child_state in
/-- Witness of C12: the read of block 20 for child 0 of the lowest type-1 level
of a channel of the small configuration is completed successfully; the step on
that child then moves it to `CHECK_HASH`. -/
theorem C12_read_complete_witness :
    ∃ chan1 : Ft_check_channel,
      _execute_inner_t2_child small_config
          { example_chan_at_child READ_BLOCK (example_node 20 7) 3 with
            _gen_prim := { success := true, tag := Primitive_tag.BLOCK_IO, blk_nr := 20,
                           dropped := true } } 2 0 false
        = .returned chan1 true
      ∧ chan1._t2_lvl.children_state = [READ_BLOCK, READ_BLOCK]
      ∧ chan1._gen_prim = default_gen_prim
      ∧ get_child_state chan1 (Child_state_ref.t1_child 2 0) = some CHECK_HASH
      ∧ get_child_state chan1 (Child_state_ref.t1_child 2 1) = some READ_BLOCK
      ∧ chan1._nr_of_leaves = 3 :=
  match (C12_read_complete small_config
      { example_chan_at_child READ_BLOCK (example_node 20 7) 3 with
        _gen_prim := { success := false, tag := Primitive_tag.BLOCK_IO, blk_nr := 20,
                       dropped := true } }
      { example_chan_at_child READ_BLOCK (example_node 20 7) 3 with
        _gen_prim := { success := true, tag := Primitive_tag.BLOCK_IO, blk_nr := 20,
                       dropped := true } }
      (example_node 20 7)
      { src_module_id := 11, src_request_id := 0, dst_module_id := 4,
        _type := Block_io_request_type.READ, _client_req_offset := 0, _client_req_tag := 0,
        _key_id := 0, _pba := 20, _vba := 0, _blk_count := 1,
        _blk_ptr := Blk_ptr.t2_lvl_children 0, _hash_ptr := Blk_ptr.null, _success := true }
      2 false rfl rfl rfl rfl rfl).1 0
      { children_state := [READ_BLOCK, READ_BLOCK],
        children := [example_node 20 7, example_node 20 7] } rfl rfl rfl with
  | ⟨chan1, h1, _, _, h4, h5, h6, _, _, _, _, h11⟩ =>
    ⟨chan1, h1, by cases h1; rfl, h4, h5,
      (h11 (Child_state_ref.t1_child 2 1) (by decide)).trans rfl, h6⟩

open Ft_check Child_state in
/-- C13: `execute` calls `_execute_check` once for a `CHECK` request, and
`_execute_check` runs the step of at most one child, the first child that is not
`DONE` in the order of its loops.  If leaf `i ≤ max_child_idx` is the first leaf not `DONE`,
the call is the leaf step on `i`.  If all leaves `0 .. max_child_idx` are `DONE`
and child `i` of level `lvl` is the first child not `DONE` of the levels
`FT_LOWEST_T1_LVL .. max_lvl`, the call is the inner step on that child.  If all
these are `DONE`, the call is the step on the root when the root is not `DONE`
and does nothing otherwise.  A step moves no other child forward: the leaf step
leaves all other leaf states and all type-1 levels as they are, an inner step
leaves every other child state as it is or, when the read of the child
completed, resets the states of the level below to `READ_BLOCK`; the root state
is touched by a step on another child only when the check fails, which marks the
request complete (root state `DONE`, success flag `false`). -/
theorem C13_first_child_not_done (c : Config) (chan : Ft_check_channel) (progress : Bool) :
    (chan._request._type = Ft_check_request_type.CHECK →
        execute c { _channels := [chan] } progress
          = (_execute_check c chan progress).map_state (fun ch => { _channels := [ch] }))
    ∧ (∀ (i : Nat) (state : Child_state),
        i ≤ chan._request._max_child_idx →
        (∀ j, j < i → chan._t2_lvl.children_state[j]? = some DONE) →
        chan._t2_lvl.children_state[i]? = some state → state ≠ DONE →
        _execute_check c chan progress = _execute_leaf_child chan i progress)
    ∧ (∀ (lvl i : Nat) (lv : Type_1_level) (state : Child_state) (child : Type_1_node),
        all_done chan._request._max_child_idx chan._t2_lvl.children_state →
        (∀ l, c.FT_LOWEST_T1_LVL ≤ l → l < lvl → level_done chan l) →
        c.FT_LOWEST_T1_LVL ≤ lvl → lvl ≤ chan._request._max_lvl →
        chan._t1_lvls[lvl]? = some lv →
        i ≤ chan._request._max_child_idx →
        (∀ j, j < i → lv.children_state[j]? = some DONE) →
        lv.children_state[i]? = some state → state ≠ DONE →
        lv.children[i]? = some child →
        _execute_check c chan progress
          = if lvl = c.FT_LOWEST_T1_LVL then _execute_inner_t2_child c chan lvl i progress
            else _execute_inner_t1_child c chan child (lvl - 1)
                  (Child_state_ref.t1_child lvl i) lvl i progress)
    ∧ (all_done chan._request._max_child_idx chan._t2_lvl.children_state →
        (∀ l, c.FT_LOWEST_T1_LVL ≤ l → l ≤ chan._request._max_lvl → level_done chan l) →
        _execute_check c chan progress
          = if chan._root_state ≠ DONE then
              _execute_inner_t1_child c chan chan._request._root chan._request._max_lvl
                Child_state_ref.root_state (chan._request._max_lvl + 1) 0 progress
            else .returned chan progress)
    ∧ (∀ (i : Nat) (chan1 : Ft_check_channel) (p1 : Bool),
        _execute_leaf_child chan i progress = .returned chan1 p1 →
        chan1._t1_lvls = chan._t1_lvls
        ∧ (∀ j, j ≠ i → chan1._t2_lvl.children_state[j]? = chan._t2_lvl.children_state[j]?)
        ∧ (chan1._root_state = chan._root_state
            ∨ (chan1._root_state = DONE ∧ chan1._request._success = false)))
    ∧ (∀ (lvl i : Nat) (chan1 : Ft_check_channel) (p1 : Bool),
        _execute_inner_t2_child c chan lvl i progress = .returned chan1 p1 →
        (∀ j : Nat, chan1._t2_lvl.children_state[j]? = chan._t2_lvl.children_state[j]?
            ∨ chan1._t2_lvl.children_state[j]? = some READ_BLOCK)
        ∧ (∀ l j, (l, j) ≠ (lvl, i) →
            get_child_state chan1 (Child_state_ref.t1_child l j)
              = get_child_state chan (Child_state_ref.t1_child l j))
        ∧ (chan1._root_state = chan._root_state
            ∨ (chan1._root_state = DONE ∧ chan1._request._success = false)))
    ∧ (∀ (child : Type_1_node) (child_lvl_idx : Nat) (ref : Child_state_ref) (lvl i : Nat)
        (chan1 : Ft_check_channel) (p1 : Bool),
        _execute_inner_t1_child c chan child child_lvl_idx ref lvl i progress
          = .returned chan1 p1 →
        chan1._t2_lvl.children_state = chan._t2_lvl.children_state
        ∧ (∀ ref1 : Child_state_ref, ref1 ≠ ref → ref1 ≠ Child_state_ref.root_state →
            get_child_state chan1 ref1 = get_child_state chan ref1
              ∨ get_child_state chan1 ref1 = some READ_BLOCK)
        ∧ (ref ≠ Child_state_ref.root_state →
            chan1._root_state = chan._root_state
              ∨ (chan1._root_state = DONE ∧ chan1._request._success = false))) := by
  refine ⟨execute_single c chan progress, ?_, ?_, ?_, ?_, ?_, ?_⟩
  · intro i state hi hbefore hstate hne
    rw [execute_check_eq, find_target_leaf c chan i state hbefore hstate hne hi]
    rfl
  · intro lvl i lv state child hleaves hbelow hlow hmax hlv hi hbefore hstate hne hchild
    rw [execute_check_eq, find_target_inner c chan lvl i lv state child hleaves hbelow hlow hmax
      hlv hbefore hstate hne hchild hi]
    by_cases h : lvl = c.FT_LOWEST_T1_LVL
    · rw [if_pos h, if_pos h]; rfl
    · rw [if_neg h, if_neg h]; rfl
  · intro hleaves hlevels
    rw [execute_check_eq,
      find_target_top c chan hleaves (fun l h1 h2 => hlevels l h1 (by omega))]
    by_cases h : chan._root_state = DONE
    · simp [h, execute_target]
    · simp [h, execute_target]
  · intro i chan1 p1 h
    exact execute_leaf_child_frame chan chan1 i progress p1 h
  · intro lvl i chan1 p1 h
    exact execute_inner_t2_child_frame c chan chan1 lvl i progress p1 h
  · intro child child_lvl_idx ref lvl i chan1 p1 h
    exact execute_inner_t1_child_frame c chan chan1 child child_lvl_idx ref lvl i progress p1 h

open Ft_check Child_state in
/-- Witness of C13: in a channel of the small configuration whose leaf 0 is
`DONE` and whose leaf 1 is not, `_execute_check` is the leaf step on leaf 1,
although child 0 of the type-1 level 2 is not `DONE` either. -/
theorem C13_first_child_not_done_witness :
    _execute_check small_config
        { example_chan_at_child READ_BLOCK (example_node 20 7) 3 with
          _t2_lvl := { children_state := [DONE, READ_BLOCK],
                       children := (example_leaf_block true true 100).t2 } } false
      = _execute_leaf_child
        { example_chan_at_child READ_BLOCK (example_node 20 7) 3 with
          _t2_lvl := { children_state := [DONE, READ_BLOCK],
                       children := (example_leaf_block true true 100).t2 } } 1 false :=
  (C13_first_child_not_done small_config
    { example_chan_at_child READ_BLOCK (example_node 20 7) 3 with
      _t2_lvl := { children_state := [DONE, READ_BLOCK],
                   children := (example_leaf_block true true 100).t2 } } false).2.1
    1 READ_BLOCK (by decide) (by decide) rfl (by decide)

/-! ## The channel protocol of both modules -/

open Ft_check Child_state in
/-- C14: `Ft_check::_drop_completed_request` throws `Exception_2` only when the
request type of the channel is `INVALID` and, at the same time, the root state
is not `DONE`; in every other state of the channel it returns and resets the
channel.  So a `CHECK` request that was just submitted (root state
`READ_BLOCK`, not reported by `_peek_completed_request`) is dropped without an
exception, and so is the request of a channel that holds none. -/
theorem C14_in_progress_request_dropped :
    (∀ (c : Config) (chan : Ft_check_channel),
      _drop_completed_request c { _channels := [chan] } 0
        = if chan._request._type = Ft_check_request_type.INVALID ∧ chan._root_state ≠ DONE
          then .raised { _channels := [chan] } Error.Exception_2
          else .returned { _channels := [default_channel c] } ())
    ∧ (∃ (ft1 : Ft_check) (req1 : Ft_check_request),
        submit_request (construct small_config) (check_request 0 0 2 1 3 example_root)
          = .returned ft1 req1
        ∧ ft1._channels.map (fun chan => (chan._request._type, chan._root_state))
            = [(Ft_check_request_type.CHECK, READ_BLOCK)]
        ∧ _peek_completed_request small_config ft1 128 = .returned ft1 none
        ∧ _drop_completed_request small_config ft1 req1.dst_request_id
            = .returned (construct small_config) ())
    ∧ _drop_completed_request small_config (construct small_config) 0
        = .returned (construct small_config) () := by
  refine ⟨?_, ⟨_, _, rfl, rfl, rfl, rfl⟩, rfl⟩
  intro c chan
  simp [_drop_completed_request, NR_OF_CHANNELS]

open Block_allocator Block_allocator_channel_state in
/-- C15: `Block_allocator::_drop_completed_request` throws exactly when the
destination request id is not a channel index or the channel it names is not in
state `COMPLETE`, and then the allocator is as before; otherwise it returns, the
named channel keeps its request and becomes `INACTIVE`, and every other channel,
the number of channels, the count of allocated blocks and the first block are
unchanged. -/
theorem C15_drop_completed_request (c : Config) (ba : Block_allocator) (id : Nat)
    (hlen : ba._channels.length = c.BA_NR_OF_CHANNELS) :
    ((_drop_completed_request c ba id).is_returned = false
        ↔ (c.BA_NR_OF_CHANNELS ≤ id
            ∨ ∃ ch, ba._channels[id]? = some ch ∧ ch._state ≠ COMPLETE))
    ∧ (∀ s e, _drop_completed_request c ba id = .raised s e → s = ba)
    ∧ (∀ s, _drop_completed_request c ba id = .returned s () →
        ∃ ch, ba._channels[id]? = some ch ∧ ch._state = COMPLETE
          ∧ s._channels[id]? = some { _state := INACTIVE, _request := ch._request }
          ∧ (∀ j, j ≠ id → s._channels[j]? = ba._channels[j]?)
          ∧ s._channels.length = ba._channels.length
          ∧ s._nr_of_blks = ba._nr_of_blks ∧ s._first_block = ba._first_block) := by
  by_cases hid : c.BA_NR_OF_CHANNELS ≤ id
  · have hd : _drop_completed_request c ba id = .raised ba Error.Exception_1 := by
      simp [_drop_completed_request, hid]
    rw [hd]
    refine ⟨by simp [Outcome.is_returned, hid], ?_, ?_⟩
    · intro s e h; cases h; rfl
    · intro s h; cases h
  · have hlt : id < ba._channels.length := by omega
    obtain ⟨ch0, hget⟩ : ∃ ch0, ba._channels[id]? = some ch0 :=
      ⟨_, List.getElem?_eq_getElem hlt⟩
    by_cases hst : ch0._state = COMPLETE
    · have hd : _drop_completed_request c ba id
          = .returned
              { ba with
                _channels := ba._channels.set id ⟨INACTIVE, ch0._request⟩ } () := by
        simp [_drop_completed_request, hid, hget, hst]
      rw [hd]
      refine ⟨?_, ?_, ?_⟩
      · simp only [Outcome.is_returned, Bool.true_eq_false, false_iff, not_or, not_exists,
          not_and, not_not]
        refine ⟨hid, ?_⟩
        intro ch hch
        rw [hget] at hch
        cases hch
        exact hst
      · intro s e h; cases h
      · intro s h
        cases h
        refine ⟨ch0, hget, hst, ?_, ?_, by simp, rfl, rfl⟩
        · simp [hlt]
        · intro j hj
          simp [List.getElem?_set_ne (Ne.symm hj)]
    · have hd : _drop_completed_request c ba id = .raised ba Error.Exception_2 := by
        simp [_drop_completed_request, hid, hget, hst]
      rw [hd]
      refine ⟨?_, ?_, ?_⟩
      · simp only [Outcome.is_returned, true_iff]
        exact Or.inr ⟨_, hget, hst⟩
      · intro s e h; cases h; rfl
      · intro s h; cases h

open Block_allocator Block_allocator_channel_state in
/-- Witness of C15: dropping the completed request of the only channel of a
small allocator that has handed out one block. -/
theorem C15_drop_completed_request_witness :
    ∃ ch, ([{ _state := COMPLETE, _request := get_request 1 2 }] :
              List Block_allocator_channel)[0]? = some ch
      ∧ ch._state = COMPLETE
      ∧ ([{ _state := INACTIVE, _request := get_request 1 2 }] :
              List Block_allocator_channel)[0]?
          = some { _state := INACTIVE, _request := ch._request }
      ∧ (∀ j, j ≠ 0 →
          ([{ _state := INACTIVE, _request := get_request 1 2 }] :
              List Block_allocator_channel)[j]?
            = ([{ _state := COMPLETE, _request := get_request 1 2 }] :
                List Block_allocator_channel)[j]?)
      ∧ ([{ _state := INACTIVE, _request := get_request 1 2 }] :
              List Block_allocator_channel).length
          = ([{ _state := COMPLETE, _request := get_request 1 2 }] :
              List Block_allocator_channel).length
      ∧ 1 = 1 ∧ 0 = 0 :=
  (C15_drop_completed_request small_config
    { _first_block := 0, _nr_of_blks := 1,
      _channels := [{ _state := COMPLETE, _request := get_request 1 2 }] } 0 rfl).2.2
    { _first_block := 0, _nr_of_blks := 1,
      _channels := [{ _state := INACTIVE, _request := get_request 1 2 }] } rfl

/-- C16: for the block allocator and for the free-tree check,
`ready_to_submit_request` is true exactly when some channel is free (state
`INACTIVE`, respectively request type `INVALID`); `submit_request` throws
exactly when `ready_to_submit_request` is false, and a `submit_request` that
throws leaves the module as it was. -/
theorem C16_ready_and_submit (ba : Block_allocator) (ba_req : Block_allocator_request)
    (ft : Ft_check) (ft_req : Ft_check_request) :
    (Block_allocator.ready_to_submit_request ba = true
        ↔ ∃ ch ∈ ba._channels, ch._state = Block_allocator_channel_state.INACTIVE)
    ∧ ((Block_allocator.submit_request ba ba_req).is_returned = false
        ↔ Block_allocator.ready_to_submit_request ba = false)
    ∧ (∀ s e, Block_allocator.submit_request ba ba_req = .raised s e → s = ba)
    ∧ (Ft_check.ready_to_submit_request ft = true
        ↔ ∃ ch ∈ ft._channels, ch._request._type = Ft_check_request_type.INVALID)
    ∧ ((Ft_check.submit_request ft ft_req).is_returned = false
        ↔ Ft_check.ready_to_submit_request ft = false)
    ∧ (∀ s e, Ft_check.submit_request ft ft_req = .raised s e → s = ft) := by
  refine ⟨Block_allocator.ba_ready_to_submit_request_iff ba,
    Block_allocator.ba_submit_request_raised_iff ba ba_req, ?_,
    Ft_check.ft_ready_to_submit_request_iff ft,
    Ft_check.ft_submit_request_raised_iff ft ft_req, ?_⟩
  · intro s e h
    have h1 := Block_allocator.ba_submit_request_raised_state ba ba_req
      (by rw [h]; rfl)
    rw [h1] at h
    cases h
    rfl
  · intro s e h
    have h1 := Ft_check.ft_submit_request_raised_state ft ft_req (by rw [h]; rfl)
    rw [h1] at h
    cases h
    rfl

open Block_allocator Block_allocator_channel_state in
/-- C17: when some channel of the block allocator is `INACTIVE`,
`submit_request` returns; the channel it claims is the `INACTIVE` channel of
lowest index, the request is stored there with its destination request id set
to that index, the channel is `SUBMITTED`, and all other channels, the count of
allocated blocks and the first block are unchanged. -/
theorem C17_submit_request_lowest_inactive (ba : Block_allocator)
    (req : Block_allocator_request) (hfree : ready_to_submit_request ba = true) :
    ∃ (id : Nat) (ch : Block_allocator_channel) (ba1 : Block_allocator),
      submit_request ba req = .returned ba1 { req with dst_request_id := id }
      ∧ ba._channels[id]? = some ch ∧ ch._state = INACTIVE
      ∧ (∀ m chm, m < id → ba._channels[m]? = some chm → chm._state ≠ INACTIVE)
      ∧ ba1._channels[id]?
          = some { _state := SUBMITTED, _request := { req with dst_request_id := id } }
      ∧ (∀ j, j ≠ id → ba1._channels[j]? = ba._channels[j]?)
      ∧ ba1._channels.length = ba._channels.length
      ∧ ba1._nr_of_blks = ba._nr_of_blks ∧ ba1._first_block = ba._first_block := by
  cases hs : submit_channels req ba._channels 0 with
  | none =>
    have h1 : ready_to_submit_request ba = false := by
      rw [← ba_submit_request_raised_iff ba req]
      simp [submit_request, hs, Outcome.is_returned]
    rw [h1] at hfree
    cases hfree
  | some r =>
    obtain ⟨i, chs1⟩ := r
    obtain ⟨j, ch, hj1, hj2, hj3, hj4, hj5⟩ := ba_submit_channels_some req ba._channels 0 i chs1 hs
    have hij : i = j := by omega
    subst hij
    have hlt : i < ba._channels.length := Ft_check.lt_length_of_getElem?_eq_some hj2
    refine ⟨i, ch, { ba with _channels := chs1 }, by simp [submit_request, hs], hj2, hj3, hj4,
      ?_, ?_, ?_, rfl, rfl⟩
    · simp [hj5, hlt]
    · intro k hk
      simp [hj5, List.getElem?_set_ne (Ne.symm hk)]
    · simp [hj5]

open Block_allocator Block_allocator_channel_state in
/-- Witness of C17: a request submitted to a freshly constructed allocator of
the small configuration. -/
theorem C17_submit_request_lowest_inactive_witness :
    ∃ (id : Nat) (ch : Block_allocator_channel) (ba1 : Block_allocator),
      submit_request (construct small_config 0) (get_request 1 2)
        = .returned ba1 { get_request 1 2 with dst_request_id := id }
      ∧ (construct small_config 0)._channels[id]? = some ch ∧ ch._state = INACTIVE
      ∧ (∀ m chm, m < id → (construct small_config 0)._channels[m]? = some chm →
          chm._state ≠ INACTIVE)
      ∧ ba1._channels[id]?
          = some { _state := SUBMITTED, _request := { get_request 1 2 with dst_request_id := id } }
      ∧ (∀ j, j ≠ id → ba1._channels[j]? = (construct small_config 0)._channels[j]?)
      ∧ ba1._channels.length = (construct small_config 0)._channels.length
      ∧ ba1._nr_of_blks = (construct small_config 0)._nr_of_blks
      ∧ ba1._first_block = (construct small_config 0)._first_block :=
  C17_submit_request_lowest_inactive (construct small_config 0) (get_request 1 2) (by decide)

open Ft_check in
/-- Counterexample to C18: `Ft_check::submit_request` accepts a request whose
type field is `INVALID`; the channel it claimed still counts as free, so
`ready_to_submit_request` is true right afterwards, also after an `execute`
call, and a second `submit_request` claims the same channel 0 and replaces the
first request. -/
theorem C18_counterexample :
    ∃ (ft1 ft2 ft3 : Ft_check) (req1 req3 : Ft_check_request),
      submit_request (construct small_config) default_request = .returned ft1 req1
      ∧ req1.dst_request_id = 0
      ∧ ready_to_submit_request ft1 = true
      ∧ execute small_config ft1 false = .returned ft2 false
      ∧ ready_to_submit_request ft2 = true
      ∧ submit_request ft2 (check_request 7 8 2 1 3 example_root) = .returned ft3 req3
      ∧ req3.dst_request_id = 0
      ∧ (ft3._channels.map (fun ch => ch._request.src_module_id)) = [7] :=
  ⟨_, _, _, _, _, rfl, rfl, rfl, rfl, rfl, rfl, rfl, rfl⟩

/-- C18 (amended): for every request accepted by `Block_allocator::submit_request`,
whatever its type field, and for every request of a type other than `INVALID`
accepted by `Ft_check::submit_request`, the claimed channel stays occupied
across any sequence of `execute` calls (also calls that throw): it is not free,
`ready_to_submit_request` is true only if some other channel is free, and a
further `submit_request` that is accepted claims a different channel. -/
theorem C18_channel_stays_occupied (c : Config) (ps : List Bool) :
    (∀ (ba ba1 : Block_allocator) (req req1 : Block_allocator_request),
      Block_allocator.submit_request ba req = .returned ba1 req1 →
      (∃ ch, (Block_allocator.after_executes c ps ba1)._channels[req1.dst_request_id]? = some ch
          ∧ ch._state ≠ Block_allocator_channel_state.INACTIVE)
      ∧ (Block_allocator.ready_to_submit_request (Block_allocator.after_executes c ps ba1) = true →
          ∃ (k : Nat) (ch : Block_allocator_channel), k ≠ req1.dst_request_id
            ∧ (Block_allocator.after_executes c ps ba1)._channels[k]? = some ch
            ∧ ch._state = Block_allocator_channel_state.INACTIVE)
      ∧ (∀ (req2 req3 : Block_allocator_request) (ba2 : Block_allocator),
          Block_allocator.submit_request (Block_allocator.after_executes c ps ba1) req2
            = .returned ba2 req3 →
          req3.dst_request_id ≠ req1.dst_request_id))
    ∧ (∀ (ft ft1 : Ft_check) (req req1 : Ft_check_request),
      req._type ≠ Ft_check_request_type.INVALID →
      Ft_check.submit_request ft req = .returned ft1 req1 →
      (∃ ch, (Ft_check.after_executes c ps ft1)._channels[req1.dst_request_id]? = some ch
          ∧ ch._request._type ≠ Ft_check_request_type.INVALID)
      ∧ (Ft_check.ready_to_submit_request (Ft_check.after_executes c ps ft1) = true →
          ∃ (k : Nat) (ch : Ft_check_channel), k ≠ req1.dst_request_id
            ∧ (Ft_check.after_executes c ps ft1)._channels[k]? = some ch
            ∧ ch._request._type = Ft_check_request_type.INVALID)
      ∧ (∀ (req2 req3 : Ft_check_request) (ft2 : Ft_check),
          Ft_check.submit_request (Ft_check.after_executes c ps ft1) req2
            = .returned ft2 req3 →
          req3.dst_request_id ≠ req1.dst_request_id)) := by
  constructor
  · intro ba ba1 req req1 hsub
    obtain ⟨ch0, _, _, h3⟩ := Block_allocator.ba_submit_request_claims ba ba1 req req1 hsub
    obtain ⟨ch, hch, hocc⟩ := Block_allocator.after_executes_occupied c ps ba1
      req1.dst_request_id _ h3 (by simp)
    refine ⟨⟨ch, hch, hocc⟩, ?_, ?_⟩
    · intro hready
      obtain ⟨x, hx, hfree⟩ := (Block_allocator.ba_ready_to_submit_request_iff _).mp hready
      obtain ⟨k, hk⟩ := List.getElem?_of_mem hx
      refine ⟨k, x, ?_, hk, hfree⟩
      intro hkid
      rw [hkid, hch] at hk
      cases hk
      exact hocc hfree
    · intro req2 req3 ba2 hsub2 heq
      obtain ⟨x, hx, hfree, _⟩ := Block_allocator.ba_submit_request_claims _ ba2 req2 req3 hsub2
      rw [heq, hch] at hx
      cases hx
      exact hocc hfree
  · intro ft ft1 req req1 htype hsub
    obtain ⟨ch0, _, _, hreq, h3⟩ := Ft_check.ft_submit_request_claims ft ft1 req req1 hsub
    have hty1 : req1._type ≠ Ft_check_request_type.INVALID := by
      rw [hreq]; exact htype
    obtain ⟨ch, hch, hty⟩ := Ft_check.after_executes_type c ps ft1 req1.dst_request_id _ h3
    have hocc : ch._request._type ≠ Ft_check_request_type.INVALID := by
      rw [hty]; exact hty1
    refine ⟨⟨ch, hch, hocc⟩, ?_, ?_⟩
    · intro hready
      obtain ⟨x, hx, hfree⟩ := (Ft_check.ft_ready_to_submit_request_iff _).mp hready
      obtain ⟨k, hk⟩ := List.getElem?_of_mem hx
      refine ⟨k, x, ?_, hk, hfree⟩
      intro hkid
      rw [hkid, hch] at hk
      cases hk
      exact hocc hfree
    · intro req2 req3 ft2 hsub2 heq
      obtain ⟨x, hx, hfree, _⟩ := Ft_check.ft_submit_request_claims _ ft2 req2 req3 hsub2
      rw [heq, hch] at hx
      cases hx
      exact hocc hfree

/-- Witness of C18: a request of type `INVALID` submitted to a fresh allocator,
and a `CHECK` request submitted to a fresh free-tree check of the small
configuration, keep their channels through three `execute` calls. -/
theorem C18_channel_stays_occupied_witness :
    (∃ ch, (Block_allocator.after_executes small_config [false, true, false]
            { _first_block := 0, _nr_of_blks := 0,
              _channels := [{ _state := Block_allocator_channel_state.SUBMITTED,
                              _request := Block_allocator.default_request }] })._channels[0]?
          = some ch
      ∧ ch._state ≠ Block_allocator_channel_state.INACTIVE)
    ∧ (∃ ch, (Ft_check.after_executes small_config [false, true, false]
            { _channels := [Ft_check.submitted_channel small_config
                (Ft_check.check_request 0 0 2 1 3 Ft_check.example_root)] })._channels[0]?
          = some ch
      ∧ ch._request._type ≠ Ft_check_request_type.INVALID) :=
  ⟨((C18_channel_stays_occupied small_config [false, true, false]).1
      (Block_allocator.construct small_config 0)
      { _first_block := 0, _nr_of_blks := 0,
        _channels := [{ _state := Block_allocator_channel_state.SUBMITTED,
                        _request := Block_allocator.default_request }] }
      Block_allocator.default_request Block_allocator.default_request rfl).1,
    ((C18_channel_stays_occupied small_config [false, true, false]).2
      (Ft_check.construct small_config)
      { _channels := [Ft_check.submitted_channel small_config
          (Ft_check.check_request 0 0 2 1 3 Ft_check.example_root)] }
      (Ft_check.check_request 0 0 2 1 3 Ft_check.example_root)
      { Ft_check.check_request 0 0 2 1 3 Ft_check.example_root with dst_request_id := 0 }
      (by decide) rfl).1⟩

/-- C19: given a buffer that holds a request, `_peek_completed_request` of the
block allocator and of the free-tree check returns with the module unchanged;
it returns `false` (no request) exactly when no channel is complete, and a
request it returns is the request of the complete channel of lowest index; a
second peek on the state left by the first gives the same result. -/
theorem C19_peek_completed_request (c : Config) (buf_size : Nat) (ba : Block_allocator)
    (ft : Ft_check) (hba : c.sizeof_block_allocator_request ≤ buf_size)
    (hft : c.sizeof_ft_check_request ≤ buf_size) :
    (∃ r : Option Block_allocator_request,
      Block_allocator._peek_completed_request c ba buf_size = .returned ba r
      ∧ (r.isSome = true
          ↔ ∃ ch ∈ ba._channels, ch._state = Block_allocator_channel_state.COMPLETE)
      ∧ (∀ req, r = some req →
          ∃ (id : Nat) (ch : Block_allocator_channel),
            ba._channels[id]? = some ch
            ∧ ch._state = Block_allocator_channel_state.COMPLETE ∧ ch._request = req
            ∧ ∀ m chm, m < id → ba._channels[m]? = some chm →
                chm._state ≠ Block_allocator_channel_state.COMPLETE)
      ∧ (Block_allocator._peek_completed_request c ba buf_size).and_then
            (fun s _ => Block_allocator._peek_completed_request c s buf_size)
          = .returned ba r)
    ∧ (∃ r : Option Ft_check_request,
      Ft_check._peek_completed_request c ft buf_size = .returned ft r
      ∧ (r.isSome = true
          ↔ ∃ ch ∈ ft._channels,
              ch._request._type ≠ Ft_check_request_type.INVALID
              ∧ ch._root_state = Child_state.DONE)
      ∧ (∀ req, r = some req →
          ∃ (id : Nat) (ch : Ft_check_channel),
            ft._channels[id]? = some ch
            ∧ ch._request._type ≠ Ft_check_request_type.INVALID
            ∧ ch._root_state = Child_state.DONE ∧ ch._request = req
            ∧ ∀ m chm, m < id → ft._channels[m]? = some chm →
                ¬ (chm._request._type ≠ Ft_check_request_type.INVALID
                    ∧ chm._root_state = Child_state.DONE))
      ∧ (Ft_check._peek_completed_request c ft buf_size).and_then
            (fun s _ => Ft_check._peek_completed_request c s buf_size)
          = .returned ft r) := by
  constructor
  · obtain ⟨r, h1, h2, h3⟩ := Block_allocator.ba_peek_channels_spec c buf_size hba ba._channels
    have hp : Block_allocator._peek_completed_request c ba buf_size = .returned ba r := by
      simp [Block_allocator._peek_completed_request, h1]
    refine ⟨r, hp, ?_, h3, ?_⟩
    · rw [← Option.ne_none_iff_isSome, ne_eq, h2]
      push_neg
      rfl
    · rw [hp]
      simp only [Outcome.and_then]
      exact hp
  · obtain ⟨r, h1, h2, h3⟩ := Ft_check.ft_peek_channels_spec c buf_size hft ft._channels
    have hp : Ft_check._peek_completed_request c ft buf_size = .returned ft r := by
      simp [Ft_check._peek_completed_request, h1]
    refine ⟨r, hp, ?_, h3, ?_⟩
    · rw [← Option.ne_none_iff_isSome, ne_eq, h2]
      push_neg
      rfl
    · rw [hp]
      simp only [Outcome.and_then]
      exact hp

/-- Witness of C19: peeking at a block allocator of the small configuration
whose only channel is complete, with a buffer of 128 bytes. -/
theorem C19_peek_completed_request_witness :
    ∃ r : Option Block_allocator_request,
      Block_allocator._peek_completed_request small_config
          { _first_block := 0, _nr_of_blks := 1,
            _channels := [{ _state := Block_allocator_channel_state.COMPLETE,
                            _request := Block_allocator.get_request 1 2 }] } 128
        = .returned
            { _first_block := 0, _nr_of_blks := 1,
              _channels := [{ _state := Block_allocator_channel_state.COMPLETE,
                              _request := Block_allocator.get_request 1 2 }] } r
      ∧ (r.isSome = true
          ↔ ∃ ch ∈ ([{ _state := Block_allocator_channel_state.COMPLETE,
                       _request := Block_allocator.get_request 1 2 }] :
                      List Block_allocator_channel),
              ch._state = Block_allocator_channel_state.COMPLETE) :=
  match (C19_peek_completed_request small_config 128
      { _first_block := 0, _nr_of_blks := 1,
        _channels := [{ _state := Block_allocator_channel_state.COMPLETE,
                        _request := Block_allocator.get_request 1 2 }] }
      (Ft_check.construct small_config) (by decide) (by decide)).1 with
  | ⟨r, h1, h2, _, _⟩ => ⟨r, h1, h2⟩

open Ft_check Child_state in
/-- C20: a `CHECK` request on `example_store_bad_hash` fails in the twelfth round
of the orchestrator, at child 1 of the type-1 level 2: the root state is `DONE`,
the success flag is `false` and `_peek_completed_request` returns the request.
Every further `execute` call with the progress flag `false` leaves the module as
it is and returns the progress flag `true`: the step on the failing child is
repeated and fails the request again. -/
theorem C20_failed_request_reports_progress :
    ∃ (ft12 : Ft_check) (req12 : Ft_check_request),
      drive small_config example_store_bad_hash 96 12
          { _channels := [submitted_channel small_config (check_request 0 0 2 1 3 example_root)] }
        = .returned ft12 ()
      ∧ ft12._channels.map (fun chan => (chan._root_state, chan._request._success))
          = [(DONE, false)]
      ∧ _peek_completed_request small_config ft12 128 = .returned ft12 (some req12)
      ∧ execute small_config ft12 false = .returned ft12 true
      ∧ ∀ calls : Nat, execute_times small_config (calls + 1) ft12 false = .returned ft12 true := by
  refine ⟨_, _, rfl, rfl, rfl, rfl, ?_⟩
  have hstep : ∀ p : Bool,
      execute small_config
          (drive small_config example_store_bad_hash 96 12
            { _channels :=
                [submitted_channel small_config (check_request 0 0 2 1 3 example_root)] }).state
          p
        = .returned
          (drive small_config example_store_bad_hash 96 12
            { _channels :=
                [submitted_channel small_config (check_request 0 0 2 1 3 example_root)] }).state
          true := by
    intro p
    cases p <;> rfl
  have hall : ∀ (calls : Nat) (p : Bool),
      execute_times small_config (calls + 1)
          (drive small_config example_store_bad_hash 96 12
            { _channels :=
                [submitted_channel small_config (check_request 0 0 2 1 3 example_root)] }).state
          p
        = .returned
          (drive small_config example_store_bad_hash 96 12
            { _channels :=
                [submitted_channel small_config (check_request 0 0 2 1 3 example_root)] }).state
          true := by
    intro calls
    induction calls with
    | zero =>
      intro p
      simp only [execute_times, hstep p, Outcome.and_then]
    | succ n ih =>
      intro p
      rw [execute_times, hstep p]
      exact ih true
  intro calls
  exact hall calls false

/-! ## Free-tree check: what the selection of a child implies -/

namespace Ft_check

open Child_state

theorem scan_children_found_spec (states : List Child_state) (count : Nat) :
    ∀ (start i : Nat), scan_children states start count = Scan.found i →
      start ≤ i ∧ i < start + count
      ∧ (∀ j, start ≤ j → j < i → states[j]? = some DONE)
      ∧ ∃ state, states[i]? = some state ∧ state ≠ DONE := by
  induction count with
  | zero => intro start i h; simp [scan_children] at h
  | succ n ih =>
    intro start i h
    simp only [scan_children] at h
    cases hs : states[start]? with
    | none => simp [hs] at h
    | some state =>
      simp only [hs] at h
      by_cases hd : state = DONE
      · simp only [hd, ne_eq, not_true_eq_false, if_false] at h
        obtain ⟨h1, h2, h3, h4⟩ := ih (start + 1) i h
        refine ⟨by omega, by omega, ?_, h4⟩
        intro j hj1 hj2
        by_cases hj : j = start
        · rw [hj, hs, hd]
        · exact h3 j (by omega) hj2
      · simp only [ne_eq, hd, not_false_eq_true, if_true, Scan.found.injEq] at h
        subst h
        exact ⟨Nat.le_refl _, by omega, fun j h1 h2 => by omega, state, hs, hd⟩

theorem scan_children_all_done_spec (states : List Child_state) (count : Nat) :
    ∀ (start : Nat), scan_children states start count = Scan.all_done →
      ∀ j, start ≤ j → j < start + count → states[j]? = some DONE := by
  induction count with
  | zero => intro start _ j h1 h2; omega
  | succ n ih =>
    intro start h j hj1 hj2
    simp only [scan_children] at h
    cases hs : states[start]? with
    | none => simp [hs] at h
    | some state =>
      simp only [hs] at h
      by_cases hd : state = DONE
      · simp only [hd, ne_eq, not_true_eq_false, if_false] at h
        by_cases hj : j = start
        · rw [hj, hs, hd]
        · exact ih (start + 1) h j (by omega) (by omega)
      · simp [hd] at h

theorem scan_children_in_bounds (states : List Child_state) (count : Nat) :
    ∀ (start : Nat), start + count ≤ states.length →
      scan_children states start count ≠ Scan.out_of_bounds := by
  induction count with
  | zero => intro start _ h; simp [scan_children] at h
  | succ n ih =>
    intro start hlen h
    simp only [scan_children] at h
    have hlt : start < states.length := by omega
    rw [List.getElem?_eq_getElem hlt] at h
    simp only at h
    split_ifs at h
    exact ih (start + 1) (by omega) h

/-- What holds when the loop over the type-1 levels selects a child. -/
theorem find_target_levels_spec (c : Config) (chan : Ft_check_channel) (count : Nat) :
    ∀ (start : Nat) (t : Target), find_target_levels c chan start count = some t →
      t = Target.out_of_bounds
      ∨ ∃ (lvl i : Nat) (lv : Type_1_level),
          start ≤ lvl ∧ lvl < start + count
          ∧ (∀ l, start ≤ l → l < lvl → level_done chan l)
          ∧ chan._t1_lvls[lvl]? = some lv
          ∧ i ≤ chan._request._max_child_idx
          ∧ (∀ j, j < i → lv.children_state[j]? = some DONE)
          ∧ (∃ state, lv.children_state[i]? = some state ∧ state ≠ DONE)
          ∧ ((lvl = c.FT_LOWEST_T1_LVL ∧ t = Target.inner_t2 lvl i)
              ∨ (lvl ≠ c.FT_LOWEST_T1_LVL
                  ∧ ∃ child, lv.children[i]? = some child ∧ t = Target.inner_t1 lvl i child)) := by
  induction count with
  | zero => intro start t h; simp [find_target_levels] at h
  | succ n ih =>
    intro start t h
    simp only [find_target_levels] at h
    cases hl : chan._t1_lvls[start]? with
    | none =>
      simp only [hl, Option.some.injEq] at h
      exact Or.inl h.symm
    | some lv =>
      simp only [hl] at h
      cases hs : scan_children lv.children_state 0 (chan._request._max_child_idx + 1) with
      | out_of_bounds =>
        simp only [hs, Option.some.injEq] at h
        exact Or.inl h.symm
      | found i =>
        simp only [hs] at h
        obtain ⟨_, h2, h3, h4⟩ := scan_children_found_spec lv.children_state _ 0 i hs
        by_cases hlow : start = c.FT_LOWEST_T1_LVL
        · simp only [hlow, if_true, Option.some.injEq] at h
          right
          refine ⟨start, i, lv, Nat.le_refl _, by omega, fun l h5 h6 => by omega, hl, by omega,
            fun j hj => h3 j (Nat.zero_le _) hj, h4, Or.inl ⟨hlow, ?_⟩⟩
          rw [← h, hlow]
        · simp only [hlow, if_false] at h
          cases hc : lv.children[i]? with
          | none =>
            simp only [hc, Option.some.injEq] at h
            exact Or.inl h.symm
          | some child =>
            simp only [hc, Option.some.injEq] at h
            right
            exact ⟨start, i, lv, Nat.le_refl _, by omega, fun l h5 h6 => by omega, hl, by omega,
              fun j hj => h3 j (Nat.zero_le _) hj, h4, Or.inr ⟨hlow, child, hc, h.symm⟩⟩
      | all_done =>
        simp only [hs] at h
        have hdone : level_done chan start :=
          ⟨lv, hl, fun j hj =>
            scan_children_all_done_spec lv.children_state _ 0 hs j (Nat.zero_le _) (by omega)⟩
        rcases ih (start + 1) t h with h1 | ⟨lvl, i, lv1, h1, h2, h3, h4⟩
        · exact Or.inl h1
        · right
          refine ⟨lvl, i, lv1, by omega, by omega, ?_, h4⟩
          intro l h5 h6
          by_cases hls : l = start
          · rw [hls]; exact hdone
          · exact h3 l (by omega) h6

theorem find_target_levels_none_spec (c : Config) (chan : Ft_check_channel) (count : Nat) :
    ∀ (start : Nat), find_target_levels c chan start count = none →
      ∀ l, start ≤ l → l < start + count → level_done chan l := by
  induction count with
  | zero => intro start _ l h1 h2; omega
  | succ n ih =>
    intro start h l hl1 hl2
    simp only [find_target_levels] at h
    cases hl : chan._t1_lvls[start]? with
    | none => simp [hl] at h
    | some lv =>
      simp only [hl] at h
      cases hs : scan_children lv.children_state 0 (chan._request._max_child_idx + 1) with
      | out_of_bounds => simp [hs] at h
      | found i =>
        simp only [hs] at h
        split_ifs at h
        split at h <;> simp at h
      | all_done =>
        simp only [hs] at h
        by_cases hls : l = start
        · rw [hls]
          exact ⟨lv, hl, fun j hj =>
            scan_children_all_done_spec lv.children_state _ 0 hs j (Nat.zero_le _) (by omega)⟩
        · exact ih (start + 1) h l (by omega) (by omega)

/-- What holds when `_execute_check` selects a leaf. -/
theorem find_target_leaf_spec (c : Config) (chan : Ft_check_channel) (i : Nat)
    (h : find_target c chan = Target.leaf i) :
    i ≤ chan._request._max_child_idx
    ∧ (∀ j, j < i → chan._t2_lvl.children_state[j]? = some DONE)
    ∧ ∃ state, chan._t2_lvl.children_state[i]? = some state ∧ state ≠ DONE := by
  unfold find_target at h
  cases hs : scan_children chan._t2_lvl.children_state 0 (chan._request._max_child_idx + 1) with
  | out_of_bounds => simp [hs] at h
  | found k =>
    simp only [hs, Target.leaf.injEq] at h
    subst h
    obtain ⟨_, h2, h3, h4⟩ := scan_children_found_spec _ _ 0 k hs
    exact ⟨by omega, fun j hj => h3 j (Nat.zero_le _) hj, h4⟩
  | all_done =>
    simp only [hs] at h
    cases hl : find_target_levels c chan c.FT_LOWEST_T1_LVL
        (chan._request._max_lvl + 1 - c.FT_LOWEST_T1_LVL) with
    | some t =>
      simp only [hl] at h
      rcases find_target_levels_kind c chan _ _ t hl with h1 | ⟨l, k, h1⟩ | ⟨l, k, ch, h1⟩ <;>
        rw [h1] at h <;> cases h
    | none =>
      simp only [hl] at h
      split_ifs at h

/-- What holds when `_execute_check` selects a child of a type-1 level: all
leaves and all lower type-1 levels are `DONE`. -/
theorem find_target_inner_spec (c : Config) (chan : Ft_check_channel) (lvl i : Nat)
    (h : find_target c chan = Target.inner_t2 lvl i
          ∨ ∃ child, find_target c chan = Target.inner_t1 lvl i child) :
    all_done chan._request._max_child_idx chan._t2_lvl.children_state
    ∧ c.FT_LOWEST_T1_LVL ≤ lvl ∧ lvl ≤ chan._request._max_lvl
    ∧ (∀ l, c.FT_LOWEST_T1_LVL ≤ l → l < lvl → level_done chan l)
    ∧ ∃ lv : Type_1_level, chan._t1_lvls[lvl]? = some lv
        ∧ i ≤ chan._request._max_child_idx
        ∧ (∀ j, j < i → lv.children_state[j]? = some DONE)
        ∧ (∃ state, lv.children_state[i]? = some state ∧ state ≠ DONE)
        ∧ (find_target c chan = Target.inner_t2 lvl i → lvl = c.FT_LOWEST_T1_LVL)
        ∧ (∀ child, find_target c chan = Target.inner_t1 lvl i child →
            lvl ≠ c.FT_LOWEST_T1_LVL ∧ lv.children[i]? = some child) := by
  have hex : ∃ t, find_target c chan = t
      ∧ (t = Target.inner_t2 lvl i ∨ ∃ child, t = Target.inner_t1 lvl i child) := by
    rcases h with h | ⟨child, h⟩
    · exact ⟨_, h, Or.inl rfl⟩
    · exact ⟨_, h, Or.inr ⟨child, rfl⟩⟩
  obtain ⟨t, ht, hkind⟩ := hex
  unfold find_target at ht
  cases hs : scan_children chan._t2_lvl.children_state 0 (chan._request._max_child_idx + 1) with
  | out_of_bounds =>
    simp only [hs] at ht
    rcases hkind with h1 | ⟨child, h1⟩ <;> rw [h1] at ht <;> cases ht
  | found k =>
    simp only [hs] at ht
    rcases hkind with h1 | ⟨child, h1⟩ <;> rw [h1] at ht <;> cases ht
  | all_done =>
    simp only [hs] at ht
    have hleaves : all_done chan._request._max_child_idx chan._t2_lvl.children_state :=
      fun j hj => scan_children_all_done_spec _ _ 0 hs j (Nat.zero_le _) (by omega)
    cases hl : find_target_levels c chan c.FT_LOWEST_T1_LVL
        (chan._request._max_lvl + 1 - c.FT_LOWEST_T1_LVL) with
    | none =>
      simp only [hl] at ht
      split_ifs at ht <;>
        (rcases hkind with h1 | ⟨child, h1⟩ <;> rw [h1] at ht <;> cases ht)
    | some t1 =>
      simp only [hl] at ht
      subst ht
      rcases find_target_levels_spec c chan _ _ t1 hl with h1 | ⟨l, k, lv, h1, h2, h3, h4, h5, h6,
        h7, h8⟩
      · rcases hkind with h9 | ⟨child, h9⟩ <;> rw [h9] at h1 <;> cases h1
      · have hlk : l = lvl ∧ k = i := by
          rcases h8 with ⟨_, h8⟩ | ⟨_, ch, _, h8⟩ <;>
            rcases hkind with h9 | ⟨child, h9⟩ <;> rw [h9] at h8 <;> cases h8 <;> exact ⟨rfl, rfl⟩
        obtain ⟨hl1, hk1⟩ := hlk
        subst hl1
        subst hk1
        have hft : find_target c chan = t1 := by
          unfold find_target
          simp [hs, hl]
        refine ⟨hleaves, h1, by omega, h3, lv, h4, h5, h6, h7, ?_, ?_⟩
        · intro h9
          rw [hft] at h9
          rcases h8 with ⟨h10, _⟩ | ⟨_, ch, _, h10⟩
          · exact h10
          · rw [h10] at h9; cases h9
        · intro child h9
          rw [hft] at h9
          rcases h8 with ⟨_, h10⟩ | ⟨h10, ch, h11, h12⟩
          · rw [h10] at h9; cases h9
          · rw [h12] at h9
            cases h9
            exact ⟨h10, h11⟩

/-- What holds when `_execute_check` selects the root or nothing: all leaves and
all type-1 levels up to `max_lvl` are `DONE`. -/
theorem find_target_top_spec (c : Config) (chan : Ft_check_channel)
    (h : find_target c chan = Target.root ∨ find_target c chan = Target.nothing) :
    all_done chan._request._max_child_idx chan._t2_lvl.children_state
    ∧ (∀ l, c.FT_LOWEST_T1_LVL ≤ l → l ≤ chan._request._max_lvl → level_done chan l)
    ∧ (find_target c chan = Target.root → chan._root_state ≠ DONE)
    ∧ (find_target c chan = Target.nothing → chan._root_state = DONE) := by
  have hft := h
  unfold find_target at h
  cases hs : scan_children chan._t2_lvl.children_state 0 (chan._request._max_child_idx + 1) with
  | out_of_bounds => simp [hs] at h
  | found k => simp [hs] at h
  | all_done =>
    simp only [hs] at h
    have hleaves : all_done chan._request._max_child_idx chan._t2_lvl.children_state :=
      fun j hj => scan_children_all_done_spec _ _ 0 hs j (Nat.zero_le _) (by omega)
    cases hl : find_target_levels c chan c.FT_LOWEST_T1_LVL
        (chan._request._max_lvl + 1 - c.FT_LOWEST_T1_LVL) with
    | some t =>
      simp only [hl] at h
      rcases find_target_levels_kind c chan _ _ t hl with h1 | ⟨l, k, h1⟩ | ⟨l, k, ch, h1⟩ <;>
        rw [h1] at h <;> rcases h with h | h <;> cases h
    | none =>
      have hlev := find_target_levels_none_spec c chan _ _ hl
      have hval : find_target c chan
          = if chan._root_state ≠ DONE then Target.root else Target.nothing := by
        unfold find_target
        simp only [hs, hl]
      refine ⟨hleaves, fun l h1 h2 => hlev l h1 (by omega), ?_, ?_⟩
      · intro hr
        rw [hval] at hr
        split_ifs at hr with h3
        exact h3
      · intro hn
        rw [hval] at hn
        split_ifs at hn with h3
        exact not_not.mp h3

end Ft_check

/-! ## Free-tree check: the generated primitive -/

namespace Ft_check

open Child_state

theorem gen_prim_set_child_state (chan : Ft_check_channel) (ref : Child_state_ref)
    (s : Child_state) : (set_child_state chan ref s)._gen_prim = chan._gen_prim := by
  cases ref <;> rfl

theorem execute_leaf_child_gen_prim (chan : Ft_check_channel) (i : Nat) (p : Bool) :
    (_execute_leaf_child chan i p).state._gen_prim = chan._gen_prim := by
  unfold _execute_leaf_child
  split
  · split_ifs <;> rfl
  · rfl

/-- The three things a step of an inner child can do to the generated primitive:
leave it, record a new read when there is none, clear it when its read succeeded. -/
theorem execute_inner_t2_child_gen_prim (c : Config) (chan chan1 : Ft_check_channel)
    (lvl i : Nat) (p p1 : Bool)
    (h : _execute_inner_t2_child c chan lvl i p = .returned chan1 p1) :
    chan1._gen_prim = chan._gen_prim
    ∨ (chan._gen_prim.valid = false ∧ chan1._gen_prim.tag = Primitive_tag.BLOCK_IO
        ∧ chan1._gen_prim.success = false ∧ chan1._gen_prim.dropped = false ∧ p1 = true)
    ∨ (chan._gen_prim.tag = Primitive_tag.BLOCK_IO ∧ chan._gen_prim.success = true
        ∧ chan1._gen_prim = default_gen_prim ∧ p1 = true) := by
  unfold _execute_inner_t2_child at h
  split at h
  · cases h
  · split at h
    · split_ifs at h with h1 h2 h3 h4 h5 h6 h7 h8
      all_goals
        cases h
        first
          | exact Or.inl rfl
          | exact Or.inr (Or.inl ⟨by simpa using h4, rfl, rfl, rfl, rfl⟩)
          | (refine Or.inr (Or.inr ⟨?_, by simpa using h6, rfl, rfl⟩)
             simp only [ne_eq, not_or, not_not] at h5
             exact h5.1)
    · cases h

theorem execute_inner_t1_child_gen_prim (c : Config) (chan chan1 : Ft_check_channel)
    (child : Type_1_node) (child_lvl_idx : Nat) (ref : Child_state_ref) (lvl i : Nat)
    (p p1 : Bool)
    (h : _execute_inner_t1_child c chan child child_lvl_idx ref lvl i p = .returned chan1 p1) :
    chan1._gen_prim = chan._gen_prim
    ∨ (chan._gen_prim.valid = false ∧ chan1._gen_prim.tag = Primitive_tag.BLOCK_IO
        ∧ chan1._gen_prim.success = false ∧ chan1._gen_prim.dropped = false ∧ p1 = true)
    ∨ (chan._gen_prim.tag = Primitive_tag.BLOCK_IO ∧ chan._gen_prim.success = true
        ∧ chan1._gen_prim = default_gen_prim ∧ p1 = true) := by
  unfold _execute_inner_t1_child at h
  split at h
  · split_ifs at h with h1 h2 h3 h4 h5 h6 h7 h8 h9
    all_goals
      cases h
      first
        | exact Or.inl rfl
        | exact Or.inl (gen_prim_set_child_state _ _ _)
        | exact Or.inr (Or.inl ⟨by simpa using h4, rfl, rfl, rfl, rfl⟩)
        | (refine Or.inr (Or.inr ⟨?_, by simpa using h6, gen_prim_set_child_state _ _ _, rfl⟩)
           simp only [ne_eq, not_or, not_not] at h5
           exact h5.1)
  · cases h

theorem execute_check_gen_prim (c : Config) (chan chan1 : Ft_check_channel) (p p1 : Bool)
    (h : _execute_check c chan p = .returned chan1 p1) :
    chan1._gen_prim = chan._gen_prim
    ∨ (chan._gen_prim.valid = false ∧ chan1._gen_prim.tag = Primitive_tag.BLOCK_IO
        ∧ chan1._gen_prim.success = false ∧ chan1._gen_prim.dropped = false ∧ p1 = true)
    ∨ (chan._gen_prim.tag = Primitive_tag.BLOCK_IO ∧ chan._gen_prim.success = true
        ∧ chan1._gen_prim = default_gen_prim ∧ p1 = true) := by
  rw [execute_check_eq] at h
  cases ht : find_target c chan with
  | leaf k =>
    rw [ht] at h
    have h1 := execute_leaf_child_gen_prim chan k p
    simp only [execute_target] at h
    rw [h] at h1
    exact Or.inl h1
  | inner_t2 l k =>
    rw [ht] at h
    exact execute_inner_t2_child_gen_prim c chan chan1 l k p p1 h
  | inner_t1 l k child =>
    rw [ht] at h
    exact execute_inner_t1_child_gen_prim c chan chan1 child _ _ l k p p1 h
  | root =>
    rw [ht] at h
    exact execute_inner_t1_child_gen_prim c chan chan1 _ _ _ _ 0 p p1 h
  | nothing =>
    rw [ht] at h
    simp only [execute_target, Outcome.returned.injEq] at h
    rw [← h.1]
    exact Or.inl rfl
  | out_of_bounds =>
    rw [ht] at h
    cases h

/-- A call of `_execute_check` that throws leaves the channel as it was. -/
theorem execute_check_raised (c : Config) (chan chan1 : Ft_check_channel) (p : Bool) (e : Error)
    (h : _execute_check c chan p = .raised chan1 e) : chan1 = chan := by
  rw [execute_check_eq] at h
  cases ht : find_target c chan with
  | leaf k =>
    rw [ht] at h
    simp only [execute_target, _execute_leaf_child] at h
    split at h
    · split_ifs at h
    · cases h; rfl
  | inner_t2 l k =>
    rw [ht] at h
    simp only [execute_target, _execute_inner_t2_child] at h
    split at h
    · cases h; rfl
    · split at h
      · split_ifs at h
        cases h; rfl
      · cases h; rfl
  | inner_t1 l k child =>
    rw [ht] at h
    simp only [execute_target, _execute_inner_t1_child] at h
    split at h
    · split_ifs at h
      cases h; rfl
    · cases h; rfl
  | root =>
    rw [ht] at h
    simp only [execute_target, _execute_inner_t1_child] at h
    split at h
    · split_ifs at h
      cases h; rfl
    · cases h; rfl
  | nothing =>
    rw [ht] at h
    cases h
  | out_of_bounds =>
    rw [ht] at h
    cases h
    rfl

theorem peek_generated_request_none (c : Config) (chan : Ft_check_channel) (buf_size : Nat)
    (h : chan._gen_prim.valid = false ∨ chan._gen_prim.dropped = true) :
    _peek_generated_request c { _channels := [chan] } buf_size
      = .returned { _channels := [chan] } none := by
  simp only [_peek_generated_request, peek_generated_channels]
  rcases h with h | h <;> simp [h]

end Ft_check

/-! ## Free-tree check: waiting for a read -/

namespace Ft_check

open Child_state

theorem find_target_levels_prim (c : Config) (chan : Ft_check_channel)
    (prim : Generated_primitive) (lvl_to_read : Nat) (count : Nat) :
    ∀ lvl : Nat,
      find_target_levels c { chan with _gen_prim := prim, _lvl_to_read := lvl_to_read } lvl count
        = find_target_levels c chan lvl count := by
  induction count with
  | zero => intro lvl; rfl
  | succ n ih =>
    intro lvl
    simp only [find_target_levels]
    rw [ih]

/-- The selection of `_execute_check` does not depend on the generated
primitive nor on the level to read. -/
theorem find_target_prim (c : Config) (chan : Ft_check_channel) (prim : Generated_primitive)
    (lvl_to_read : Nat) :
    find_target c { chan with _gen_prim := prim, _lvl_to_read := lvl_to_read }
      = find_target c chan := by
  simp only [find_target]
  rw [find_target_levels_prim]

/-- Whether a channel waits for a read depends on the tag and the block number
of the primitive only, not on its flags. -/
theorem awaits_read_flags (c : Config) (chan : Ft_check_channel) (success dropped : Bool) :
    awaits_read c
        { chan with _gen_prim := { chan._gen_prim with success := success, dropped := dropped } }
      = awaits_read c chan := by
  have h := find_target_prim c chan
    { chan._gen_prim with success := success, dropped := dropped } chan._lvl_to_read
  unfold awaits_read
  rw [h]
  rfl

/-- A channel that waits for a read whose success flag is not set does not move. -/
theorem execute_check_awaits_read (c : Config) (chan : Ft_check_channel)
    (hwait : awaits_read c chan = true) (hsucc : chan._gen_prim.success = false) (p : Bool) :
    _execute_check c chan p = .returned chan p := by
  rw [execute_check_eq]
  unfold awaits_read at hwait
  simp only [Bool.and_eq_true, beq_iff_eq] at hwait
  obtain ⟨htag, hwait⟩ := hwait
  have hv : chan._gen_prim.valid = true := by
    simp [Generated_primitive.valid, htag]
  cases ht : find_target c chan with
  | leaf i => simp [ht] at hwait
  | nothing => simp [ht] at hwait
  | out_of_bounds => simp [ht] at hwait
  | inner_t2 lvl i =>
    simp only [ht] at hwait
    simp only [execute_target, _execute_inner_t2_child]
    cases h0 : chan._t1_lvls[lvl]? with
    | none => simp [h0] at hwait
    | some t1_lvl =>
      simp only [h0] at hwait
      cases h1 : t1_lvl.children_state[i]? <;> cases h2 : t1_lvl.children[i]? <;>
        simp only [h1, h2] at hwait <;> first | exact absurd hwait Bool.false_ne_true | skip
      simp only [Bool.and_eq_true, beq_iff_eq] at hwait
      obtain ⟨⟨hs, hvalid⟩, hblk⟩ := hwait
      simp [h0, h1, h2, hs, hvalid, hv, htag, hblk, hsucc]
  | inner_t1 lvl i child =>
    simp only [ht] at hwait
    simp only [execute_target, _execute_inner_t1_child]
    cases h1 : get_child_state chan (Child_state_ref.t1_child lvl i) <;>
      cases h2 : chan._t1_lvls[lvl - 1]? <;>
      simp only [h1, h2] at hwait <;> first | exact absurd hwait Bool.false_ne_true | skip
    simp only [Bool.and_eq_true, beq_iff_eq] at hwait
    obtain ⟨⟨hs, hvalid⟩, hblk⟩ := hwait
    simp [h1, h2, hs, hvalid, hv, htag, hblk, hsucc]
  | root =>
    simp only [ht] at hwait
    simp only [execute_target, _execute_inner_t1_child, get_child_state]
    cases h2 : chan._t1_lvls[chan._request._max_lvl]? with
    | none => simp [h2] at hwait
    | some child_lvl =>
      simp only [h2] at hwait
      simp only [Bool.and_eq_true, beq_iff_eq] at hwait
      obtain ⟨⟨hs, hvalid⟩, hblk⟩ := hwait
      simp [h2, hs, hvalid, hv, htag, hblk, hsucc]

/-- After the step that records a new read the channel waits for that read. -/
theorem awaits_read_of_emit (c : Config) (chan chan1 : Ft_check_channel) (p p1 : Bool)
    (hex : _execute_check c chan p = .returned chan1 p1)
    (hbefore : chan._gen_prim.valid = false) (hafter : chan1._gen_prim.valid = true) :
    awaits_read c chan1 = true := by
  have hne : chan1._gen_prim ≠ chan._gen_prim := by
    intro h
    rw [h, hbefore] at hafter
    cases hafter
  rw [execute_check_eq] at hex
  cases ht : find_target c chan with
  | leaf i =>
    rw [ht] at hex
    have h1 := execute_leaf_child_gen_prim chan i p
    simp only [execute_target] at hex
    rw [hex] at h1
    exact absurd h1 hne
  | nothing =>
    rw [ht] at hex
    simp only [execute_target, Outcome.returned.injEq] at hex
    exact absurd (by rw [← hex.1]) hne
  | out_of_bounds =>
    rw [ht] at hex
    cases hex
  | inner_t2 lvl i =>
    rw [ht] at hex
    simp only [execute_target, _execute_inner_t2_child] at hex
    cases h0 : chan._t1_lvls[lvl]? with
    | none => simp [h0] at hex
    | some t1_lvl =>
      simp only [h0] at hex
      cases h1 : t1_lvl.children_state[i]? <;> cases h2 : t1_lvl.children[i]? <;>
        simp only [h1, h2] at hex <;> first | cases hex | skip
      rename_i state child
      simp only [hbefore, Bool.not_false, if_true] at hex
      split_ifs at hex with hs hvalid hn hs2 hh
      all_goals
        simp only [Outcome.returned.injEq] at hex
        first
          | exact absurd (congrArg Ft_check_channel._gen_prim hex.1).symm hne
          | skip
      obtain ⟨hchan, _⟩ := hex
      rw [← hchan]
      unfold awaits_read
      rw [find_target_prim, ht]
      simp only [h0, h1, h2, hs]
      simp only [Bool.not_eq_true', Bool.not_eq_false] at hvalid
      simp [hvalid]
  | inner_t1 lvl i child =>
    rw [ht] at hex
    simp only [execute_target, _execute_inner_t1_child] at hex
    cases h1 : get_child_state chan (Child_state_ref.t1_child lvl i) <;>
      cases h2 : chan._t1_lvls[lvl - 1]? <;>
      simp only [h1, h2] at hex <;> first | cases hex | skip
    rename_i state child_lvl
    simp only [hbefore, Bool.not_false, if_true] at hex
    split_ifs at hex with hs hvalid hn hs2 hh
    all_goals
      simp only [Outcome.returned.injEq] at hex
      first
        | exact absurd (congrArg Ft_check_channel._gen_prim hex.1).symm hne
        | skip
    obtain ⟨hchan, _⟩ := hex
    rw [← hchan]
    unfold awaits_read
    rw [find_target_prim, ht]
    have h1a : get_child_state
        { chan with
          _gen_prim := { success := false, tag := Primitive_tag.BLOCK_IO, blk_nr := child.pba,
                         dropped := false }
          _lvl_to_read := lvl - 1 } (Child_state_ref.t1_child lvl i) = some state := h1
    simp only [h1a, h2, hs]
    simp only [Bool.not_eq_true', Bool.not_eq_false] at hvalid
    simp [hvalid]
  | root =>
    rw [ht] at hex
    simp only [execute_target, _execute_inner_t1_child, get_child_state] at hex
    cases h2 : chan._t1_lvls[chan._request._max_lvl]? with
    | none => simp [h2] at hex
    | some child_lvl =>
      simp only [h2] at hex
      simp only [hbefore, Bool.not_false, if_true] at hex
      split_ifs at hex with hs hvalid hn hs2 hh
      all_goals
        simp only [Outcome.returned.injEq] at hex
        first
          | exact absurd (congrArg Ft_check_channel._gen_prim hex.1).symm hne
          | skip
      obtain ⟨hchan, _⟩ := hex
      rw [← hchan]
      unfold awaits_read
      rw [find_target_prim, ht]
      simp only [h2, hs]
      simp only [Bool.not_eq_true', Bool.not_eq_false] at hvalid
      simp [hvalid]

/-- Calls of `execute` that change nothing leave the progress flag as it is. -/
theorem execute_times_idle (c : Config) (chan : Ft_check_channel)
    (htype : chan._request._type = Ft_check_request_type.CHECK)
    (hidle : ∀ p : Bool, _execute_check c chan p = .returned chan p) (calls : Nat) :
    ∀ p : Bool,
      execute_times c calls { _channels := [chan] } p = .returned { _channels := [chan] } p := by
  induction calls with
  | zero => intro p; rfl
  | succ n ih =>
    intro p
    simp [execute_times, execute_single c chan p htype, hidle p, Outcome.map_state,
      Outcome.and_then, ih p]

end Ft_check

/-! ## Block allocator: the count of allocated blocks along a sequence of calls -/

namespace Block_allocator

open Block_allocator_channel_state Block_allocator_request_type

theorem newly_completed_self (success : Bool) (chs : List Block_allocator_channel) :
    newly_completed success chs chs = 0 := by
  induction chs with
  | nil => rfl
  | cons ch rest ih =>
    simp only [newly_completed, ih, add_zero]
    by_cases h : ch._state = COMPLETE <;> simp [h]

theorem guard_bound_lt (c : Config) (fb : Nat) : guard_bound c fb < U64 := by
  unfold guard_bound
  exact Nat.mod_lt _ (by unfold U64; positivity)

/-- The step of `execute` on a channel that is `SUBMITTED` or `PENDING`. -/
theorem execute_get_served (c : Config) (fb nr : Nat) (ch0 : Block_allocator_channel) (p : Bool)
    (h : ch0._state = SUBMITTED ∨ ch0._state = PENDING) :
    _execute_get c fb nr
        (if ch0._state = SUBMITTED then { ch0 with _state := PENDING } else ch0) p
      = if nr ≤ guard_bound c fb then
          ((nr + 1) % U64,
            { _state := COMPLETE,
              _request := { ch0._request with _blk_nr := (fb + nr) % U64, _success := true } },
            true)
        else
          (nr, { _state := COMPLETE, _request := { ch0._request with _success := false } }, true) := by
  rcases h with h | h
  · by_cases hg : nr ≤ guard_bound c fb <;>
      simp [_execute_get, h, hg, _mark_req_successful, _mark_req_failed]
  · by_cases hg : nr ≤ guard_bound c fb <;>
      simp [_execute_get, h, hg, _mark_req_successful, _mark_req_failed]

/-- The step of `execute` on a channel that is `COMPLETE`. -/
theorem execute_get_complete (c : Config) (fb nr : Nat) (ch0 : Block_allocator_channel)
    (p : Bool) (h : ch0._state = COMPLETE) :
    _execute_get c fb nr
        (if ch0._state = SUBMITTED then { ch0 with _state := PENDING } else ch0) p
      = (nr, ch0, p) := by
  simp [_execute_get, h]

theorem count_kept_self (c : Config) (fb : Nat) (chs : List Block_allocator_channel) (nr : Nat)
    (hnr : nr < U64) : count_kept c fb chs nr (nr, chs) := by
  refine ⟨?_, hnr, rfl, fun _ => ⟨rfl, newly_completed_self _ _⟩, ?_, ?_, fun k ch hk _ => hk⟩
  · show nr = (nr + newly_completed true chs chs) % U64
    rw [newly_completed_self, add_zero, Nat.mod_eq_of_lt hnr]
  · intro h
    rw [newly_completed_self] at h
    exact absurd h (lt_irrefl 0)
  · intro hle _
    refine ⟨?_, hle⟩
    show nr = nr + newly_completed true chs chs
    rw [newly_completed_self, add_zero]

/-- A channel that the loop leaves as it is, in front of the rest of the loop. -/
theorem count_kept_cons_same (c : Config) (fb : Nat) (ch0 : Block_allocator_channel)
    (rest : List Block_allocator_channel) (nr : Nat) (s : Nat × List Block_allocator_channel)
    (h : count_kept c fb rest nr s) :
    count_kept c fb (ch0 :: rest) nr (s.1, ch0 :: s.2) := by
  obtain ⟨i1, i2, i3, i4, i5, i6, i7⟩ := h
  have hn : ∀ b, newly_completed b (ch0 :: rest) (ch0 :: s.2) = newly_completed b rest s.2 := by
    intro b
    by_cases hc : ch0._state = COMPLETE <;> simp [newly_completed, hc]
  refine ⟨?_, i2, by simp [i3], ?_, ?_, ?_, ?_⟩
  · show s.1 = (nr + newly_completed true (ch0 :: rest) (ch0 :: s.2)) % U64
    rw [hn]; exact i1
  · intro hgt
    show s.1 = nr ∧ newly_completed true (ch0 :: rest) (ch0 :: s.2) = 0
    rw [hn]; exact i4 hgt
  · intro hpos
    have hpos1 : 0 < newly_completed false (ch0 :: rest) (ch0 :: s.2) := hpos
    rw [hn] at hpos1
    exact i5 hpos1
  · intro hle hlt
    show s.1 = nr + newly_completed true (ch0 :: rest) (ch0 :: s.2) ∧ s.1 ≤ guard_bound c fb + 1
    rw [hn]; exact i6 hle hlt
  · intro k ch hk hc
    cases k with
    | zero => simpa using hk
    | succ k1 => simpa using i7 k1 ch (by simpa using hk) hc

/-- A channel that the loop completes successfully, in front of the rest. -/
theorem count_kept_cons_success (c : Config) (fb : Nat) (ch0 ch1 : Block_allocator_channel)
    (rest : List Block_allocator_channel) (nr : Nat) (s : Nat × List Block_allocator_channel)
    (h0 : ch0._state ≠ COMPLETE) (h1 : ch1._state = COMPLETE)
    (hs : ch1._request._success = true) (hg : nr ≤ guard_bound c fb)
    (h : count_kept c fb rest ((nr + 1) % U64) s) :
    count_kept c fb (ch0 :: rest) nr (s.1, ch1 :: s.2) := by
  obtain ⟨i1, i2, i3, i4, i5, i6, i7⟩ := h
  have hn : newly_completed true (ch0 :: rest) (ch1 :: s.2)
      = 1 + newly_completed true rest s.2 := by
    simp [newly_completed, h0, h1, hs]
  have hf : newly_completed false (ch0 :: rest) (ch1 :: s.2)
      = newly_completed false rest s.2 := by
    simp [newly_completed, h0, h1, hs]
  refine ⟨?_, i2, by simp [i3], ?_, ?_, ?_, ?_⟩
  · show s.1 = (nr + newly_completed true (ch0 :: rest) (ch1 :: s.2)) % U64
    rw [hn, i1, Nat.add_mod, Nat.mod_mod, ← Nat.add_mod]
    congr 1
    omega
  · intro hgt
    omega
  · intro hpos
    have hpos1 : 0 < newly_completed false (ch0 :: rest) (ch1 :: s.2) := hpos
    rw [hf] at hpos1
    exact i5 hpos1
  · intro hle hlt
    show s.1 = nr + newly_completed true (ch0 :: rest) (ch1 :: s.2) ∧ s.1 ≤ guard_bound c fb + 1
    have hmod : (nr + 1) % U64 = nr + 1 := Nat.mod_eq_of_lt (by omega)
    rw [hmod] at i6
    obtain ⟨j1, j2⟩ := i6 (by omega) hlt
    rw [hn]
    exact ⟨by rw [j1]; omega, j2⟩
  · intro k ch hk hc
    cases k with
    | zero =>
      simp at hk
      rw [← hk] at hc
      exact absurd hc h0
    | succ k1 => simpa using i7 k1 ch (by simpa using hk) hc

/-- A channel that the loop completes with a failure, in front of the rest. -/
theorem count_kept_cons_failure (c : Config) (fb : Nat) (ch0 ch1 : Block_allocator_channel)
    (rest : List Block_allocator_channel) (nr : Nat) (s : Nat × List Block_allocator_channel)
    (h0 : ch0._state ≠ COMPLETE) (hs : ch1._request._success = false)
    (hg : guard_bound c fb < nr)
    (h : count_kept c fb rest nr s) :
    count_kept c fb (ch0 :: rest) nr (s.1, ch1 :: s.2) := by
  obtain ⟨i1, i2, i3, i4, i5, i6, i7⟩ := h
  obtain ⟨i4a, i4b⟩ := i4 hg
  have hn : newly_completed true (ch0 :: rest) (ch1 :: s.2) = newly_completed true rest s.2 := by
    simp [newly_completed, h0, hs]
  refine ⟨?_, i2, by simp [i3], ?_, ?_, ?_, ?_⟩
  · show s.1 = (nr + newly_completed true (ch0 :: rest) (ch1 :: s.2)) % U64
    rw [hn]; exact i1
  · intro _
    show s.1 = nr ∧ newly_completed true (ch0 :: rest) (ch1 :: s.2) = 0
    rw [hn]; exact ⟨i4a, i4b⟩
  · intro _
    show guard_bound c fb < s.1
    rw [i4a]; exact hg
  · intro hle hlt
    show s.1 = nr + newly_completed true (ch0 :: rest) (ch1 :: s.2) ∧ s.1 ≤ guard_bound c fb + 1
    rw [hn, i4a, i4b]
    exact ⟨rfl, hle⟩
  · intro k ch hk hc
    cases k with
    | zero =>
      simp at hk
      rw [← hk] at hc
      exact absurd hc h0
    | succ k1 => simpa using i7 k1 ch (by simpa using hk) hc

/-- The loop of `execute` keeps the count in step with the requests it completes. -/
theorem execute_channels_count (c : Config) (fb : Nat) (chs : List Block_allocator_channel) :
    ∀ (nr : Nat) (p : Bool), nr < U64 →
      count_kept c fb chs nr (execute_channels c fb chs nr p).state := by
  induction chs with
  | nil =>
    intro nr p hnr
    exact count_kept_self c fb [] nr hnr
  | cons ch0 rest ih =>
    intro nr p hnr
    unfold execute_channels
    by_cases h0 : ch0._state = INACTIVE
    · rw [if_pos h0, Outcome.state_map_state]
      exact count_kept_cons_same c fb ch0 rest nr _ (ih nr p hnr)
    · rw [if_neg h0]
      cases ht : ch0._request._type with
      | INVALID => exact count_kept_self c fb (ch0 :: rest) nr hnr
      | GET =>
        simp only [Outcome.state_map_state]
        by_cases hc0 : ch0._state = COMPLETE
        · rw [execute_get_complete c fb nr ch0 p hc0]
          exact count_kept_cons_same c fb ch0 rest nr _ (ih nr p hnr)
        · have hserved : ch0._state = SUBMITTED ∨ ch0._state = PENDING := by
            cases hst : ch0._state with
            | INACTIVE => exact absurd hst h0
            | SUBMITTED => exact Or.inl rfl
            | PENDING => exact Or.inr rfl
            | COMPLETE => exact absurd hst hc0
          rw [execute_get_served c fb nr ch0 p hserved]
          by_cases hg : nr ≤ guard_bound c fb
          · simp only [hg, if_true]
            have hnr1 : (nr + 1) % U64 < U64 := Nat.mod_lt _ (by unfold U64; positivity)
            exact count_kept_cons_success c fb ch0 _ rest nr _ hc0 rfl rfl hg
              (ih ((nr + 1) % U64) true hnr1)
          · simp only [hg, if_false]
            exact count_kept_cons_failure c fb ch0 _ rest nr _ hc0 rfl (Nat.lt_of_not_le hg)
              (ih nr true hnr)

end Block_allocator

namespace Block_allocator

open Block_allocator_channel_state Block_allocator_request_type

theorem newly_completed_eq_zero (success : Bool) (chs : List Block_allocator_channel) :
    ∀ chs1 : List Block_allocator_channel,
      (∀ (k : Nat) (a a1 : Block_allocator_channel), chs[k]? = some a → chs1[k]? = some a1 →
        a1._state = COMPLETE → a._state = COMPLETE) →
      newly_completed success chs chs1 = 0 := by
  induction chs with
  | nil => intro chs1 _; rfl
  | cons ch rest ih =>
    intro chs1 h
    cases chs1 with
    | nil => rfl
    | cons ch1 rest1 =>
      have h0 : ch1._state = COMPLETE → ch._state = COMPLETE := h 0 ch ch1 (by simp) (by simp)
      have hr := ih rest1 (fun k a a1 hk hk1 => h (k + 1) a a1 (by simpa using hk)
        (by simpa using hk1))
      simp only [newly_completed, hr, add_zero]
      by_cases hc : ch._state = COMPLETE
      · simp [hc]
      · have : ¬ ch1._state = COMPLETE := fun h1 => hc (h0 h1)
        simp [this]

/-- What a call does to the count of allocated blocks. -/
theorem after_call_count (c : Config) (ba : Block_allocator) (call : Call)
    (hnr : ba._nr_of_blks < U64) :
    (after_call c ba call)._nr_of_blks
        = (ba._nr_of_blks
            + newly_completed true ba._channels (after_call c ba call)._channels) % U64
    ∧ (after_call c ba call)._nr_of_blks < U64
    ∧ (after_call c ba call)._first_block = ba._first_block
    ∧ (guard_bound c ba._first_block < ba._nr_of_blks →
        (after_call c ba call)._nr_of_blks = ba._nr_of_blks
        ∧ newly_completed true ba._channels (after_call c ba call)._channels = 0)
    ∧ (0 < newly_completed false ba._channels (after_call c ba call)._channels →
        guard_bound c ba._first_block < (after_call c ba call)._nr_of_blks)
    ∧ (ba._nr_of_blks ≤ guard_bound c ba._first_block + 1 →
        guard_bound c ba._first_block + 1 < U64 →
        (after_call c ba call)._nr_of_blks
            = ba._nr_of_blks
              + newly_completed true ba._channels (after_call c ba call)._channels
        ∧ (after_call c ba call)._nr_of_blks ≤ guard_bound c ba._first_block + 1) := by
  have hsame : ∀ ba1 : Block_allocator,
      ba1._nr_of_blks = ba._nr_of_blks → ba1._first_block = ba._first_block →
      (∀ b, newly_completed b ba._channels ba1._channels = 0) →
      ba1._nr_of_blks = (ba._nr_of_blks + newly_completed true ba._channels ba1._channels) % U64
      ∧ ba1._nr_of_blks < U64
      ∧ ba1._first_block = ba._first_block
      ∧ (guard_bound c ba._first_block < ba._nr_of_blks →
          ba1._nr_of_blks = ba._nr_of_blks
          ∧ newly_completed true ba._channels ba1._channels = 0)
      ∧ (0 < newly_completed false ba._channels ba1._channels →
          guard_bound c ba._first_block < ba1._nr_of_blks)
      ∧ (ba._nr_of_blks ≤ guard_bound c ba._first_block + 1 →
          guard_bound c ba._first_block + 1 < U64 →
          ba1._nr_of_blks
              = ba._nr_of_blks + newly_completed true ba._channels ba1._channels
          ∧ ba1._nr_of_blks ≤ guard_bound c ba._first_block + 1) := by
    intro ba1 h1 h2 h3
    rw [h3 true, h3 false, h1, add_zero, Nat.mod_eq_of_lt hnr]
    exact ⟨rfl, hnr, h2, fun _ => ⟨rfl, rfl⟩, fun h => absurd h (lt_irrefl 0),
      fun hle _ => ⟨rfl, hle⟩⟩
  cases call with
  | submit_request req =>
    apply hsame
    · simp only [after_call, submit_request]
      cases submit_channels req ba._channels 0 with
      | none => rfl
      | some r => rfl
    · simp only [after_call, submit_request]
      cases submit_channels req ba._channels 0 with
      | none => rfl
      | some r => rfl
    · intro b
      simp only [after_call, submit_request]
      cases hs : submit_channels req ba._channels 0 with
      | none => exact newly_completed_self b _
      | some r =>
        obtain ⟨i, chs1⟩ := r
        obtain ⟨j, ch, _, hj2, _, _, hj5⟩ := ba_submit_channels_some req ba._channels 0 i chs1 hs
        apply newly_completed_eq_zero
        intro k a a1 hk hk1 hc
        simp only [Outcome.state] at hk1
        rw [hj5] at hk1
        by_cases hkj : j = k
        · subst hkj
          have hlt : j < ba._channels.length := Ft_check.lt_length_of_getElem?_eq_some hj2
          simp [hlt] at hk1
          rw [← hk1] at hc
          cases hc
        · rw [List.getElem?_set_ne hkj, hk] at hk1
          cases hk1
          exact hc
  | execute p =>
    have h := execute_channels_count c ba._first_block ba._channels ba._nr_of_blks p hnr
    have hst : (after_call c ba (Call.execute p))
        = { ba with
            _nr_of_blks :=
              (execute_channels c ba._first_block ba._channels ba._nr_of_blks p).state.1
            _channels :=
              (execute_channels c ba._first_block ba._channels ba._nr_of_blks p).state.2 } := by
      simp only [after_call, execute, Outcome.state_map_state]
    rw [hst]
    obtain ⟨i1, i2, _, i4, i5, i6, _⟩ := h
    exact ⟨i1, i2, rfl, i4, i5, i6⟩
  | peek_completed_request buf_size =>
    have hst : after_call c ba (Call.peek_completed_request buf_size) = ba := by
      simp only [after_call, _peek_completed_request]
      cases peek_channels c buf_size ba._channels <;> rfl
    rw [hst]
    exact hsame ba rfl rfl (fun b => newly_completed_self b _)
  | drop_completed_request id =>
    apply hsame
    · simp only [after_call, _drop_completed_request]
      split_ifs
      · rfl
      · split
        · rfl
        · split_ifs <;> rfl
    · simp only [after_call, _drop_completed_request]
      split_ifs
      · rfl
      · split
        · rfl
        · split_ifs <;> rfl
    · intro b
      simp only [after_call, _drop_completed_request]
      split_ifs
      · exact newly_completed_self b _
      · split
        · exact newly_completed_self b _
        · rename_i ch hch
          split_ifs
          · exact newly_completed_self b _
          · apply newly_completed_eq_zero
            intro k a a1 hk hk1 hc
            simp only [Outcome.state] at hk1
            by_cases hkj : id = k
            · subst hkj
              have hlt : id < ba._channels.length := Ft_check.lt_length_of_getElem?_eq_some hch
              simp [hlt] at hk1
              rw [← hk1] at hc
              cases hc
            · rw [List.getElem?_set_ne hkj, hk] at hk1
              cases hk1
              exact hc

/-- The count of allocated blocks along a sequence of calls. -/
theorem after_calls_count (c : Config) (calls : List Call) :
    ∀ ba : Block_allocator, ba._nr_of_blks < U64 →
      (after_calls c calls ba)._nr_of_blks
          = (ba._nr_of_blks + successful_gets c calls ba) % U64
      ∧ (after_calls c calls ba)._nr_of_blks < U64
      ∧ (after_calls c calls ba)._first_block = ba._first_block
      ∧ (guard_bound c ba._first_block < ba._nr_of_blks →
          (after_calls c calls ba)._nr_of_blks = ba._nr_of_blks
          ∧ successful_gets c calls ba = 0)
      ∧ (ba._nr_of_blks ≤ guard_bound c ba._first_block + 1 →
          guard_bound c ba._first_block + 1 < U64 →
          (after_calls c calls ba)._nr_of_blks = ba._nr_of_blks + successful_gets c calls ba
          ∧ (after_calls c calls ba)._nr_of_blks ≤ guard_bound c ba._first_block + 1) := by
  induction calls with
  | nil =>
    intro ba hnr
    refine ⟨?_, hnr, rfl, fun _ => ⟨rfl, rfl⟩, fun h _ => ⟨rfl, h⟩⟩
    show ba._nr_of_blks = (ba._nr_of_blks + 0) % U64
    rw [add_zero, Nat.mod_eq_of_lt hnr]
  | cons call rest ih =>
    intro ba hnr
    obtain ⟨a1, a2, a3, a4, _, a6⟩ := after_call_count c ba call hnr
    obtain ⟨b1, b2, b3, b4, b5⟩ := ih (after_call c ba call) a2
    simp only [after_calls, successful_gets]
    refine ⟨?_, b2, b3.trans a3, ?_, ?_⟩
    · rw [b1, a1, Nat.add_mod, Nat.mod_mod, ← Nat.add_mod, Nat.add_assoc]
    · intro hgt
      obtain ⟨a4a, a4b⟩ := a4 hgt
      rw [a3, a4a] at b4
      obtain ⟨b4a, b4b⟩ := b4 hgt
      exact ⟨b4a, by rw [a4b, b4b]⟩
    · intro hle hlt
      obtain ⟨a6a, a6b⟩ := a6 hle hlt
      rw [a3] at b5
      obtain ⟨b5a, b5b⟩ := b5 a6b hlt
      exact ⟨by rw [b5a, a6a, Nat.add_assoc], b5b⟩

end Block_allocator

/-! ## Free-tree check: array accesses stay within bounds -/

namespace Ft_check

open Child_state

theorem same_sizes_refl (lvls : List Type_1_level) : same_sizes lvls lvls :=
  ⟨rfl, fun _ lv h => ⟨lv, h, rfl, rfl⟩⟩

theorem same_sizes_trans (a b d : List Type_1_level) (h1 : same_sizes a b)
    (h2 : same_sizes b d) : same_sizes a d := by
  refine ⟨h1.1.trans h2.1, ?_⟩
  intro l lv ha
  obtain ⟨lvb, hb, e1, e2⟩ := h1.2 l lv ha
  obtain ⟨lvd, hd, e3, e4⟩ := h2.2 l lvb hb
  exact ⟨lvd, hd, e1.trans e3, e2.trans e4⟩

theorem same_sizes_modify (lvls : List Type_1_level) (f : Type_1_level → Type_1_level)
    (hf : ∀ x, (f x).children_state.length = x.children_state.length
      ∧ (f x).children.length = x.children.length) (n : Nat) :
    same_sizes (lvls.modify f n) lvls := by
  refine ⟨List.length_modify f n lvls, ?_⟩
  intro l lv1 h
  rw [List.getElem?_modify] at h
  cases hl : lvls[l]? with
  | none => simp [hl] at h
  | some lv =>
    simp only [hl, Option.map_eq_map, Option.map_some', Option.some.injEq] at h
    refine ⟨lv, rfl, ?_⟩
    by_cases hn : n = l
    · simp only [hn, if_true] at h
      rw [← h]
      exact hf lv
    · simp only [hn, if_false] at h
      rw [← h]
      exact ⟨rfl, rfl⟩

theorem same_sizes_set (lvls : List Type_1_level) (n : Nat) (x y : Type_1_level)
    (hy : lvls[n]? = some y)
    (h1 : x.children_state.length = y.children_state.length)
    (h2 : x.children.length = y.children.length) :
    same_sizes (lvls.set n x) lvls := by
  refine ⟨List.length_set _ _ _, ?_⟩
  intro l lv1 h
  by_cases hn : n = l
  · subst hn
    have hlt : n < lvls.length := lt_length_of_getElem?_eq_some hy
    simp [hlt] at h
    rw [← h]
    exact ⟨y, hy, h1, h2⟩
  · rw [List.getElem?_set_ne hn] at h
    exact ⟨lv1, h, rfl, rfl⟩

/-- Well-formedness is kept when sizes, the bounds of the request and the level
to read are kept. -/
theorem well_formed_of (c : Config) (chan chan1 : Ft_check_channel) (h : well_formed c chan)
    (hreq1 : chan1._request._max_lvl = chan._request._max_lvl)
    (hreq2 : chan1._request._max_child_idx = chan._request._max_child_idx)
    (ht2s : chan1._t2_lvl.children_state.length = chan._t2_lvl.children_state.length)
    (ht2c : chan1._t2_lvl.children.length = chan._t2_lvl.children.length)
    (hlv : same_sizes chan1._t1_lvls chan._t1_lvls)
    (hread : chan1._lvl_to_read = chan._lvl_to_read ∨ chan1._lvl_to_read < c.TREE_MAX_LEVEL) :
    well_formed c chan1 := by
  obtain ⟨w1, w2, w3, w4, w5, w6, w7⟩ := h
  refine ⟨by rw [hreq1]; exact w1, by rw [hreq2]; exact w2, by rw [ht2s]; exact w3,
    by rw [ht2c]; exact w4, by rw [hlv.1]; exact w5, ?_, ?_⟩
  · intro l lv1 hl
    obtain ⟨lv, hlv0, e1, e2⟩ := hlv.2 l lv1 hl
    obtain ⟨s1, s2⟩ := w6 l lv hlv0
    exact ⟨by rw [e1]; exact s1, by rw [e2]; exact s2⟩
  · rcases hread with hr | hr
    · rw [hr]; exact w7
    · exact Or.inr hr

theorem same_sizes_set_t1_child_state (chan : Ft_check_channel) (lvl i : Nat) (s : Child_state) :
    same_sizes (set_t1_child_state chan lvl i s)._t1_lvls chan._t1_lvls := by
  unfold set_t1_child_state
  apply same_sizes_modify
  intro x
  exact ⟨List.length_set _ _ _, rfl⟩

theorem well_formed_set_child_state (c : Config) (chan : Ft_check_channel)
    (ref : Child_state_ref) (s : Child_state) (h : well_formed c chan) :
    well_formed c (set_child_state chan ref s) := by
  cases ref with
  | root_state =>
    exact well_formed_of c chan _ h rfl rfl rfl rfl (same_sizes_refl _) (Or.inl rfl)
  | t1_child l i =>
    exact well_formed_of c chan _ h rfl rfl rfl rfl (same_sizes_set_t1_child_state chan l i s)
      (Or.inl rfl)

theorem well_formed_set_t1_child_state (c : Config) (chan : Ft_check_channel) (lvl i : Nat)
    (s : Child_state) (h : well_formed c chan) :
    well_formed c (set_t1_child_state chan lvl i s) :=
  well_formed_of c chan _ h rfl rfl rfl rfl (same_sizes_set_t1_child_state chan lvl i s)
    (Or.inl rfl)

theorem well_formed_mark_req_failed (c : Config) (chan : Ft_check_channel) (p : Bool)
    (h : well_formed c chan) : well_formed c (_mark_req_failed chan p).1 :=
  well_formed_of c chan _ h rfl rfl rfl rfl (same_sizes_refl _) (Or.inl rfl)

theorem execute_leaf_child_well_formed (c : Config) (chan : Ft_check_channel) (i : Nat)
    (p : Bool) (h : well_formed c chan) :
    well_formed c (_execute_leaf_child chan i p).state := by
  unfold _execute_leaf_child
  split
  · split_ifs
    all_goals
      first
        | exact h
        | exact well_formed_mark_req_failed c chan p h
        | exact well_formed_of c chan _ h rfl rfl (List.length_set _ _ _) rfl (same_sizes_refl _)
            (Or.inl rfl)
  · exact h

theorem execute_inner_t2_child_well_formed (c : Config) (chan : Ft_check_channel) (lvl i : Nat)
    (p : Bool) (h : well_formed c chan) (hlvl : lvl - 1 < c.TREE_MAX_LEVEL) :
    well_formed c (_execute_inner_t2_child c chan lvl i p).state := by
  unfold _execute_inner_t2_child
  split
  · exact h
  · split
    · split_ifs
      all_goals
        first
          | exact h
          | exact well_formed_mark_req_failed c chan p h
          | exact well_formed_set_t1_child_state c chan lvl i _ h
          | exact well_formed_of c chan _ h rfl rfl rfl rfl (same_sizes_refl _) (Or.inr hlvl)
          | (apply well_formed_set_t1_child_state
             exact well_formed_of c chan _ h rfl rfl
               (by simp [reset_children_state]) rfl (same_sizes_refl _) (Or.inl rfl))
    · exact h

theorem execute_inner_t1_child_well_formed (c : Config) (chan : Ft_check_channel)
    (child : Type_1_node) (child_lvl_idx : Nat) (ref : Child_state_ref) (lvl i : Nat) (p : Bool)
    (h : well_formed c chan) (hlvl : lvl - 1 < c.TREE_MAX_LEVEL) :
    well_formed c (_execute_inner_t1_child c chan child child_lvl_idx ref lvl i p).state := by
  unfold _execute_inner_t1_child
  split
  · rename_i child_state child_lvl hs hcl
    split_ifs
    all_goals
      first
        | exact h
        | exact well_formed_mark_req_failed c chan p h
        | exact well_formed_set_child_state c chan ref _ h
        | exact well_formed_of c chan _ h rfl rfl rfl rfl (same_sizes_refl _) (Or.inr hlvl)
        | exact well_formed_of c _ _ (well_formed_set_child_state c chan ref DONE h) rfl rfl rfl
            rfl (same_sizes_refl _) (Or.inl rfl)
        | (apply well_formed_set_child_state
           exact well_formed_of c chan _ h rfl rfl rfl rfl
             (same_sizes_set chan._t1_lvls child_lvl_idx _ child_lvl hcl
               (by simp [reset_children_state]) rfl)
             (Or.inl rfl))
  · exact h

end Ft_check

namespace Ft_check

open Child_state

theorem mem_of_getElem?_eq_some {α : Type} {l : List α} {i : Nat} {a : α}
    (h : l[i]? = some a) : a ∈ l :=
  List.mem_iff_getElem?.mpr ⟨i, h⟩

theorem well_formed_default_channel (c : Config) (h1 : 0 < c.TREE_MAX_LEVEL)
    (h2 : 0 < c.NR_OF_T1_NODES_PER_BLK) : well_formed c (default_channel c) := by
  refine ⟨h1, h2, by simp [default_channel, default_type_2_level],
    by simp [default_channel, default_type_2_level], by simp [default_channel], ?_, Or.inr h1⟩
  intro l lv hl
  have hmem : lv ∈ List.replicate c.TREE_MAX_LEVEL (default_type_1_level c) :=
    mem_of_getElem?_eq_some hl
  rw [List.eq_of_mem_replicate hmem]
  exact ⟨by simp [default_type_1_level], by simp [default_type_1_level]⟩

theorem well_formed_submitted_channel (c : Config) (req : Ft_check_request)
    (h1 : req._max_lvl < c.TREE_MAX_LEVEL)
    (h2 : req._max_child_idx < c.NR_OF_T1_NODES_PER_BLK) :
    well_formed c (submitted_channel c req) := by
  obtain ⟨_, _, w3, w4, w5, w6, w7⟩ :=
    well_formed_default_channel c (Nat.lt_of_le_of_lt (Nat.zero_le _) h1)
      (Nat.lt_of_le_of_lt (Nat.zero_le _) h2)
  exact ⟨h1, h2, w3, w4, w5, w6, w7⟩

theorem find_target_levels_in_bounds (c : Config) (chan : Ft_check_channel)
    (h : well_formed c chan) (count : Nat) :
    ∀ (start : Nat), start + count ≤ c.TREE_MAX_LEVEL →
      find_target_levels c chan start count ≠ some Target.out_of_bounds := by
  obtain ⟨w1, w2, w3, w4, w5, w6, w7⟩ := h
  induction count with
  | zero => intro start _; simp [find_target_levels]
  | succ n ih =>
    intro start hb
    have hlt : start < chan._t1_lvls.length := by omega
    obtain ⟨lv, hlv⟩ : ∃ lv, chan._t1_lvls[start]? = some lv :=
      ⟨chan._t1_lvls[start], List.getElem?_eq_getElem hlt⟩
    obtain ⟨s1, s2⟩ := w6 start lv hlv
    unfold find_target_levels
    simp only [hlv]
    cases hscan : scan_children lv.children_state 0 (chan._request._max_child_idx + 1) with
    | out_of_bounds =>
      exact absurd hscan (scan_children_in_bounds _ _ 0 (by omega))
    | all_done =>
      simp only
      exact ih (start + 1) (by omega)
    | found i =>
      simp only
      obtain ⟨_, hi, _, _⟩ := scan_children_found_spec _ _ 0 i hscan
      split_ifs
      · simp
      · have hic : i < lv.children.length := by omega
        rw [List.getElem?_eq_getElem hic]
        simp

theorem find_target_in_bounds (c : Config) (chan : Ft_check_channel) (h : well_formed c chan) :
    find_target c chan ≠ Target.out_of_bounds := by
  have h0 := h
  obtain ⟨w1, w2, w3, w4, w5, w6, w7⟩ := h
  unfold find_target
  cases hscan : scan_children chan._t2_lvl.children_state 0 (chan._request._max_child_idx + 1) with
  | out_of_bounds => exact absurd hscan (scan_children_in_bounds _ _ 0 (by omega))
  | found i => simp
  | all_done =>
    simp only
    cases hl : find_target_levels c chan c.FT_LOWEST_T1_LVL
        (chan._request._max_lvl + 1 - c.FT_LOWEST_T1_LVL) with
    | none => simp only; split_ifs <;> simp
    | some t =>
      simp only
      intro ht
      rw [ht] at hl
      by_cases hc : chan._request._max_lvl + 1 - c.FT_LOWEST_T1_LVL = 0
      · rw [hc] at hl
        simp [find_target_levels] at hl
      · exact find_target_levels_in_bounds c chan h0 _ _ (by omega) hl

theorem execute_leaf_child_in_bounds (c : Config) (chan chan1 : Ft_check_channel) (i : Nat)
    (p : Bool) (e : Error) (h : well_formed c chan) (hi : i < c.NR_OF_T1_NODES_PER_BLK)
    (hex : _execute_leaf_child chan i p = .raised chan1 e) : e ≠ Error.Out_of_bounds := by
  obtain ⟨w1, w2, w3, w4, w5, w6, w7⟩ := h
  have h1 : i < chan._t2_lvl.children.length := by omega
  have h2 : i < chan._t2_lvl.children_state.length := by omega
  unfold _execute_leaf_child at hex
  rw [List.getElem?_eq_getElem h1, List.getElem?_eq_getElem h2] at hex
  simp only at hex
  split_ifs at hex

theorem execute_inner_t2_child_in_bounds (c : Config) (chan chan1 : Ft_check_channel)
    (lvl i : Nat) (p : Bool) (e : Error) (h : well_formed c chan)
    (hlvl : lvl < c.TREE_MAX_LEVEL) (hi : i < c.NR_OF_T1_NODES_PER_BLK)
    (hex : _execute_inner_t2_child c chan lvl i p = .raised chan1 e) :
    e ≠ Error.Out_of_bounds := by
  obtain ⟨w1, w2, w3, w4, w5, w6, w7⟩ := h
  have hlt : lvl < chan._t1_lvls.length := by omega
  obtain ⟨lv, hlv⟩ : ∃ lv, chan._t1_lvls[lvl]? = some lv :=
    ⟨chan._t1_lvls[lvl], List.getElem?_eq_getElem hlt⟩
  obtain ⟨s1, s2⟩ := w6 lvl lv hlv
  have h1 : i < lv.children.length := by omega
  have h2 : i < lv.children_state.length := by omega
  unfold _execute_inner_t2_child at hex
  simp only [hlv] at hex
  rw [List.getElem?_eq_getElem h1, List.getElem?_eq_getElem h2] at hex
  simp only at hex
  split_ifs at hex
  cases hex
  simp

theorem execute_inner_t1_child_in_bounds (c : Config) (chan chan1 : Ft_check_channel)
    (child : Type_1_node) (child_lvl_idx : Nat) (ref : Child_state_ref) (lvl i : Nat)
    (p : Bool) (e : Error) (h : well_formed c chan)
    (hlvl : child_lvl_idx < c.TREE_MAX_LEVEL)
    (href : ∃ state, get_child_state chan ref = some state)
    (hex : _execute_inner_t1_child c chan child child_lvl_idx ref lvl i p = .raised chan1 e) :
    e ≠ Error.Out_of_bounds := by
  obtain ⟨w1, w2, w3, w4, w5, w6, w7⟩ := h
  have hlt : child_lvl_idx < chan._t1_lvls.length := by omega
  obtain ⟨lv, hlv⟩ : ∃ lv, chan._t1_lvls[child_lvl_idx]? = some lv :=
    ⟨chan._t1_lvls[child_lvl_idx], List.getElem?_eq_getElem hlt⟩
  obtain ⟨state, hstate⟩ := href
  unfold _execute_inner_t1_child at hex
  simp only [hlv, hstate] at hex
  split_ifs at hex
  cases hex
  simp

/-- The level of an inner target is a level of the tree, and the child index is
one of the tree. -/
theorem find_target_inner_bounds (c : Config) (chan : Ft_check_channel) (lvl i : Nat)
    (hw : well_formed c chan)
    (h : find_target c chan = Target.inner_t2 lvl i
          ∨ ∃ child, find_target c chan = Target.inner_t1 lvl i child) :
    c.FT_LOWEST_T1_LVL ≤ lvl ∧ lvl < c.TREE_MAX_LEVEL ∧ i < c.NR_OF_T1_NODES_PER_BLK
      ∧ ∃ state, get_child_state chan (Child_state_ref.t1_child lvl i) = some state := by
  obtain ⟨_, h1, h2, _, lv, hlv, hi, _, ⟨state, hs, _⟩, _⟩ := find_target_inner_spec c chan lvl i h
  refine ⟨h1, Nat.lt_of_le_of_lt h2 hw.1, Nat.lt_of_le_of_lt hi hw.2.1, state, ?_⟩
  simp [get_child_state, hlv, hs]

theorem execute_check_well_formed (c : Config) (chan : Ft_check_channel) (p : Bool)
    (h : well_formed c chan) : well_formed c (_execute_check c chan p).state := by
  rw [execute_check_eq]
  cases ht : find_target c chan with
  | leaf i => exact execute_leaf_child_well_formed c chan i p h
  | inner_t2 lvl i =>
    obtain ⟨_, hl, _, _⟩ := find_target_inner_bounds c chan lvl i h (Or.inl ht)
    exact execute_inner_t2_child_well_formed c chan lvl i p h (by omega)
  | inner_t1 lvl i child =>
    obtain ⟨_, hl, _, _⟩ := find_target_inner_bounds c chan lvl i h (Or.inr ⟨child, ht⟩)
    exact execute_inner_t1_child_well_formed c chan child (lvl - 1) _ lvl i p h (by omega)
  | root =>
    have := h.1
    exact execute_inner_t1_child_well_formed c chan _ _ _ _ 0 p h (by omega)
  | nothing => exact h
  | out_of_bounds => exact h

theorem execute_check_in_bounds (c : Config) (chan chan1 : Ft_check_channel) (p : Bool)
    (e : Error) (h : well_formed c chan) (hex : _execute_check c chan p = .raised chan1 e) :
    e ≠ Error.Out_of_bounds := by
  rw [execute_check_eq] at hex
  cases ht : find_target c chan with
  | leaf i =>
    rw [ht] at hex
    obtain ⟨hi, _, _⟩ := find_target_leaf_spec c chan i ht
    exact execute_leaf_child_in_bounds c chan chan1 i p e h
      (Nat.lt_of_le_of_lt hi h.2.1) hex
  | inner_t2 lvl i =>
    rw [ht] at hex
    obtain ⟨_, hl, hi, _⟩ := find_target_inner_bounds c chan lvl i h (Or.inl ht)
    exact execute_inner_t2_child_in_bounds c chan chan1 lvl i p e h hl hi hex
  | inner_t1 lvl i child =>
    rw [ht] at hex
    obtain ⟨_, hl, hi, hs⟩ := find_target_inner_bounds c chan lvl i h (Or.inr ⟨child, ht⟩)
    exact execute_inner_t1_child_in_bounds c chan chan1 child (lvl - 1) _ lvl i p e h
      (by omega) hs hex
  | root =>
    rw [ht] at hex
    exact execute_inner_t1_child_in_bounds c chan chan1 chan._request._root
      chan._request._max_lvl Child_state_ref.root_state (chan._request._max_lvl + 1) 0 p e h h.1
      ⟨chan._root_state, rfl⟩ hex
  | nothing => rw [ht] at hex; cases hex
  | out_of_bounds => exact absurd ht (find_target_in_bounds c chan h)

theorem execute_channels_well_formed (c : Config) :
    ∀ (channels : List Ft_check_channel) (p : Bool),
      (∀ chan ∈ channels, well_formed c chan) →
      (∀ chan ∈ (execute_channels c channels p).state, well_formed c chan)
      ∧ ∀ (s : List Ft_check_channel) (e : Error),
          execute_channels c channels p = .raised s e → e ≠ Error.Out_of_bounds := by
  intro channels
  induction channels with
  | nil =>
    intro p _
    refine ⟨by simp [execute_channels, Outcome.state], ?_⟩
    intro s e h
    simp [execute_channels] at h
  | cons chan rest ih =>
    intro p hall
    have hchan : well_formed c chan := hall chan (List.mem_cons_self _ _)
    have hrest : ∀ ch ∈ rest, well_formed c ch :=
      fun ch hch => hall ch (List.mem_cons_of_mem _ hch)
    unfold execute_channels
    cases htype : chan._request._type with
    | INVALID =>
      simp only
      obtain ⟨i1, i2⟩ := ih p hrest
      refine ⟨?_, ?_⟩
      · intro ch hch
        rw [Outcome.state_map_state] at hch
        rcases List.mem_cons.mp hch with hh | hh
        · rw [hh]; exact hchan
        · exact i1 ch hh
      · intro s e hex
        cases hr : execute_channels c rest p with
        | returned s1 p1 => rw [hr] at hex; simp [Outcome.map_state] at hex
        | raised s1 e1 =>
          rw [hr] at hex
          simp only [Outcome.map_state, Outcome.raised.injEq] at hex
          rw [← hex.2]
          exact i2 s1 e1 hr
    | CHECK =>
      simp only
      have hwf := execute_check_well_formed c chan p hchan
      cases hc : _execute_check c chan p with
      | returned chan1 p1 =>
        rw [hc] at hwf
        simp only
        obtain ⟨i1, i2⟩ := ih p1 hrest
        refine ⟨?_, ?_⟩
        · intro ch hch
          rw [Outcome.state_map_state] at hch
          rcases List.mem_cons.mp hch with hh | hh
          · rw [hh]; exact hwf
          · exact i1 ch hh
        · intro s e hex
          cases hr : execute_channels c rest p1 with
          | returned s1 p2 => rw [hr] at hex; simp [Outcome.map_state] at hex
          | raised s1 e1 =>
            rw [hr] at hex
            simp only [Outcome.map_state, Outcome.raised.injEq] at hex
            rw [← hex.2]
            exact i2 s1 e1 hr
      | raised chan1 e1 =>
        rw [hc] at hwf
        simp only
        refine ⟨?_, ?_⟩
        · intro ch hch
          rcases List.mem_cons.mp hch with hh | hh
          · rw [hh]; exact hwf
          · exact hrest ch hh
        · intro s e hex
          simp only [Outcome.raised.injEq] at hex
          rw [← hex.2]
          exact execute_check_in_bounds c chan chan1 p e1 hchan hc

theorem peek_generated_channels_in_bounds (c : Config) (buf_size : Nat) :
    ∀ (channels : List Ft_check_channel) (id : Nat),
      (∀ chan ∈ channels, well_formed c chan) →
      peek_generated_channels c buf_size channels id ≠ .error Error.Out_of_bounds := by
  intro channels
  induction channels with
  | nil => intro id _; simp [peek_generated_channels]
  | cons chan rest ih =>
    intro id hall
    have hchan : well_formed c chan := hall chan (List.mem_cons_self _ _)
    have hrest : ∀ ch ∈ rest, well_formed c ch :=
      fun ch hch => hall ch (List.mem_cons_of_mem _ hch)
    obtain ⟨w1, w2, w3, w4, w5, w6, w7⟩ := hchan
    unfold peek_generated_channels
    by_cases h1 : (!chan._gen_prim.valid || chan._gen_prim.dropped) = true
    · rw [if_pos h1]
      exact ih (id + 1) hrest
    · rw [if_neg h1]
      have hno : ¬ (chan._lvl_to_read ≠ 1 ∧ chan._t1_lvls.length ≤ chan._lvl_to_read) := by
        intro hh
        rcases w7 with w | w
        · exact hh.1 w
        · omega
      cases htag : chan._gen_prim.tag with
      | INVALID => simp
      | BLOCK_IO =>
        simp only
        rw [if_neg hno]
        split_ifs <;> simp

theorem mem_modify_cases {α : Type} (f : α → α) :
    ∀ (l : List α) (n : Nat) (b : α), b ∈ l.modify f n → b ∈ l ∨ ∃ a ∈ l, b = f a := by
  intro l
  induction l with
  | nil => intro n b h; cases n <;> simp [List.modify] at h
  | cons x xs ih =>
    intro n b h
    cases n with
    | zero =>
      simp only [List.modify_zero_cons, List.mem_cons] at h
      rcases h with h | h
      · exact Or.inr ⟨x, List.mem_cons_self _ _, h⟩
      · exact Or.inl (List.mem_cons_of_mem _ h)
    | succ n =>
      simp only [List.modify_succ_cons, List.mem_cons] at h
      rcases h with h | h
      · exact Or.inl (h ▸ List.mem_cons_self _ _)
      · rcases ih n b h with h1 | ⟨a, ha, hb⟩
        · exact Or.inl (List.mem_cons_of_mem _ h1)
        · exact Or.inr ⟨a, List.mem_cons_of_mem _ ha, hb⟩

theorem read_into_well_formed (c : Config) (ft : Ft_check) (blk_ptr : Blk_ptr) (blk : Block)
    (hblk : well_sized c blk) (h : ∀ chan ∈ ft._channels, well_formed c chan) :
    ∀ chan ∈ (read_into ft blk_ptr blk)._channels, well_formed c chan := by
  intro chan hchan
  cases blk_ptr with
  | null => exact h chan hchan
  | t2_lvl_children id =>
    rcases mem_modify_cases _ _ _ _ hchan with h1 | ⟨a, ha, hb⟩
    · exact h chan h1
    · rw [hb]
      have hw := h a ha
      exact well_formed_of c a _ hw rfl rfl rfl
        (by simp only; rw [hblk.2, hw.2.2.2.1]) (same_sizes_refl _) (Or.inl rfl)
  | t1_lvl_children id lvl =>
    rcases mem_modify_cases _ _ _ _ hchan with h1 | ⟨a, ha, hb⟩
    · exact h chan h1
    · rw [hb]
      have hw := h a ha
      refine well_formed_of c a _ hw rfl rfl rfl rfl ?_ (Or.inl rfl)
      refine ⟨List.length_modify _ _ _, ?_⟩
      intro l lv1 hl
      simp only at hl
      rw [List.getElem?_modify] at hl
      cases hlv : a._t1_lvls[l]? with
      | none => simp [hlv] at hl
      | some lv =>
        simp only [hlv, Option.map_eq_map, Option.map_some', Option.some.injEq] at hl
        refine ⟨lv, rfl, ?_⟩
        obtain ⟨s1, s2⟩ := hw.2.2.2.2.2.1 l lv hlv
        by_cases hn : lvl = l
        · simp only [hn, if_true] at hl
          rw [← hl]
          exact ⟨rfl, by simp only; rw [hblk.1, s2]⟩
        · simp only [hn, if_false] at hl
          rw [← hl]
          exact ⟨rfl, rfl⟩

theorem after_call_well_formed (c : Config) (ft : Ft_check) (call : Call)
    (h1 : 0 < c.TREE_MAX_LEVEL) (h2 : 0 < c.NR_OF_T1_NODES_PER_BLK)
    (hblk : ∀ blk_ptr blk, call = Call.block_read blk_ptr blk → well_sized c blk)
    (h : ∀ chan ∈ ft._channels, well_formed c chan) :
    ∀ chan ∈ (after_call c ft call)._channels, well_formed c chan := by
  cases call with
  | execute p =>
    intro chan hchan
    simp only [after_call, execute, Outcome.state_map_state] at hchan
    exact (execute_channels_well_formed c ft._channels p h).1 chan hchan
  | peek_generated_request buf_size =>
    intro chan hchan
    simp only [after_call, _peek_generated_request] at hchan
    split at hchan <;> exact h chan hchan
  | drop_generated_request id =>
    intro chan hchan
    simp only [after_call, _drop_generated_request] at hchan
    by_cases hid : id ≥ NR_OF_CHANNELS
    · rw [if_pos hid] at hchan
      exact h chan hchan
    · rw [if_neg hid] at hchan
      cases hch0 : ft._channels[id]? with
      | none => rw [hch0] at hchan; exact h chan hchan
      | some ch0 =>
        rw [hch0] at hchan
        rcases List.mem_or_eq_of_mem_set hchan with hh | hh
        · exact h chan hh
        · rw [hh]
          exact well_formed_of c ch0 _ (h ch0 (mem_of_getElem?_eq_some hch0)) rfl rfl rfl rfl
            (same_sizes_refl _) (Or.inl rfl)
  | generated_request_complete mod_req =>
    intro chan hchan
    simp only [after_call, generated_request_complete] at hchan
    by_cases hid : mod_req.src_request_id ≥ NR_OF_CHANNELS
    · rw [if_pos hid] at hchan
      exact h chan hchan
    · rw [if_neg hid] at hchan
      cases hch0 : ft._channels[mod_req.src_request_id]? with
      | none => rw [hch0] at hchan; exact h chan hchan
      | some ch0 =>
        rw [hch0] at hchan
        by_cases hdst : mod_req.dst_module_id = c.BLOCK_IO
        · simp only [if_pos hdst] at hchan
          rcases List.mem_or_eq_of_mem_set hchan with hh | hh
          · exact h chan hh
          · rw [hh]
            exact well_formed_of c ch0 _ (h ch0 (mem_of_getElem?_eq_some hch0)) rfl rfl rfl rfl
              (same_sizes_refl _) (Or.inl rfl)
        · simp only [if_neg hdst] at hchan
          exact h chan hchan
  | peek_completed_request buf_size =>
    intro chan hchan
    simp only [after_call, _peek_completed_request] at hchan
    split at hchan <;> exact h chan hchan
  | drop_completed_request id =>
    intro chan hchan
    simp only [after_call, _drop_completed_request] at hchan
    by_cases hid : id ≥ NR_OF_CHANNELS
    · rw [if_pos hid] at hchan
      exact h chan hchan
    · rw [if_neg hid] at hchan
      cases hch0 : ft._channels[id]? with
      | none => rw [hch0] at hchan; exact h chan hchan
      | some ch0 =>
        rw [hch0] at hchan
        by_cases hinv : ch0._request._type = Ft_check_request_type.INVALID ∧ ch0._root_state ≠ DONE
        · simp only [if_pos hinv] at hchan
          exact h chan hchan
        · simp only [if_neg hinv] at hchan
          rcases List.mem_or_eq_of_mem_set hchan with hh | hh
          · exact h chan hh
          · rw [hh]
            exact well_formed_default_channel c h1 h2
  | block_read blk_ptr blk =>
    exact read_into_well_formed c ft blk_ptr blk (hblk blk_ptr blk rfl) h

theorem after_calls_well_formed (c : Config) (h1 : 0 < c.TREE_MAX_LEVEL)
    (h2 : 0 < c.NR_OF_T1_NODES_PER_BLK) :
    ∀ (calls : List Call) (ft : Ft_check), blocks_well_sized c calls →
      (∀ chan ∈ ft._channels, well_formed c chan) →
      ∀ chan ∈ (after_calls c calls ft)._channels, well_formed c chan := by
  intro calls
  induction calls with
  | nil => intro ft _ h; exact h
  | cons call rest ih =>
    intro ft hblk h
    apply ih (after_call c ft call)
    · intro bp blk hmem
      exact hblk bp blk (List.mem_cons_of_mem _ hmem)
    · apply after_call_well_formed c ft call h1 h2 _ h
      intro bp blk heq
      exact hblk bp blk (heq ▸ List.mem_cons_self _ _)

end Ft_check

/-! ## The generated primitive of a channel, unknown channel ids and the key slots -/

open Ft_check Child_state in
/-- C21: a channel has the single generated primitive `_gen_prim`.  A call of
`execute` on a module with the channel `chan` either leaves the primitive as it
is, or records a new block read, which happens only when the primitive was
invalid, or clears it, which happens only when its read was completed with
success; a call that throws leaves the module as it was.
`_peek_generated_request` returns no request when the primitive is invalid or
was dropped, `_drop_generated_request` only sets the flag `dropped`, so the
primitive is not returned any more, also after a further `execute` call,
and `generated_request_complete` only writes the flag `success`.
`_drop_completed_request`, however, returns for every channel that holds a
`CHECK` request, complete or not, and replaces the channel by a default one,
which clears the primitive whatever it was.  In the small configuration a
request whose read of block 10 was handed out and not yet completed is dropped
that way; the next request submitted takes the same channel, and `execute`
records and `_peek_generated_request` hands out a read of block 30 with the
same source request id while the read of block 10 is still outstanding. -/
theorem C21_outstanding_read_cleared_by_drop (c : Config) (chan : Ft_check_channel) (p : Bool)
    (buf_size : Nat) :
    (∀ (ft1 : Ft_check) (p1 : Bool),
        execute c { _channels := [chan] } p = .returned ft1 p1 →
        ∃ chan1 : Ft_check_channel, ft1 = { _channels := [chan1] }
          ∧ (chan1._gen_prim = chan._gen_prim
              ∨ (chan._gen_prim.valid = false ∧ chan1._gen_prim.tag = Primitive_tag.BLOCK_IO
                  ∧ chan1._gen_prim.success = false ∧ chan1._gen_prim.dropped = false
                  ∧ p1 = true)
              ∨ (chan._gen_prim.tag = Primitive_tag.BLOCK_IO ∧ chan._gen_prim.success = true
                  ∧ chan1._gen_prim = default_gen_prim ∧ p1 = true))
          ∧ (chan._gen_prim.valid = true → chan._gen_prim.dropped = true →
              _peek_generated_request c ft1 buf_size = .returned ft1 none))
    ∧ (∀ (ft1 : Ft_check) (e : Error),
        execute c { _channels := [chan] } p = .raised ft1 e → ft1 = { _channels := [chan] })
    ∧ (chan._gen_prim.valid = false ∨ chan._gen_prim.dropped = true →
        _peek_generated_request c { _channels := [chan] } buf_size
          = .returned { _channels := [chan] } none)
    ∧ _drop_generated_request { _channels := [chan] } 0
        = .returned
            { _channels := [{ chan with _gen_prim := { chan._gen_prim with dropped := true } }] }
            ()
    ∧ _peek_generated_request c
          { _channels := [{ chan with _gen_prim := { chan._gen_prim with dropped := true } }] }
          buf_size
        = .returned
            { _channels := [{ chan with _gen_prim := { chan._gen_prim with dropped := true } }] }
            none
    ∧ (∀ (mod_req : Block_io_request) (ft1 : Ft_check),
        generated_request_complete c { _channels := [chan] } mod_req = .returned ft1 () →
        ft1 = { _channels :=
                  [{ chan with
                     _gen_prim := { chan._gen_prim with success := mod_req._success } }] })
    ∧ (chan._request._type = Ft_check_request_type.CHECK →
        _drop_completed_request c { _channels := [chan] } 0
            = .returned { _channels := [default_channel c] } ()
        ∧ (default_channel c)._gen_prim.valid = false)
    ∧ (∃ (chanA chanB chanD : Ft_check_channel) (reqA reqD : Block_io_request),
        execute small_config
            (submit_request (construct small_config)
              (check_request 0 0 2 1 3 example_root)).state false
          = .returned { _channels := [chanA] } true
        ∧ _peek_generated_request small_config { _channels := [chanA] } 96
          = .returned { _channels := [chanA] } (some reqA)
        ∧ reqA._pba = 10
        ∧ _drop_generated_request { _channels := [chanA] } 0
          = .returned { _channels := [chanB] } ()
        ∧ chanB._gen_prim
          = { success := false, tag := Primitive_tag.BLOCK_IO, blk_nr := 10, dropped := true }
        ∧ chanB._request._type = Ft_check_request_type.CHECK
        ∧ chanB._root_state = READ_BLOCK
        ∧ _peek_completed_request small_config { _channels := [chanB] } 128
          = .returned { _channels := [chanB] } none
        ∧ _drop_completed_request small_config { _channels := [chanB] } 0
          = .returned (construct small_config) ()
        ∧ execute small_config
            (submit_request (construct small_config)
              (check_request 0 1 2 1 3 (example_node 30 0))).state false
          = .returned { _channels := [chanD] } true
        ∧ chanD._gen_prim
          = { success := false, tag := Primitive_tag.BLOCK_IO, blk_nr := 30, dropped := false }
        ∧ _peek_generated_request small_config { _channels := [chanD] } 96
          = .returned { _channels := [chanD] } (some reqD)
        ∧ reqD._pba = 30
        ∧ reqD.src_request_id = reqA.src_request_id
        ∧ reqD.dst_module_id = reqA.dst_module_id) := by
  have hthree : ∀ (ft1 : Ft_check) (p1 : Bool),
      execute c { _channels := [chan] } p = .returned ft1 p1 →
      ∃ chan1 : Ft_check_channel, ft1 = { _channels := [chan1] }
        ∧ (chan1._gen_prim = chan._gen_prim
            ∨ (chan._gen_prim.valid = false ∧ chan1._gen_prim.tag = Primitive_tag.BLOCK_IO
                ∧ chan1._gen_prim.success = false ∧ chan1._gen_prim.dropped = false
                ∧ p1 = true)
            ∨ (chan._gen_prim.tag = Primitive_tag.BLOCK_IO ∧ chan._gen_prim.success = true
                ∧ chan1._gen_prim = default_gen_prim ∧ p1 = true)) := by
    intro ft1 p1 h
    cases hty : chan._request._type with
    | INVALID =>
      simp only [execute, execute_channels, hty, Outcome.map_state, Outcome.returned.injEq] at h
      exact ⟨chan, h.1.symm, Or.inl rfl⟩
    | CHECK =>
      rw [execute_single c chan p hty] at h
      cases hex : _execute_check c chan p with
      | raised s e => rw [hex] at h; cases h
      | returned chan1 p2 =>
        rw [hex] at h
        simp only [Outcome.map_state, Outcome.returned.injEq] at h
        obtain ⟨h1, h2⟩ := h
        subst h2
        exact ⟨chan1, h1.symm, execute_check_gen_prim c chan chan1 p p2 hex⟩
  refine ⟨?_, ?_, peek_generated_request_none c chan buf_size, ?_, ?_, ?_, ?_,
    ⟨_, _, _, _, _, rfl, rfl, rfl, rfl, rfl, rfl, rfl, rfl, rfl, rfl, rfl, rfl, rfl, rfl, rfl⟩⟩
  · intro ft1 p1 h
    obtain ⟨chan1, h1, h2⟩ := hthree ft1 p1 h
    refine ⟨chan1, h1, h2, ?_⟩
    intro hv hd
    rw [h1]
    apply peek_generated_request_none
    rcases h2 with h3 | h3 | h3
    · right; rw [h3]; exact hd
    · rw [hv] at h3; exact absurd h3.1 (fun h => Bool.noConfusion h)
    · left; rw [h3.2.2.1]; rfl
  · intro ft1 e h
    cases hty : chan._request._type with
    | INVALID =>
      simp [execute, execute_channels, hty, Outcome.map_state] at h
    | CHECK =>
      rw [execute_single c chan p hty] at h
      cases hex : _execute_check c chan p with
      | returned chan1 p2 => rw [hex] at h; cases h
      | raised s e1 =>
        rw [hex] at h
        simp only [Outcome.map_state, Outcome.raised.injEq] at h
        rw [← h.1, execute_check_raised c chan s p e1 hex]
  · simp [_drop_generated_request, NR_OF_CHANNELS]
  · exact peek_generated_request_none c _ buf_size (Or.inr rfl)
  · intro mod_req ft1 h
    unfold generated_request_complete at h
    by_cases hid : mod_req.src_request_id ≥ NR_OF_CHANNELS
    · simp [hid] at h
    · have h0 : mod_req.src_request_id = 0 := by
        simp only [NR_OF_CHANNELS] at hid; omega
      by_cases hdst : mod_req.dst_module_id = c.BLOCK_IO
      · simp [h0, NR_OF_CHANNELS, hdst] at h
        exact h.symm
      · simp [h0, NR_OF_CHANNELS, hdst] at h
  · intro hty
    refine ⟨?_, rfl⟩
    simp [_drop_completed_request, NR_OF_CHANNELS, hty]

/-- C22: `Block_allocator::_drop_completed_request`,
`Ft_check::_drop_completed_request`, `Ft_check::_drop_generated_request` and
`Ft_check::generated_request_complete` each throw, with the module as it was,
when the channel id carried by the request (the destination request id for the
first two, the source request id for the last two) is `NR_OF_CHANNELS` or
more. -/
theorem C22_unknown_channel_id_rejected (c : Config) (ba : Block_allocator) (ft : Ft_check)
    (ba_id ft_id : Nat) (mod_req : Block_io_request)
    (hba : c.BA_NR_OF_CHANNELS ≤ ba_id) (hft : Ft_check.NR_OF_CHANNELS ≤ ft_id)
    (hreq : Ft_check.NR_OF_CHANNELS ≤ mod_req.src_request_id) :
    Block_allocator._drop_completed_request c ba ba_id = .raised ba Error.Exception_1
    ∧ Ft_check._drop_completed_request c ft ft_id = .raised ft Error.Exception_1
    ∧ Ft_check._drop_generated_request ft ft_id = .raised ft Error.Exception_0
    ∧ Ft_check.generated_request_complete c ft mod_req = .raised ft Error.Exception_1 := by
  refine ⟨?_, ?_, ?_, ?_⟩
  · simp [Block_allocator._drop_completed_request, hba]
  · simp [Ft_check._drop_completed_request, hft]
  · simp [Ft_check._drop_generated_request, hft]
  · simp [Ft_check.generated_request_complete, hreq]

/-- Witness of C22: the channel id 1 in the small configuration, where both
modules have the single channel 0. -/
theorem C22_unknown_channel_id_rejected_witness :
    Block_allocator._drop_completed_request small_config
        (Block_allocator.construct small_config 0) 1
      = .raised (Block_allocator.construct small_config 0) Error.Exception_1
    ∧ Ft_check._drop_completed_request small_config (Ft_check.construct small_config) 1
      = .raised (Ft_check.construct small_config) Error.Exception_1
    ∧ Ft_check._drop_generated_request (Ft_check.construct small_config) 1
      = .raised (Ft_check.construct small_config) Error.Exception_0
    ∧ Ft_check.generated_request_complete small_config (Ft_check.construct small_config)
        { src_module_id := 11, src_request_id := 1, dst_module_id := 4,
          _type := Block_io_request_type.READ, _client_req_offset := 0, _client_req_tag := 0,
          _key_id := 0, _pba := 20, _vba := 0, _blk_count := 1,
          _blk_ptr := Blk_ptr.t2_lvl_children 1, _hash_ptr := Blk_ptr.null, _success := true }
      = .raised (Ft_check.construct small_config) Error.Exception_1 :=
  C22_unknown_channel_id_rejected small_config (Block_allocator.construct small_config 0)
    (Ft_check.construct small_config) 1 1 _ (by decide) (by decide) (by decide)

open Slots in
/-- C23: the key-slot store has two slots.  When both hold non-zero ids,
`store` returns `false` and the slots are unchanged; otherwise `store` returns
`true`, the id is written into the first slot that holds zero and the other slot
is unchanged. -/
theorem C23_store_first_free_slot (a b id : Nat) :
    (a ≠ 0 → b ≠ 0 → store { _store := [a, b] } id = ({ _store := [a, b] }, false))
    ∧ (a = 0 → store { _store := [a, b] } id = ({ _store := [id, b] }, true))
    ∧ (a ≠ 0 → b = 0 → store { _store := [a, b] } id = ({ _store := [a, id] }, true))
    ∧ (construct._store.length = 2)
    ∧ (store { _store := [a, b] } id).1._store.length = 2 := by
  refine ⟨?_, ?_, ?_, rfl, ?_⟩
  · intro ha hb
    simp [store, store_slots, ha, hb]
  · intro ha
    simp [store, store_slots, ha]
  · intro ha hb
    simp [store, store_slots, ha, hb]
  · by_cases ha : a = 0
    · simp [store, store_slots, ha]
    · by_cases hb : b = 0
      · simp [store, store_slots, ha, hb]
      · simp [store, store_slots, ha, hb]

open Slots in
/-- Witness of C23: with the ids 5 and 7 stored, a third id is refused; with
slot 0 free, the id 9 goes to slot 0; with only slot 1 free, it goes to slot 1. -/
theorem C23_store_first_free_slot_witness :
    store { _store := [5, 7] } 9 = ({ _store := [5, 7] }, false)
    ∧ store { _store := [0, 7] } 9 = ({ _store := [9, 7] }, true)
    ∧ store { _store := [5, 0] } 9 = ({ _store := [5, 9] }, true) :=
  ⟨(C23_store_first_free_slot 5 7 9).1 (by decide) (by decide),
    (C23_store_first_free_slot 0 7 9).2.1 rfl,
    (C23_store_first_free_slot 5 0 9).2.2.1 (by decide) rfl⟩

/-! ## The order of hash check and subtree, and the completion of a read -/

open Ft_check Child_state in
/-- Counterexample to C24: in `example_store_bad_hash` child 1 of the type-1
level 2 has generation 1, which is not `INITIAL_GENERATION`, and its stored hash
does not match its leaf block.  After nine rounds this node is in state
`CHECK_HASH`, its hash not yet compared, and one leaf is still expected.  The
tenth round processes leaf 0 of the block read for the node: the leaf leaves
`READ_BLOCK` and is counted, while the node is still in `CHECK_HASH`. -/
theorem C24_counterexample :
    ∃ chan9 chan10 : Ft_check_channel,
      hash_mismatch small_config example_store_bad_hash 0 example_inner_block.t1[1] = true
      ∧ drive small_config example_store_bad_hash 96 9
          { _channels := [submitted_channel small_config (check_request 0 0 2 1 3 example_root)] }
        = .returned { _channels := [chan9] } ()
      ∧ get_child_state chan9 (Child_state_ref.t1_child 2 1) = some CHECK_HASH
      ∧ chan9._t2_lvl.children_state = [READ_BLOCK, READ_BLOCK]
      ∧ chan9._t2_lvl.children = (example_store_bad_hash 21).t2
      ∧ chan9._nr_of_leaves = 1
      ∧ drive_step small_config example_store_bad_hash 96 { _channels := [chan9] }
        = .returned { _channels := [chan10] } true
      ∧ chan10._t2_lvl.children_state = [DONE, READ_BLOCK]
      ∧ chan10._nr_of_leaves = 0
      ∧ get_child_state chan10 (Child_state_ref.t1_child 2 1) = some CHECK_HASH
      ∧ chan10._root_state = CHECK_HASH :=
  ⟨_, _, by decide, rfl, rfl, rfl, rfl, rfl, rfl, rfl, rfl, rfl, rfl⟩

open Ft_check Child_state in
/-- C24 (amended): `Ft_check` compares the hash of a node only after the subtree
below the node has been processed.  If a call of `_execute_check` takes a child
of a type-1 level from `CHECK_HASH` to `DONE`, then before the call all leaves
`0 .. max_child_idx` and all children `0 .. max_child_idx` of every lower
type-1 level were `DONE`; if it takes the root from `CHECK_HASH` to `DONE` with
the success flag set, all leaves and all type-1 levels up to `max_lvl` were
`DONE`.  As long as a leaf is not `DONE`, the call is the step on the first such
leaf, whatever the state and the hash of the nodes above it. -/
theorem C24_hash_checked_after_subtree (c : Config) (chan chan1 : Ft_check_channel)
    (p p1 : Bool) (hex : _execute_check c chan p = .returned chan1 p1) :
    (∀ lvl i : Nat,
        get_child_state chan (Child_state_ref.t1_child lvl i) = some CHECK_HASH →
        get_child_state chan1 (Child_state_ref.t1_child lvl i) = some DONE →
        all_done chan._request._max_child_idx chan._t2_lvl.children_state
        ∧ ∀ l, c.FT_LOWEST_T1_LVL ≤ l → l < lvl → level_done chan l)
    ∧ (chan._root_state = CHECK_HASH → chan1._root_state = DONE →
        chan1._request._success = true →
        all_done chan._request._max_child_idx chan._t2_lvl.children_state
        ∧ ∀ l, c.FT_LOWEST_T1_LVL ≤ l → l ≤ chan._request._max_lvl → level_done chan l)
    ∧ (∀ (i : Nat) (state : Child_state),
        i ≤ chan._request._max_child_idx →
        (∀ j, j < i → chan._t2_lvl.children_state[j]? = some DONE) →
        chan._t2_lvl.children_state[i]? = some state → state ≠ DONE →
        _execute_leaf_child chan i p = .returned chan1 p1
        ∧ chan1._t1_lvls = chan._t1_lvls) := by
  rw [execute_check_eq] at hex
  refine ⟨?_, ?_, ?_⟩
  · intro lvl i hbefore hafter
    cases ht : find_target c chan with
    | leaf k =>
      rw [ht] at hex
      have hfr := (execute_leaf_child_frame chan chan1 k p p1 hex).1
      have : get_child_state chan1 (Child_state_ref.t1_child lvl i)
          = get_child_state chan (Child_state_ref.t1_child lvl i) := by
        simp only [get_child_state, hfr]
      rw [this, hbefore] at hafter
      cases hafter
    | inner_t2 l k =>
      rw [ht] at hex
      have hfr := (execute_inner_t2_child_frame c chan chan1 l k p p1 hex).2.1
      by_cases hlk : (lvl, i) = (l, k)
      · cases hlk
        have hs := find_target_inner_spec c chan lvl i (Or.inl ht)
        exact ⟨hs.1, hs.2.2.2.1⟩
      · rw [hfr lvl i hlk, hbefore] at hafter
        cases hafter
    | inner_t1 l k child =>
      rw [ht] at hex
      have hfr := (execute_inner_t1_child_frame c chan chan1 child (l - 1)
        (Child_state_ref.t1_child l k) l k p p1 hex).2.1
      by_cases hlk : Child_state_ref.t1_child lvl i = Child_state_ref.t1_child l k
      · cases hlk
        have hs := find_target_inner_spec c chan lvl i (Or.inr ⟨child, ht⟩)
        exact ⟨hs.1, hs.2.2.2.1⟩
      · rcases hfr _ hlk (fun h => Child_state_ref.noConfusion h) with h1 | h1
        · rw [h1, hbefore] at hafter
          cases hafter
        · rw [h1] at hafter
          cases hafter
    | root =>
      rw [ht] at hex
      have hfr := (execute_inner_t1_child_frame c chan chan1 chan._request._root
        chan._request._max_lvl Child_state_ref.root_state (chan._request._max_lvl + 1) 0 p p1
        hex).2.1
      rcases hfr (Child_state_ref.t1_child lvl i) (fun h => Child_state_ref.noConfusion h)
        (fun h => Child_state_ref.noConfusion h) with h1 | h1
      · rw [h1, hbefore] at hafter
        cases hafter
      · rw [h1] at hafter
        cases hafter
    | nothing =>
      rw [ht] at hex
      simp only [execute_target, Outcome.returned.injEq] at hex
      rw [← hex.1, hbefore] at hafter
      cases hafter
    | out_of_bounds =>
      rw [ht] at hex
      cases hex
  · intro hbefore hafter hsucc
    have hne : chan1._root_state ≠ chan._root_state := by
      rw [hbefore, hafter]
      exact fun h => Child_state.noConfusion h
    have hnf : ¬ (chan1._root_state = DONE ∧ chan1._request._success = false) := by
      rw [hsucc]
      exact fun h => Bool.noConfusion h.2
    cases ht : find_target c chan with
    | leaf k =>
      rw [ht] at hex
      rcases (execute_leaf_child_frame chan chan1 k p p1 hex).2.2 with h1 | h1
      · exact absurd h1 hne
      · exact absurd h1 hnf
    | inner_t2 l k =>
      rw [ht] at hex
      rcases (execute_inner_t2_child_frame c chan chan1 l k p p1 hex).2.2 with h1 | h1
      · exact absurd h1 hne
      · exact absurd h1 hnf
    | inner_t1 l k child =>
      rw [ht] at hex
      rcases (execute_inner_t1_child_frame c chan chan1 child (l - 1)
        (Child_state_ref.t1_child l k) l k p p1 hex).2.2
        (fun h => Child_state_ref.noConfusion h) with h1 | h1
      · exact absurd h1 hne
      · exact absurd h1 hnf
    | root =>
      have hs := find_target_top_spec c chan (Or.inl ht)
      exact ⟨hs.1, hs.2.1⟩
    | nothing =>
      rw [ht] at hex
      simp only [execute_target, Outcome.returned.injEq] at hex
      exact absurd (by rw [← hex.1]) hne
    | out_of_bounds =>
      rw [ht] at hex
      cases hex
  · intro i state hi hbefore hstate hne
    rw [find_target_leaf c chan i state hbefore hstate hne hi] at hex
    exact ⟨hex, (execute_leaf_child_frame chan chan1 i p p1 hex).1⟩

open Ft_check Child_state in
/-- Witness of C24: child 0 of the type-1 level 2 of a channel of the small
configuration is in `CHECK_HASH` with a matching hash; the call takes it to
`DONE`, and both leaves were `DONE` before. -/
theorem C24_hash_checked_after_subtree_witness :
    all_done 1 [DONE, DONE]
    ∧ ∀ l, 2 ≤ l → l < 2 →
        level_done
          (example_chan_at_child CHECK_HASH
            (example_node 20 (small_config.sha256_4k_t2 (example_leaf_block true true 100).t2)) 1)
          l :=
  (C24_hash_checked_after_subtree small_config
    (example_chan_at_child CHECK_HASH
      (example_node 20 (small_config.sha256_4k_t2 (example_leaf_block true true 100).t2)) 1)
    (set_t1_child_state
      (example_chan_at_child CHECK_HASH
        (example_node 20 (small_config.sha256_4k_t2 (example_leaf_block true true 100).t2)) 1)
      2 0 DONE)
    false true rfl).1 2 0 rfl rfl

open Ft_check Child_state in
/-- Counterexample to C25: the channel waits for the read of block 20 that it
generated for child 0 of the type-1 level 2.  A completion that carries the
block number 999 and `success = true` is recorded in the channel all the same,
and the next step on the child takes it as the result of the outstanding read:
the child moves to `CHECK_HASH` and the primitive is cleared. -/
theorem C25_counterexample :
    ∃ chan1 chan2 : Ft_check_channel,
      (example_chan_at_child READ_BLOCK (example_node 20 7) 3)._t1_lvls[2]?
        = some { children_state := [READ_BLOCK, READ_BLOCK],
                 children := [example_node 20 7, example_node 20 7] }
      ∧ generated_request_complete small_config
          { _channels :=
              [{ example_chan_at_child READ_BLOCK (example_node 20 7) 3 with
                 _gen_prim := { success := false, tag := Primitive_tag.BLOCK_IO, blk_nr := 20,
                                dropped := true } }] }
          { src_module_id := 11, src_request_id := 0, dst_module_id := 4,
            _type := Block_io_request_type.READ, _client_req_offset := 0,
            _client_req_tag := 0, _key_id := 0, _pba := 999, _vba := 0, _blk_count := 1,
            _blk_ptr := Blk_ptr.t2_lvl_children 0, _hash_ptr := Blk_ptr.null,
            _success := true }
        = .returned { _channels := [chan1] } ()
      ∧ chan1._gen_prim
          = { success := true, tag := Primitive_tag.BLOCK_IO, blk_nr := 20, dropped := true }
      ∧ execute small_config { _channels := [chan1] } false
          = .returned { _channels := [chan2] } true
      ∧ get_child_state chan2 (Child_state_ref.t1_child 2 0) = some CHECK_HASH
      ∧ chan2._gen_prim = default_gen_prim :=
  ⟨_, _, rfl, rfl, rfl, rfl, rfl, rfl⟩

open Ft_check Child_state in
/-- C25 (amended): `generated_request_complete` does not look at the block number
of the completed request.  For a request whose source request id is a channel
index and whose destination module is Block I/O it copies the success flag of
the request into the generated primitive of that channel and changes nothing
else, whatever block number the request carries and whatever primitive the
channel holds; otherwise it throws.  The only comparison of block numbers is
made by the next step on a valid child in state `READ_BLOCK`: it throws when the
primitive of the channel is not a Block I/O read of the block of the child, and
it does not involve the completed request. -/
theorem C25_completion_block_number_ignored (c : Config) (chan : Ft_check_channel)
    (mod_req : Block_io_request) (pba : Nat) :
    (mod_req.src_request_id = 0 → mod_req.dst_module_id = c.BLOCK_IO →
      generated_request_complete c { _channels := [chan] } { mod_req with _pba := pba }
        = .returned
            { _channels :=
                [{ chan with
                   _gen_prim := { chan._gen_prim with success := mod_req._success } }] } ())
    ∧ (mod_req.src_request_id = 0 → mod_req.dst_module_id ≠ c.BLOCK_IO →
      generated_request_complete c { _channels := [chan] } { mod_req with _pba := pba }
        = .raised { _channels := [chan] } Error.Exception_8)
    ∧ (1 ≤ mod_req.src_request_id →
      generated_request_complete c { _channels := [chan] } { mod_req with _pba := pba }
        = .raised { _channels := [chan] } Error.Exception_1)
    ∧ (∀ (child : Type_1_node) (child_lvl_idx : Nat) (ref : Child_state_ref) (lvl i : Nat)
        (p : Bool),
        get_child_state chan ref = some READ_BLOCK →
        child_lvl_idx < chan._t1_lvls.length →
        child.valid = true → chan._gen_prim.valid = true →
        ((∃ chan1 e, _execute_inner_t1_child c chan child child_lvl_idx ref lvl i p
              = .raised chan1 e)
          ↔ (chan._gen_prim.tag ≠ Primitive_tag.BLOCK_IO ∨ chan._gen_prim.blk_nr ≠ child.pba)))
    ∧ (∀ (child : Type_1_node) (t1_lvl : Type_1_level) (lvl i : Nat) (p : Bool),
        chan._t1_lvls[lvl]? = some t1_lvl →
        t1_lvl.children_state[i]? = some READ_BLOCK →
        t1_lvl.children[i]? = some child →
        child.valid = true → chan._gen_prim.valid = true →
        ((∃ chan1 e, _execute_inner_t2_child c chan lvl i p = .raised chan1 e)
          ↔ (chan._gen_prim.tag ≠ Primitive_tag.BLOCK_IO ∨ chan._gen_prim.blk_nr ≠ child.pba))) := by
  refine ⟨?_, ?_, ?_, ?_, ?_⟩
  · intro h0 hdst
    simp [generated_request_complete, h0, NR_OF_CHANNELS, hdst]
  · intro h0 hdst
    simp [generated_request_complete, h0, NR_OF_CHANNELS, hdst]
  · intro h1
    have h2 : mod_req.src_request_id ≥ NR_OF_CHANNELS := h1
    simp [generated_request_complete, h2]
  · intro child child_lvl_idx ref lvl i p hs hl hvalid hprim
    obtain ⟨child_lvl, hcl⟩ : ∃ child_lvl, chan._t1_lvls[child_lvl_idx]? = some child_lvl :=
      ⟨_, List.getElem?_eq_getElem hl⟩
    by_cases hg : chan._gen_prim.tag ≠ Primitive_tag.BLOCK_IO ∨ chan._gen_prim.blk_nr ≠ child.pba
    · simp only [hg, iff_true]
      refine ⟨chan, Error.Exception_1, ?_⟩
      simp only [_execute_inner_t1_child, hs, hcl, hvalid, hprim]
      simp [hg]
    · simp only [hg, iff_false, not_exists]
      intro chan1 e h
      simp only [_execute_inner_t1_child, hs, hcl, hvalid, hprim] at h
      simp only [Bool.not_true, Bool.false_eq_true, if_false, if_true, hg] at h
      split_ifs at h
  · intro child t1_lvl lvl i p hl hs hc hvalid hprim
    by_cases hg : chan._gen_prim.tag ≠ Primitive_tag.BLOCK_IO ∨ chan._gen_prim.blk_nr ≠ child.pba
    · simp only [hg, iff_true]
      refine ⟨chan, Error.Exception_1, ?_⟩
      simp only [_execute_inner_t2_child, hl, hs, hc, hvalid, hprim]
      simp [hg]
    · simp only [hg, iff_false, not_exists]
      intro chan1 e h
      simp only [_execute_inner_t2_child, hl, hs, hc, hvalid, hprim] at h
      simp only [Bool.not_true, Bool.false_eq_true, if_false, if_true, hg] at h
      split_ifs at h

/-! ## Complete runs against the recursive check -/

open Ft_check Child_state in
/-- Counterexample to C26: a `CHECK` request with `max_lvl = 1`, below
`FT_LOWEST_T1_LVL = 2`, whose valid root of generation `INITIAL_GENERATION`
points to the leaf block 20 of `example_store` (two valid leaves), with 0
declared leaves.  The recursive checker fails at the first leaf, which is valid
while no leaf is expected.  The run reaches root state `DONE` after three rounds
with the success flag `true`: the step after the read resets the children
states of the type-1 level 1, the leaves are never processed. -/
theorem C26_counterexample :
    ∃ chan3 : Ft_check_channel,
      (check_request 0 0 1 1 0 { pba := 20, gen := 0, hash := 0, valid := true })._root.valid
        = true
      ∧ recursive_check small_config example_store
          (check_request 0 0 1 1 0 { pba := 20, gen := 0, hash := 0, valid := true }) = false
      ∧ drive small_config example_store 96 3
          { _channels := [submitted_channel small_config
              (check_request 0 0 1 1 0 { pba := 20, gen := 0, hash := 0, valid := true })] }
        = .returned { _channels := [chan3] } ()
      ∧ chan3._root_state = DONE
      ∧ chan3._request._success = true
      ∧ chan3._t2_lvl.children_state = [DONE, DONE]
      ∧ chan3._nr_of_leaves = 0
      ∧ drive_step small_config example_store 96 { _channels := [chan3] }
        = .returned { _channels := [chan3] } false :=
  ⟨_, rfl, by decide, rfl, rfl, rfl, rfl, rfl, rfl⟩

open Ft_check Child_state in
/-- C26 (amended): for every `CHECK` request with a valid root,
`FT_LOWEST_T1_LVL = 2 ≤ max_lvl < TREE_MAX_LEVEL` and
`max_child_idx < NR_OF_T1_NODES_PER_BLK`, submitted to a fresh module and driven
by repeating `execute` and answering each generated read successfully from a
fixed block store, the run reaches root state `DONE` after finitely many rounds
and stays there, and the success flag of the completed request, which
`_peek_completed_request` returns, is `true` exactly when the recursive checker
`recursive_check` accepts the tree. -/
theorem C26_run_matches_recursive_check (c : Config) (store : Block_store)
    (buf_size : Nat) (req : Ft_check_request)
    (hlow : c.FT_LOWEST_T1_LVL = 2) (hbuf : c.sizeof_block_io_request ≤ buf_size)
    (hbuf1 : c.sizeof_ft_check_request ≤ buf_size)
    (htype : req._type = Ft_check_request_type.CHECK)
    (hroot : req._root.valid = true)
    (hlvl2 : 2 ≤ req._max_lvl) (hlvl : req._max_lvl < c.TREE_MAX_LEVEL)
    (hidx : req._max_child_idx < c.NR_OF_T1_NODES_PER_BLK)
    (hstore : store_has_children store req._max_child_idx) :
    ∃ (rounds : Nat) (ft0 : Ft_check) (chan1 : Ft_check_channel),
      submit_request (construct c) req = .returned ft0 { req with dst_request_id := 0 }
      ∧ (∀ more : Nat,
          drive c store buf_size (rounds + more) ft0 = .returned { _channels := [chan1] } ())
      ∧ chan1._root_state = DONE
      ∧ (chan1._request._success = true ↔ recursive_check c store req = true)
      ∧ _peek_completed_request c { _channels := [chan1] } buf_size
          = .returned { _channels := [chan1] } (some chan1._request) := by
  have hb : ¬ (buf_size < c.sizeof_ft_check_request) := Nat.not_lt.mpr hbuf1
  obtain ⟨rounds, chan1, h1, h2, h3, h4, h5⟩ :=
    check_run c store buf_size req hlow hbuf htype hlvl2 hlvl hidx hstore
  refine ⟨rounds, _, chan1, submit_request_construct c req, h1, h2, ?_, ?_⟩
  · unfold recursive_check
    cases hc : check_node c store req._max_child_idx (req._max_lvl - 1) req._root
        req._nr_of_leaves with
    | none =>
      rw [h4 hc]
      simp
    | some n1 =>
      rw [h5 hroot n1 hc]
      simp
  · simp [_peek_completed_request, peek_channels, h2, h3, hb]

open Ft_check Child_state in
/-- Witness of C26: the tree of `example_store` with its three leaves declared,
in the small configuration. -/
theorem C26_run_matches_recursive_check_witness :
    ∃ (rounds : Nat) (ft0 : Ft_check) (chan1 : Ft_check_channel),
      submit_request (construct small_config) (check_request 0 0 2 1 3 example_root)
        = .returned ft0 { check_request 0 0 2 1 3 example_root with dst_request_id := 0 }
      ∧ (∀ more : Nat,
          drive small_config example_store 128 (rounds + more) ft0
            = .returned { _channels := [chan1] } ())
      ∧ chan1._root_state = DONE
      ∧ (chan1._request._success = true
          ↔ recursive_check small_config example_store (check_request 0 0 2 1 3 example_root)
              = true)
      ∧ _peek_completed_request small_config { _channels := [chan1] } 128
          = .returned { _channels := [chan1] } (some chan1._request) :=
  C26_run_matches_recursive_check small_config example_store 128
    (check_request 0 0 2 1 3 example_root) rfl (by decide) (by decide) rfl rfl (by decide)
    (by decide) (by decide) example_store_has_children

open Ft_check Child_state in
/-- C27: let a `CHECK` request be in progress and its channel wait for the block
read it generated for the selected child, and let `generated_request_complete`
deliver a Block I/O request with `success = false`.  Then every number of
further `execute` calls leaves the channel as it is and returns the progress
flag it was given, `_peek_completed_request` returns no request, and
`_peek_generated_request` returns none once the read was dropped: the request
reaches neither success nor failure.  The channel is in this waiting state
after every step that records a new read, and stays in it when the read is
dropped. -/
theorem C27_failed_read_blocks_channel (c : Config) (chan0 chan : Ft_check_channel)
    (mod_req : Block_io_request) (buf_size : Nat)
    (htype : chan0._request._type = Ft_check_request_type.CHECK)
    (hroot : chan0._root_state ≠ DONE)
    (hwait : awaits_read c chan0 = true)
    (hfail : mod_req._success = false)
    (hcomplete : generated_request_complete c { _channels := [chan0] } mod_req
      = .returned { _channels := [chan] } ()) :
    (∀ (calls : Nat) (p : Bool),
        execute_times c calls { _channels := [chan] } p = .returned { _channels := [chan] } p)
    ∧ _peek_completed_request c { _channels := [chan] } buf_size
        = .returned { _channels := [chan] } none
    ∧ chan._root_state ≠ DONE
    ∧ awaits_read c chan = true
    ∧ (chan._gen_prim.dropped = true →
        _peek_generated_request c { _channels := [chan] } buf_size
          = .returned { _channels := [chan] } none)
    ∧ (∀ (chan1 chan2 : Ft_check_channel) (p p1 : Bool),
        _execute_check c chan1 p = .returned chan2 p1 →
        chan1._gen_prim.valid = false → chan2._gen_prim.valid = true →
        awaits_read c chan2 = true
        ∧ awaits_read c { chan2 with _gen_prim := { chan2._gen_prim with dropped := true } }
            = true) := by
  have hchan : chan = { chan0 with _gen_prim := { chan0._gen_prim with success := false } } := by
    unfold generated_request_complete at hcomplete
    by_cases hid : mod_req.src_request_id ≥ NR_OF_CHANNELS
    · simp [hid] at hcomplete
    · have h0 : mod_req.src_request_id = 0 := by
        simp only [NR_OF_CHANNELS] at hid; omega
      by_cases hdst : mod_req.dst_module_id = c.BLOCK_IO
      · simp [h0, NR_OF_CHANNELS, hdst, hfail] at hcomplete
        exact hcomplete.symm
      · simp [h0, NR_OF_CHANNELS, hdst] at hcomplete
  have hw : awaits_read c chan = true := by
    rw [hchan]
    exact (awaits_read_flags c chan0 false chan0._gen_prim.dropped).trans hwait
  have hs : chan._gen_prim.success = false := by rw [hchan]
  have hty : chan._request._type = Ft_check_request_type.CHECK := by rw [hchan]; exact htype
  have hr : chan._root_state ≠ DONE := by rw [hchan]; exact hroot
  refine ⟨?_, ?_, hr, hw, ?_, ?_⟩
  · intro calls p
    exact execute_times_idle c chan hty (execute_check_awaits_read c chan hw hs) calls p
  · simp [_peek_completed_request, peek_channels, hr]
  · intro hd
    exact peek_generated_request_none c chan buf_size (Or.inr hd)
  · intro chan1 chan2 p p1 hex h1 h2
    have h3 := awaits_read_of_emit c chan1 chan2 p p1 hex h1 h2
    exact ⟨h3, (awaits_read_flags c chan2 chan2._gen_prim.success true).trans h3⟩

open Ft_check Child_state in
/-- Witness of C27: the read of block 20 for child 0 of the type-1 level 2 of a
channel of the small configuration is completed without success; three further
`execute` calls change nothing. -/
theorem C27_failed_read_blocks_channel_witness :
    execute_times small_config 3
        { _channels :=
            [{ example_chan_at_child READ_BLOCK (example_node 20 7) 3 with
               _gen_prim := { success := false, tag := Primitive_tag.BLOCK_IO, blk_nr := 20,
                              dropped := true } }] } false
      = .returned
        { _channels :=
            [{ example_chan_at_child READ_BLOCK (example_node 20 7) 3 with
               _gen_prim := { success := false, tag := Primitive_tag.BLOCK_IO, blk_nr := 20,
                              dropped := true } }] } false :=
  (C27_failed_read_blocks_channel small_config
    { example_chan_at_child READ_BLOCK (example_node 20 7) 3 with
      _gen_prim := { success := false, tag := Primitive_tag.BLOCK_IO, blk_nr := 20,
                     dropped := true } }
    { example_chan_at_child READ_BLOCK (example_node 20 7) 3 with
      _gen_prim := { success := false, tag := Primitive_tag.BLOCK_IO, blk_nr := 20,
                     dropped := true } }
    { src_module_id := 11, src_request_id := 0, dst_module_id := 4,
      _type := Block_io_request_type.READ, _client_req_offset := 0, _client_req_tag := 0,
      _key_id := 0, _pba := 20, _vba := 0, _blk_count := 1,
      _blk_ptr := Blk_ptr.t2_lvl_children 0, _hash_ptr := Blk_ptr.null, _success := false }
    128 rfl (by decide) (by decide) rfl rfl).1 3 false

open Ft_check Child_state in
/-- C28: a `CHECK` request with an invalid root and a declared leaf count of 0,
submitted to a fresh module (with `max_lvl < TREE_MAX_LEVEL` and
`max_child_idx < NR_OF_T1_NODES_PER_BLK`), is complete after one `execute` call:
the call reports progress and only sets the root state to `DONE`.  No read is
generated and the success flag is not written: `_peek_completed_request` returns
the request with the success flag it was submitted with, which is `false` for a
request made by the constructor.  A further `execute` call changes nothing. -/
theorem C28_invalid_root_no_leaves (c : Config) (req : Ft_check_request) (buf_size : Nat)
    (p : Bool)
    (htype : req._type = Ft_check_request_type.CHECK)
    (hroot : req._root.valid = false) (hleaves : req._nr_of_leaves = 0)
    (hlvl : req._max_lvl < c.TREE_MAX_LEVEL)
    (hidx : req._max_child_idx < c.NR_OF_T1_NODES_PER_BLK)
    (hbuf : c.sizeof_ft_check_request ≤ buf_size) :
    ∃ (ft1 : Ft_check) (chan1 : Ft_check_channel),
      submit_request (construct c) req = .returned ft1 { req with dst_request_id := 0 }
      ∧ execute c ft1 p = .returned { _channels := [chan1] } true
      ∧ chan1 = { submitted_channel c req with _root_state := DONE }
      ∧ chan1._request._success = req._success
      ∧ chan1._gen_prim.valid = false
      ∧ _peek_generated_request c { _channels := [chan1] } buf_size
          = .returned { _channels := [chan1] } none
      ∧ _peek_completed_request c { _channels := [chan1] } buf_size
          = .returned { _channels := [chan1] } (some { req with dst_request_id := 0 })
      ∧ execute c { _channels := [chan1] } false = .returned { _channels := [chan1] } false
      ∧ (∀ (src_module_id src_request_id max_lvl max_child_idx nr_of_leaves : Nat)
          (root : Type_1_node),
          (check_request src_module_id src_request_id max_lvl max_child_idx nr_of_leaves
            root)._success = false) := by
  have hb : ¬ (buf_size < c.sizeof_ft_check_request) := Nat.not_lt.mpr hbuf
  have hq := quiet_submitted_channel c req hlvl hidx
  have hty : (submitted_channel c req)._request._type = Ft_check_request_type.CHECK := htype
  have hlv : (submitted_channel c req)._t1_lvls[req._max_lvl]? = some (default_type_1_level c) := by
    simp [submitted_channel, default_channel, hlvl]
  have hft : find_target c (submitted_channel c req) = Target.root := by
    rw [find_target_top c (submitted_channel c req) hq.2.1 hq.2.2]
    simp [submitted_channel]
  have hstep : _execute_check c (submitted_channel c req) p
      = .returned { submitted_channel c req with _root_state := DONE } true := by
    rw [execute_check_eq, hft]
    have hlv1 : (submitted_channel c req)._t1_lvls[(submitted_channel c req)._request._max_lvl]?
        = some (default_type_1_level c) := hlv
    have hrs : get_child_state (submitted_channel c req) Child_state_ref.root_state
        = some READ_BLOCK := rfl
    have hr1 : (submitted_channel c req)._request._root.valid = false := hroot
    have hn1 : (submitted_channel c req)._nr_of_leaves = 0 := hleaves
    simp only [execute_target, _execute_inner_t1_child, hrs, hlv1, hr1]
    simp [set_child_state, hn1]
  have hq1 : quiet_below c { submitted_channel c req with _root_state := DONE }
      (req._max_lvl + 1) := hq
  have hft1 : find_target c { submitted_channel c req with _root_state := DONE }
      = Target.nothing := by
    rw [find_target_top c _ hq1.2.1 hq1.2.2]
    simp
  refine ⟨_, { submitted_channel c req with _root_state := DONE },
    submit_request_construct c req, ?_, rfl, rfl, rfl, ?_, ?_, ?_, fun _ _ _ _ _ _ => rfl⟩
  · rw [execute_single c _ p hty, hstep]
    rfl
  · exact peek_generated_request_none c _ buf_size (Or.inl rfl)
  · simp [_peek_completed_request, peek_channels, hb, submitted_channel, htype]
  · have hty2 : ({ submitted_channel c req with _root_state := DONE } :
        Ft_check_channel)._request._type = Ft_check_request_type.CHECK := htype
    rw [execute_single c _ false hty2, execute_check_eq, hft1]
    rfl

open Ft_check Child_state in
/-- Witness of C28: a request with a default (invalid) root and no leaves in the
small configuration. -/
theorem C28_invalid_root_no_leaves_witness :
    ∃ (ft1 : Ft_check) (chan1 : Ft_check_channel),
      submit_request (construct small_config) (check_request 5 6 2 1 0 default_type_1_node)
        = .returned ft1 { check_request 5 6 2 1 0 default_type_1_node with dst_request_id := 0 }
      ∧ execute small_config ft1 false = .returned { _channels := [chan1] } true
      ∧ chan1._root_state = DONE
      ∧ chan1._request._success = false :=
  match C28_invalid_root_no_leaves small_config (check_request 5 6 2 1 0 default_type_1_node)
      128 false rfl rfl rfl (by decide) (by decide) (by decide) with
  | ⟨ft1, chan1, h1, h2, h3, h4, _⟩ => ⟨ft1, chan1, h1, h2, by rw [h3], h4⟩

/-! ## The count of allocated blocks -/

open Block_allocator Block_allocator_channel_state in
/-- C29: in the state of a `Block_allocator` after any sequence of calls
(`submit_request`, `execute`, `_peek_completed_request`,
`_drop_completed_request`, also calls that throw) since its construction, the
count of allocated blocks is the number of requests that completed successfully,
as a `uint64_t` value, and exactly that number, at most the guard bound plus one,
whenever the guard bound `MAX_PBA - first_block` is not the largest `uint64_t`
value.  A call that completes no request successfully leaves the count as it is,
which holds for every call other than `execute`; `execute` leaves a channel that
is `COMPLETE` as it is; and once a call has completed a request with a failure,
no later call completes a request successfully and the count stays. -/
theorem C29_count_equals_successful_gets (c : Config) (first_block : Nat) (calls : List Call) :
    (after_calls c calls (construct c first_block))._nr_of_blks
        = successful_gets c calls (construct c first_block) % U64
    ∧ (guard_bound c first_block + 1 < U64 →
        (after_calls c calls (construct c first_block))._nr_of_blks
            = successful_gets c calls (construct c first_block)
        ∧ (after_calls c calls (construct c first_block))._nr_of_blks
            ≤ guard_bound c first_block + 1)
    ∧ (∀ call : Call,
        newly_completed true (after_calls c calls (construct c first_block))._channels
            (after_call c (after_calls c calls (construct c first_block)) call)._channels = 0 →
        (after_call c (after_calls c calls (construct c first_block)) call)._nr_of_blks
          = (after_calls c calls (construct c first_block))._nr_of_blks)
    ∧ (∀ (req : Block_allocator_request) (buf_size id : Nat),
        (after_call c (after_calls c calls (construct c first_block))
            (Call.submit_request req))._nr_of_blks
          = (after_calls c calls (construct c first_block))._nr_of_blks
        ∧ (after_call c (after_calls c calls (construct c first_block))
            (Call.peek_completed_request buf_size))._nr_of_blks
          = (after_calls c calls (construct c first_block))._nr_of_blks
        ∧ (after_call c (after_calls c calls (construct c first_block))
            (Call.drop_completed_request id))._nr_of_blks
          = (after_calls c calls (construct c first_block))._nr_of_blks)
    ∧ (∀ (p : Bool) (k : Nat) (ch : Block_allocator_channel),
        (after_calls c calls (construct c first_block))._channels[k]? = some ch →
        ch._state = COMPLETE →
        (execute c (after_calls c calls (construct c first_block)) p).state._channels[k]?
          = some ch)
    ∧ (∀ (call : Call) (more : List Call),
        0 < newly_completed false (after_calls c calls (construct c first_block))._channels
            (after_call c (after_calls c calls (construct c first_block)) call)._channels →
        successful_gets c more
            (after_call c (after_calls c calls (construct c first_block)) call) = 0
        ∧ (after_calls c more
            (after_call c (after_calls c calls (construct c first_block)) call))._nr_of_blks
          = (after_call c (after_calls c calls (construct c first_block)) call)._nr_of_blks) := by
  have h0 : (construct c first_block)._nr_of_blks < U64 := by
    show 0 < U64
    unfold U64; positivity
  obtain ⟨t1, t2, t3, _, t5⟩ := after_calls_count c calls (construct c first_block) h0
  have hfb : (after_calls c calls (construct c first_block))._first_block = first_block := t3
  have hzero : (construct c first_block)._nr_of_blks = 0 := rfl
  have hkeep : ∀ call : Call,
      newly_completed true (after_calls c calls (construct c first_block))._channels
          (after_call c (after_calls c calls (construct c first_block)) call)._channels = 0 →
      (after_call c (after_calls c calls (construct c first_block)) call)._nr_of_blks
        = (after_calls c calls (construct c first_block))._nr_of_blks := by
    intro call hz
    have h := (after_call_count c _ call t2).1
    rw [hz, add_zero, Nat.mod_eq_of_lt t2] at h
    exact h
  have hother : ∀ (ba : Block_allocator) (call : Call),
      (∀ p, call ≠ Call.execute p) → (after_call c ba call)._nr_of_blks = ba._nr_of_blks := by
    intro ba call hne
    cases call with
    | execute p => exact absurd rfl (hne p)
    | submit_request req =>
      simp only [after_call, submit_request]
      cases submit_channels req ba._channels 0 <;> rfl
    | peek_completed_request buf_size =>
      simp only [after_call, _peek_completed_request]
      cases peek_channels c buf_size ba._channels <;> rfl
    | drop_completed_request id =>
      simp only [after_call, _drop_completed_request]
      split_ifs
      · rfl
      · split
        · rfl
        · split_ifs <;> rfl
  refine ⟨?_, ?_, hkeep, ?_, ?_, ?_⟩
  · rw [t1, hzero, Nat.zero_add]
  · intro hlt
    have h := t5 (by rw [hzero]; exact Nat.zero_le _) hlt
    rw [hzero, Nat.zero_add] at h
    exact h
  · intro req buf_size id
    exact ⟨hother _ _ (fun p h => Call.noConfusion h), hother _ _ (fun p h => Call.noConfusion h),
      hother _ _ (fun p h => Call.noConfusion h)⟩
  · intro p k ch hk hc
    have h := execute_channels_count c
      (after_calls c calls (construct c first_block))._first_block
      (after_calls c calls (construct c first_block))._channels _ p t2
    unfold count_kept at h
    simp only [execute, Outcome.state_map_state]
    exact h.2.2.2.2.2.2 k ch hk hc
  · intro call more hpos
    obtain ⟨_, a2, _, _, a5, _⟩ := after_call_count c _ call t2
    have hgt := a5 hpos
    obtain ⟨_, _, b3, b4, _⟩ := after_calls_count c more _ a2
    have hgt1 : guard_bound c
        (after_call c (after_calls c calls (construct c first_block)) call)._first_block
        < (after_call c (after_calls c calls (construct c first_block)) call)._nr_of_blks := by
      rw [(after_call_count c _ call t2).2.2.1]
      exact hgt
    obtain ⟨b4a, b4b⟩ := b4 hgt1
    exact ⟨b4b, b4a⟩

/-! ## Array accesses of the free-tree check -/

/-- C30: for a request with `max_lvl < TREE_MAX_LEVEL` and
`max_child_idx < NR_OF_T1_NODES_PER_BLK` (of any type, `CHECK` included), in
every state reached from the channel that `submit_request` fills by calls of
the module interface and by block reads of full blocks, neither `execute` nor
`_peek_generated_request` makes an array access out of bounds: a raised error
is never `Out_of_bounds`, every channel keeps arrays of the declared sizes and
a level to read that is `1` or an index of `_t1_lvls`, and the level of the
child selected by `_execute_check` lies in
`FT_LOWEST_T1_LVL .. TREE_MAX_LEVEL - 1`, so that with
`1 ≤ FT_LOWEST_T1_LVL` the subtraction `lvl - 1` does not wrap.
`submit_request` accepts every request `req1` in a fresh module, whatever its
bounds; in `small_config` a request with `max_lvl = TREE_MAX_LEVEL` and one
with `max_child_idx = NR_OF_T1_NODES_PER_BLK` are accepted and the next
`execute` reads out of bounds. -/
theorem C30_accesses_in_bounds (c : Config) (req : Ft_check_request)
    (calls : List Ft_check.Call)
    (hlow : 1 ≤ c.FT_LOWEST_T1_LVL)
    (hlvl : req._max_lvl < c.TREE_MAX_LEVEL)
    (hidx : req._max_child_idx < c.NR_OF_T1_NODES_PER_BLK)
    (hblk : Ft_check.blocks_well_sized c calls) :
    (∀ req1 : Ft_check_request,
        Ft_check.submit_request (Ft_check.construct c) req1
          = .returned { _channels := [Ft_check.submitted_channel c req1] }
              { req1 with dst_request_id := 0 })
    ∧ (∀ (p : Bool) (ft1 : Ft_check) (e : Error),
        Ft_check.execute c
            (Ft_check.after_calls c calls { _channels := [Ft_check.submitted_channel c req] }) p
          = .raised ft1 e → e ≠ Error.Out_of_bounds)
    ∧ (∀ (buf_size : Nat) (ft1 : Ft_check) (e : Error),
        Ft_check._peek_generated_request c
            (Ft_check.after_calls c calls { _channels := [Ft_check.submitted_channel c req] })
            buf_size
          = .raised ft1 e → e ≠ Error.Out_of_bounds)
    ∧ (∀ chan ∈ (Ft_check.after_calls c calls
            { _channels := [Ft_check.submitted_channel c req] })._channels,
        Ft_check.well_formed c chan
        ∧ Ft_check.find_target c chan ≠ Ft_check.Target.out_of_bounds
        ∧ ∀ (lvl i : Nat),
            (Ft_check.find_target c chan = Ft_check.Target.inner_t2 lvl i
              ∨ ∃ child, Ft_check.find_target c chan = Ft_check.Target.inner_t1 lvl i child) →
            1 ≤ lvl ∧ lvl < c.TREE_MAX_LEVEL ∧ i < c.NR_OF_T1_NODES_PER_BLK)
    ∧ (Ft_check.execute small_config
          (Ft_check.submit_request (Ft_check.construct small_config)
            (Ft_check.check_request 0 0 4 1 0 Ft_check.example_root)).state false
        = .raised
            { _channels := [Ft_check.submitted_channel small_config
                (Ft_check.check_request 0 0 4 1 0 Ft_check.example_root)] }
            Error.Out_of_bounds)
    ∧ (Ft_check.execute small_config
          (Ft_check.submit_request (Ft_check.construct small_config)
            (Ft_check.check_request 0 0 3 2 0 Ft_check.example_root)).state false
        = .raised
            { _channels := [Ft_check.submitted_channel small_config
                (Ft_check.check_request 0 0 3 2 0 Ft_check.example_root)] }
            Error.Out_of_bounds) := by
  have h1 : 0 < c.TREE_MAX_LEVEL := Nat.lt_of_le_of_lt (Nat.zero_le _) hlvl
  have h2 : 0 < c.NR_OF_T1_NODES_PER_BLK := Nat.lt_of_le_of_lt (Nat.zero_le _) hidx
  have hinv : ∀ chan ∈ (Ft_check.after_calls c calls
      { _channels := [Ft_check.submitted_channel c req] })._channels,
      Ft_check.well_formed c chan := by
    apply Ft_check.after_calls_well_formed c h1 h2 calls _ hblk
    intro chan hchan
    simp only [List.mem_singleton] at hchan
    rw [hchan]
    exact Ft_check.well_formed_submitted_channel c req hlvl hidx
  refine ⟨fun req1 => Ft_check.submit_request_construct c req1, ?_, ?_, ?_, by decide, by decide⟩
  · intro p ft1 e hex
    unfold Ft_check.execute at hex
    cases hr : Ft_check.execute_channels c (Ft_check.after_calls c calls
        { _channels := [Ft_check.submitted_channel c req] })._channels p with
    | returned s1 p1 => rw [hr] at hex; simp [Outcome.map_state] at hex
    | raised s1 e1 =>
      rw [hr] at hex
      simp only [Outcome.map_state, Outcome.raised.injEq] at hex
      rw [← hex.2]
      exact (Ft_check.execute_channels_well_formed c _ p hinv).2 s1 e1 hr
  · intro buf_size ft1 e hex
    unfold Ft_check._peek_generated_request at hex
    have hno := Ft_check.peek_generated_channels_in_bounds c buf_size _ 0 hinv
    split at hex
    · cases hex
    · rename_i e1 he1
      simp only [Outcome.raised.injEq] at hex
      rw [← hex.2]
      intro he
      rw [he] at he1
      exact hno he1
  · intro chan hchan
    have hw := hinv chan hchan
    refine ⟨hw, Ft_check.find_target_in_bounds c chan hw, ?_⟩
    intro lvl i ht
    obtain ⟨b1, b2, b3, _⟩ := Ft_check.find_target_inner_bounds c chan lvl i hw ht
    exact ⟨Nat.le_trans hlow b1, b2, b3⟩

/-- C30 at a concrete request: the check of the example tree in `small_config`,
after two rounds of `execute`, a taken-over generated request and the block
read into its buffer. -/
theorem C30_accesses_in_bounds_witness :
    (1 ≤ small_config.FT_LOWEST_T1_LVL
      ∧ (Ft_check.check_request 0 0 3 1 2 Ft_check.example_root)._max_lvl
          < small_config.TREE_MAX_LEVEL
      ∧ (Ft_check.check_request 0 0 3 1 2 Ft_check.example_root)._max_child_idx
          < small_config.NR_OF_T1_NODES_PER_BLK
      ∧ Ft_check.well_sized small_config Ft_check.example_inner_block)
    ∧ (∀ (p : Bool) (ft1 : Ft_check) (e : Error),
        Ft_check.execute small_config
            (Ft_check.after_calls small_config
              [Ft_check.Call.execute false, Ft_check.Call.peek_generated_request 96,
               Ft_check.Call.drop_generated_request 0,
               Ft_check.Call.block_read (Blk_ptr.t1_lvl_children 0 3) Ft_check.example_inner_block,
               Ft_check.Call.execute false]
              { _channels := [Ft_check.submitted_channel small_config
                  (Ft_check.check_request 0 0 3 1 2 Ft_check.example_root)] }) p
          = .raised ft1 e → e ≠ Error.Out_of_bounds) :=
  ⟨⟨by decide, by decide, by decide, rfl, rfl⟩,
  (C30_accesses_in_bounds small_config (Ft_check.check_request 0 0 3 1 2 Ft_check.example_root)
    [Ft_check.Call.execute false, Ft_check.Call.peek_generated_request 96,
     Ft_check.Call.drop_generated_request 0,
     Ft_check.Call.block_read (Blk_ptr.t1_lvl_children 0 3) Ft_check.example_inner_block,
     Ft_check.Call.execute false]
    (by decide) (by decide) (by decide)
    (by
      intro bp blk hmem
      simp only [List.mem_cons, List.mem_singleton, List.not_mem_nil, or_false] at hmem
      rcases hmem with h | h | h | h | h
      · cases h
      · cases h
      · cases h
      · cases h
        exact ⟨rfl, rfl⟩
      · cases h)).2.1⟩


/-! ## Block allocator: served block numbers stay in range -/

namespace Block_allocator

open Block_allocator_channel_state Block_allocator_request_type

theorem execute_get_in_range (c : Config) (fb n : Nat) (hF : fb ≤ c.MAX_PBA)
    (hM : c.MAX_PBA < U64) (channel : Block_allocator_channel) (p : Bool)
    (h : in_range c fb channel) : in_range c fb (_execute_get c fb n channel p).2.1 := by
  by_cases hP : channel._state = PENDING
  · intro _ hs
    obtain ⟨h1, h2, _⟩ := execute_get_success_range c fb n hF hM channel p hP hs
    exact ⟨h1, h2⟩
  · have e : _execute_get c fb n channel p = (n, channel, p) := by
      unfold _execute_get
      cases hst : channel._state with
      | PENDING => exact absurd hst hP
      | INACTIVE => rfl
      | SUBMITTED => rfl
      | COMPLETE => rfl
    rw [e]
    exact h

theorem execute_channels_in_range (c : Config) (fb : Nat) (hF : fb ≤ c.MAX_PBA)
    (hM : c.MAX_PBA < U64) (chs : List Block_allocator_channel) :
    ∀ (n : Nat) (p : Bool), (∀ ch ∈ chs, in_range c fb ch) →
      ∀ ch ∈ (execute_channels c fb chs n p).state.2, in_range c fb ch := by
  induction chs with
  | nil =>
    intro n p _ ch hch
    simp [execute_channels, Outcome.state] at hch
  | cons ch0 rest ih =>
    intro n p hall ch hch
    have h0 : in_range c fb ch0 := hall ch0 (List.mem_cons_self _ _)
    have hrest : ∀ x ∈ rest, in_range c fb x := fun x hx => hall x (List.mem_cons_of_mem _ hx)
    unfold execute_channels at hch
    by_cases hi : ch0._state = INACTIVE
    · rw [if_pos hi, Outcome.state_map_state] at hch
      rcases List.mem_cons.mp hch with hh | hh
      · rw [hh]; exact h0
      · exact ih n p hrest ch hh
    · rw [if_neg hi] at hch
      cases ht : ch0._request._type with
      | INVALID =>
        rw [ht] at hch
        exact hall ch hch
      | GET =>
        rw [ht] at hch
        simp only [Outcome.state_map_state] at hch
        rcases List.mem_cons.mp hch with hh | hh
        · rw [hh]
          apply execute_get_in_range c fb n hF hM
          by_cases hs : ch0._state = SUBMITTED
          · rw [if_pos hs]
            intro hc
            cases hc
          · rw [if_neg hs]
            exact h0
        · exact ih _ _ hrest ch hh

theorem ba_peek_channels_mem (c : Config) (buf_size : Nat) :
    ∀ (chs : List Block_allocator_channel) (req : Block_allocator_request),
      peek_channels c buf_size chs = .ok (some req) →
      ∃ ch ∈ chs, ch._state = COMPLETE ∧ ch._request = req := by
  intro chs
  induction chs with
  | nil => intro req h; simp [peek_channels] at h
  | cons ch0 rest ih =>
    intro req h
    unfold peek_channels at h
    by_cases h0 : ch0._state = COMPLETE
    · rw [if_pos h0] at h
      by_cases hb : c.sizeof_block_allocator_request > buf_size
      · rw [if_pos hb] at h
        cases h
      · rw [if_neg hb] at h
        simp only [Except.ok.injEq, Option.some.injEq] at h
        exact ⟨ch0, List.mem_cons_self _ _, h0, h⟩
    · rw [if_neg h0] at h
      obtain ⟨ch, hch, h1, h2⟩ := ih req h
      exact ⟨ch, List.mem_cons_of_mem _ hch, h1, h2⟩

theorem after_call_in_range (c : Config) (ba : Block_allocator) (call : Call)
    (hF : ba._first_block ≤ c.MAX_PBA) (hM : c.MAX_PBA < U64)
    (h : ∀ ch ∈ ba._channels, in_range c ba._first_block ch) :
    ∀ ch ∈ (after_call c ba call)._channels, in_range c ba._first_block ch := by
  cases call with
  | submit_request req =>
    intro ch hch
    simp only [after_call, submit_request] at hch
    cases hs : submit_channels req ba._channels 0 with
    | none =>
      rw [hs] at hch
      exact h ch hch
    | some r =>
      obtain ⟨i, chs1⟩ := r
      rw [hs] at hch
      obtain ⟨j, ch0, _, _, _, _, hset⟩ := ba_submit_channels_some req ba._channels 0 i chs1 hs
      simp only [Outcome.state] at hch
      rw [hset] at hch
      rcases List.mem_or_eq_of_mem_set hch with hh | hh
      · exact h ch hh
      · rw [hh]
        intro hc
        cases hc
  | execute p =>
    intro ch hch
    simp only [after_call, execute, Outcome.state_map_state] at hch
    exact execute_channels_in_range c ba._first_block hF hM ba._channels _ p h ch hch
  | peek_completed_request buf_size =>
    intro ch hch
    simp only [after_call, _peek_completed_request] at hch
    split at hch <;> exact h ch hch
  | drop_completed_request id =>
    intro ch hch
    simp only [after_call, _drop_completed_request] at hch
    by_cases hid : id ≥ c.BA_NR_OF_CHANNELS
    · rw [if_pos hid] at hch
      exact h ch hch
    · rw [if_neg hid] at hch
      cases hch0 : ba._channels[id]? with
      | none => rw [hch0] at hch; exact h ch hch
      | some ch0 =>
        rw [hch0] at hch
        by_cases hc : ch0._state ≠ COMPLETE
        · simp only [if_pos hc] at hch
          exact h ch hch
        · simp only [if_neg hc] at hch
          rcases List.mem_or_eq_of_mem_set hch with hh | hh
          · exact h ch hh
          · rw [hh]
            intro hcc
            cases hcc

theorem after_calls_in_range (c : Config) (hM : c.MAX_PBA < U64) (calls : List Call) :
    ∀ ba : Block_allocator, ba._first_block ≤ c.MAX_PBA → ba._nr_of_blks < U64 →
      (∀ ch ∈ ba._channels, in_range c ba._first_block ch) →
      ∀ ch ∈ (after_calls c calls ba)._channels, in_range c ba._first_block ch := by
  induction calls with
  | nil => intro ba _ _ h; exact h
  | cons call rest ih =>
    intro ba hF hnr h
    obtain ⟨_, a2, a3, _⟩ := after_call_count c ba call hnr
    have hstep := after_call_in_range c ba call hF hM h
    rw [← a3] at hstep hF
    have := ih (after_call c ba call) hF a2 hstep
    rw [a3] at this
    exact this

end Block_allocator

/-! ## Wrap-around in the block allocator, and removal from the key slots -/

open Block_allocator Block_allocator_channel_state in
/-- C31: for an allocator constructed with `first_block ≤ MAX_PBA` (`MAX_PBA`
being a `uint64_t` value), the guard `MAX_PBA - first_block` does not wrap: as a
`uint64_t` it is the difference of the two numbers.  `_execute_get` on a pending
request succeeds iff the count of allocated blocks is at most that difference,
and then the sum `first_block + count` it computes is at most `MAX_PBA`, so it
does not wrap and is the block number handed out.  In every state reached by
calls of the module interface since construction, `first_block` is unchanged,
every request completed with success carries a block number in
`[first_block, MAX_PBA]`, also as `_peek_completed_request` returns it, and the
count is at most `MAX_PBA - first_block + 1` unless that number is `2 ^ 64`.
The constructor stores any `first_block`; with `first_block = 2 ^ 64 - 1` in the
small configuration, where `MAX_PBA = 3`, the guard wraps to `4` and the sum of
the second `GET` wraps to block number `0`. -/
theorem C31_no_wrap_around (c : Config) (first_block : Nat) (calls : List Call)
    (hF : first_block ≤ c.MAX_PBA) (hM : c.MAX_PBA < U64) :
    ((guard_bound c first_block : Int) = (c.MAX_PBA : Int) - (first_block : Int))
    ∧ (after_calls c calls (construct c first_block))._first_block = first_block
    ∧ (∀ (nr_of_blks : Nat) (channel : Block_allocator_channel) (p : Bool),
        channel._state = PENDING →
        ((_execute_get c first_block nr_of_blks channel p).2.1._request._success = true
            ↔ nr_of_blks ≤ c.MAX_PBA - first_block)
        ∧ (nr_of_blks ≤ c.MAX_PBA - first_block →
            first_block + nr_of_blks ≤ c.MAX_PBA
            ∧ first_block + nr_of_blks < U64
            ∧ (_execute_get c first_block nr_of_blks channel p).2.1._request._blk_nr
                = first_block + nr_of_blks))
    ∧ (∀ ch ∈ (after_calls c calls (construct c first_block))._channels,
        ch._state = COMPLETE → ch._request._success = true →
        first_block ≤ ch._request._blk_nr ∧ ch._request._blk_nr ≤ c.MAX_PBA)
    ∧ (∀ (buf_size : Nat) (ba1 : Block_allocator) (req : Block_allocator_request),
        _peek_completed_request c (after_calls c calls (construct c first_block)) buf_size
          = .returned ba1 (some req) →
        req._success = true → first_block ≤ req._blk_nr ∧ req._blk_nr ≤ c.MAX_PBA)
    ∧ (c.MAX_PBA - first_block + 1 < U64 →
        (after_calls c calls (construct c first_block))._nr_of_blks
          ≤ c.MAX_PBA - first_block + 1)
    ∧ (∀ fb : Nat, (construct c fb)._first_block = fb)
    ∧ (¬ (2 ^ 64 - 1 ≤ small_config.MAX_PBA)
        ∧ guard_bound small_config (2 ^ 64 - 1) = 4
        ∧ (_execute_get small_config (2 ^ 64 - 1) 1
              { _state := PENDING, _request := get_request 0 0 } false).2.1._request
            = { get_request 0 0 with _blk_nr := 0, _success := true }) := by
  have hg : guard_bound c first_block = c.MAX_PBA - first_block :=
    guard_bound_eq c first_block hF hM
  have hcount := after_calls_count c calls (construct c first_block)
    (by show 0 < U64; unfold U64; positivity)
  have hinv : ∀ ch ∈ (after_calls c calls (construct c first_block))._channels,
      in_range c first_block ch := by
    apply after_calls_in_range c hM calls (construct c first_block) hF
      (by show 0 < U64; unfold U64; positivity)
    intro ch hch
    have : ch = default_channel := List.eq_of_mem_replicate hch
    rw [this]
    intro hc
    cases hc
  refine ⟨?_, hcount.2.2.1, ?_, hinv, ?_, ?_, fun fb => rfl, by decide, by decide, by decide⟩
  · rw [hg]
    omega
  · intro nr channel p hP
    by_cases hle : nr ≤ c.MAX_PBA - first_block
    · have hlt : first_block + nr < U64 := by omega
      have hle1 : nr ≤ guard_bound c first_block := by rw [hg]; exact hle
      refine ⟨?_, fun _ => ⟨by omega, hlt, ?_⟩⟩
      · simp [_execute_get, hP, hle1, _mark_req_successful, hle]
      · simp [_execute_get, hP, hle1, _mark_req_successful, Nat.mod_eq_of_lt hlt]
    · have hle1 : ¬ nr ≤ guard_bound c first_block := by rw [hg]; exact hle
      refine ⟨?_, fun h => absurd h hle⟩
      simp [_execute_get, hP, hle1, _mark_req_failed, hle]
  · intro buf_size ba1 req hpeek hs
    unfold _peek_completed_request at hpeek
    cases hp : peek_channels c buf_size
        (after_calls c calls (construct c first_block))._channels with
    | error e => rw [hp] at hpeek; cases hpeek
    | ok r =>
      rw [hp] at hpeek
      simp only [Outcome.returned.injEq] at hpeek
      rw [hpeek.2] at hp
      obtain ⟨ch, hch, h1, h2⟩ := ba_peek_channels_mem c buf_size _ req hp
      rw [← h2] at hs ⊢
      exact hinv ch hch h1 hs
  · intro hlt
    have h5 := hcount.2.2.2.2
    simp only [construct] at h5
    rw [hg] at h5
    exact (h5 (Nat.zero_le _) hlt).2

open Block_allocator Block_allocator_channel_state in
/-- Witness of C31: the allocator of the small configuration constructed with
`first_block = 1`, after a `GET` request was submitted and executed. -/
theorem C31_no_wrap_around_witness :
    ((1 : Nat) ≤ small_config.MAX_PBA ∧ small_config.MAX_PBA < U64)
    ∧ ((guard_bound small_config 1 : Int) = (small_config.MAX_PBA : Int) - ((1 : Nat) : Int))
    ∧ (∀ ch ∈ (after_calls small_config
                [Call.submit_request (get_request 0 0), Call.execute false]
                (construct small_config 1))._channels,
        ch._state = COMPLETE → ch._request._success = true →
        1 ≤ ch._request._blk_nr ∧ ch._request._blk_nr ≤ small_config.MAX_PBA) :=
  ⟨⟨by decide, by decide⟩,
    (C31_no_wrap_around small_config 1
      [Call.submit_request (get_request 0 0), Call.execute false] (by decide) (by decide)).1,
    (C31_no_wrap_around small_config 1
      [Call.submit_request (get_request 0 0), Call.execute false] (by decide)
      (by decide)).2.2.2.1⟩

/-! ## Key slots: what `remove` and `for_each_key` do -/

namespace Slots

theorem for_each_key_collect (l : List Nat) :
    ∀ acc : List Nat,
      l.foldl (fun s slot => if slot ≠ 0 then s ++ [slot] else s) acc
        = acc ++ l.filter (fun slot => decide (slot ≠ 0)) := by
  induction l with
  | nil => intro acc; simp
  | cons x xs ih =>
    intro acc
    by_cases hx : x = 0
    · simpa [List.foldl_cons, hx] using ih acc
    · simpa [List.foldl_cons, hx] using ih (acc ++ [x])

theorem visited_eq_filter (slots : Slots) :
    visited slots = slots._store.filter (fun slot => decide (slot ≠ 0)) := by
  unfold visited for_each_key
  rw [for_each_key_collect]
  simp

theorem store_slots_length (id : Nat) :
    ∀ (l l1 : List Nat), store_slots id l = some l1 → l1.length = l.length := by
  intro l
  induction l with
  | nil => intro l1 h; simp [store_slots] at h
  | cons x xs ih =>
    intro l1 h
    unfold store_slots at h
    by_cases hx : x = 0
    · rw [if_pos hx] at h
      simp only [Option.some.injEq] at h
      rw [← h]
      simp
    · rw [if_neg hx] at h
      cases hr : store_slots id xs with
      | none => rw [hr] at h; cases h
      | some r =>
        rw [hr] at h
        simp only [Option.some.injEq] at h
        rw [← h]
        simp [ih r hr]

theorem remove_slots_length (id : Nat) :
    ∀ l : List Nat, (remove_slots id l).length = l.length := by
  intro l
  induction l with
  | nil => rfl
  | cons x xs ih =>
    unfold remove_slots
    by_cases hx : x = id
    · rw [if_pos hx]; simp
    · rw [if_neg hx]; simp [ih]

theorem after_call_length (slots : Slots) (call : Call) :
    (after_call slots call)._store.length = slots._store.length := by
  cases call with
  | store id =>
    simp only [after_call, store]
    cases h : store_slots id slots._store with
    | none => rfl
    | some l1 => exact store_slots_length id _ l1 h
  | remove id => exact remove_slots_length id _

theorem after_calls_length (calls : List Call) :
    ∀ slots : Slots, (after_calls calls slots)._store.length = slots._store.length := by
  induction calls with
  | nil => intro slots; rfl
  | cons call rest ih =>
    intro slots
    simp only [after_calls]
    rw [ih, after_call_length]

theorem remove_slots_count_self (id : Nat) (hid : id ≠ 0) :
    ∀ l : List Nat,
      ((remove_slots id l).filter (fun slot => decide (slot ≠ 0))).count id
        = (l.filter (fun slot => decide (slot ≠ 0))).count id - 1 := by
  intro l
  induction l with
  | nil => rfl
  | cons x xs ih =>
    unfold remove_slots
    by_cases hx : x = id
    · rw [if_pos hx, hx]
      simp [hid]
    · rw [if_neg hx]
      by_cases h0 : x = 0
      · simpa [h0] using ih
      · have hne : (x == id) = false := by simpa using hx
        simpa [h0, List.count_cons, hne] using ih

theorem remove_slots_count_other (id other : Nat) (ho : other ≠ id) :
    ∀ l : List Nat,
      ((remove_slots id l).filter (fun slot => decide (slot ≠ 0))).count other
        = (l.filter (fun slot => decide (slot ≠ 0))).count other := by
  intro l
  induction l with
  | nil => rfl
  | cons x xs ih =>
    unfold remove_slots
    by_cases hx : x = id
    · rw [if_pos hx, hx]
      by_cases h0 : id = 0
      · simp [h0]
      · have hne : (id == other) = false := by simpa using (Ne.symm ho)
        simp [h0, List.count_cons, hne]
    · rw [if_neg hx]
      by_cases h0 : x = 0
      · simpa [h0] using ih
      · simpa [h0, List.count_cons] using ih

end Slots

open Slots in
/-- Counterexample to C32: `store` does not look for the id among the slots, so
storing the id 5 twice leads from the empty store to the state in which both
slots hold 5.  In that state `remove` of 5 clears slot 0 only, and
`for_each_key` still visits 5. -/
theorem C32_counterexample :
    after_calls [Call.store 5, Call.store 5] construct = { _store := [5, 5] }
    ∧ remove (after_calls [Call.store 5, Call.store 5] construct) 5 = { _store := [0, 5] }
    ∧ visited (remove (after_calls [Call.store 5, Call.store 5] construct) 5) = [5]
    ∧ 5 ∈ visited (remove (after_calls [Call.store 5, Call.store 5] construct) 5) := by
  refine ⟨by decide, by decide, by decide, by decide⟩

open Slots in
/-- C32 (amended): in every state of the key-slot store reached by `store` and
`remove` calls from the empty store, and for every non-zero id, `remove` of the
id clears the first slot that holds it: `for_each_key` visits the id once less
than before, so not at all when at most one slot held it, and still once
exactly when both slots held it, a state reached by storing the id twice.  Every
other id is visited as often as before. -/
theorem C32_remove_clears_first_slot (calls : List Call) (id : Nat) (hid : id ≠ 0) :
    (after_calls calls construct)._store.length = NUM_SLOTS
    ∧ (visited (remove (after_calls calls construct) id)).count id
        = (visited (after_calls calls construct)).count id - 1
    ∧ ((visited (after_calls calls construct)).count id ≤ 1 →
        id ∉ visited (remove (after_calls calls construct) id))
    ∧ (id ∈ visited (remove (after_calls calls construct) id)
        ↔ (after_calls calls construct)._store = [id, id])
    ∧ (∀ other : Nat, other ≠ id →
        (visited (remove (after_calls calls construct) id)).count other
          = (visited (after_calls calls construct)).count other)
    ∧ (∀ other : Nat, other ≠ id →
        (other ∈ visited (remove (after_calls calls construct) id)
          ↔ other ∈ visited (after_calls calls construct)))
    ∧ after_calls [Call.store id, Call.store id] construct = { _store := [id, id] } := by
  have hlen : (after_calls calls construct)._store.length = NUM_SLOTS := by
    rw [after_calls_length]
    rfl
  have hself : (visited (remove (after_calls calls construct) id)).count id
      = (visited (after_calls calls construct)).count id - 1 := by
    rw [visited_eq_filter, visited_eq_filter]
    exact remove_slots_count_self id hid _
  have hother : ∀ other : Nat, other ≠ id →
      (visited (remove (after_calls calls construct) id)).count other
        = (visited (after_calls calls construct)).count other := by
    intro other ho
    rw [visited_eq_filter, visited_eq_filter]
    exact remove_slots_count_other id other ho _
  refine ⟨hlen, hself, ?_, ?_, hother, ?_, ?_⟩
  · intro hle hmem
    have hpos := List.count_pos_iff.mpr hmem
    omega
  · generalize after_calls calls construct = slots at hlen
    obtain ⟨l⟩ := slots
    simp only [NUM_SLOTS] at hlen
    match l, hlen with
    | [a, b], _ =>
      have hid1 : ¬ 0 = id := fun h => hid h.symm
      rw [visited_eq_filter]
      by_cases ha : a = id
      · by_cases hb : b = id
        · simp [remove, remove_slots, ha, hb, hid]
        · have hb1 : ¬ id = b := fun h => hb h.symm
          simp [remove, remove_slots, ha, hb, hb1, List.filter_cons]
      · have ha1 : ¬ id = a := fun h => ha h.symm
        by_cases hb : b = id
        · simp [remove, remove_slots, ha, hb, ha1, List.filter_cons]
        · have hb1 : ¬ id = b := fun h => hb h.symm
          by_cases ha0 : a = 0
          · by_cases hb0 : b = 0
            · simp [remove, remove_slots, ha, hb, ha1, hb1, ha0, hb0, hid1]
            · simp [remove, remove_slots, ha, hb, ha1, hb1, ha0, hb0, hid1]
          · by_cases hb0 : b = 0
            · simp [remove, remove_slots, ha, hb, ha1, hb1, ha0, hb0, hid1]
            · simp [remove, remove_slots, ha, hb, ha1, hb1, ha0, hb0, hid1]
  · intro other ho
    rw [← List.count_pos_iff, ← List.count_pos_iff, hother other ho]
  · simp [after_calls, after_call, store, store_slots, construct, NUM_SLOTS, List.replicate, hid]

open Slots in
/-- Witness of C32 (amended): with the ids 5 and 7 stored, `remove` of 5 leaves
7 as the only id visited. -/
theorem C32_remove_clears_first_slot_witness :
    (5 : Nat) ≠ 0
    ∧ (5 ∉ visited (remove (after_calls [Call.store 5, Call.store 7] construct) 5))
    ∧ (7 ∈ visited (remove (after_calls [Call.store 5, Call.store 7] construct) 5)
        ↔ 7 ∈ visited (after_calls [Call.store 5, Call.store 7] construct)) :=
  ⟨by decide,
    (C32_remove_clears_first_slot [Call.store 5, Call.store 7] 5 (by decide)).2.2.1 (by decide),
    (C32_remove_clears_first_slot [Call.store 5, Call.store 7] 5 (by decide)).2.2.2.2.2.1 7
      (by decide)⟩

end Tresor
